import Mathlib

/-! A verification development for the phase3-w25 front end

Shallow embedding of the three stages of the repository
(`src/lexer/lexer.c`, `src/parser/parser.c`, `src/semantic/semantic.c`,
with the types of `include/tokens.h`, `include/parser.h`, `include/semantic.h`)
followed by theorems about them.

Modelling conventions.

* The source text is a `List Char`; the C buffer is that list followed by the
  terminating NUL.  A read at the end of the list reads the terminator; a read
  further right is outside the string and is reported as
  `Fault.read_past_terminator`.
* The lexer only ever looks at `input + *pos`, so each lexer function is
  written on the remaining suffix of the input and returns the number of
  characters by which it moved the cursor.  `get_next_token` puts the absolute
  cursor back.
* `int` counters (cursor, line, column, scope depth, error counts) are natural
  numbers: none can reach `INT_MAX` on an input that fits in memory.
* A lexeme is the C string held by the 100-byte `lexeme` array, as a
  `List Char`.  A write at index 100 or more is `Fault.lexeme_overflow`.
* The process-wide variables of each stage become a record that is passed in
  and returned.  Text printed with `printf` is kept as a log where a claim
  talks about what was reported.
-/

namespace Phase3

/-! ## include/tokens.h -/

/-- The enumeration `TokenType`, in declaration order (so `TOKEN_EOF` is 0). -/
inductive TokenType
  | TOKEN_EOF | TOKEN_NUMBER | TOKEN_FLOAT | TOKEN_OPERATOR | TOKEN_EQUALS_EQUALS
  | TOKEN_NOT_EQUALS | TOKEN_LOGICAL_AND | TOKEN_LOGICAL_OR | TOKEN_GREATER_EQUALS
  | TOKEN_LESS_EQUALS | TOKEN_ERROR | TOKEN_IDENTIFIER | TOKEN_STRING
  | TOKEN_CHAR_LITERAL | TOKEN_DELIMITER | TOKEN_COMMENT | TOKEN_POINTER | TOKEN_SKIP
  | TOKEN_EQUALS | TOKEN_SEMICOLON | TOKEN_LPAREN | TOKEN_RPAREN | TOKEN_LBRACE
  | TOKEN_RBRACE | TOKEN_COMMA | TOKEN_IF | TOKEN_INT | TOKEN_CHAR | TOKEN_VOID
  | TOKEN_RETURN | TOKEN_FOR | TOKEN_WHILE | TOKEN_DO | TOKEN_BREAK | TOKEN_CONTINUE
  | TOKEN_SWITCH | TOKEN_CASE | TOKEN_DEFAULT | TOKEN_GOTO | TOKEN_SIZEOF
  | TOKEN_STATIC | TOKEN_EXTERN | TOKEN_CONST | TOKEN_VOLATILE | TOKEN_STRUCT
  | TOKEN_UNION | TOKEN_ENUM | TOKEN_TYPEDEF | TOKEN_UNSIGNED | TOKEN_SIGNED
  | TOKEN_SHORT | TOKEN_LONG | TOKEN_FLOAT_KEY | TOKEN_DOUBLE | TOKEN_ELSE
  | TOKEN_VOID_STAR | TOKEN_INT_STAR | TOKEN_PRINT | TOKEN_REPEAT | TOKEN_UNTIL
  | TOKEN_FACTORIAL
  deriving DecidableEq, Repr

/-- The enumeration `ErrorType` of lexical errors. -/
inductive ErrorType
  | ERROR_NONE | ERROR_INVALID_CHAR | ERROR_INVALID_NUMBER | ERROR_CONSECUTIVE_OPERATORS
  | ERROR_UNTERMINATED_STRING | ERROR_UNTERMINATED_CHAR | ERROR_INVALID_IDENTIFIER
  | ERROR_STRING_TOO_LONG | ERROR_INVALID_ESCAPE_SEQUENCE | ERROR_EMPTY_CHAR_LITERAL
  | ERROR_MULTI_CHAR_LITERAL | ERROR_INVALID_FLOAT | ERROR_RECOVERY_MODE
  | ERROR_UNEXPECTED_TOKEN
  deriving DecidableEq, Repr

/-- The enumeration `RecoveryMode`. -/
inductive RecoveryMode
  | RECOVERY_NONE | RECOVERY_TO_SEMICOLON | RECOVERY_TO_NEWLINE | RECOVERY_TO_DELIMITER
  deriving DecidableEq, Repr

/-- The struct `Token`. -/
structure Token where
  type : TokenType
  lexeme : List Char
  line : Nat
  column : Nat
  error : ErrorType
  recovery : RecoveryMode
  deriving DecidableEq, Repr

/-- Ways in which a run leaves defined behaviour (or, for the parser, the
recursion budget of the model). -/
inductive Fault
  | read_past_terminator
  | lexeme_overflow
  | out_of_fuel
  deriving DecidableEq, Repr

deriving instance DecidableEq for Except

/-! ## src/lexer/lexer.c -/

/-- The terminating NUL character. -/
def NUL : Char := Char.ofNat 0
/-- The single quote. -/
def SQUOTE : Char := Char.ofNat 39
/-- The double quote. -/
def DQUOTE : Char := Char.ofNat 34
/-- The backslash. -/
def BACKSLASH : Char := Char.ofNat 92
/-- The newline. -/
def NEWLINE : Char := Char.ofNat 10
/-- The tab. -/
def TAB : Char := Char.ofNat 9
/-- The carriage return. -/
def CR : Char := Char.ofNat 13

/-- The expression `input[*pos]` on the remaining suffix: the first character,
or the terminator when the suffix is empty. -/
def peek : List Char → Char
  | [] => NUL
  | c :: _ => c

/-- The C library predicate `isdigit` (C locale). -/
def isdigit (c : Char) : Bool := c.isDigit
/-- The C library predicate `isalpha` (C locale). -/
def isalpha (c : Char) : Bool := c.isAlpha
/-- The C library predicate `isalnum` (C locale). -/
def isalnum (c : Char) : Bool := c.isAlphanum

/-- One entry of the array `stored_errors`. -/
structure StoredError where
  lexeme : List Char
  line : Nat
  column : Nat
  error_type : ErrorType
  deriving DecidableEq, Repr

/-- The file-scope variables of lexer.c.  `num_stored_errors` is the length of
`stored_errors`. -/
structure Lexer where
  current_line : Nat
  current_column : Nat
  last_token_type : Char
  in_error_recovery : Bool
  stored_errors : List StoredError
  deriving DecidableEq, Repr

/-- The capacity `MAX_STORED_ERRORS`. -/
def MAX_STORED_ERRORS : Nat := 50000

/-- The function `reset_all_globals`. -/
def reset_all_globals : Lexer :=
  { current_line := 1, current_column := 1, last_token_type := 'x',
    in_error_recovery := false, stored_errors := [] }

/-- The function `reset_lexer`. -/
def reset_lexer : Lexer := reset_all_globals

/-- The column effect of `advance_position` (the cursor effect is the count
returned by the caller). -/
def advance_position (lx : Lexer) : Lexer :=
  { lx with current_column := lx.current_column + 1 }

/-- The function `skip_until`: the number of characters skipped and the lexer
variables afterwards. -/
def skip_until : List Char → List Char → Lexer → Nat × Lexer
  | [], _, lx => (0, lx)
  | c :: rest, delimiters, lx =>
    if c ≠ NUL ∧ c ∉ delimiters then
      let lx1 : Lexer :=
        if c = NEWLINE then
          { lx with current_line := lx.current_line + 1, current_column := 1 }
        else
          { lx with current_column := lx.current_column + 1 }
      let r := skip_until rest delimiters lx1
      (r.1 + 1, r.2)
    else (0, lx)

/-- The function `store_error` (the message it prints is not kept). -/
def store_error (error : ErrorType) (line column : Nat) (lexeme : List Char)
    (lx : Lexer) : Lexer :=
  if lx.stored_errors.length ≥ MAX_STORED_ERRORS then lx
  else
    { lx with stored_errors := lx.stored_errors ++
        [{ lexeme := lexeme.take 99, line := line, column := column, error_type := error }] }

/-- The table `keywords`. -/
def keywords : List (List Char × TokenType) :=
  [ ("fi".toList, .TOKEN_IF), ("tni".toList, .TOKEN_INT), ("rahc".toList, .TOKEN_CHAR),
    ("diov".toList, .TOKEN_VOID), ("nruter".toList, .TOKEN_RETURN),
    ("rof".toList, .TOKEN_FOR), ("elihw".toList, .TOKEN_WHILE), ("od".toList, .TOKEN_DO),
    ("kaerb".toList, .TOKEN_BREAK), ("eunitnoc".toList, .TOKEN_CONTINUE),
    ("hctiws".toList, .TOKEN_CONTINUE), ("esac".toList, .TOKEN_CASE),
    ("tluafed".toList, .TOKEN_DEFAULT), ("otog".toList, .TOKEN_GOTO),
    ("foezis".toList, .TOKEN_SIZEOF), ("citats".toList, .TOKEN_STATIC),
    ("nretxe".toList, .TOKEN_EXTERN), ("tsnoc".toList, .TOKEN_CONST),
    ("elitalov".toList, .TOKEN_VOLATILE), ("tcurts".toList, .TOKEN_STRUCT),
    ("noinu".toList, .TOKEN_UNION), ("mune".toList, .TOKEN_ENUM),
    ("fedepyt".toList, .TOKEN_TYPEDEF), ("dengisnu".toList, .TOKEN_UNSIGNED),
    ("dengis".toList, .TOKEN_SIGNED), ("trohs".toList, .TOKEN_SHORT),
    ("gnol".toList, .TOKEN_LONG), ("taolf".toList, .TOKEN_FLOAT_KEY),
    ("elbuod".toList, .TOKEN_DOUBLE), ("esle".toList, .TOKEN_ELSE),
    ("diov*".toList, .TOKEN_VOID_STAR), ("tni*".toList, .TOKEN_INT_STAR),
    ("tnirp".toList, .TOKEN_PRINT), ("taeper".toList, .TOKEN_REPEAT),
    ("litnu".toList, .TOKEN_UNTIL), ("lairotcaf".toList, .TOKEN_FACTORIAL) ]

/-- The loop of `is_keyword` over a table: the kind of the first entry spelled
`word`, or `TOKEN_EOF` (the value 0) when there is none. -/
def is_keyword_in : List (List Char × TokenType) → List Char → TokenType
  | [], _ => .TOKEN_EOF
  | (w, t) :: rest, word => if word = w then t else is_keyword_in rest word

/-- The function `is_keyword`. -/
def is_keyword (word : List Char) : TokenType := is_keyword_in keywords word

/-- The function `handle_escape_sequence`; the result NUL stands for the C
value 0, which the callers read as "no such escape". -/
def handle_escape_sequence (c : Char) : Char :=
  if c = 'n' then NEWLINE
  else if c = 't' then TAB
  else if c = 'r' then CR
  else if c = '0' then NUL
  else if c = BACKSLASH then BACKSLASH
  else if c = SQUOTE then SQUOTE
  else if c = DQUOTE then DQUOTE
  else NUL

/-- The scanning loop of `handle_string`, entered after the opening quote.
`i` is the number of characters stored so far (the list `lexeme`), `n` the
number of characters consumed so far. -/
def handle_string_loop : List Char → Token → Nat → Nat → Lexer → Token × Nat × Lexer
  | [], token, _, n, lx =>
    ({ token with error := .ERROR_UNTERMINATED_STRING, recovery := .RECOVERY_TO_NEWLINE }, n, lx)
  | c :: rest, token, i, n, lx =>
    if c ≠ NUL ∧ c ≠ DQUOTE ∧ c ≠ NEWLINE then
      if i ≥ 99 then
        let r := skip_until (c :: rest) [NEWLINE, DQUOTE] lx
        ({ token with error := .ERROR_STRING_TOO_LONG, recovery := .RECOVERY_TO_NEWLINE },
          n + r.1, r.2)
      else if c = BACKSLASH then
        let lx1 := advance_position lx
        match rest with
        | [] =>
          ({ token with error := .ERROR_INVALID_ESCAPE_SEQUENCE,
                        recovery := .RECOVERY_TO_NEWLINE }, n + 1, lx1)
        | e :: rest2 =>
          if handle_escape_sequence e = NUL then
            let r := skip_until (e :: rest2) [NEWLINE, DQUOTE] lx1
            ({ token with error := .ERROR_INVALID_ESCAPE_SEQUENCE,
                          recovery := .RECOVERY_TO_NEWLINE }, n + 1 + r.1, r.2)
          else
            handle_string_loop rest2
              { token with lexeme := token.lexeme ++ [handle_escape_sequence e] }
              (i + 1) (n + 2) (advance_position lx1)
      else
        handle_string_loop rest { token with lexeme := token.lexeme ++ [c] }
          (i + 1) (n + 1) (advance_position lx)
    else if c ≠ DQUOTE then
      ({ token with error := .ERROR_UNTERMINATED_STRING, recovery := .RECOVERY_TO_NEWLINE },
        n, lx)
    else
      (token, n + 1, advance_position lx)

/-- The function `handle_string`, called with the cursor on the opening quote. -/
def handle_string (r : List Char) (lx : Lexer) : Token × Nat × Lexer :=
  let token : Token :=
    { type := .TOKEN_STRING, lexeme := [], line := lx.current_line,
      column := lx.current_column, error := .ERROR_NONE, recovery := .RECOVERY_NONE }
  handle_string_loop (r.drop 1) token 0 1 (advance_position lx)

/-- The tail of `handle_char` from the test for the closing quote on; `n` is
the number of characters consumed so far. -/
def handle_char_close (r : List Char) (token : Token) (n : Nat) (lx : Lexer) :
    Token × Nat × Lexer :=
  if peek r ≠ SQUOTE then
    let error : ErrorType :=
      if peek r ≠ NUL ∧ peek r ≠ NEWLINE then .ERROR_MULTI_CHAR_LITERAL
      else .ERROR_UNTERMINATED_CHAR
    let s := skip_until r [NEWLINE, SQUOTE] lx
    ({ token with error := error, recovery := .RECOVERY_TO_NEWLINE }, n + s.1, s.2)
  else
    (token, n + 1, advance_position lx)

/-- The function `handle_char`, called with the cursor on the opening quote.
When the opening quote is the last character of the input, the terminator is
stored as the literal's character and the cursor is advanced past it; the test
for the closing quote then reads outside the string. -/
def handle_char (r : List Char) (lx : Lexer) : Except Fault (Token × Nat × Lexer) :=
  let token : Token :=
    { type := .TOKEN_CHAR, lexeme := [], line := lx.current_line,
      column := lx.current_column, error := .ERROR_NONE, recovery := .RECOVERY_NONE }
  let lx1 := advance_position lx
  match r.drop 1 with
  | [] => .error .read_past_terminator
  | c :: rest =>
    if c = SQUOTE then
      .ok ({ token with error := .ERROR_EMPTY_CHAR_LITERAL }, 2, advance_position lx1)
    else if c = BACKSLASH then
      let lx2 := advance_position lx1
      let escaped := handle_escape_sequence (peek rest)
      if escaped = NUL then
        let s := skip_until rest [NEWLINE, SQUOTE] lx2
        .ok ({ token with error := .ERROR_INVALID_ESCAPE_SEQUENCE,
                          recovery := .RECOVERY_TO_NEWLINE }, 2 + s.1, s.2)
      else
        .ok (handle_char_close (rest.drop 1) { token with lexeme := [escaped] } 3
              (advance_position lx2))
    else
      .ok (handle_char_close rest
            { token with lexeme := if c = NUL then [] else [c] } 2 (advance_position lx1))

/-- The scanning loop of `handle_comment`, entered after the two slashes. -/
def handle_comment_loop : List Char → Token → Nat → Nat → Lexer → Token × Nat × Lexer
  | [], token, _, n, lx => (token, n, lx)
  | c :: rest, token, i, n, lx =>
    if c ≠ NUL ∧ c ≠ NEWLINE then
      if i < 99 then
        handle_comment_loop rest { token with lexeme := token.lexeme ++ [c] } (i + 1) (n + 1)
          (advance_position lx)
      else
        handle_comment_loop rest token i (n + 1) (advance_position lx)
    else (token, n, lx)

/-- The function `handle_comment`, called with the cursor on `//`. -/
def handle_comment (r : List Char) (lx : Lexer) : Token × Nat × Lexer :=
  let token : Token :=
    { type := .TOKEN_COMMENT, lexeme := [], line := lx.current_line,
      column := lx.current_column, error := .ERROR_NONE, recovery := .RECOVERY_NONE }
  handle_comment_loop (r.drop 2) token 0 2
    { lx with current_column := lx.current_column + 2 }

/-- The loop `while (isdigit(input[*pos]))` of `handle_number`: the digits it
copies. -/
def scan_digits : List Char → List Char
  | [] => []
  | c :: rest => if isdigit c then c :: scan_digits rest else []

/-- The column after `k` calls of `advance_position`. -/
def advance_columns (k : Nat) (lx : Lexer) : Lexer :=
  { lx with current_column := lx.current_column + k }

/-- The function `handle_number`, called with the cursor on a digit.  The
array index `i` of the source is the length of the lexeme built so far; no
bound on `i` is tested by the source, so a write at index 100 is a fault. -/
def handle_number (r : List Char) (lx : Lexer) : Except Fault (Token × Nat × Lexer) :=
  let token : Token :=
    { type := .TOKEN_NUMBER, lexeme := [], line := lx.current_line,
      column := lx.current_column, error := .ERROR_NONE, recovery := .RECOVERY_NONE }
  let ds := scan_digits r
  if ds.length > 100 then .error .lexeme_overflow
  else
    let r1 := r.drop ds.length
    let lx1 := advance_columns ds.length lx
    if peek r1 = '.' then
      if ds.length ≥ 100 then .error .lexeme_overflow
      else
        let r2 := r1.drop 1
        let lx2 := advance_position lx1
        if ¬ isdigit (peek r2) then
          let s := skip_until r2 [';', ',', ')', ' ', TAB, NEWLINE] lx2
          .ok ({ token with lexeme := ds ++ ['.'], error := .ERROR_INVALID_NUMBER,
                            recovery := .RECOVERY_TO_DELIMITER },
               ds.length + 1 + s.1, s.2)
        else
          let fs := scan_digits r2
          let r3 := r2.drop fs.length
          let lx3 := advance_columns fs.length lx2
          if ds.length + 1 + fs.length > 100 then .error .lexeme_overflow
          else if peek r3 = '.' then
            let s := skip_until r3 [';', ',', ')', ' ', TAB, NEWLINE] lx3
            .ok ({ token with lexeme := ds ++ ['.'] ++ fs, error := .ERROR_INVALID_FLOAT,
                              recovery := .RECOVERY_TO_DELIMITER },
                 ds.length + 1 + fs.length + s.1, s.2)
          else if ds.length + 1 + fs.length ≥ 100 then .error .lexeme_overflow
          else
            .ok ({ token with type := .TOKEN_FLOAT, lexeme := ds ++ ['.'] ++ fs },
                 ds.length + 1 + fs.length, lx3)
    else if ds.length ≥ 100 then .error .lexeme_overflow
    else .ok ({ token with lexeme := ds }, ds.length, lx1)

/-- The whitespace loop at the head of `get_next_token`: the number of
characters skipped and the lexer variables afterwards. -/
def skip_whitespace : List Char → Lexer → Nat × Lexer
  | [], lx => (0, lx)
  | c :: rest, lx =>
    if c ≠ NUL ∧ (c = ' ' ∨ c = NEWLINE ∨ c = TAB) then
      let lx1 : Lexer :=
        if c = NEWLINE then
          { lx with current_line := lx.current_line + 1, current_column := 1,
                    in_error_recovery := false }
        else
          { lx with current_column := lx.current_column + 1 }
      let r := skip_whitespace rest lx1
      (r.1 + 1, r.2)
    else (0, lx)

/-- The `do ... while` loop of the identifier branch, entered after the first
character has been stored: the further characters it stores.  `i` is the
number of characters stored so far. -/
def scan_identifier : List Char → Nat → List Char
  | [], _ => []
  | c :: rest, i =>
    if (isalnum c ∨ c = '_') ∧ i < 99 then c :: scan_identifier rest (i + 1) else []

/-- The `switch` of the delimiter branch. -/
def delimiter_type (c : Char) : TokenType :=
  if c = ';' then .TOKEN_SEMICOLON
  else if c = '(' then .TOKEN_LPAREN
  else if c = ')' then .TOKEN_RPAREN
  else if c = Char.ofNat 123 then .TOKEN_LBRACE
  else if c = Char.ofNat 125 then .TOKEN_RBRACE
  else if c = ',' then .TOKEN_COMMA
  else .TOKEN_DELIMITER

/-- The characters of the C string `"+-*/=<>!&|"`. -/
def operator_chars : List Char := ['+', '-', '*', '/', '=', '<', '>', '!', '&', '|']

/-- The characters of the C string `"()\x7b\x7d[];,"`. -/
def delimiter_chars : List Char :=
  ['(', ')', Char.ofNat 123, Char.ofNat 125, '[', ']', ';', ',']

/-- A two-character operator token: `*pos += 2; current_column += 2`. -/
def two_char_token (token : Token) (type : TokenType) (lexeme : List Char) (lx : Lexer) :
    Token × Nat × Lexer :=
  ({ token with type := type, lexeme := lexeme }, 2,
   { lx with current_column := lx.current_column + 2, last_token_type := 'o' })

/-- The classification part of `get_next_token` (from `c = input[*pos]` on),
on a suffix `r` whose first character `c` is not the terminator, outside
error recovery. -/
def classify (c : Char) (r : List Char) (lx : Lexer) : Except Fault (Token × Nat × Lexer) :=
  let token : Token :=
    { type := .TOKEN_ERROR, lexeme := [], line := lx.current_line,
      column := lx.current_column, error := .ERROR_NONE, recovery := .RECOVERY_NONE }
  let c1 := peek (r.drop 1)
  if c = '/' ∧ c1 = '/' then .ok (handle_comment r lx)
  else if c = SQUOTE then handle_char r lx
  else if isdigit c then handle_number r lx
  else if isalpha c ∨ c = '_' then
    let lexeme := c :: scan_identifier (r.drop 1) 1
    let keyword_type := is_keyword lexeme
    if keyword_type ≠ .TOKEN_EOF then
      .ok ({ token with type := keyword_type, lexeme := lexeme }, lexeme.length,
           { lx with last_token_type := 'k' })
    else
      .ok ({ token with type := .TOKEN_IDENTIFIER, lexeme := lexeme }, lexeme.length,
           { lx with last_token_type := 'i' })
  else if c = DQUOTE then .ok (handle_string r lx)
  else if c = '*' ∧ (lx.last_token_type = 'k' ∨ lx.last_token_type = 'i') then
    .ok ({ token with type := .TOKEN_POINTER, lexeme := [c] }, 1,
         { advance_position lx with last_token_type := 'p' })
  else if c ∈ operator_chars then
    if c = '=' then
      if c1 = '=' then .ok (two_char_token token .TOKEN_EQUALS_EQUALS ['=', '='] lx)
      else
        .ok ({ token with type := .TOKEN_EQUALS, lexeme := [c] }, 1,
             { advance_position lx with last_token_type := 'o' })
    else if c = '&' ∧ c1 = '&' then .ok (two_char_token token .TOKEN_LOGICAL_AND ['&', '&'] lx)
    else if c = '|' ∧ c1 = '|' then .ok (two_char_token token .TOKEN_LOGICAL_OR ['|', '|'] lx)
    else if c = '!' ∧ c1 = '=' then .ok (two_char_token token .TOKEN_NOT_EQUALS ['!', '='] lx)
    else if c = '<' ∧ c1 = '=' then .ok (two_char_token token .TOKEN_LESS_EQUALS ['<', '='] lx)
    else if c = '>' ∧ c1 = '=' then
      .ok (two_char_token token .TOKEN_GREATER_EQUALS ['>', '='] lx)
    else if lx.last_token_type = 'o' then
      let lx1 := store_error .ERROR_CONSECUTIVE_OPERATORS lx.current_line lx.current_column [c] lx
      .ok ({ token with error := .ERROR_CONSECUTIVE_OPERATORS, lexeme := [c],
                        recovery := .RECOVERY_TO_DELIMITER }, 1,
           { advance_position lx1 with in_error_recovery := true })
    else
      .ok ({ token with type := .TOKEN_OPERATOR, lexeme := [c] }, 1,
           { advance_position lx with last_token_type := 'o' })
  else if c ∈ delimiter_chars then
    .ok ({ token with type := delimiter_type c, lexeme := [c] }, 1,
         { advance_position lx with last_token_type := 'd' })
  else
    let lx1 := store_error .ERROR_INVALID_CHAR lx.current_line lx.current_column [c] lx
    .ok ({ token with error := .ERROR_INVALID_CHAR, lexeme := [c],
                      recovery := .RECOVERY_TO_DELIMITER }, 1,
         { advance_position lx1 with in_error_recovery := true })

/-- The function `get_next_token` on the suffix `input + *pos`: the token, the
number of characters by which the cursor moved, and the lexer variables
afterwards. -/
def get_next_token_at (rest : List Char) (lx : Lexer) : Except Fault (Token × Nat × Lexer) :=
  let w := skip_whitespace rest lx
  let r := rest.drop w.1
  let lx1 := w.2
  if peek r = NUL then
    .ok ({ type := .TOKEN_EOF, lexeme := "EOF".toList, line := lx1.current_line,
           column := lx1.current_column, error := .ERROR_NONE, recovery := .RECOVERY_NONE },
         w.1, lx1)
  else if lx1.in_error_recovery then
    let s := skip_until r [';', NEWLINE] lx1
    .ok ({ type := .TOKEN_SKIP, lexeme := [], line := lx1.current_line,
           column := lx1.current_column, error := .ERROR_RECOVERY_MODE,
           recovery := .RECOVERY_NONE },
         w.1 + s.1, { s.2 with in_error_recovery := false })
  else
    match classify (peek r) r lx1 with
    | .ok (token, n, lx2) => .ok (token, w.1 + n, lx2)
    | .error f => .error f

/-- The function `get_next_token(input, &pos)`: the token, the new cursor and
the lexer variables afterwards.  A cursor to the right of the terminator
cannot be read from. -/
def get_next_token (input : List Char) (pos : Nat) (lx : Lexer) :
    Except Fault (Token × Nat × Lexer) :=
  if pos ≤ input.length then
    match get_next_token_at (input.drop pos) lx with
    | .ok (token, n, lx1) => .ok (token, pos + n, lx1)
    | .error f => .error f
  else .error .read_past_terminator

/-! ## include/parser.h -/

/-- The enumeration `ASTNodeType`. -/
inductive ASTNodeType
  | AST_PROGRAM | AST_VARDECL | AST_ASSIGN | AST_PRINT | AST_NUMBER | AST_STRING
  | AST_OPERATOR | AST_IDENTIFIER | AST_IF | AST_ELSE | AST_WHILE | AST_FOR | AST_BLOCK
  | AST_BINOP | AST_FACTORIAL | AST_FUNCTION_CALL | AST_RETURN | AST_FUNCTION_DECL
  deriving DecidableEq, Repr

/-- The enumeration `ParseError`. -/
inductive ParseError
  | PARSE_ERROR_NONE | PARSE_ERROR_UNEXPECTED_TOKEN | PARSE_ERROR_MISSING_SEMICOLON
  | PARSE_ERROR_MISSING_IDENTIFIER | PARSE_ERROR_MISSING_EQUALS
  | PARSE_ERROR_MISSING_PARENTHESES | PARSE_ERROR_MISSING_CONDITION
  | PARSE_ERROR_BLOCK_BRACES | PARSE_ERROR_INVALID_OPERATOR
  | PARSE_ERROR_INVALID_FUNCTION_CALL | PARSE_ERROR_INVALID_EXPRESSION
  deriving DecidableEq, Repr

/-- A value of type `ASTNode*`: the null pointer, or a node with its kind, its
token and its two children. -/
inductive ASTNode
  | null
  | node (type : ASTNodeType) (token : Token) (left right : ASTNode)
  deriving DecidableEq, Repr

/-! ## src/parser/parser.c -/

/-- The file-scope variables of parser.c together with the lexer variables the
parser drives.  `pos2` is never read and is left out.  `reported` lists the
messages printed by `parse_error`, oldest first. -/
structure Parser where
  source : List Char
  position : Nat
  current_token : Token
  error_reporting_enabled : Bool
  last_reported_line : Nat
  last_reported_column : Nat
  error_count : Nat
  reported : List (ParseError × Token)
  lexer : Lexer
  deriving DecidableEq, Repr

/-- The function `parse_error`. -/
def parse_error (error : ParseError) (token : Token) (p : Parser) : Parser :=
  if ¬ p.error_reporting_enabled then p
  else if token.type = .TOKEN_EOF then p
  else if token.line = p.last_reported_line ∧ token.column = p.last_reported_column then p
  else
    { p with last_reported_line := token.line, last_reported_column := token.column,
             error_count := p.error_count + 1, reported := p.reported ++ [(error, token)] }

/-- The body of `advance`: fetch a token, and fetch again while it is an
error, skip or comment token.  The first argument bounds the number of
fetches. -/
def advance_loop : Nat → Parser → Except Fault Parser
  | 0, _ => .error .out_of_fuel
  | k + 1, p =>
    match get_next_token p.source p.position p.lexer with
    | .error f => .error f
    | .ok (token, pos, lx) =>
      let p1 : Parser := { p with current_token := token, position := pos, lexer := lx }
      if token.type = .TOKEN_ERROR ∨ token.type = .TOKEN_SKIP ∨ token.type = .TOKEN_COMMENT then
        advance_loop k p1
      else .ok p1

/-- The function `advance`.  A discarded token either moves the cursor or
clears the recovery flag, so twice the input length bounds the fetches. -/
def advance (p : Parser) : Except Fault Parser :=
  advance_loop (2 * p.source.length + 4) p

/-- The function `create_node`: a node of the given kind carrying the current
token, without children.  Allocation failure is not modelled. -/
def create_node (type : ASTNodeType) (p : Parser) : ASTNode :=
  .node type p.current_token .null .null

/-- The placeholder `create_node(AST_NUMBER)` whose lexeme is then overwritten
with the C string "0". -/
def create_zero_node (p : Parser) : ASTNode :=
  .node .AST_NUMBER { p.current_token with lexeme := ['0'] } .null .null

/-- The function `match` of parser.c. -/
def match_token (type : TokenType) (p : Parser) : Bool :=
  p.current_token.type = type

/-- The test of `synchronize` for a token that starts a statement. -/
def is_statement_start (p : Parser) : Bool :=
  match_token .TOKEN_INT p || match_token .TOKEN_FLOAT_KEY p || match_token .TOKEN_CHAR p ||
  match_token .TOKEN_VOID p || match_token .TOKEN_RETURN p || match_token .TOKEN_IF p ||
  match_token .TOKEN_WHILE p || match_token .TOKEN_PRINT p || match_token .TOKEN_LBRACE p ||
  match_token .TOKEN_REPEAT p || match_token .TOKEN_ELSE p || match_token .TOKEN_IDENTIFIER p

/-- The `while` loop of `synchronize`; the first argument bounds the number of
iterations. -/
def synchronize_loop : Nat → Parser → Except Fault Parser
  | 0, _ => .error .out_of_fuel
  | k + 1, p =>
    if ¬ match_token .TOKEN_EOF p then
      if match_token .TOKEN_SEMICOLON p then advance p
      else if match_token .TOKEN_RBRACE p then .ok p
      else if is_statement_start p then .ok p
      else
        match advance p with
        | .error f => .error f
        | .ok p1 => synchronize_loop k p1
    else .ok p

/-- The function `synchronize`.  Every iteration of its loop fetches a token,
so the input length bounds the iterations. -/
def synchronize (p : Parser) : Except Fault Parser :=
  match advance p with
  | .error f => .error f
  | .ok p1 => synchronize_loop (2 * p1.source.length + 4) p1

/-- The result of a parsing function: the node it returns and the parser
variables afterwards. -/
abbrev ParseResult := Except Fault (ASTNode × Parser)

/-- The loop condition of `parse_multiplicative_expression`. -/
def is_multiplicative (p : Parser) : Bool :=
  (match_token .TOKEN_OPERATOR p &&
    (peek p.current_token.lexeme = '*' || peek p.current_token.lexeme = '/')) ||
  match_token .TOKEN_POINTER p

/-- The loop condition of `parse_additive_expression`. -/
def is_additive (p : Parser) : Bool :=
  match_token .TOKEN_OPERATOR p &&
    (peek p.current_token.lexeme = '+' || peek p.current_token.lexeme = '-')

/-- The loop condition of `parse_comparison_expression`. -/
def is_comparison (p : Parser) : Bool :=
  match_token .TOKEN_OPERATOR p || match_token .TOKEN_EQUALS_EQUALS p ||
  match_token .TOKEN_NOT_EQUALS p || match_token .TOKEN_GREATER_EQUALS p ||
  match_token .TOKEN_LESS_EQUALS p

/-- The token stored in the binary-operation node of
`parse_multiplicative_expression`: a pointer token is given the lexeme `*`. -/
def multiplicative_token (t : Token) : Token :=
  if t.type = .TOKEN_POINTER then { t with lexeme := ['*'] } else t

/-! The expression rules.  The first argument of every parsing function is the
recursion budget of the model: each call passes a smaller budget down. -/

mutual

/-- The function `parse_primary_expression`. -/
def parse_primary_expression : Nat → Parser → ParseResult
  | 0, _ => .error .out_of_fuel
  | n + 1, p =>
    if match_token .TOKEN_NUMBER p then do
      let node := create_node .AST_NUMBER p
      let p ← advance p
      pure (node, p)
    else if match_token .TOKEN_IDENTIFIER p then do
      let node := create_node .AST_IDENTIFIER p
      let identifier_token := p.current_token
      let p ← advance p
      if match_token .TOKEN_LPAREN p then
        if identifier_token.lexeme = "lairotcaf".toList then do
          let factorial_token := p.current_token
          let p ← advance p
          if match_token .TOKEN_RPAREN p then do
            let argument := create_zero_node p
            let p ← advance p
            pure (.node .AST_FACTORIAL factorial_token argument .null, p)
          else do
            let (argument, p) ← parse_expression n p
            let factorial_node := ASTNode.node .AST_FACTORIAL factorial_token argument .null
            if ¬ match_token .TOKEN_RPAREN p then do
              let p := parse_error .PARSE_ERROR_MISSING_PARENTHESES p.current_token p
              let p ← synchronize p
              pure (factorial_node, p)
            else do
              let p ← advance p
              pure (factorial_node, p)
        else do
          let p ← advance p
          let (argument, p) ←
            if ¬ match_token .TOKEN_RPAREN p then parse_expression n p
            else (pure (ASTNode.null, p) : ParseResult)
          let call_node := ASTNode.node .AST_FUNCTION_CALL identifier_token argument .null
          if ¬ match_token .TOKEN_RPAREN p then do
            let p := parse_error .PARSE_ERROR_MISSING_PARENTHESES p.current_token p
            let p ← synchronize p
            pure (call_node, p)
          else do
            let p ← advance p
            pure (call_node, p)
      else pure (node, p)
    else if match_token .TOKEN_FACTORIAL p then do
      let factorial_token := p.current_token
      let p ← advance p
      if ¬ match_token .TOKEN_LPAREN p then do
        let p := parse_error .PARSE_ERROR_MISSING_PARENTHESES factorial_token p
        if match_token .TOKEN_RPAREN p then do
          let node := create_node .AST_FACTORIAL p
          let p := parse_error .PARSE_ERROR_INVALID_FUNCTION_CALL factorial_token p
          let p ← advance p
          pure (node, p)
        else do
          let p ← synchronize p
          pure (create_node .AST_FACTORIAL p, p)
      else do
        let node_token := p.current_token
        let p ← advance p
        if match_token .TOKEN_EOF p || match_token .TOKEN_SEMICOLON p ||
            match_token .TOKEN_RBRACE p then
          pure (.node .AST_FACTORIAL node_token .null .null,
                parse_error .PARSE_ERROR_INVALID_FUNCTION_CALL factorial_token p)
        else if match_token .TOKEN_RPAREN p then do
          let argument := create_zero_node p
          let p ← advance p
          pure (.node .AST_FACTORIAL node_token argument .null, p)
        else do
          let (argument, p) ← parse_expression n p
          let node := ASTNode.node .AST_FACTORIAL node_token argument .null
          if ¬ match_token .TOKEN_RPAREN p then do
            let p := parse_error .PARSE_ERROR_MISSING_PARENTHESES p.current_token p
            let p ← synchronize p
            pure (node, p)
          else do
            let p ← advance p
            pure (node, p)
    else if match_token .TOKEN_LPAREN p then do
      let p ← advance p
      if match_token .TOKEN_RPAREN p then do
        let node := create_zero_node p
        let p ← advance p
        pure (node, p)
      else do
        let (node, p) ← parse_expression n p
        if ¬ match_token .TOKEN_RPAREN p then do
          let p := parse_error .PARSE_ERROR_MISSING_PARENTHESES p.current_token p
          let p ← synchronize p
          pure (node, p)
        else do
          let p ← advance p
          pure (node, p)
    else if match_token .TOKEN_STRING p then do
      let node := create_node .AST_STRING p
      let p ← advance p
      pure (node, p)
    else do
      let p := parse_error .PARSE_ERROR_INVALID_EXPRESSION p.current_token p
      let p ← synchronize p
      pure (create_zero_node p, p)

/-- The `while` loop of `parse_multiplicative_expression`. -/
def parse_multiplicative_loop : Nat → ASTNode → Parser → ParseResult
  | 0, _, _ => .error .out_of_fuel
  | n + 1, left, p =>
    if is_multiplicative p then do
      let token := multiplicative_token p.current_token
      let p ← advance p
      let (right, p) ← parse_primary_expression n p
      parse_multiplicative_loop n (.node .AST_BINOP token left right) p
    else pure (left, p)

/-- The function `parse_multiplicative_expression`. -/
def parse_multiplicative_expression : Nat → Parser → ParseResult
  | 0, _ => .error .out_of_fuel
  | n + 1, p => do
    let (left, p) ← parse_primary_expression n p
    parse_multiplicative_loop n left p

/-- The `while` loop of `parse_additive_expression`. -/
def parse_additive_loop : Nat → ASTNode → Parser → ParseResult
  | 0, _, _ => .error .out_of_fuel
  | n + 1, left, p =>
    if is_additive p then do
      let token := p.current_token
      let p ← advance p
      let (right, p) ← parse_multiplicative_expression n p
      parse_additive_loop n (.node .AST_BINOP token left right) p
    else pure (left, p)

/-- The function `parse_additive_expression`. -/
def parse_additive_expression : Nat → Parser → ParseResult
  | 0, _ => .error .out_of_fuel
  | n + 1, p => do
    let (left, p) ← parse_multiplicative_expression n p
    parse_additive_loop n left p

/-- The `while` loop of `parse_comparison_expression`. -/
def parse_comparison_loop : Nat → ASTNode → Parser → ParseResult
  | 0, _, _ => .error .out_of_fuel
  | n + 1, left, p =>
    if is_comparison p then do
      let token := p.current_token
      let p ← advance p
      let (right, p) ← parse_additive_expression n p
      parse_comparison_loop n (.node .AST_BINOP token left right) p
    else pure (left, p)

/-- The function `parse_comparison_expression`. -/
def parse_comparison_expression : Nat → Parser → ParseResult
  | 0, _ => .error .out_of_fuel
  | n + 1, p => do
    let (left, p) ← parse_additive_expression n p
    parse_comparison_loop n left p

/-- The `while` loop of `parse_logical_and_expression`. -/
def parse_logical_and_loop : Nat → ASTNode → Parser → ParseResult
  | 0, _, _ => .error .out_of_fuel
  | n + 1, left, p =>
    if match_token .TOKEN_LOGICAL_AND p then do
      let token := p.current_token
      let p ← advance p
      let (right, p) ← parse_comparison_expression n p
      parse_logical_and_loop n (.node .AST_BINOP token left right) p
    else pure (left, p)

/-- The function `parse_logical_and_expression`. -/
def parse_logical_and_expression : Nat → Parser → ParseResult
  | 0, _ => .error .out_of_fuel
  | n + 1, p => do
    let (left, p) ← parse_comparison_expression n p
    parse_logical_and_loop n left p

/-- The `while` loop of `parse_logical_or_expression`. -/
def parse_logical_or_loop : Nat → ASTNode → Parser → ParseResult
  | 0, _, _ => .error .out_of_fuel
  | n + 1, left, p =>
    if match_token .TOKEN_LOGICAL_OR p then do
      let token := p.current_token
      let p ← advance p
      let (right, p) ← parse_logical_and_expression n p
      parse_logical_or_loop n (.node .AST_BINOP token left right) p
    else pure (left, p)

/-- The function `parse_logical_or_expression`. -/
def parse_logical_or_expression : Nat → Parser → ParseResult
  | 0, _ => .error .out_of_fuel
  | n + 1, p => do
    let (left, p) ← parse_logical_and_expression n p
    parse_logical_or_loop n left p

/-- The function `parse_expression`. -/
def parse_expression : Nat → Parser → ParseResult
  | 0, _ => .error .out_of_fuel
  | n + 1, p =>
    if match_token .TOKEN_SEMICOLON p || match_token .TOKEN_RPAREN p then
      let p := parse_error .PARSE_ERROR_INVALID_EXPRESSION p.current_token p
      pure (create_zero_node p, p)
    else parse_logical_or_expression n p

end

/-- The test for a type keyword at the head of `parse_statement`. -/
def is_type_keyword (p : Parser) : Bool :=
  match_token .TOKEN_INT p || match_token .TOKEN_FLOAT_KEY p || match_token .TOKEN_CHAR p ||
  match_token .TOKEN_VOID p || match_token .TOKEN_LONG p || match_token .TOKEN_SHORT p ||
  match_token .TOKEN_DOUBLE p || match_token .TOKEN_SIGNED p || match_token .TOKEN_UNSIGNED p

/-- The test for a type keyword at the head of `parse_program` (without
`signed` and `unsigned`). -/
def is_program_type_keyword (p : Parser) : Bool :=
  match_token .TOKEN_INT p || match_token .TOKEN_VOID p || match_token .TOKEN_CHAR p ||
  match_token .TOKEN_FLOAT_KEY p || match_token .TOKEN_LONG p || match_token .TOKEN_SHORT p ||
  match_token .TOKEN_DOUBLE p

/-- Backtracking after a lookahead: `position = save_position; current_token =
save_token`.  Nothing else is put back. -/
def backtrack (save_position : Nat) (save_token : Token) (p : Parser) : Parser :=
  { p with position := save_position, current_token := save_token }

/-- The tail shared by the statement rules: report a missing semicolon on the
current token, or consume the semicolon. -/
def expect_semicolon (p : Parser) : Except Fault Parser :=
  if ¬ match_token .TOKEN_SEMICOLON p then
    .ok (parse_error .PARSE_ERROR_MISSING_SEMICOLON p.current_token p)
  else advance p

/-- The step `if (!match(TOKEN_LPAREN)) parse_error(..., token); else advance();`
of the `if`, `while` and `until` rules. -/
def expect_lparen (token : Token) (p : Parser) : Except Fault Parser :=
  if ¬ match_token .TOKEN_LPAREN p then
    .ok (parse_error .PARSE_ERROR_MISSING_PARENTHESES token p)
  else advance p

/-- The condition of the `if`, `while` and `until` rules, from the test for an
empty condition to the closing parenthesis; `token` is the keyword token used
in the messages. -/
def parse_condition (n : Nat) (token : Token) (p : Parser) : ParseResult :=
  if match_token .TOKEN_RPAREN p then do
    let p := parse_error .PARSE_ERROR_MISSING_CONDITION token p
    let condition := create_zero_node p
    let p ← advance p
    pure (condition, p)
  else do
    let (condition, p) ← parse_expression n p
    if ¬ match_token .TOKEN_RPAREN p then
      pure (condition, parse_error .PARSE_ERROR_MISSING_PARENTHESES token p)
    else do
      let p ← advance p
      pure (condition, p)

/-- The function `parse_declaration`. -/
def parse_declaration (n : Nat) (p : Parser) : ParseResult := do
  let node_token := p.current_token
  let type_token := p.current_token
  let p ← advance p
  if ¬ match_token .TOKEN_IDENTIFIER p then do
    let p := parse_error .PARSE_ERROR_MISSING_IDENTIFIER type_token p
    let p ← synchronize p
    pure (.node .AST_VARDECL node_token .null .null, p)
  else do
    let node_token := p.current_token
    let p ← advance p
    if match_token .TOKEN_EQUALS p then do
      let p ← advance p
      if match_token .TOKEN_SEMICOLON p then do
        let p := parse_error .PARSE_ERROR_INVALID_EXPRESSION p.current_token p
        let p ← advance p
        pure (.node .AST_VARDECL node_token .null .null, p)
      else do
        let (right, p) ← parse_expression n p
        let p ← expect_semicolon p
        pure (.node .AST_VARDECL node_token .null right, p)
    else do
      let p ← expect_semicolon p
      pure (.node .AST_VARDECL node_token .null .null, p)

/-- The test for a parameter type in `parse_function_declaration`. -/
def is_parameter_type (p : Parser) : Bool :=
  match_token .TOKEN_INT p || match_token .TOKEN_FLOAT_KEY p || match_token .TOKEN_CHAR p ||
  match_token .TOKEN_VOID p || match_token .TOKEN_LONG p || match_token .TOKEN_SHORT p ||
  match_token .TOKEN_DOUBLE p || match_token .TOKEN_SIGNED p || match_token .TOKEN_UNSIGNED p

/-- The parameter loop of `parse_function_declaration`: the chain of the
parameters read from here on, linked through the right children. -/
def parse_parameters : Nat → Parser → ParseResult
  | 0, _ => .error .out_of_fuel
  | n + 1, p =>
    if ¬ match_token .TOKEN_RPAREN p ∧ ¬ match_token .TOKEN_EOF p then
      if ¬ is_parameter_type p then
        pure (.null, parse_error .PARSE_ERROR_UNEXPECTED_TOKEN p.current_token p)
      else do
        let param_type := p.current_token
        let p ← advance p
        if ¬ match_token .TOKEN_IDENTIFIER p then
          pure (.null, parse_error .PARSE_ERROR_MISSING_IDENTIFIER param_type p)
        else do
          let param_token := p.current_token
          let p ← advance p
          if match_token .TOKEN_COMMA p then do
            let p ← advance p
            let (rest, p) ← parse_parameters n p
            pure (.node .AST_VARDECL param_token .null rest, p)
          else
            pure (.node .AST_VARDECL param_token .null .null, p)
    else pure (.null, p)

/-! The statement rules. -/

mutual

/-- The function `parse_function_declaration`. -/
def parse_function_declaration : Nat → Parser → ParseResult
  | 0, _ => .error .out_of_fuel
  | n + 1, p => do
    let node_token := p.current_token
    let type_token := p.current_token
    let p ← advance p
    if ¬ match_token .TOKEN_IDENTIFIER p then do
      let p := parse_error .PARSE_ERROR_MISSING_IDENTIFIER type_token p
      let p ← synchronize p
      pure (.node .AST_FUNCTION_DECL node_token .null .null, p)
    else do
      let node_token := p.current_token
      let function_name := p.current_token
      let p ← advance p
      let p ←
        if ¬ match_token .TOKEN_LPAREN p then
          (pure (parse_error .PARSE_ERROR_MISSING_PARENTHESES p.current_token p) :
            Except Fault Parser)
        else advance p
      let (param_list, p) ←
        if match_token .TOKEN_VOID p then do
          let p ← advance p
          (pure (ASTNode.null, p) : ParseResult)
        else parse_parameters n p
      let p ←
        if ¬ match_token .TOKEN_RPAREN p then
          (pure (parse_error .PARSE_ERROR_MISSING_PARENTHESES p.current_token p) :
            Except Fault Parser)
        else advance p
      if match_token .TOKEN_SEMICOLON p then do
        let p := parse_error .PARSE_ERROR_BLOCK_BRACES function_name p
        let p ← advance p
        pure (.node .AST_FUNCTION_DECL node_token param_list .null, p)
      else do
        let (body, p) ← parse_block n p
        pure (.node .AST_FUNCTION_DECL node_token param_list body, p)

/-- The function `parse_assignment`. -/
def parse_assignment : Nat → Parser → ParseResult
  | 0, _ => .error .out_of_fuel
  | n + 1, p => do
    let node_token := p.current_token
    let target := ASTNode.node .AST_IDENTIFIER p.current_token .null .null
    let id_token := p.current_token
    let p ← advance p
    if ¬ match_token .TOKEN_EQUALS p then do
      let p := parse_error .PARSE_ERROR_MISSING_EQUALS id_token p
      let p ← synchronize p
      pure (create_node .AST_PROGRAM p, p)
    else do
      let p ← advance p
      if match_token .TOKEN_SEMICOLON p then do
        let p := parse_error .PARSE_ERROR_INVALID_EXPRESSION p.current_token p
        let p ← advance p
        pure (.node .AST_ASSIGN node_token target .null, p)
      else do
        let (right, p) ← parse_expression n p
        let p ← expect_semicolon p
        pure (.node .AST_ASSIGN node_token target right, p)

/-- The statement loop of `parse_block`; `token` is the token of the chain
node being filled (the token that was current when the node was created). -/
def parse_block_loop : Nat → Token → Parser → ParseResult
  | 0, _, _ => .error .out_of_fuel
  | n + 1, token, p =>
    if ¬ match_token .TOKEN_RBRACE p ∧ ¬ match_token .TOKEN_EOF p then do
      let (statement, p) ← parse_statement n p
      if ¬ match_token .TOKEN_RBRACE p ∧ ¬ match_token .TOKEN_EOF p then do
        let (rest, p) ← parse_block_loop n p.current_token p
        pure (.node .AST_BLOCK token statement rest, p)
      else
        pure (.node .AST_BLOCK token statement .null, p)
    else pure (.node .AST_BLOCK token .null .null, p)

/-- The function `parse_block`. -/
def parse_block : Nat → Parser → ParseResult
  | 0, _ => .error .out_of_fuel
  | n + 1, p =>
    if ¬ match_token .TOKEN_LBRACE p then
      let p := parse_error .PARSE_ERROR_BLOCK_BRACES p.current_token p
      pure (create_node .AST_BLOCK p, p)
    else do
      let opening_brace := p.current_token
      let p ← advance p
      if match_token .TOKEN_RBRACE p then do
        let p ← advance p
        pure (create_node .AST_BLOCK p, p)
      else do
        let (block, p) ← parse_block_loop n p.current_token p
        if ¬ match_token .TOKEN_RBRACE p then
          pure (block, parse_error .PARSE_ERROR_BLOCK_BRACES opening_brace p)
        else do
          let p ← advance p
          pure (block, p)

/-- The function `parse_if_statement`. -/
def parse_if_statement : Nat → Parser → ParseResult
  | 0, _ => .error .out_of_fuel
  | n + 1, p => do
    let node_token := p.current_token
    let if_token := p.current_token
    let p ← advance p
    let p ← expect_lparen if_token p
    let (condition, p) ← parse_condition n if_token p
    let (body, p) ← parse_block n p
    if match_token .TOKEN_ELSE p then do
      let else_token := p.current_token
      let p ← advance p
      let (else_body, p) ← parse_block n p
      pure (.node .AST_IF node_token condition (.node .AST_ELSE else_token body else_body), p)
    else
      pure (.node .AST_IF node_token condition body, p)

/-- The function `parse_while_statement`. -/
def parse_while_statement : Nat → Parser → ParseResult
  | 0, _ => .error .out_of_fuel
  | n + 1, p => do
    let node_token := p.current_token
    let while_token := p.current_token
    let p ← advance p
    let p ← expect_lparen while_token p
    let (condition, p) ← parse_condition n while_token p
    let (body, p) ← parse_block n p
    pure (.node .AST_WHILE node_token condition body, p)

/-- The function `parse_repeat_until_statement`. -/
def parse_repeat_until_statement : Nat → Parser → ParseResult
  | 0, _ => .error .out_of_fuel
  | n + 1, p => do
    let node_token := p.current_token
    let p ← advance p
    let (body, p) ← parse_block n p
    if ¬ match_token .TOKEN_UNTIL p then do
      let p := parse_error .PARSE_ERROR_UNEXPECTED_TOKEN p.current_token p
      let p := parse_error .PARSE_ERROR_UNEXPECTED_TOKEN
                 { p.current_token with lexeme := ['?'] } p
      let p ← synchronize p
      pure (.node .AST_FOR node_token body .null, p)
    else do
      let until_token := p.current_token
      let p ← advance p
      let p ← expect_lparen until_token p
      let (condition, p) ← parse_condition n until_token p
      let p ← expect_semicolon p
      pure (.node .AST_FOR node_token body condition, p)

/-- The function `parse_print_statement`. -/
def parse_print_statement : Nat → Parser → ParseResult
  | 0, _ => .error .out_of_fuel
  | n + 1, p => do
    let node_token := p.current_token
    let p ← advance p
    let (left, p) ← parse_expression n p
    let p ← expect_semicolon p
    pure (.node .AST_PRINT node_token left .null, p)

/-- The function `parse_return_statement`. -/
def parse_return_statement : Nat → Parser → ParseResult
  | 0, _ => .error .out_of_fuel
  | n + 1, p => do
    let node_token := p.current_token
    let return_token := p.current_token
    let p ← advance p
    if match_token .TOKEN_SEMICOLON p then do
      let p := parse_error .PARSE_ERROR_INVALID_EXPRESSION return_token p
      let left := create_zero_node p
      let p ← advance p
      pure (.node .AST_RETURN node_token left .null, p)
    else do
      let (left, p) ← parse_expression n p
      let p ← expect_semicolon p
      pure (.node .AST_RETURN node_token left .null, p)

/-- The function `parse_statement`. -/
def parse_statement : Nat → Parser → ParseResult
  | 0, _ => .error .out_of_fuel
  | n + 1, p =>
    if is_type_keyword p then do
      let save_position := p.position
      let save_token := p.current_token
      let p ← advance p
      if match_token .TOKEN_IDENTIFIER p then do
        let p ← advance p
        if match_token .TOKEN_LPAREN p then
          parse_function_declaration n (backtrack save_position save_token p)
        else
          parse_declaration n (backtrack save_position save_token p)
      else
        parse_declaration n (backtrack save_position save_token p)
    else if match_token .TOKEN_IDENTIFIER p then parse_assignment n p
    else if match_token .TOKEN_IF p then parse_if_statement n p
    else if match_token .TOKEN_WHILE p then parse_while_statement n p
    else if match_token .TOKEN_REPEAT p then parse_repeat_until_statement n p
    else if match_token .TOKEN_PRINT p then parse_print_statement n p
    else if match_token .TOKEN_RETURN p then parse_return_statement n p
    else if match_token .TOKEN_LBRACE p then parse_block n p
    else if match_token .TOKEN_ELSE p then do
      let p := parse_error .PARSE_ERROR_UNEXPECTED_TOKEN p.current_token p
      let p ← advance p
      if match_token .TOKEN_LBRACE p then do
        let (_, p) ← parse_block n p
        pure (create_node .AST_PROGRAM p, p)
      else
        pure (create_node .AST_PROGRAM p, p)
    else if match_token .TOKEN_FACTORIAL p then do
      let (expr, p) ← parse_primary_expression n p
      let p ← expect_semicolon p
      pure (expr, p)
    else do
      let p := parse_error .PARSE_ERROR_UNEXPECTED_TOKEN p.current_token p
      let p ← synchronize p
      pure (create_node .AST_PROGRAM p, p)

end

/-- The lookahead at the head of `parse_program`: whether a function
declaration starts here, and the parser variables after backtracking. -/
def program_lookahead (p : Parser) : Except Fault (Bool × Parser) :=
  if is_program_type_keyword p then do
    let save_position := p.position
    let save_token := p.current_token
    let p ← advance p
    if match_token .TOKEN_IDENTIFIER p then do
      let p ← advance p
      if match_token .TOKEN_LPAREN p then
        pure (true, backtrack save_position save_token p)
      else
        pure (false, backtrack save_position save_token p)
    else
      pure (false, backtrack save_position save_token p)
  else pure (false, p)

/-- The function `parse_program`.  Both of its paths end in the same way (the
left child, then the rest of the program unless the input is exhausted), so
the two are written once. -/
def parse_program : Nat → Parser → ParseResult
  | 0, _ => .error .out_of_fuel
  | n + 1, p =>
    let program_token := p.current_token
    if match_token .TOKEN_EOF p then pure (.node .AST_PROGRAM program_token .null .null, p)
    else do
      let (is_function, p) ← program_lookahead p
      let (left, p) ←
        if is_function then parse_function_declaration n p else parse_statement n p
      if ¬ match_token .TOKEN_EOF p then do
        let (right, p) ← parse_program n p
        pure (.node .AST_PROGRAM program_token left right, p)
      else
        pure (.node .AST_PROGRAM program_token left .null, p)

/-- The value of `current_token` before the first fetch (static storage is
zero-initialised). -/
def zero_token : Token :=
  { type := .TOKEN_EOF, lexeme := [], line := 0, column := 0, error := .ERROR_NONE,
    recovery := .RECOVERY_NONE }

/-- The function `parser_init`, given the lexer variables at the time of the
call. -/
def parser_init (input : List Char) (lx : Lexer) : Except Fault Parser :=
  advance
    { source := input, position := 0, current_token := zero_token,
      error_reporting_enabled := true, last_reported_line := 0, last_reported_column := 0,
      error_count := 0, reported := [], lexer := lx }

/-- The function `parse`. -/
def parse (n : Nat) (p : Parser) : ParseResult :=
  parse_program n { p with error_reporting_enabled := true }

/-! ## include/semantic.h -/

/-- The enumeration `SemanticErrorType`. -/
inductive SemanticErrorType
  | SEM_ERROR_NONE | SEM_ERROR_UNDECLARED_VARIABLE | SEM_ERROR_REDECLARED_VARIABLE
  | SEM_ERROR_TYPE_MISMATCH | SEM_ERROR_UNINITIALIZED_VARIABLE | SEM_ERROR_INVALID_OPERATION
  | SEM_ERROR_SEMANTIC_ERROR
  deriving DecidableEq, Repr

/-- The numeric value of a token kind, as stored in the `int` fields and
locals that hold a data type. -/
def TokenType.code (t : TokenType) : Int := (t.toCtorIdx : Nat)

/-- The struct `Symbol` (the `next` link is the list structure of the table).
The field `type` is a C `int`. -/
structure Symbol where
  name : List Char
  type : Int
  scope_level : Nat
  line_declared : Nat
  is_initialized : Bool
  deriving DecidableEq, Repr

/-- The struct `SymbolTable`: the linked list from `head`, first symbol first,
and the scope counter. -/
structure SymbolTable where
  head : List Symbol
  current_scope : Nat
  deriving DecidableEq, Repr

/-! ## src/semantic/semantic.c -/

/-- The function `init_symbol_table`. -/
def init_symbol_table : SymbolTable := { head := [], current_scope := 0 }

/-- The function `add_symbol`. -/
def add_symbol (table : SymbolTable) (name : List Char) (type : Int) (line : Nat) :
    SymbolTable :=
  { table with head :=
      { name := name, type := type, scope_level := table.current_scope,
        line_declared := line, is_initialized := false } :: table.head }

/-- The loop of `lookup_symbol` from list position `index` on; `found` is the
best symbol so far (with its position) and `max_scope` its scope level (−1 at
the start). -/
def lookup_symbol_loop (current_scope : Nat) (name : List Char) :
    List Symbol → Nat → Option (Nat × Symbol) → Int → Option (Nat × Symbol)
  | [], _, found, _ => found
  | current :: next, index, found, max_scope =>
    if current.name = name ∧ current.scope_level ≤ current_scope then
      if (current.scope_level : Int) > max_scope then
        lookup_symbol_loop current_scope name next (index + 1) (some (index, current))
          current.scope_level
      else
        lookup_symbol_loop current_scope name next (index + 1) found max_scope
    else
      lookup_symbol_loop current_scope name next (index + 1) found max_scope

/-- The function `lookup_symbol`.  The pointer it returns is given as the
position of the symbol in the list, counted from the head, together with the
symbol found there. -/
def lookup_symbol (table : SymbolTable) (name : List Char) : Option (Nat × Symbol) :=
  lookup_symbol_loop table.current_scope name table.head 0 none (-1)

/-- The loop of `lookup_symbol_current_scope` from list position `index` on. -/
def lookup_symbol_current_scope_loop (current_scope : Nat) (name : List Char) :
    List Symbol → Nat → Option (Nat × Symbol)
  | [], _ => none
  | current :: next, index =>
    if current.name = name ∧ current.scope_level = current_scope then some (index, current)
    else lookup_symbol_current_scope_loop current_scope name next (index + 1)

/-- The function `lookup_symbol_current_scope`, with the same reading of the
returned pointer. -/
def lookup_symbol_current_scope (table : SymbolTable) (name : List Char) :
    Option (Nat × Symbol) :=
  lookup_symbol_current_scope_loop table.current_scope name table.head 0

/-- The symbol a returned pointer points to. -/
def symbol_at (table : SymbolTable) (index : Nat) : Option Symbol :=
  table.head.get? index

/-- The assignment `symbol->is_initialized = 1` through a returned pointer. -/
def set_initialized (table : SymbolTable) (index : Nat) : SymbolTable :=
  { table with head := table.head.modify (fun s => { s with is_initialized := true }) index }

/-- The function `enter_scope`. -/
def enter_scope (table : SymbolTable) : SymbolTable :=
  { table with current_scope := table.current_scope + 1 }

/-- The function `exit_scope`. -/
def exit_scope (table : SymbolTable) : SymbolTable :=
  if table.current_scope > 0 then { table with current_scope := table.current_scope - 1 }
  else table

/-- The function `remove_symbols_in_current_scope`.  No function of the
repository calls it. -/
def remove_symbols_in_current_scope (table : SymbolTable) : SymbolTable :=
  { table with head := table.head.filter (fun s => s.scope_level ≠ table.current_scope) }

/-- The function `type_to_string`. -/
def type_to_string (type : Int) : List Char :=
  if type = TokenType.TOKEN_INT.code then "int".toList
  else if type = TokenType.TOKEN_FLOAT_KEY.code then "float".toList
  else if type = TokenType.TOKEN_CHAR.code then "char".toList
  else if type = TokenType.TOKEN_VOID.code then "void".toList
  else "unknown".toList

/-- The function `are_types_compatible`. -/
def are_types_compatible (type1 type2 : Int) : Bool :=
  if type1 = type2 then true
  else if (type1 = TokenType.TOKEN_INT.code ∨ type1 = TokenType.TOKEN_FLOAT_KEY.code) ∧
          (type2 = TokenType.TOKEN_INT.code ∨ type2 = TokenType.TOKEN_FLOAT_KEY.code) then true
  else false

/-- One message printed by `semantic_error`. -/
structure SemanticError where
  error : SemanticErrorType
  name : List Char
  line : Nat
  deriving DecidableEq, Repr

/-- The state of one analysis: the symbol table, the messages printed by
`semantic_error` so far, oldest first (`semantic_error_count` is their number),
and the values found in `int` locals that are read without having been
written, in the order in which they are read. -/
structure Sem where
  table : SymbolTable
  reported : List SemanticError
  indeterminate : List Int
  deriving DecidableEq, Repr

/-- The counter `semantic_error_count`. -/
def Sem.semantic_error_count (s : Sem) : Nat := s.reported.length

/-- The function `semantic_error`. -/
def semantic_error (error : SemanticErrorType) (name : List Char) (line : Nat) (s : Sem) :
    Sem :=
  { s with reported := s.reported ++ [{ error := error, name := name, line := line }] }

/-- The content of an `int` local whose address was passed as `result_type`:
the value written by the callee, or, when the callee wrote nothing, the next
indeterminate value. -/
def read_result_type (written : Option Int) (s : Sem) : Int × Sem :=
  match written with
  | some type => (type, s)
  | none => (s.indeterminate.headD 0, { s with indeterminate := s.indeterminate.tail })

/-- The C library predicate `isspace` (C locale). -/
def isspace (c : Char) : Bool :=
  c = ' ' || c = Char.ofNat 9 || c = Char.ofNat 10 || c = Char.ofNat 11 ||
  c = Char.ofNat 12 || c = Char.ofNat 13

/-- The digits loop of `atoi`: the value of the leading digit run, continuing
from `acc`. -/
def atoi_digits : List Char → Nat → Nat
  | [], acc => acc
  | c :: rest, acc => if isdigit c then atoi_digits rest (acc * 10 + (c.toNat - 48)) else acc

/-- The largest value of `long` (64 bits). -/
def LONG_MAX : Nat := 9223372036854775807

/-- The C library function `strtol` with base 10 and no end pointer, for a
`long` of 64 bits: white space, an optional sign and the leading digit run; a
value out of the range of `long` is replaced by `LONG_MAX` or `LONG_MIN`. -/
def strtol (s : List Char) : Int :=
  match s.dropWhile isspace with
  | [] => 0
  | c :: rest =>
    if c = '-' then - (min (atoi_digits rest 0) (LONG_MAX + 1) : Nat)
    else if c = '+' then (min (atoi_digits rest 0) LONG_MAX : Nat)
    else (min (atoi_digits (c :: rest) 0) LONG_MAX : Nat)

/-- The conversion of a `long` value to an `int` of 32 bits: the value that
differs from it by a multiple of 2^32 and lies in the range of `int`. -/
def long_to_int (v : Int) : Int := (v + 2147483648) % 4294967296 - 2147483648

/-- The C library function `atoi`, which returns an `int`.  It is
`(int) strtol(s, NULL, 10)`; the C standard leaves the result open when the
value does not fit an `int`, and the definition gives the result of the GNU C
library with a `long` of 64 bits and an `int` of 32 bits: the lexeme
`4294967296` has the value 0. -/
def atoi (s : List Char) : Int := long_to_int (strtol s)

/-- The type of a node, `node->type`, for a non-null node. -/
def ASTNode.type? : ASTNode → Option ASTNodeType
  | .null => none
  | .node type _ _ _ => some type

/-- The test `node != NULL`. -/
def ASTNode.is_node : ASTNode → Bool
  | .null => false
  | .node _ _ _ _ => true

/-- The token of a node (the zero token for the null pointer, which is never
dereferenced). -/
def ASTNode.token : ASTNode → Token
  | .null => zero_token
  | .node _ token _ _ => token

/-- The result type of a binary operation whose operands have the compatible
types `left_type` and `right_type`: `none` when no branch of the source
assigns `*result_type`. -/
def binop_result_type (lexeme : List Char) (left_type right_type : Int) : Option Int :=
  let op := peek lexeme
  if op = '+' ∨ op = '-' ∨ op = '*' ∨ op = '/' then
    if left_type = TokenType.TOKEN_FLOAT_KEY.code ∨ right_type = TokenType.TOKEN_FLOAT_KEY.code
    then some TokenType.TOKEN_FLOAT_KEY.code
    else some TokenType.TOKEN_INT.code
  else if op = '>' ∨ op = '<' ∨ lexeme = "==".toList ∨ lexeme = "!=".toList ∨
          lexeme = ">=".toList ∨ lexeme = "<=".toList ∨ lexeme = "&&".toList ∨
          lexeme = "||".toList then
    some TokenType.TOKEN_INT.code
  else none

/-- The function `check_expression`: the value it returns, what it writes to
`*result_type` (`none` when it writes nothing), and the state afterwards.  The
call of `check_factorial` on the same node is written out in place. -/
def check_expression : ASTNode → Sem → Bool × Option Int × Sem
  | .null, s => (false, some TokenType.TOKEN_ERROR.code, s)
  | .node type token left right, s =>
    match type with
    | .AST_NUMBER => (true, some TokenType.TOKEN_INT.code, s)
    | .AST_STRING => (true, some TokenType.TOKEN_STRING.code, s)
    | .AST_IDENTIFIER =>
      match lookup_symbol s.table token.lexeme with
      | none =>
        (false, some TokenType.TOKEN_ERROR.code,
          semantic_error .SEM_ERROR_UNDECLARED_VARIABLE token.lexeme token.line s)
      | some (_, symbol) =>
        if ¬ symbol.is_initialized then
          (false, some symbol.type,
            semantic_error .SEM_ERROR_UNINITIALIZED_VARIABLE token.lexeme token.line s)
        else (true, some symbol.type, s)
    | .AST_BINOP =>
      let l := check_expression left s
      let r := check_expression right l.2.2
      if ¬ l.1 ∨ ¬ r.1 then (false, some TokenType.TOKEN_ERROR.code, r.2.2)
      else if peek token.lexeme = '/' ∧ right.type? = some .AST_NUMBER ∧
              atoi right.token.lexeme = 0 then
        (false, some TokenType.TOKEN_ERROR.code,
          semantic_error .SEM_ERROR_INVALID_OPERATION "division by zero".toList token.line r.2.2)
      else
        let lt := read_result_type l.2.1 r.2.2
        let rt := read_result_type r.2.1 lt.2
        if ¬ are_types_compatible lt.1 rt.1 then
          (false, some TokenType.TOKEN_ERROR.code,
            semantic_error .SEM_ERROR_TYPE_MISMATCH
              ("incompatible types: ".toList ++ type_to_string lt.1 ++ " and ".toList ++
                type_to_string rt.1) token.line rt.2)
        else (true, binop_result_type token.lexeme lt.1 rt.1, rt.2)
    | .AST_FACTORIAL =>
      if ¬ left.is_node then
        (false, some TokenType.TOKEN_ERROR.code,
          semantic_error .SEM_ERROR_INVALID_OPERATION "factorial".toList token.line s)
      else
        let a := check_expression left s
        if a.1 then
          let arg_type := read_result_type a.2.1 a.2.2
          if arg_type.1 ≠ TokenType.TOKEN_INT.code then
            (false, some TokenType.TOKEN_ERROR.code,
              semantic_error .SEM_ERROR_TYPE_MISMATCH "factorial".toList token.line arg_type.2)
          else (true, some TokenType.TOKEN_INT.code, arg_type.2)
        else (false, some TokenType.TOKEN_ERROR.code, a.2.2)
    | .AST_FUNCTION_CALL =>
      match lookup_symbol s.table token.lexeme with
      | none =>
        (false, some TokenType.TOKEN_ERROR.code,
          semantic_error .SEM_ERROR_UNDECLARED_VARIABLE token.lexeme token.line s)
      | some (_, func) => (true, some func.type, s)
    | _ => (false, some TokenType.TOKEN_ERROR.code, s)

/-- The function `check_factorial`: the value it returns and the state
afterwards. -/
def check_factorial (node : ASTNode) (s : Sem) : Bool × Sem :=
  match node with
  | .null => (false, s)
  | .node type token left _ =>
    if type ≠ .AST_FACTORIAL then (false, s)
    else if ¬ left.is_node then
      (false, semantic_error .SEM_ERROR_INVALID_OPERATION "factorial".toList token.line s)
    else
      let a := check_expression left s
      if a.1 then
        let arg_type := read_result_type a.2.1 a.2.2
        if arg_type.1 ≠ TokenType.TOKEN_INT.code then
          (false, semantic_error .SEM_ERROR_TYPE_MISMATCH "factorial".toList token.line
                    arg_type.2)
        else (true, arg_type.2)
      else (false, a.2.2)

/-- The marking `symbol->is_initialized = 1` after a lookup in the current
scope, as done for initialised declarations, functions and parameters. -/
def mark_initialized (table : SymbolTable) (name : List Char) : SymbolTable :=
  match lookup_symbol_current_scope table name with
  | some (index, _) => set_initialized table index
  | none => table

/-- The function `check_declaration`. -/
def check_declaration (node : ASTNode) (s : Sem) : Bool × Sem :=
  match node with
  | .null => (false, s)
  | .node type token _ right =>
    if type ≠ .AST_VARDECL then (false, s)
    else
      let var_name := token.lexeme
      let var_type := TokenType.TOKEN_INT.code
      match lookup_symbol_current_scope s.table var_name with
      | some _ =>
        (false, semantic_error .SEM_ERROR_REDECLARED_VARIABLE var_name token.line s)
      | none =>
        let s1 : Sem := { s with table := add_symbol s.table var_name var_type token.line }
        if right.is_node then
          let e := check_expression right s1
          if e.1 then
            let init_type := read_result_type e.2.1 e.2.2
            if ¬ are_types_compatible var_type init_type.1 then
              (false, semantic_error .SEM_ERROR_TYPE_MISMATCH
                ("cannot initialize ".toList ++ type_to_string var_type ++ " with ".toList ++
                  type_to_string init_type.1) token.line init_type.2)
            else
              (true, { init_type.2 with table := mark_initialized init_type.2.table var_name })
          else (false, e.2.2)
        else (true, s1)

/-- The function `check_assignment`. -/
def check_assignment (node : ASTNode) (s : Sem) : Bool × Sem :=
  match node with
  | .null => (false, s)
  | .node type token left right =>
    if type ≠ .AST_ASSIGN ∨ ¬ left.is_node ∨ ¬ right.is_node then (false, s)
    else if left.type? ≠ some .AST_IDENTIFIER then
      (false, semantic_error .SEM_ERROR_INVALID_OPERATION
        "assignment target must be a variable".toList token.line s)
    else
      let var_name := left.token.lexeme
      match lookup_symbol s.table var_name with
      | none => (false, semantic_error .SEM_ERROR_UNDECLARED_VARIABLE var_name token.line s)
      | some (index, symbol) =>
        let e := check_expression right s
        if e.1 then
          let expr_type := read_result_type e.2.1 e.2.2
          if ¬ are_types_compatible symbol.type expr_type.1 then
            (false, semantic_error .SEM_ERROR_TYPE_MISMATCH
              ("cannot assign ".toList ++ type_to_string expr_type.1 ++ " to ".toList ++
                type_to_string symbol.type) token.line expr_type.2)
          else
            (true, { expr_type.2 with table := set_initialized expr_type.2.table index })
        else (false, e.2.2)

/-- The function `check_condition`. -/
def check_condition (node : ASTNode) (s : Sem) : Bool × Sem :=
  match node with
  | .null => (false, s)
  | .node _ _ _ _ =>
    let e := check_expression node s
    (e.1, e.2.2)

/-- The function `check_print_statement`. -/
def check_print_statement (node : ASTNode) (s : Sem) : Bool × Sem :=
  match node with
  | .null => (false, s)
  | .node type _ left _ =>
    if type ≠ .AST_PRINT then (false, s)
    else if left.is_node then
      let e := check_expression left s
      (e.1, e.2.2)
    else (true, s)

/-- The function `check_return_statement`. -/
def check_return_statement (node : ASTNode) (s : Sem) : Bool × Sem :=
  match node with
  | .null => (false, s)
  | .node type _ left _ =>
    if type ≠ .AST_RETURN then (false, s)
    else if left.is_node then
      let e := check_expression left s
      (e.1, e.2.2)
    else (true, s)

/-- The parameter loop of `check_function_declaration`. -/
def add_parameters : ASTNode → SymbolTable → SymbolTable
  | .null, table => table
  | .node type token _ right, table =>
    if type = .AST_VARDECL then
      add_parameters right
        (mark_initialized (add_symbol table token.lexeme TokenType.TOKEN_INT.code token.line)
          token.lexeme)
    else add_parameters right table

/-- The scope counter of the state after `enter_scope(table)`. -/
def Sem.enter_scope (s : Sem) : Sem := { s with table := Phase3.enter_scope s.table }

/-- The scope counter of the state after `exit_scope(table)`. -/
def Sem.exit_scope (s : Sem) : Sem := { s with table := Phase3.exit_scope s.table }

/-! The statement checks call one another on the same node (`check_statement`
hands a node to `check_block`, `check_block` hands a node that is not a block
back to `check_statement`).  The recursion is therefore written once, on the
tree, in `check_statement`, with the bodies of the per-kind functions in
place; where the source calls `check_block` on a child, the recursive call is
`check_statement` on that child, which does the same (`check_block_eq`).  The
per-kind functions follow under their own names, and the `switch` of
`check_statement` is recovered as `check_statement_dispatch`. -/

mutual

/-- The function `check_statement`. -/
def check_statement : ASTNode → Sem → Bool × Sem
  | .null, s => (true, s)
  | .node .AST_VARDECL token left right, s =>
    check_declaration (.node .AST_VARDECL token left right) s
  | .node .AST_ASSIGN token left right, s =>
    check_assignment (.node .AST_ASSIGN token left right) s
  | .node .AST_IF _ left (.node .AST_ELSE _ then_block else_block), s =>
    let c := check_condition left s
    let t := check_statement then_block c.2
    let e := check_statement else_block t.2
    (c.1 && t.1 && e.1, e.2)
  | .node .AST_IF _ left right, s =>
    let c := check_condition left s
    let t := check_statement right c.2
    (c.1 && t.1, t.2)
  | .node .AST_WHILE _ left right, s =>
    let c := check_condition left s
    let b := check_statement right c.2
    (c.1 && b.1, b.2)
  | .node .AST_FOR _ left right, s =>
    let b := check_statement left s
    let c := check_condition right b.2
    (b.1 && c.1, c.2)
  | .node .AST_PRINT token left right, s =>
    check_print_statement (.node .AST_PRINT token left right) s
  | .node .AST_RETURN token left right, s =>
    check_return_statement (.node .AST_RETURN token left right) s
  | .node .AST_BLOCK _ left right, s =>
    let s1 := s.enter_scope
    let first := if left.is_node then check_statement left s1 else (true, s1)
    let rest := check_block_loop right (if left.is_node then first.1 && true else true) first.2
    (rest.1, rest.2.exit_scope)
  | .node .AST_FUNCTION_DECL token left right, s =>
    let func_name := token.lexeme
    match lookup_symbol_current_scope s.table func_name with
    | some _ =>
      (false, semantic_error .SEM_ERROR_REDECLARED_VARIABLE func_name token.line s)
    | none =>
      let table1 :=
        mark_initialized (add_symbol s.table func_name TokenType.TOKEN_INT.code token.line)
          func_name
      let table2 := add_parameters left (Phase3.enter_scope table1)
      let body := if right.is_node then check_statement right { s with table := table2 }
                  else (true, { s with table := table2 })
      (body.1, body.2.exit_scope)
  | .node .AST_FACTORIAL token left right, s =>
    let e := check_expression (.node .AST_FACTORIAL token left right) s
    (e.1, e.2.2)
  | .node .AST_FUNCTION_CALL token left right, s =>
    let e := check_expression (.node .AST_FUNCTION_CALL token left right) s
    (e.1, e.2.2)
  | .node _ _ _ _, s => (false, s)

/-- The loop `while (current && current->type == AST_BLOCK)` of `check_block`,
with the running value of `valid`. -/
def check_block_loop : ASTNode → Bool → Sem → Bool × Sem
  | .null, valid, s => (valid, s)
  | .node type _ left right, valid, s =>
    if type = .AST_BLOCK then
      let r := if left.is_node then check_statement left s else (true, s)
      check_block_loop right (if left.is_node then r.1 && valid else valid) r.2
    else (valid, s)

end

/-- The function `check_block`. -/
def check_block (node : ASTNode) (s : Sem) : Bool × Sem :=
  match node with
  | .null => (true, s)
  | .node type _ _ _ =>
    if type ≠ .AST_BLOCK then check_statement node s
    else
      let r := check_block_loop node true s.enter_scope
      (r.1, r.2.exit_scope)

/-- The function `check_if_statement`. -/
def check_if_statement (node : ASTNode) (s : Sem) : Bool × Sem :=
  match node with
  | .null => (false, s)
  | .node type _ left right =>
    if type ≠ .AST_IF then (false, s)
    else
      let c := check_condition left s
      match right with
      | .null => (c.1 && true, c.2)
      | .node rtype _ rleft rright =>
        if rtype = .AST_ELSE then
          let t := check_block rleft c.2
          let e := check_block rright t.2
          (c.1 && t.1 && e.1, e.2)
        else
          let t := check_block right c.2
          (c.1 && t.1, t.2)

/-- The function `check_while_statement`. -/
def check_while_statement (node : ASTNode) (s : Sem) : Bool × Sem :=
  match node with
  | .null => (false, s)
  | .node type _ left right =>
    if type ≠ .AST_WHILE then (false, s)
    else
      let c := check_condition left s
      let b := check_block right c.2
      (c.1 && b.1, b.2)

/-- The function `check_repeat_until_statement`. -/
def check_repeat_until_statement (node : ASTNode) (s : Sem) : Bool × Sem :=
  match node with
  | .null => (false, s)
  | .node type _ left right =>
    if type ≠ .AST_FOR then (false, s)
    else
      let b := check_block left s
      let c := check_condition right b.2
      (b.1 && c.1, c.2)

/-- The function `check_function_declaration`. -/
def check_function_declaration (node : ASTNode) (s : Sem) : Bool × Sem :=
  match node with
  | .null => (false, s)
  | .node type token left right =>
    if type ≠ .AST_FUNCTION_DECL then (false, s)
    else
      let func_name := token.lexeme
      match lookup_symbol_current_scope s.table func_name with
      | some _ =>
        (false, semantic_error .SEM_ERROR_REDECLARED_VARIABLE func_name token.line s)
      | none =>
        let table1 :=
          mark_initialized (add_symbol s.table func_name TokenType.TOKEN_INT.code token.line)
            func_name
        let table2 := add_parameters left (Phase3.enter_scope table1)
        let body := if right.is_node then check_block right { s with table := table2 }
                    else (true, { s with table := table2 })
        (body.1, body.2.exit_scope)

/-- The function `check_program`. -/
def check_program : ASTNode → Sem → Bool × Sem
  | .null, s => (true, s)
  | .node type token left right, s =>
    if type ≠ .AST_PROGRAM then check_statement (.node type token left right) s
    else
      let l := if left.is_node then check_statement left s else (true, s)
      let valid1 := if left.is_node then l.1 && true else true
      let r := if right.is_node then check_program right l.2 else (true, l.2)
      (if right.is_node then r.1 && valid1 else valid1, r.2)

/-- The state in which `analyze_semantics` starts: a fresh table, the error
count reset, and the given indeterminate values. -/
def fresh_sem (indeterminate : List Int) : Sem :=
  { table := init_symbol_table, reported := [], indeterminate := indeterminate }

/-- The function `analyze_semantics`: the value it returns, and the state at
the point where it prints the symbol table and the error count. -/
def analyze_semantics (ast : ASTNode) (indeterminate : List Int) : Bool × Sem :=
  let r := check_program ast (fresh_sem indeterminate)
  (r.1 && (r.2.semantic_error_count == 0), r.2)

/-- The parsing steps of `proc_semantic_file` on a source text: `reset_lexer`,
`parser_init`, `parse`.  The result holds the tree and the parser variables
after parsing. -/
def parse_text (n : Nat) (input : List Char) : ParseResult :=
  match parser_init input reset_lexer with
  | .error f => .error f
  | .ok p => parse n p

/-- The pipeline of `proc_semantic_file` on a source text: `reset_lexer`,
`parser_init`, `parse`, `analyze_semantics`.  The result holds the tree, the
parser variables after parsing, and the result of the analysis. -/
def run_pipeline (n : Nat) (input : List Char) (indeterminate : List Int) :
    Except Fault (ASTNode × Parser × Bool × Sem) :=
  match parse_text n input with
  | .error f => .error f
  | .ok (ast, p) => .ok (ast, p, analyze_semantics ast indeterminate)

/-- What a run of `parse_text` shows: the tree, the lexical errors stored by
the lexer, and the parser's error count. -/
def parse_report (n : Nat) (input : List Char) :
    Except Fault (ASTNode × List StoredError × Nat) :=
  match parse_text n input with
  | .error f => .error f
  | .ok (ast, p) => .ok (ast, p.lexer.stored_errors, p.error_count)

/-- What a run of `run_pipeline` shows: the tree, the lexical errors stored by
the lexer, the parser's error count, the value returned by
`analyze_semantics`, the semantic errors it printed and the symbol table it
dumped. -/
def pipeline_report (n : Nat) (input : List Char) (indeterminate : List Int) :
    Except Fault
      (ASTNode × List StoredError × Nat × Bool × List SemanticError × SymbolTable) :=
  match run_pipeline n input indeterminate with
  | .error f => .error f
  | .ok (ast, p, valid, s) =>
    .ok (ast, p.lexer.stored_errors, p.error_count, valid, s.reported, s.table)

/-- The `switch` of `check_statement`, as the source has it. -/
def check_statement_switch (node : ASTNode) (s : Sem) : Bool × Sem :=
  match node.type? with
  | none => (true, s)
  | some .AST_VARDECL => check_declaration node s
  | some .AST_ASSIGN => check_assignment node s
  | some .AST_IF => check_if_statement node s
  | some .AST_WHILE => check_while_statement node s
  | some .AST_FOR => check_repeat_until_statement node s
  | some .AST_PRINT => check_print_statement node s
  | some .AST_RETURN => check_return_statement node s
  | some .AST_BLOCK => check_block node s
  | some .AST_FUNCTION_DECL => check_function_declaration node s
  | some .AST_FACTORIAL => ((check_expression node s).1, (check_expression node s).2.2)
  | some .AST_FUNCTION_CALL => ((check_expression node s).1, (check_expression node s).2.2)
  | some _ => (false, s)

/-- The map from a pointer into a table to the pointer to the same symbol
after one symbol has been put in front of the list. -/
def shift_pointer (p : Nat × Symbol) : Nat × Symbol := (p.1 + 1, p.2)

/-! ## Definitions used to state the theorems -/

/-- A token without lexical error. -/
def plain_token (type : TokenType) (lexeme : List Char) (line column : Nat) : Token :=
  { type := type, lexeme := lexeme, line := line, column := column, error := .ERROR_NONE,
    recovery := .RECOVERY_NONE }

/-- The token of the character `\x7b` at a position. -/
def lbrace_token (line column : Nat) : Token :=
  plain_token .TOKEN_LBRACE [Char.ofNat 123] line column

/-- The tree `parse` builds for `tni x = 1 / 0 ;`: the declaration of `x`
with the literal `1` as initializer. -/
def tree_division : ASTNode :=
  .node .AST_PROGRAM (plain_token .TOKEN_INT "tni".toList 1 1)
    (.node .AST_VARDECL (plain_token .TOKEN_IDENTIFIER ['x'] 1 8) .null
      (.node .AST_NUMBER (plain_token .TOKEN_NUMBER ['1'] 1 11) .null .null))
    .null

/-- The tree `parse` builds for the first block of
`\x7b tni x ; \x7d \x7b tni x ; \x7d`. -/
def tree_first_block : ASTNode :=
  .node .AST_BLOCK (plain_token .TOKEN_INT "tni".toList 1 3)
    (.node .AST_VARDECL (plain_token .TOKEN_IDENTIFIER ['x'] 1 7) .null .null) .null

/-- The tree `parse` builds for `\x7b tni x ; \x7d \x7b tni x ; \x7d`. -/
def tree_sibling_blocks : ASTNode :=
  .node .AST_PROGRAM (lbrace_token 1 1) tree_first_block
    (.node .AST_PROGRAM (lbrace_token 1 12)
      (.node .AST_BLOCK (plain_token .TOKEN_INT "tni".toList 1 14)
        (.node .AST_VARDECL (plain_token .TOKEN_IDENTIFIER ['x'] 1 18) .null .null) .null)
      .null)

/-- The tree `parse` builds for `\x7b tni x ; tni x ; \x7d`. -/
def tree_redeclaration : ASTNode :=
  .node .AST_PROGRAM (lbrace_token 1 1)
    (.node .AST_BLOCK (plain_token .TOKEN_INT "tni".toList 1 3)
      (.node .AST_VARDECL (plain_token .TOKEN_IDENTIFIER ['x'] 1 7) .null .null)
      (.node .AST_BLOCK (plain_token .TOKEN_INT "tni".toList 1 10)
        (.node .AST_VARDECL (plain_token .TOKEN_IDENTIFIER ['x'] 1 14) .null .null) .null))
    .null

/-- The tree of `tni x ; tni y = x ;` for arbitrary tokens: `tx` and `ty`
declare, `tu` is the use of `x` in the initializer of `y`. -/
def tree_uninitialized (tp1 tp2 tx ty tu : Token) : ASTNode :=
  .node .AST_PROGRAM tp1 (.node .AST_VARDECL tx .null .null)
    (.node .AST_PROGRAM tp2
      (.node .AST_VARDECL ty .null (.node .AST_IDENTIFIER tu .null .null)) .null)

/-- The symbol registered by a declaration: an uninitialised `int`. -/
def declared_symbol (name : List Char) (scope_level line : Nat) : Symbol :=
  { name := name, type := TokenType.TOKEN_INT.code, scope_level := scope_level,
    line_declared := line, is_initialized := false }

/-- The order on source positions: line first, then column. -/
def position_le (l1 c1 l2 c2 : Nat) : Prop := l1 < l2 ∨ (l1 = l2 ∧ c1 ≤ c2)

/-- The position held by the lexer variables does not decrease. -/
def Lexer.le (a b : Lexer) : Prop :=
  position_le a.current_line a.current_column b.current_line b.current_column

/-- What a scanning function called with the token `token`, the count `n` and
the variables `lx` may return: the token keeps its position and kind, the
count does not shrink, the position does not move backwards. -/
def scan_ok (token : Token) (n : Nat) (lx : Lexer) (res : Token × Nat × Lexer) : Prop :=
  res.1.line = token.line ∧ res.1.column = token.column ∧ res.1.type = token.type ∧
  n ≤ res.2.1 ∧ lx.le res.2.2

/-- What a successful classification from the variables `lx` returns: a token
at the position held by `lx`, of a kind other than SKIP and EOF, a cursor move
of at least one character, and a position that did not move backwards. -/
def lexed_ok (lx : Lexer) (res : Token × Nat × Lexer) : Prop :=
  res.1.line = lx.current_line ∧ res.1.column = lx.current_column ∧ 1 ≤ res.2.1 ∧
  lx.le res.2.2 ∧ res.1.type ≠ .TOKEN_SKIP ∧ res.1.type ≠ .TOKEN_EOF

/-- The three ways in which `get_next_token_at` returns a token, with `w` the
result of its whitespace loop: at the terminator, an EOF token; in error
recovery, a SKIP token; otherwise the token classified at the first character
that is not whitespace. -/
def lexed_cases (r : List Char) (lx : Lexer) (res : Token × Nat × Lexer) : Prop :=
  (res.1.type = .TOKEN_EOF ∧ res.2.1 = (skip_whitespace r lx).1 ∧
     peek (r.drop (skip_whitespace r lx).1) = NUL) ∨
  (res.1.type = .TOKEN_SKIP ∧ (skip_whitespace r lx).2.in_error_recovery = true ∧
     res.2.1 = (skip_whitespace r lx).1 +
       (skip_until (r.drop (skip_whitespace r lx).1) [';', NEWLINE] (skip_whitespace r lx).2).1 ∧
     res.2.2.in_error_recovery = false ∧ peek (r.drop (skip_whitespace r lx).1) ≠ NUL) ∨
  (res.1.type ≠ .TOKEN_SKIP ∧ res.1.type ≠ .TOKEN_EOF ∧
     (skip_whitespace r lx).1 + 1 ≤ res.2.1 ∧
     (skip_whitespace r lx).2.in_error_recovery = false ∧
     peek (r.drop (skip_whitespace r lx).1) ≠ NUL)

/-- The loop of `print_token_stream` (and of `process_test_file`): call
`get_next_token` on the same cursor until it returns an EOF token, for at
most `k` calls.  The result lists the tokens returned, in order; it stops
short of an EOF token when a call leaves defined behaviour or `k` calls were
not enough. -/
def print_token_stream : Nat → List Char → Nat → Lexer → List Token
  | 0, _, _, _ => []
  | k + 1, input, pos, lx =>
    match get_next_token input pos lx with
    | .error _ => []
    | .ok (token, pos1, lx1) =>
      token :: (if token.type = .TOKEN_EOF then [] else print_token_stream k input pos1 lx1)

/-- The order of two tokens by source position: the second is on a later line,
or on the same line at a column that is not smaller. -/
def token_position_le (a b : Token) : Prop :=
  position_le a.line a.column b.line b.column

/-- A character that `handle_number` may copy into a lexeme: a digit or a
dot. -/
def numeric_char (c : Char) : Bool := isdigit c || c == '.'

/-- The lexer variables after the first call on `@;`. -/
def after_invalid_char : Lexer :=
  { current_line := 1, current_column := 2, last_token_type := 'x', in_error_recovery := true,
    stored_errors := [{ lexeme := ['@'], line := 1, column := 1,
                        error_type := .ERROR_INVALID_CHAR }] }

/-- The result of a call on a suffix, seen from `k` characters further left:
the cursor move grows by `k`. -/
def shift_cursor (k : Nat) (res : Except Fault (Token × Nat × Lexer)) :
    Except Fault (Token × Nat × Lexer) :=
  match res with
  | .ok (token, n, lx) => .ok (token, k + n, lx)
  | .error f => .error f

/-- The lexer variables at the start of the next line, outside error
recovery: what the whitespace loop makes of them when it passes a newline. -/
def next_line (lx : Lexer) : Lexer :=
  { lx with current_line := lx.current_line + 1, current_column := 1,
            in_error_recovery := false }

/-- The token `handle_string` returns for a literal that the end of the line
cuts short. -/
def unterminated_string_token (s : List Char) (lx : Lexer) : Token :=
  { type := .TOKEN_STRING, lexeme := s, line := lx.current_line, column := lx.current_column,
    error := .ERROR_UNTERMINATED_STRING, recovery := .RECOVERY_TO_NEWLINE }

/-- An identifier-shaped name, by the tests of the identifier branch of
`get_next_token`: a letter or underscore, then letters, digits or
underscores. -/
def identifier_shaped : List Char → Bool
  | [] => false
  | c :: l => (isalpha c || c == '_') && l.all (fun x => isalnum x || x == '_')

/-- A non-empty string of digits. -/
def digit_string : List Char → Bool
  | [] => false
  | c :: l => isdigit c && l.all isdigit

/-- The source text `tni n = d ;`. -/
def declaration_text (n d : List Char) : List Char :=
  "tni ".toList ++ n ++ " = ".toList ++ d ++ " ;".toList

/-- The kind, lexeme and lexical error of a token. -/
def token_summary (t : Token) : TokenType × List Char × ErrorType :=
  (t.type, t.lexeme, t.error)

/-- The token stream the spec gives for `tni n = d ;`. -/
def declaration_tokens (n d : List Char) : List (TokenType × List Char × ErrorType) :=
  [(.TOKEN_INT, "tni".toList, .ERROR_NONE), (.TOKEN_IDENTIFIER, n, .ERROR_NONE),
   (.TOKEN_EQUALS, ['='], .ERROR_NONE), (.TOKEN_NUMBER, d, .ERROR_NONE),
   (.TOKEN_SEMICOLON, [';'], .ERROR_NONE), (.TOKEN_EOF, "EOF".toList, .ERROR_NONE)]

/-- The invariant of the spec on a table: no two symbols have both the same
name and the same scope level. -/
def names_unique (table : SymbolTable) : Prop :=
  table.head.Pairwise (fun a b => ¬ (a.name = b.name ∧ a.scope_level = b.scope_level))

/-- The symbol registered for a function or a parameter: an initialised
`int`. -/
def initialized_symbol (name : List Char) (scope_level line : Nat) : Symbol :=
  { name := name, type := TokenType.TOKEN_INT.code, scope_level := scope_level,
    line_declared := line, is_initialized := true }

/-- The tree `parse` builds for `tni f ( tni a , tni a ) \x7b \x7d`: the
declaration of `f` with the chain of its two parameters and an empty body. -/
def tree_duplicate_parameters : ASTNode :=
  .node .AST_PROGRAM (plain_token .TOKEN_INT "tni".toList 1 1)
    (.node .AST_FUNCTION_DECL (plain_token .TOKEN_IDENTIFIER ['f'] 1 5)
      (.node .AST_VARDECL (plain_token .TOKEN_IDENTIFIER ['a'] 1 9) .null
        (.node .AST_VARDECL (plain_token .TOKEN_IDENTIFIER ['a'] 1 13) .null .null))
      (.node .AST_BLOCK (plain_token .TOKEN_EOF "EOF".toList 1 19) .null .null))
    .null

/-- The kind, lexeme, line and column of a token. -/
def token_place (t : Token) : TokenType × List Char × Nat × Nat :=
  (t.type, t.lexeme, t.line, t.column)

/-- The source text of a string literal holding the one escape `\e`. -/
def escaped_string_text (e : Char) : List Char := [DQUOTE, BACKSLASH, e, DQUOTE]

/-- The keyword spellings and kinds listed by the spec. -/
def spec_keywords : List (List Char × TokenType) :=
  [ ("fi".toList, .TOKEN_IF), ("tni".toList, .TOKEN_INT), ("rahc".toList, .TOKEN_CHAR),
    ("diov".toList, .TOKEN_VOID), ("nruter".toList, .TOKEN_RETURN),
    ("elihw".toList, .TOKEN_WHILE), ("esle".toList, .TOKEN_ELSE),
    ("taolf".toList, .TOKEN_FLOAT_KEY), ("tnirp".toList, .TOKEN_PRINT),
    ("taeper".toList, .TOKEN_REPEAT), ("litnu".toList, .TOKEN_UNTIL),
    ("lairotcaf".toList, .TOKEN_FACTORIAL), ("eunitnoc".toList, .TOKEN_CONTINUE),
    ("hctiws".toList, .TOKEN_CONTINUE) ]

/-- An input on which no call of the lexer leaves defined behaviour: it does
not end in a single quote (`handle_char` would read past the terminator), and
it has no run of 100 or more digits and dots (`handle_number` would write past
the lexeme array). -/
def fault_free (input : List Char) : Prop :=
  input.getLast? ≠ some SQUOTE ∧
  ∀ k, ((input.drop k).takeWhile numeric_char).length ≤ 99

/-- The parser variables fit the input: the cursor is inside the buffer, and
when the current token is the EOF token the cursor is on the terminator. -/
def Parser.well_formed (input : List Char) (p : Parser) : Prop :=
  p.source = input ∧ p.position ≤ input.length ∧
  (p.current_token.type = .TOKEN_EOF → peek (input.drop p.position) = NUL)

/-- What is left to parse: nothing when the current token is the EOF token,
otherwise the current token and the characters to the right of the cursor. -/
def Parser.remaining (input : List Char) (p : Parser) : Nat :=
  if p.current_token.type = .TOKEN_EOF then 0 else input.length - p.position + 1

/-- A parsing function returned, with parser variables that fit the input and
at most `m` left to parse. -/
def returns_within (input : List Char) (m : Nat) (r : ParseResult) : Prop :=
  ∃ node p, r = .ok (node, p) ∧ p.well_formed input ∧ p.remaining input ≤ m

/-- A step on the parser variables returned, with parser variables that fit
the input and at most `m` left to parse. -/
def advances_within (input : List Char) (m : Nat) (r : Except Fault Parser) : Prop :=
  ∃ p, r = .ok p ∧ p.well_formed input ∧ p.remaining input ≤ m

/-- The number of fetches `advance` may need from a state: two for each
character to the right of the cursor, one more when the lexer is in error
recovery. -/
def fetch_budget (p : Parser) : Nat :=
  2 * (p.source.length - p.position) + (if p.lexer.in_error_recovery then 1 else 0)

/-- The statements of a block chain, first to last: the left children of the
BLOCK nodes linked through their right children. -/
def block_statements : ASTNode → List ASTNode
  | .null => []
  | .node type _ left right =>
    if type = .AST_BLOCK then
      (if left.is_node then [left] else []) ++ block_statements right
    else []

/-- The statements of a program chain, first to last: the left children of the
PROGRAM nodes linked through their right children, and the node that ends the
chain when it is not a PROGRAM node. -/
def program_statements : ASTNode → List ASTNode
  | .null => []
  | .node type token left right =>
    if type = .AST_PROGRAM then
      (if left.is_node then [left] else []) ++ program_statements right
    else [.node type token left right]

/-- Checking the statements of a list in order with `check_statement`, each in
the state left by its predecessors: the values returned, and the state after
the last one. -/
def check_each : List ASTNode → Sem → List Bool × Sem
  | [], s => ([], s)
  | statement :: rest, s =>
    let r := check_statement statement s
    let q := check_each rest r.2
    (r.1 :: q.1, q.2)

/-- The level at which the grammar places a binary operator token, by kind and
first character: 5 for `*` and `/` (a `*` read as a pointer token counts as
`*`), 4 for `+` and `-`, 3 for the comparison operators `<`, `>`, `==`, `!=`,
`>=`, `<=`, 2 for `&&`, 1 for `||`, and 0 for every other token.  A higher
level binds tighter. -/
def operator_level (t : Token) : Nat :=
  if (t.type = .TOKEN_OPERATOR ∧ (peek t.lexeme = '*' ∨ peek t.lexeme = '/')) ∨
      t.type = .TOKEN_POINTER then 5
  else if t.type = .TOKEN_OPERATOR ∧ (peek t.lexeme = '+' ∨ peek t.lexeme = '-') then 4
  else if (t.type = .TOKEN_OPERATOR ∧ (peek t.lexeme = '<' ∨ peek t.lexeme = '>')) ∨
      t.type = .TOKEN_EQUALS_EQUALS ∨ t.type = .TOKEN_NOT_EQUALS ∨
      t.type = .TOKEN_GREATER_EQUALS ∨ t.type = .TOKEN_LESS_EQUALS then 3
  else if t.type = .TOKEN_LOGICAL_AND then 2
  else if t.type = .TOKEN_LOGICAL_OR then 1
  else 0

/-- A token behind an operand that ends the expression: no operator token of
any kind, and not `(`. -/
def ends_expression (t : Token) : Bool :=
  t.type ≠ .TOKEN_OPERATOR ∧ t.type ≠ .TOKEN_POINTER ∧ t.type ≠ .TOKEN_EQUALS_EQUALS ∧
  t.type ≠ .TOKEN_NOT_EQUALS ∧ t.type ≠ .TOKEN_GREATER_EQUALS ∧
  t.type ≠ .TOKEN_LESS_EQUALS ∧ t.type ≠ .TOKEN_LOGICAL_AND ∧
  t.type ≠ .TOKEN_LOGICAL_OR ∧ t.type ≠ .TOKEN_LPAREN

/-- The node of an identifier operand. -/
def identifier_node (t : Token) : ASTNode := .node .AST_IDENTIFIER t .null .null

/-- The binary-operation node built for an operator token and two operands. -/
def binop_node (t : Token) (left right : ASTNode) : ASTNode :=
  .node .AST_BINOP (multiplicative_token t) left right

/-- The expression rule of a level: 1 for `parse_logical_or_expression` up to 5
for `parse_multiplicative_expression`, and `parse_primary_expression` above. -/
def expression_rule (k : Nat) : Nat → Parser → ParseResult :=
  match k with
  | 1 => parse_logical_or_expression
  | 2 => parse_logical_and_expression
  | 3 => parse_comparison_expression
  | 4 => parse_additive_expression
  | 5 => parse_multiplicative_expression
  | _ => parse_primary_expression

/-- The `while` loop of the expression rule of a level. -/
def expression_loop (k : Nat) : Nat → ASTNode → Parser → ParseResult :=
  match k with
  | 1 => parse_logical_or_loop
  | 2 => parse_logical_and_loop
  | 3 => parse_comparison_loop
  | 4 => parse_additive_loop
  | 5 => parse_multiplicative_loop
  | _ => fun _ left p => pure (left, p)

/-- The condition of the `while` loop of the expression rule of a level. -/
def loop_condition (k : Nat) (p : Parser) : Bool :=
  match k with
  | 1 => match_token .TOKEN_LOGICAL_OR p
  | 2 => match_token .TOKEN_LOGICAL_AND p
  | 3 => is_comparison p
  | 4 => is_additive p
  | 5 => is_multiplicative p
  | _ => false

/-- The parser variables after `k` calls of `advance`. -/
def advance_times : Nat → Parser → Except Fault Parser
  | 0, p => .ok p
  | k + 1, p => advance p >>= advance_times k

/-- The parser variables after `parser_init` on a text, from a reset lexer,
and `k` further calls of `advance` (the variables before `parser_init` when
one of the calls does not return). -/
def parser_after (input : List Char) (k : Nat) : Parser :=
  match parser_init input reset_lexer >>= advance_times k with
  | .ok p => p
  | .error _ =>
    { source := input, position := 0, current_token := zero_token,
      error_reporting_enabled := true, last_reported_line := 0, last_reported_column := 0,
      error_count := 0, reported := [], lexer := reset_lexer }

/-- What a check that returned `r` from the state `s` has kept: the scope
counter is the one of `s`, and when the check succeeded the messages printed
are those of `s`. -/
def check_kept (r : Bool × Sem) (s : Sem) : Prop :=
  r.2.table.current_scope = s.table.current_scope ∧ (r.1 = true → r.2.reported = s.reported)

/-- The tokens at which the loop of `synchronize` stops: EOF, `;`, `\x7d`, and
the tokens that start a statement. -/
def stops_synchronize (p : Parser) : Bool :=
  match_token .TOKEN_EOF p || match_token .TOKEN_SEMICOLON p ||
  match_token .TOKEN_RBRACE p || is_statement_start p

/-- A result is kept: whenever the first run returns, the second returns the
same. -/
def result_kept {α : Type} (x y : Except Fault α) : Prop := ∀ r, x = .ok r → y = .ok r

/-- The nodes of a chain linked through the right children, first to last:
the kind, the token and the left child of each. -/
def chain_nodes : ASTNode → List (ASTNodeType × Token × ASTNode)
  | .null => []
  | .node type token left right => (type, token, left) :: chain_nodes right

/-- The chain `parse_function_declaration` builds for the parameters named by
the given tokens: one VARDECL node for each, linked through the right
children. -/
def parameter_nodes : List Token → ASTNode
  | [] => .null
  | t :: rest => .node .AST_VARDECL t .null (parameter_nodes rest)

/-- The tokens from the current one of `p` on are a parameter list
`T1 p1 , ... , Tk pk` closed by a right parenthesis: each `T` is a parameter
type, each name is an identifier whose token is the corresponding entry of the
list, a comma stands between two parameters, and `q` holds the parser
variables when the right parenthesis is the current token. -/
def reads_parameters : Parser → List Token → Parser → Prop
  | _, [], _ => False
  | p, [t], q =>
    is_parameter_type p = true ∧
    ∃ p1, advance p = .ok p1 ∧ match_token .TOKEN_IDENTIFIER p1 = true ∧
      p1.current_token = t ∧ advance p1 = .ok q ∧ match_token .TOKEN_RPAREN q = true
  | p, t :: t1 :: rest, q =>
    is_parameter_type p = true ∧
    ∃ p1 p2 p3, advance p = .ok p1 ∧ match_token .TOKEN_IDENTIFIER p1 = true ∧
      p1.current_token = t ∧ advance p1 = .ok p2 ∧ match_token .TOKEN_COMMA p2 = true ∧
      advance p2 = .ok p3 ∧ reads_parameters p3 (t1 :: rest) q

/-- The chain `parse_block` builds for a run of statements: one BLOCK node for
each, carrying the token that was current when the node was created (`token`
for the first node, the token following a statement for the next node), with
the statement as the left child. -/
def block_nodes : Token → List (ASTNode × Parser) → ASTNode
  | _, [] => .null
  | token, (statement, p1) :: rest =>
    .node .AST_BLOCK token statement (block_nodes p1.current_token rest)

/-- The tokens from the current one of `p` on are a run of statements closed
by a right brace: each entry of the list holds the tree `parse_statement`
returns with budget `n` and the parser variables it leaves, no statement
starts at a right brace or at the end of the text, and `q` holds the parser
variables when the right brace is the current token. -/
def reads_statements (n : Nat) : Parser → List (ASTNode × Parser) → Parser → Prop
  | p, [], q => p = q ∧ match_token .TOKEN_RBRACE q = true
  | p, (statement, p1) :: rest, q =>
    match_token .TOKEN_RBRACE p = false ∧ match_token .TOKEN_EOF p = false ∧
    parse_statement n p = .ok (statement, p1) ∧ reads_statements n p1 rest q

/-! ## Theorems -/

/-- C1 (lexer totality), at the input consisting of a lone single quote: the
first call of `get_next_token` from a reset lexer does not return a token.
`handle_char` stores the terminator as the literal's character, moves the
cursor past it, and reads outside the string. -/
theorem lone_quote_reads_past_terminator :
    get_next_token [SQUOTE] 0 reset_lexer = .error .read_past_terminator := by
  decide!

/-! ## The statement checks under their own names

`check_statement` was written with the per-kind bodies in place; these lemmas
tie it to the functions of the source. -/

/-- The function `check_block` does on every node what `check_statement`
does. -/
theorem check_block_eq (node : ASTNode) (s : Sem) :
    check_block node s = check_statement node s := by
  cases node with
  | null => rfl
  | node type token left right =>
    by_cases h : type = .AST_BLOCK
    · subst h
      simp [check_block, check_statement, check_block_loop]
    · simp [check_block, h]

/-- The recursion `check_statement` is the `switch` of the source over the
per-kind functions. -/
theorem check_statement_dispatch (node : ASTNode) (s : Sem) :
    check_statement node s = check_statement_switch node s := by
  cases node with
  | null => rfl
  | node type token left right =>
    cases type <;>
      simp [check_statement_switch, ASTNode.type?, check_statement, check_block_eq,
        check_while_statement, check_repeat_until_statement, check_function_declaration]
    cases right with
    | null => simp [check_statement, check_if_statement]
    | node rtype rtoken rleft rright =>
      by_cases h : rtype = .AST_ELSE
      · subst h
        simp [check_statement, check_if_statement, check_block_eq]
      · cases rtype <;> simp_all [check_statement, check_if_statement, check_block_eq]

/-- The function `check_factorial` is the factorial case of
`check_expression`. -/
theorem check_expression_factorial (token : Token) (left right : ASTNode) (s : Sem) :
    ((check_expression (.node .AST_FACTORIAL token left right) s).1,
     (check_expression (.node .AST_FACTORIAL token left right) s).2.2) =
      check_factorial (.node .AST_FACTORIAL token left right) s := by
  simp only [check_expression, check_factorial]
  split_ifs <;> simp_all

/-! ## The symbol table -/

theorem lookup_symbol_loop_full (cs : Nat) (name : List Char) (l : List Symbol) (index : Nat)
    (found : Option (Nat × Symbol)) :
    lookup_symbol_loop cs name l index found (cs : Int) = found := by
  induction l generalizing index with
  | nil => rfl
  | cons current next ih =>
    unfold lookup_symbol_loop
    by_cases h : current.name = name ∧ current.scope_level ≤ cs
    · have h2 : ¬ ((current.scope_level : Int) > (cs : Int)) := by
        have := h.2
        omega
      simp [h, h2, ih]
    · simp [h, ih]

theorem lookup_symbol_loop_shift (cs : Nat) (name : List Char) (l : List Symbol) (index : Nat)
    (found : Option (Nat × Symbol)) (m : Int) :
    lookup_symbol_loop cs name l (index + 1) (found.map shift_pointer) m =
      (lookup_symbol_loop cs name l index found m).map shift_pointer := by
  induction l generalizing index found m with
  | nil => rfl
  | cons current next ih =>
    unfold lookup_symbol_loop
    by_cases h : current.name = name ∧ current.scope_level ≤ cs
    · by_cases h2 : (current.scope_level : Int) > m
      · have := ih (index + 1) (some (index, current)) (current.scope_level : Int)
        simpa [h, h2, shift_pointer] using this
      · simp [h, h2, ih]
    · simp [h, ih]

theorem lookup_symbol_loop_finds (cs : Nat) (name : List Char) (l : List Symbol) (index : Nat)
    (found : Option (Nat × Symbol)) (m : Int)
    (hinv : (found = none ∧ m = -1) ∨
      ∃ p, found = some p ∧ p.2.name = name ∧ (p.2.scope_level : Int) = m ∧ p.2.scope_level ≤ cs)
    (hex : (∃ s ∈ l, s.name = name ∧ s.scope_level = cs) ∨ (found.isSome ∧ m = cs)) :
    ∃ i sym, lookup_symbol_loop cs name l index found m = some (i, sym) ∧
      sym.name = name ∧ sym.scope_level = cs := by
  induction l generalizing index found m with
  | nil =>
    rcases hex with ⟨s, hs, _⟩ | ⟨hsome, hm⟩
    · simp at hs
    · rcases hinv with ⟨hnone, _⟩ | ⟨p, hp, hname, hscope, _⟩
      · simp [hnone] at hsome
      · refine ⟨p.1, p.2, ?_, hname, ?_⟩
        · simp [lookup_symbol_loop, hp]
        · omega
  | cons current next ih =>
    unfold lookup_symbol_loop
    by_cases h : current.name = name ∧ current.scope_level ≤ cs
    · by_cases h2 : (current.scope_level : Int) > m
      · simp only [h, h2, and_self, if_true]
        apply ih
        · exact Or.inr ⟨(index, current), rfl, h.1, rfl, h.2⟩
        · rcases hex with ⟨s, hs, hsn, hsc⟩ | ⟨hsome, hm⟩
          · rcases List.mem_cons.mp hs with heq | hmem
            · subst heq
              exact Or.inr ⟨rfl, by omega⟩
            · exact Or.inl ⟨s, hmem, hsn, hsc⟩
          · have := h.2
            omega
      · simp only [h, h2, and_self, if_true, if_false]
        apply ih
        · exact hinv
        · rcases hex with ⟨s, hs, hsn, hsc⟩ | ⟨hsome, hm⟩
          · rcases List.mem_cons.mp hs with heq | hmem
            · subst heq
              rcases hinv with ⟨_, hm1⟩ | ⟨p, hp, _, hscope, hle⟩
              · omega
              · refine Or.inr ⟨by simp [hp], ?_⟩
                omega
            · exact Or.inl ⟨s, hmem, hsn, hsc⟩
          · exact Or.inr ⟨hsome, hm⟩
    · simp only [h, if_false]
      apply ih
      · exact hinv
      · rcases hex with ⟨s, hs, hsn, hsc⟩ | ⟨hsome, hm⟩
        · rcases List.mem_cons.mp hs with heq | hmem
          · subst heq
            exact absurd ⟨hsn, by omega⟩ h
          · exact Or.inl ⟨s, hmem, hsn, hsc⟩
        · exact Or.inr ⟨hsome, hm⟩

/-- C3 (scope shadowing): in a table that holds a symbol named `n` at the
current scope level, after `enter_scope` and `add_symbol(n)` the lookup of `n`
returns the symbol just added (the head of the list, at the inner scope
level); after the matching `exit_scope` it returns the symbol that it returned
before the scope was entered, which is a symbol named `n` of the outer scope
level (one position further from the head, the inner symbol still being in
the list). -/
theorem scope_shadowing (t : SymbolTable) (n : List Char) (type : Int) (line : Nat)
    (h : ∃ s ∈ t.head, s.name = n ∧ s.scope_level = t.current_scope) :
    lookup_symbol (add_symbol (enter_scope t) n type line) n =
        some (0, { name := n, type := type, scope_level := t.current_scope + 1,
                   line_declared := line, is_initialized := false }) ∧
    ∃ i outer, lookup_symbol t n = some (i, outer) ∧ outer.name = n ∧
      outer.scope_level = t.current_scope ∧
      lookup_symbol (exit_scope (add_symbol (enter_scope t) n type line)) n =
        some (i + 1, outer) := by
  constructor
  · simp only [lookup_symbol, add_symbol, enter_scope]
    unfold lookup_symbol_loop
    have h1 : ((t.current_scope + 1 : Nat) : Int) > -1 := by omega
    simp only [true_and, le_refl, h1, if_true]
    exact lookup_symbol_loop_full _ _ _ _ _
  · obtain ⟨i, outer, hlook, hname, hscope⟩ :=
      lookup_symbol_loop_finds t.current_scope n t.head 0 none (-1) (Or.inl ⟨rfl, rfl⟩)
        (Or.inl h)
    refine ⟨i, outer, hlook, hname, hscope, ?_⟩
    have hexit : exit_scope (add_symbol (enter_scope t) n type line) =
        { head := { name := n, type := type, scope_level := t.current_scope + 1,
                    line_declared := line, is_initialized := false } :: t.head,
          current_scope := t.current_scope } := by
      simp [exit_scope, add_symbol, enter_scope]
    rw [hexit]
    simp only [lookup_symbol]
    unfold lookup_symbol_loop
    have h2 : ¬ (t.current_scope + 1 ≤ t.current_scope) := by omega
    simp only [h2, and_false, if_false]
    have hshift : lookup_symbol_loop t.current_scope n t.head (0 + 1) none (-1) =
        (lookup_symbol_loop t.current_scope n t.head 0 none (-1)).map shift_pointer :=
      lookup_symbol_loop_shift t.current_scope n t.head 0 none (-1)
    rw [hshift, hlook]
    rfl

/-- C3, at a table holding `x` at scope level 0. -/
theorem scope_shadowing_witness :
    (∃ s ∈ ([{ name := ['x'], type := 26, scope_level := 0, line_declared := 1,
               is_initialized := true }] : List Symbol),
        s.name = ['x'] ∧ s.scope_level = 0) ∧
    (lookup_symbol (add_symbol (enter_scope
        { head := [{ name := ['x'], type := 26, scope_level := 0, line_declared := 1,
                     is_initialized := true }], current_scope := 0 }) ['x'] 26 2) ['x'] =
        some (0, { name := ['x'], type := 26, scope_level := 0 + 1,
                   line_declared := 2, is_initialized := false }) ∧
    ∃ i outer, lookup_symbol
        { head := [{ name := ['x'], type := 26, scope_level := 0, line_declared := 1,
                     is_initialized := true }], current_scope := 0 } ['x'] = some (i, outer) ∧
      outer.name = ['x'] ∧ outer.scope_level = 0 ∧
      lookup_symbol (exit_scope (add_symbol (enter_scope
        { head := [{ name := ['x'], type := 26, scope_level := 0, line_declared := 1,
                     is_initialized := true }], current_scope := 0 }) ['x'] 26 2)) ['x'] =
        some (i + 1, outer)) :=
  ⟨⟨_, List.mem_cons_self _ _, rfl, rfl⟩,
   scope_shadowing
     { head := [{ name := ['x'], type := 26, scope_level := 0, line_declared := 1,
                  is_initialized := true }], current_scope := 0 } ['x'] 26 2
     ⟨_, List.mem_cons_self _ _, rfl, rfl⟩⟩


/-! ## The pipeline on sample texts -/

/-- The report of the pipeline, from the report of its parsing steps. -/
theorem pipeline_report_of_parse_report (n : Nat) (input : List Char) (ast : ASTNode)
    (errors : List StoredError) (count : Nat)
    (h : parse_report n input = .ok (ast, errors, count)) (indeterminate : List Int) :
    pipeline_report n input indeterminate =
      .ok (ast, errors, count, (analyze_semantics ast indeterminate).1,
           (analyze_semantics ast indeterminate).2.reported,
           (analyze_semantics ast indeterminate).2.table) := by
  unfold pipeline_report run_pipeline
  unfold parse_report at h
  cases hp : parse_text n input with
  | error f => rw [hp] at h; cases h
  | ok r =>
    obtain ⟨a, p⟩ := r
    rw [hp] at h
    simp only [Except.ok.injEq, Prod.mk.injEq] at h
    obtain ⟨h1, h2, h3⟩ := h
    subst h1 h2 h3
    rfl

/-- C2 (end-to-end division by zero), on the source text `tni x = 1 / 0 ;`:
the pipeline runs to the end, the lexer stores one CONSECUTIVE_OPERATORS error
for the `/` (the previous-token class is still that of `=`, the number not
having changed it) and skips to the semicolon, the tree is that of
`tni x = 1 ;`, no semantic error is recorded, `analyze_semantics` returns
success, and the initializer of `x` checks with result type int. -/
theorem division_by_zero_is_not_reported (indeterminate : List Int) :
    pipeline_report 16 "tni x = 1 / 0 ;".toList indeterminate =
      .ok (tree_division,
           [{ lexeme := ['/'], line := 1, column := 13,
              error_type := .ERROR_CONSECUTIVE_OPERATORS }],
           0, true, [],
           { head := [{ declared_symbol ['x'] 0 1 with is_initialized := true }],
             current_scope := 0 }) ∧
    ∀ s : Sem,
      check_expression (.node .AST_NUMBER (plain_token .TOKEN_NUMBER ['1'] 1 11) .null .null) s
        = (true, some TokenType.TOKEN_INT.code, s) :=
  ⟨pipeline_report_of_parse_report 16 "tni x = 1 / 0 ;".toList _ _ _ (by decide!)
     indeterminate,
   fun _ => rfl⟩

/-- C4 (scope exit drops symbols), on the block `\x7b tni x ; \x7d` and on the
text `\x7b tni x ; \x7d \x7b tni x ; \x7d`: after `check_block` has returned
from the block, the symbol `x` of scope level 1, the scope just exited, is
still in the table; the declaration in the second sibling block is then
reported as a redeclaration. -/
theorem check_block_keeps_exited_symbols (indeterminate : List Int) :
    check_block tree_first_block (fresh_sem indeterminate) =
      (true, { table := { head := [declared_symbol ['x'] 1 1], current_scope := 0 },
               reported := [], indeterminate := indeterminate }) ∧
    pipeline_report 16 "\x7b tni x ; \x7d \x7b tni x ; \x7d".toList indeterminate =
      .ok (tree_sibling_blocks, [], 0, false,
           [{ error := .SEM_ERROR_REDECLARED_VARIABLE, name := ['x'], line := 1 }],
           { head := [declared_symbol ['x'] 1 1], current_scope := 0 }) :=
  ⟨rfl,
   pipeline_report_of_parse_report 16 "\x7b tni x ; \x7d \x7b tni x ; \x7d".toList _ _ _
     (by decide!) indeterminate⟩

/-- The function `lookup_symbol_current_scope` finds a symbol when the list
holds one of that name at the current scope level. -/
theorem lookup_symbol_current_scope_loop_isSome (cs : Nat) (name : List Char)
    (l : List Symbol) (index : Nat)
    (h : ∃ s ∈ l, s.name = name ∧ s.scope_level = cs) :
    ∃ p, lookup_symbol_current_scope_loop cs name l index = some p := by
  induction l generalizing index with
  | nil => simp at h
  | cons current next ih =>
    unfold lookup_symbol_current_scope_loop
    by_cases hc : current.name = name ∧ current.scope_level = cs
    · exact ⟨(index, current), by simp [hc]⟩
    · obtain ⟨s, hs, hsn, hsc⟩ := h
      rcases List.mem_cons.mp hs with heq | hmem
      · subst heq
        exact absurd ⟨hsn, hsc⟩ hc
      · simp only [hc, if_false]
        exact ih (index + 1) ⟨s, hmem, hsn, hsc⟩

/-- C5 (redeclaration): when the table holds a symbol of the declared name at
the current scope level, `check_declaration` returns failure, appends exactly
one REDECLARED_VARIABLE error (for that name, at the line of the declaration's
token) to the errors recorded so far, and changes nothing else: the symbol
table is the same.  And the pipeline on `\x7b tni x ; tni x ; \x7d` records
exactly one semantic error, the redeclaration of `x`. -/
theorem redeclaration_one_error (token : Token) (left right : ASTNode) (s : Sem)
    (indeterminate : List Int)
    (h : ∃ sym ∈ s.table.head, sym.name = token.lexeme ∧
          sym.scope_level = s.table.current_scope) :
    check_declaration (.node .AST_VARDECL token left right) s =
      (false, { s with reported := s.reported ++
          [{ error := .SEM_ERROR_REDECLARED_VARIABLE, name := token.lexeme,
             line := token.line }] }) ∧
    pipeline_report 16 "\x7b tni x ; tni x ; \x7d".toList indeterminate =
      .ok (tree_redeclaration, [], 0, false,
           [{ error := .SEM_ERROR_REDECLARED_VARIABLE, name := ['x'], line := 1 }],
           { head := [declared_symbol ['x'] 1 1], current_scope := 0 }) := by
  refine ⟨?_, pipeline_report_of_parse_report 16 "\x7b tni x ; tni x ; \x7d".toList _ _ _
     (by decide!) indeterminate⟩
  obtain ⟨p, hp⟩ := lookup_symbol_current_scope_loop_isSome _ _ _ 0 h
  simp only [check_declaration, lookup_symbol_current_scope, hp, semantic_error]
  simp

/-- C5, at a table holding `x` at the current scope level 0 and a second
declaration of `x` on line 2. -/
theorem redeclaration_one_error_witness :
    (∃ sym ∈ [declared_symbol ['x'] 0 1],
        sym.name = (plain_token .TOKEN_IDENTIFIER ['x'] 2 5).lexeme ∧ sym.scope_level = 0) ∧
    (check_declaration
        (.node .AST_VARDECL (plain_token .TOKEN_IDENTIFIER ['x'] 2 5) .null .null)
        { table := { head := [declared_symbol ['x'] 0 1], current_scope := 0 },
          reported := [], indeterminate := [] } =
      (false, { table := { head := [declared_symbol ['x'] 0 1], current_scope := 0 },
                reported := [] ++ [{ error := .SEM_ERROR_REDECLARED_VARIABLE,
                                     name := (plain_token .TOKEN_IDENTIFIER ['x'] 2 5).lexeme,
                                     line := (plain_token .TOKEN_IDENTIFIER ['x'] 2 5).line }],
                indeterminate := [] }) ∧
     pipeline_report 16 "\x7b tni x ; tni x ; \x7d".toList [] =
      .ok (tree_redeclaration, [], 0, false,
           [{ error := .SEM_ERROR_REDECLARED_VARIABLE, name := ['x'], line := 1 }],
           { head := [declared_symbol ['x'] 1 1], current_scope := 0 })) :=
  ⟨⟨_, List.mem_cons_self _ _, rfl, rfl⟩,
   redeclaration_one_error (plain_token .TOKEN_IDENTIFIER ['x'] 2 5) .null .null
     { table := { head := [declared_symbol ['x'] 0 1], current_scope := 0 },
       reported := [], indeterminate := [] } []
     ⟨_, List.mem_cons_self _ _, rfl, rfl⟩⟩

/-- C6 (uninitialized use): for tokens `tx`, `ty` declaring two distinct names
and a token `tu` using the first name, the analysis of `tni x ; tni y = x ;`
from a fresh table records exactly one semantic error, of kind
UNINITIALIZED_VARIABLE, naming `x` with the line of `tu`; it returns failure;
afterwards `lookup_symbol` finds the symbol of `y`, which is not initialized.
And the pipeline on the text `tni x ; tni y = x ;` gives that tree and that
one error. -/
theorem uninitialized_use (tp1 tp2 tx ty tu : Token) (indeterminate : List Int)
    (hxy : tx.lexeme ≠ ty.lexeme) (hu : tu.lexeme = tx.lexeme) :
    analyze_semantics (tree_uninitialized tp1 tp2 tx ty tu) indeterminate =
      (false,
       { table := { head := [declared_symbol ty.lexeme 0 ty.line,
                             declared_symbol tx.lexeme 0 tx.line],
                    current_scope := 0 },
         reported := [{ error := .SEM_ERROR_UNINITIALIZED_VARIABLE, name := tx.lexeme,
                        line := tu.line }],
         indeterminate := indeterminate }) ∧
    lookup_symbol (analyze_semantics (tree_uninitialized tp1 tp2 tx ty tu) indeterminate).2.table
        ty.lexeme = some (0, declared_symbol ty.lexeme 0 ty.line) ∧
    pipeline_report 16 "tni x ; tni y = x ;".toList indeterminate =
      .ok (tree_uninitialized (plain_token .TOKEN_INT "tni".toList 1 1)
             (plain_token .TOKEN_INT "tni".toList 1 11)
             (plain_token .TOKEN_IDENTIFIER ['x'] 1 8)
             (plain_token .TOKEN_IDENTIFIER ['y'] 1 18)
             (plain_token .TOKEN_IDENTIFIER ['x'] 1 21),
           [], 0, false,
           [{ error := .SEM_ERROR_UNINITIALIZED_VARIABLE, name := ['x'], line := 1 }],
           { head := [declared_symbol ['y'] 0 1, declared_symbol ['x'] 0 1],
             current_scope := 0 }) := by
  have h1 : analyze_semantics (tree_uninitialized tp1 tp2 tx ty tu) indeterminate =
      (false,
       { table := { head := [declared_symbol ty.lexeme 0 ty.line,
                             declared_symbol tx.lexeme 0 tx.line],
                    current_scope := 0 },
         reported := [{ error := .SEM_ERROR_UNINITIALIZED_VARIABLE, name := tx.lexeme,
                        line := tu.line }],
         indeterminate := indeterminate }) := by
    simp [tree_uninitialized, declared_symbol, analyze_semantics, check_program,
      check_statement, check_declaration, fresh_sem,
      init_symbol_table, lookup_symbol_current_scope, lookup_symbol_current_scope_loop,
      add_symbol, ASTNode.is_node, check_expression, lookup_symbol, lookup_symbol_loop,
      hxy, hu, Ne.symm hxy, semantic_error, Sem.semantic_error_count]
  refine ⟨h1, ?_, pipeline_report_of_parse_report 16 "tni x ; tni y = x ;".toList _ _ _
     (by decide!) indeterminate⟩
  rw [h1]
  simp [lookup_symbol, lookup_symbol_loop, declared_symbol]

/-- C6, at the tokens of `tni x ;` on line 1 and `tni y = x ;` on line 2. -/
theorem uninitialized_use_witness :
    (plain_token .TOKEN_IDENTIFIER ['x'] 1 5).lexeme ≠
      (plain_token .TOKEN_IDENTIFIER ['y'] 2 5).lexeme ∧
    (plain_token .TOKEN_IDENTIFIER ['x'] 2 9).lexeme =
      (plain_token .TOKEN_IDENTIFIER ['x'] 1 5).lexeme ∧
    (analyze_semantics
        (tree_uninitialized (plain_token .TOKEN_INT "tni".toList 1 1)
          (plain_token .TOKEN_INT "tni".toList 2 1) (plain_token .TOKEN_IDENTIFIER ['x'] 1 5)
          (plain_token .TOKEN_IDENTIFIER ['y'] 2 5) (plain_token .TOKEN_IDENTIFIER ['x'] 2 9))
        []).2.reported =
      [{ error := .SEM_ERROR_UNINITIALIZED_VARIABLE, name := ['x'], line := 2 }] :=
  ⟨by decide, rfl,
   congrArg (fun r => r.2.reported)
     (uninitialized_use (plain_token .TOKEN_INT "tni".toList 1 1)
        (plain_token .TOKEN_INT "tni".toList 2 1) (plain_token .TOKEN_IDENTIFIER ['x'] 1 5)
        (plain_token .TOKEN_IDENTIFIER ['y'] 2 5) (plain_token .TOKEN_IDENTIFIER ['x'] 2 9)
        [] (by decide) rfl).1⟩

theorem Lexer.le_refl (a : Lexer) : a.le a := Or.inr ⟨rfl, Nat.le_refl _⟩

theorem Lexer.le_trans {a b c : Lexer} (h1 : a.le b) (h2 : b.le c) : a.le c := by
  unfold Lexer.le position_le at *
  omega

theorem skip_until_le (r delims : List Char) (lx : Lexer) :
    lx.le (skip_until r delims lx).2 := by
  induction r generalizing lx with
  | nil => exact Lexer.le_refl _
  | cons c rest ih =>
    unfold skip_until
    split_ifs with h1 h2
    · refine Lexer.le_trans ?_ (ih _)
      exact Or.inl (Nat.lt_succ_self _)
    · refine Lexer.le_trans ?_ (ih _)
      exact Or.inr ⟨rfl, Nat.le_succ _⟩
    · exact Lexer.le_refl _

theorem skip_whitespace_le (r : List Char) (lx : Lexer) :
    lx.le (skip_whitespace r lx).2 := by
  induction r generalizing lx with
  | nil => exact Lexer.le_refl _
  | cons c rest ih =>
    unfold skip_whitespace
    split_ifs with h1 h2
    · refine Lexer.le_trans ?_ (ih _)
      exact Or.inl (Nat.lt_succ_self _)
    · refine Lexer.le_trans ?_ (ih _)
      exact Or.inr ⟨rfl, Nat.le_succ _⟩
    · exact Lexer.le_refl _

theorem advance_position_le (lx : Lexer) : lx.le (advance_position lx) :=
  Or.inr ⟨rfl, Nat.le_succ _⟩

theorem scan_ok_step {token token1 : Token} {n n1 : Nat} {lx lx1 : Lexer}
    {res : Token × Nat × Lexer} (h : scan_ok token1 n1 lx1 res)
    (hl : token1.line = token.line) (hc : token1.column = token.column)
    (ht : token1.type = token.type) (hn : n ≤ n1) (hle : lx.le lx1) :
    scan_ok token n lx res :=
  ⟨h.1.trans hl, h.2.1.trans hc, h.2.2.1.trans ht, Nat.le_trans hn h.2.2.2.1,
   Lexer.le_trans hle h.2.2.2.2⟩

theorem scan_ok_mk {token tok : Token} {n m : Nat} {lx lx1 : Lexer}
    (hl : tok.line = token.line) (hc : tok.column = token.column)
    (ht : tok.type = token.type) (hn : n ≤ m) (hle : lx.le lx1) :
    scan_ok token n lx (tok, m, lx1) :=
  ⟨hl, hc, ht, hn, hle⟩

theorem handle_string_loop_spec (r : List Char) (token : Token) (i n : Nat) (lx : Lexer) :
    scan_ok token n lx (handle_string_loop r token i n lx) := by
  induction r, token, i, n, lx using handle_string_loop.induct with
  | case1 token i n lx =>
    rw [handle_string_loop]
    exact scan_ok_mk rfl rfl rfl (Nat.le_refl _) (Lexer.le_refl _)
  | case2 c rest token i n lx h1 h2 =>
    rw [handle_string_loop, if_pos h1, if_pos h2]
    exact scan_ok_mk rfl rfl rfl (Nat.le_add_right _ _) (skip_until_le _ _ _)
  | case3 token i n lx h1 h2 =>
    rw [handle_string_loop, if_pos h2, if_neg h1, if_pos rfl]
    exact scan_ok_mk rfl rfl rfl (Nat.le_add_right _ _) (advance_position_le _)
  | case4 token i n lx h1 c tail h2 h3 =>
    rw [handle_string_loop, if_pos h3, if_neg h1, if_pos rfl]
    simp only [if_pos h2]
    exact scan_ok_mk rfl rfl rfl (by omega)
      (Lexer.le_trans (advance_position_le _) (skip_until_le _ _ _))
  | case5 token i n lx h1 lx1 c tail h2 h3 ih =>
    rw [handle_string_loop, if_pos h3, if_neg h1, if_pos rfl]
    simp only [if_neg h2]
    exact scan_ok_step ih rfl rfl rfl (by omega)
      (Lexer.le_trans (advance_position_le _) (advance_position_le _))
  | case6 c rest token i n lx h1 h2 h3 ih =>
    rw [handle_string_loop, if_pos h1, if_neg h2, if_neg h3]
    exact scan_ok_step ih rfl rfl rfl (by omega) (advance_position_le _)
  | case7 c rest token i n lx h1 h2 =>
    rw [handle_string_loop, if_neg h1, if_pos h2]
    exact scan_ok_mk rfl rfl rfl (Nat.le_refl _) (Lexer.le_refl _)
  | case8 c rest token i n lx h1 h2 =>
    rw [handle_string_loop, if_neg h1, if_neg h2]
    exact scan_ok_mk rfl rfl rfl (Nat.le_succ _) (advance_position_le _)

theorem handle_comment_loop_spec (r : List Char) (token : Token) (i n : Nat) (lx : Lexer) :
    scan_ok token n lx (handle_comment_loop r token i n lx) := by
  induction r, token, i, n, lx using handle_comment_loop.induct with
  | case1 token i n lx =>
    rw [handle_comment_loop]
    exact scan_ok_mk rfl rfl rfl (Nat.le_refl _) (Lexer.le_refl _)
  | case2 c rest token i n lx h1 h2 ih =>
    rw [handle_comment_loop, if_pos h1, if_pos h2]
    exact scan_ok_step ih rfl rfl rfl (by omega) (advance_position_le _)
  | case3 c rest token i n lx h1 h2 ih =>
    rw [handle_comment_loop, if_pos h1, if_neg h2]
    exact scan_ok_step ih rfl rfl rfl (by omega) (advance_position_le _)
  | case4 c rest token i n lx h1 =>
    rw [handle_comment_loop, if_neg h1]
    exact scan_ok_mk rfl rfl rfl (Nat.le_refl _) (Lexer.le_refl _)

theorem handle_char_close_spec (r : List Char) (token : Token) (n : Nat) (lx : Lexer) :
    scan_ok token n lx (handle_char_close r token n lx) := by
  unfold handle_char_close
  split_ifs
  · exact scan_ok_mk rfl rfl rfl (Nat.le_add_right _ _) (skip_until_le _ _ _)
  · exact scan_ok_mk rfl rfl rfl (Nat.le_add_right _ _) (skip_until_le _ _ _)
  · exact scan_ok_mk rfl rfl rfl (Nat.le_succ _) (advance_position_le _)

theorem lexed_ok_of_scan_ok {token : Token} {n : Nat} {lx0 lx : Lexer}
    {res : Token × Nat × Lexer} (h : scan_ok token n lx res)
    (hl : token.line = lx0.current_line) (hc : token.column = lx0.current_column)
    (hn : 1 ≤ n) (hle : lx0.le lx) (ht1 : token.type ≠ .TOKEN_SKIP)
    (ht2 : token.type ≠ .TOKEN_EOF) : lexed_ok lx0 res :=
  ⟨h.1.trans hl, h.2.1.trans hc, Nat.le_trans hn h.2.2.2.1, Lexer.le_trans hle h.2.2.2.2,
   by rw [h.2.2.1]; exact ht1, by rw [h.2.2.1]; exact ht2⟩

theorem is_keyword_in_ne_skip (table : List (List Char × TokenType)) (word : List Char)
    (h : ∀ e ∈ table, e.2 ≠ .TOKEN_SKIP) : is_keyword_in table word ≠ .TOKEN_SKIP := by
  induction table with
  | nil => simp [is_keyword_in]
  | cons e rest ih =>
    obtain ⟨w, t⟩ := e
    unfold is_keyword_in
    split_ifs
    · exact h (w, t) (List.mem_cons_self _ _)
    · exact ih (fun e he => h e (List.mem_cons_of_mem _ he))

theorem is_keyword_ne_skip (word : List Char) : is_keyword word ≠ .TOKEN_SKIP :=
  is_keyword_in_ne_skip keywords word (by decide)

theorem lexed_ok_mk {lx lx1 : Lexer} {tok : Token} {n : Nat}
    (hl : tok.line = lx.current_line) (hc : tok.column = lx.current_column) (hn : 1 ≤ n)
    (hle : lx.le lx1) (ht1 : tok.type ≠ .TOKEN_SKIP) (ht2 : tok.type ≠ .TOKEN_EOF) :
    lexed_ok lx (tok, n, lx1) :=
  ⟨hl, hc, hn, hle, ht1, ht2⟩

theorem le_skip_until {a b : Lexer} (r delims : List Char) (h : a.le b) :
    a.le (skip_until r delims b).2 :=
  Lexer.le_trans h (skip_until_le _ _ _)

theorem le_advance_position {a b : Lexer} (h : a.le b) : a.le (advance_position b) :=
  Lexer.le_trans h (advance_position_le _)

theorem le_advance_columns {a b : Lexer} (k : Nat) (h : a.le b) : a.le (advance_columns k b) :=
  Lexer.le_trans h (Or.inr ⟨rfl, Nat.le_add_right _ _⟩)

theorem handle_string_spec (r : List Char) (lx : Lexer) : lexed_ok lx (handle_string r lx) := by
  unfold handle_string
  exact lexed_ok_of_scan_ok (handle_string_loop_spec _ _ _ _ _) rfl rfl (Nat.le_refl _)
    (advance_position_le _) (by simp) (by simp)

theorem handle_comment_spec (r : List Char) (lx : Lexer) :
    lexed_ok lx (handle_comment r lx) := by
  unfold handle_comment
  exact lexed_ok_of_scan_ok (handle_comment_loop_spec _ _ _ _ _) rfl rfl (by omega)
    (Or.inr ⟨rfl, Nat.le_add_right _ _⟩) (by simp) (by simp)

theorem handle_char_spec (r : List Char) (lx : Lexer) (res : Token × Nat × Lexer)
    (h : handle_char r lx = .ok res) : lexed_ok lx res := by
  unfold handle_char at h
  simp only at h
  split at h
  · cases h
  · split_ifs at h <;> obtain rfl := Except.ok.inj h
    all_goals first
      | exact lexed_ok_mk rfl rfl (by omega) (by repeat (first | exact Lexer.le_refl _ | apply le_skip_until | apply le_advance_position | apply le_advance_columns)) (by simp) (by simp)
      | exact lexed_ok_of_scan_ok (handle_char_close_spec _ _ _ _) rfl rfl (by omega)
          (by repeat (first | exact Lexer.le_refl _ | apply le_skip_until | apply le_advance_position | apply le_advance_columns)) (by simp) (by simp)

theorem scan_digits_pos (r : List Char) (h : isdigit (peek r) = true) :
    1 ≤ (scan_digits r).length := by
  cases r with
  | nil => simp [peek, isdigit, NUL] at h
  | cons c rest =>
    simp only [peek] at h
    simp [scan_digits, h]

theorem handle_number_spec (r : List Char) (lx : Lexer) (res : Token × Nat × Lexer)
    (hd : isdigit (peek r) = true) (h : handle_number r lx = .ok res) : lexed_ok lx res := by
  have hpos := scan_digits_pos r hd
  unfold handle_number at h
  simp only at h
  split_ifs at h <;> obtain rfl := Except.ok.inj h
  all_goals exact lexed_ok_mk rfl rfl (by omega) (by repeat (first | exact Lexer.le_refl _ | apply le_skip_until | apply le_advance_position | apply le_advance_columns)) (by simp) (by simp)

theorem delimiter_type_ne (c : Char) :
    delimiter_type c ≠ .TOKEN_SKIP ∧ delimiter_type c ≠ .TOKEN_EOF := by
  unfold delimiter_type
  split_ifs <;> simp

theorem two_char_token_spec (token : Token) (type : TokenType) (lexeme : List Char)
    (lx : Lexer) (hl : token.line = lx.current_line) (hc : token.column = lx.current_column)
    (h1 : type ≠ .TOKEN_SKIP) (h2 : type ≠ .TOKEN_EOF) :
    lexed_ok lx (two_char_token token type lexeme lx) :=
  lexed_ok_mk hl hc (by decide) (Or.inr ⟨rfl, Nat.le_add_right _ _⟩) h1 h2

theorem store_error_line (e : ErrorType) (l c : Nat) (x : List Char) (lx : Lexer) :
    (store_error e l c x lx).current_line = lx.current_line ∧
    (store_error e l c x lx).current_column = lx.current_column ∧
    (store_error e l c x lx).in_error_recovery = lx.in_error_recovery ∧
    (store_error e l c x lx).last_token_type = lx.last_token_type := by
  unfold store_error
  split_ifs <;> simp

theorem classify_spec (c : Char) (r : List Char) (lx : Lexer) (res : Token × Nat × Lexer)
    (hc : c = peek r) (h : classify c r lx = .ok res) : lexed_ok lx res := by
  unfold classify at h
  simp only at h
  by_cases h1 : c = '/' ∧ peek (List.drop 1 r) = '/'
  · rw [if_pos h1] at h
    obtain rfl := Except.ok.inj h
    exact handle_comment_spec _ _
  rw [if_neg h1] at h
  by_cases h2 : c = SQUOTE
  · rw [if_pos h2] at h
    exact handle_char_spec _ _ _ h
  rw [if_neg h2] at h
  by_cases h3 : isdigit c = true
  · rw [if_pos h3] at h
    exact handle_number_spec _ _ _ (hc ▸ h3) h
  rw [if_neg h3] at h
  by_cases h4 : isalpha c = true ∨ c = '_'
  · rw [if_pos h4] at h
    by_cases h5 : is_keyword (c :: scan_identifier (List.drop 1 r) 1) ≠ TokenType.TOKEN_EOF
    · rw [if_pos h5] at h
      obtain rfl := Except.ok.inj h
      exact lexed_ok_mk rfl rfl (by simp) (Or.inr ⟨rfl, Nat.le_refl _⟩)
        (is_keyword_ne_skip _) h5
    · rw [if_neg h5] at h
      obtain rfl := Except.ok.inj h
      exact lexed_ok_mk rfl rfl (by simp) (Or.inr ⟨rfl, Nat.le_refl _⟩) (by simp) (by simp)
  rw [if_neg h4] at h
  by_cases h6 : c = DQUOTE
  · rw [if_pos h6] at h
    obtain rfl := Except.ok.inj h
    exact handle_string_spec _ _
  rw [if_neg h6] at h
  by_cases h7 : c = '*' ∧ (lx.last_token_type = 'k' ∨ lx.last_token_type = 'i')
  · rw [if_pos h7] at h
    obtain rfl := Except.ok.inj h
    exact lexed_ok_mk rfl rfl (by decide) (Or.inr ⟨rfl, Nat.le_succ _⟩) (by simp) (by simp)
  rw [if_neg h7] at h
  by_cases h8 : c ∈ operator_chars
  · rw [if_pos h8] at h
    split_ifs at h <;> obtain rfl := Except.ok.inj h
    all_goals first
      | exact two_char_token_spec _ _ _ _ rfl rfl (by simp) (by simp)
      | exact lexed_ok_mk rfl rfl (by decide) (Or.inr ⟨rfl, Nat.le_succ _⟩) (by simp) (by simp)
      | exact lexed_ok_mk rfl rfl (by decide)
          (Or.inr ⟨(store_error_line _ _ _ _ _).1.symm,
            by
              have := (store_error_line .ERROR_CONSECUTIVE_OPERATORS lx.current_line
                lx.current_column [c] lx).2.1
              show lx.current_column ≤ (advance_position _).current_column
              simp only [advance_position, this]
              omega⟩) (by simp) (by simp)
  rw [if_neg h8] at h
  by_cases h9 : c ∈ delimiter_chars
  · rw [if_pos h9] at h
    obtain rfl := Except.ok.inj h
    exact lexed_ok_mk rfl rfl (by decide) (Or.inr ⟨rfl, Nat.le_succ _⟩)
      (delimiter_type_ne c).1 (delimiter_type_ne c).2
  rw [if_neg h9] at h
  obtain rfl := Except.ok.inj h
  exact lexed_ok_mk rfl rfl (by decide)
    (Or.inr ⟨(store_error_line _ _ _ _ _).1.symm,
      by
        have := (store_error_line .ERROR_INVALID_CHAR lx.current_line
          lx.current_column [c] lx).2.1
        show lx.current_column ≤ (advance_position _).current_column
        simp only [advance_position, this]
        omega⟩) (by simp) (by simp)

theorem skip_whitespace_recovery (r : List Char) (lx : Lexer)
    (h : (skip_whitespace r lx).2.in_error_recovery = true) : lx.in_error_recovery = true := by
  induction r generalizing lx with
  | nil => exact h
  | cons c rest ih =>
    unfold skip_whitespace at h
    simp only at h
    split_ifs at h with h1 h2
    · have := ih _ h
      simp at this
    · have := ih _ h
      exact this
    · exact h

theorem get_next_token_at_ok (r : List Char) (lx : Lexer) (res : Token × Nat × Lexer)
    (h : get_next_token_at r lx = .ok res) :
    res.1.line = (skip_whitespace r lx).2.current_line ∧
    res.1.column = (skip_whitespace r lx).2.current_column ∧
    (skip_whitespace r lx).2.le res.2.2 ∧ lexed_cases r lx res := by
  unfold get_next_token_at at h
  simp only at h
  by_cases h1 : peek (List.drop (skip_whitespace r lx).1 r) = NUL
  · rw [if_pos h1] at h
    obtain rfl := Except.ok.inj h
    exact ⟨rfl, rfl, Lexer.le_refl _, Or.inl ⟨rfl, rfl, h1⟩⟩
  rw [if_neg h1] at h
  by_cases h2 : (skip_whitespace r lx).2.in_error_recovery = true
  · rw [if_pos h2] at h
    obtain rfl := Except.ok.inj h
    exact ⟨rfl, rfl, skip_until_le _ _ _, Or.inr (Or.inl ⟨rfl, h2, rfl, rfl, h1⟩)⟩
  rw [if_neg h2] at h
  split at h
  · rename_i token n lx2 hcl
    obtain rfl := Except.ok.inj h
    have hs := classify_spec _ _ _ _ rfl hcl
    exact ⟨hs.1, hs.2.1, hs.2.2.2.1,
      Or.inr (Or.inr ⟨hs.2.2.2.2.1, hs.2.2.2.2.2, by have := hs.2.2.1; simp only at this ⊢; omega,
        by simpa using h2, h1⟩)⟩
  · cases h

theorem get_next_token_ok (input : List Char) (pos : Nat) (lx : Lexer) (tok : Token)
    (pos1 : Nat) (lx1 : Lexer) (h : get_next_token input pos lx = .ok (tok, pos1, lx1)) :
    ∃ n, pos ≤ input.length ∧ get_next_token_at (input.drop pos) lx = .ok (tok, n, lx1) ∧
      pos1 = pos + n := by
  unfold get_next_token at h
  split_ifs at h with hp
  split at h
  · rename_i token n lx2 hat
    simp only [Except.ok.injEq, Prod.mk.injEq] at h
    obtain ⟨rfl, rfl, rfl⟩ := h
    exact ⟨n, hp, hat, rfl⟩
  · cases h

theorem print_token_stream_chain (k : Nat) (input : List Char) (pos : Nat) (lx : Lexer)
    (t0 : Token)
    (h0 : position_le t0.line t0.column lx.current_line lx.current_column) :
    List.Chain token_position_le t0 (print_token_stream k input pos lx) := by
  induction k generalizing pos lx t0 with
  | zero => exact List.Chain.nil
  | succ k ih =>
    unfold print_token_stream
    split
    · exact List.Chain.nil
    · rename_i token pos1 lx1 hget
      obtain ⟨n, _, hat, _⟩ := get_next_token_ok _ _ _ _ _ _ hget
      obtain ⟨hl, hc, hle, _⟩ := get_next_token_at_ok _ _ _ hat
      have hw := skip_whitespace_le (List.drop pos input) lx
      have h1 : token_position_le t0 token := by
        unfold token_position_le
        rw [hl, hc]
        unfold Lexer.le position_le at *
        omega
      refine List.Chain.cons h1 ?_
      split_ifs
      · exact List.Chain.nil
      · apply ih
        rw [hl, hc]
        exact hle

/-- C10 (position monotonicity): for every input, the tokens returned by
successive calls of `get_next_token` from a reset lexer are ordered by source
position: each token is on a later line than the one before it, or on the
same line at a column that is not smaller.  (The list holds the tokens of the
first `k` calls, up to the EOF token; `k` is arbitrary.) -/
theorem token_positions_monotone (input : List Char) (k : Nat) :
    List.Chain' token_position_le (print_token_stream k input 0 reset_lexer) := by
  have h := print_token_stream_chain k input 0 reset_lexer
    (plain_token .TOKEN_EOF [] 1 1) (Or.inr ⟨rfl, Nat.le_refl _⟩)
  exact (List.chain'_cons'.mp h).2

theorem skip_whitespace_zero (r : List Char) (lx : Lexer)
    (h : (skip_whitespace r lx).1 = 0) :
    skip_whitespace r lx = (0, lx) ∧ peek r ≠ ' ' ∧ peek r ≠ NEWLINE ∧ peek r ≠ TAB := by
  cases r with
  | nil => simp [skip_whitespace, peek, NUL, NEWLINE, TAB]
  | cons c rest =>
    unfold skip_whitespace at h ⊢
    by_cases h1 : c ≠ NUL ∧ (c = ' ' ∨ c = NEWLINE ∨ c = TAB)
    · rw [if_pos h1] at h
      simp at h
    · rw [if_neg h1]
      refine ⟨rfl, ?_⟩
      simp only [peek]
      by_cases hn : c = NUL
      · subst hn
        simp [NUL, NEWLINE, TAB]
      · simp only [ne_eq, hn, not_false_eq_true, true_and, not_or] at h1
        exact h1

theorem skip_until_zero_iff (c : Char) (rest delims : List Char) (lx : Lexer) :
    (skip_until (c :: rest) delims lx).1 = 0 ↔ (c = NUL ∨ c ∈ delims) := by
  unfold skip_until
  by_cases h1 : c ≠ NUL ∧ c ∉ delims
  · rw [if_pos h1]
    simp only [Nat.add_one_ne_zero, false_iff, not_or]
    exact h1
  · rw [if_neg h1]
    simp only [true_iff]
    by_contra hcon
    exact h1 (not_or.mp hcon)

theorem skip_until_recovery (r delims : List Char) (lx : Lexer) :
    (skip_until r delims lx).2.in_error_recovery = lx.in_error_recovery := by
  induction r generalizing lx with
  | nil => rfl
  | cons c rest ih =>
    unfold skip_until
    simp only
    split_ifs
    · rw [ih]
    · rw [ih]
    · rfl

/-- Progress of one call, on the suffix at the cursor. -/
theorem get_next_token_at_progress (r : List Char) (lx : Lexer) (res : Token × Nat × Lexer)
    (hc : peek r ≠ NUL) (h : get_next_token_at r lx = .ok res) :
    ((lx.in_error_recovery = true ∧ peek r = ';') →
        res.1.type = .TOKEN_SKIP ∧ res.2.1 = 0 ∧ res.2.2.in_error_recovery = false) ∧
    (¬ (lx.in_error_recovery = true ∧ peek r = ';') → 1 ≤ res.2.1) := by
  obtain ⟨_, _, _, hcases⟩ := get_next_token_at_ok r lx res h
  have hz := skip_whitespace_zero r lx
  cases r with
  | nil => simp [peek] at hc
  | cons c rest =>
    simp only [peek] at hc hz ⊢
    constructor
    · rintro ⟨hrec, hsemi⟩
      subst hsemi
      have hw : skip_whitespace (';' :: rest) lx = (0, lx) := by
        simp [skip_whitespace, NEWLINE, TAB]
      unfold lexed_cases at hcases
      rw [hw] at hcases
      simp only [List.drop_zero, peek, zero_add] at hcases
      rcases hcases with ⟨_, _, hnul⟩ | ⟨ht, _, hn, hf, _⟩ | ⟨_, _, _, hf, _⟩
      · exact absurd hnul hc
      · refine ⟨ht, ?_, hf⟩
        rw [hn]
        exact (skip_until_zero_iff _ _ _ _).mpr (Or.inr (by simp))
      · rw [hrec] at hf
        cases hf
    · intro hnot
      unfold lexed_cases at hcases
      by_cases hw0 : (skip_whitespace (c :: rest) lx).1 = 0
      · obtain ⟨hw, h1, h2, h3⟩ := hz hw0
        rw [hw] at hcases
        simp only [List.drop_zero, peek, zero_add] at hcases
        rcases hcases with ⟨_, _, hnul⟩ | ⟨_, hrec, hn, _, _⟩ | ⟨_, _, hn, _, _⟩
        · exact absurd hnul hc
        · rw [hn]
          have hne : ¬ (skip_until (c :: rest) [';', NEWLINE] lx).1 = 0 := by
            rw [skip_until_zero_iff]
            simp only [List.mem_cons, List.mem_singleton, List.not_mem_nil, or_false, not_or]
            refine ⟨hc, ?_, h2⟩
            intro hsemi
            exact hnot ⟨hrec, hsemi⟩
          omega
        · exact hn
      · rcases hcases with ⟨_, hn, _⟩ | ⟨_, _, hn, _, _⟩ | ⟨_, _, hn, _, _⟩ <;> omega

theorem scan_digits_takeWhile (r : List Char) :
    (scan_digits r).length +
      ((r.drop (scan_digits r).length).takeWhile numeric_char).length =
    (r.takeWhile numeric_char).length := by
  induction r with
  | nil => rfl
  | cons c rest ih =>
    unfold scan_digits
    by_cases h : isdigit c = true
    · rw [if_pos h]
      have hn : numeric_char c = true := by simp [numeric_char, h]
      simp only [List.length_cons, List.drop_succ_cons, List.takeWhile_cons, hn, if_true]
      omega
    · rw [if_neg h]
      simp

theorem handle_number_returns (r : List Char) (lx : Lexer)
    (hnum : (r.takeWhile numeric_char).length ≤ 99) :
    ∃ res, handle_number r lx = .ok res := by
  have h1 := scan_digits_takeWhile r
  have h2 : peek (r.drop (scan_digits r).length) = '.' →
      (scan_digits r).length + 1 +
        (scan_digits ((r.drop (scan_digits r).length).drop 1)).length ≤ 99 := by
    intro hdot
    have h3 := scan_digits_takeWhile ((r.drop (scan_digits r).length).drop 1)
    cases hr : r.drop (scan_digits r).length with
    | nil => rw [hr] at hdot; simp [peek, NUL] at hdot
    | cons c rest =>
      rw [hr] at hdot h1 h3
      simp only [peek] at hdot
      subst hdot
      simp only [List.drop_succ_cons, List.drop_zero] at h3 ⊢
      have hn : numeric_char '.' = true := by decide
      simp only [List.takeWhile_cons, hn, if_true, List.length_cons] at h1
      omega
  unfold handle_number
  simp only
  split_ifs <;> first | exact ⟨_, rfl⟩ | (exfalso; omega) |
    (exfalso; have := h2 (by assumption); omega)

theorem handle_char_returns (r : List Char) (lx : Lexer) (h : r.drop 1 ≠ []) :
    ∃ res, handle_char r lx = .ok res := by
  unfold handle_char
  simp only
  split
  · rename_i heq
    exact absurd heq h
  · split_ifs <;> exact ⟨_, rfl⟩

theorem classify_returns (c : Char) (r : List Char) (lx : Lexer)
    (hq : c = SQUOTE → r.drop 1 ≠ [])
    (hnum : (r.takeWhile numeric_char).length ≤ 99) :
    ∃ res, classify c r lx = .ok res := by
  unfold classify
  simp only
  by_cases h1 : c = '/' ∧ peek (List.drop 1 r) = '/'
  · rw [if_pos h1]; exact ⟨_, rfl⟩
  rw [if_neg h1]
  by_cases h2 : c = SQUOTE
  · rw [if_pos h2]; exact handle_char_returns _ _ (hq h2)
  rw [if_neg h2]
  by_cases h3 : isdigit c = true
  · rw [if_pos h3]; exact handle_number_returns _ _ hnum
  rw [if_neg h3]
  by_cases h4 : isalpha c = true ∨ c = '_'
  · rw [if_pos h4]; split_ifs <;> exact ⟨_, rfl⟩
  rw [if_neg h4]
  by_cases h6 : c = DQUOTE
  · rw [if_pos h6]; exact ⟨_, rfl⟩
  rw [if_neg h6]
  by_cases h7 : c = '*' ∧ (lx.last_token_type = 'k' ∨ lx.last_token_type = 'i')
  · rw [if_pos h7]; exact ⟨_, rfl⟩
  rw [if_neg h7]
  by_cases h8 : c ∈ operator_chars
  · rw [if_pos h8]; split_ifs <;> exact ⟨_, rfl⟩
  rw [if_neg h8]
  split_ifs <;> exact ⟨_, rfl⟩

theorem get_next_token_at_returns (r : List Char) (lx : Lexer)
    (hq : ∀ k, r.drop k ≠ [SQUOTE])
    (hnum : ∀ k, ((r.drop k).takeWhile numeric_char).length ≤ 99) :
    ∃ res, get_next_token_at r lx = .ok res := by
  unfold get_next_token_at
  simp only
  split_ifs
  · exact ⟨_, rfl⟩
  · exact ⟨_, rfl⟩
  · obtain ⟨res, hres⟩ := classify_returns
      (peek (List.drop (skip_whitespace r lx).1 r)) (List.drop (skip_whitespace r lx).1 r)
      (skip_whitespace r lx).2
      (by
        intro hp hd
        apply hq (skip_whitespace r lx).1
        cases hr : List.drop (skip_whitespace r lx).1 r with
        | nil => rw [hr] at hp; simp [peek, NUL, SQUOTE] at hp
        | cons c rest =>
          rw [hr] at hp hd
          simp only [peek] at hp
          simp only [List.drop_succ_cons, List.drop_zero] at hd
          rw [hp, hd])
      (hnum _)
    rw [hres]
    exact ⟨_, rfl⟩

theorem getLast?_of_drop_eq_singleton (l : List Char) (k : Nat) (c : Char)
    (h : l.drop k = [c]) : l.getLast? = some c := by
  have := List.take_append_drop k l
  rw [h] at this
  rw [← this]
  simp

theorem numeric_run_of_length_le (input : List Char) (h : input.length ≤ 99) (k : Nat) :
    ((input.drop k).takeWhile numeric_char).length ≤ 99 := by
  have h1 := (List.takeWhile_sublist (l := input.drop k) numeric_char).length_le
  have h2 : (input.drop k).length ≤ input.length := by simp
  omega

/-- C9 (lexer progress), amended: on an input that does not end in a single
quote and has no run of 100 or more digits and dots, for every lexer state, a
call of `get_next_token` whose cursor is on a character of the input (not at
its end) returns a token; the cursor afterwards is strictly greater than
before, except when the lexer is in error recovery and the cursor is on a
semicolon: then the token is a SKIP token, the cursor stays where it was, and
the recovery flag is cleared. -/
theorem get_next_token_progress (input : List Char) (pos : Nat) (lx : Lexer)
    (hc : peek (input.drop pos) ≠ NUL)
    (hq : input.getLast? ≠ some SQUOTE)
    (hnum : ∀ k, ((input.drop k).takeWhile numeric_char).length ≤ 99) :
    ∃ tok pos1 lx1, get_next_token input pos lx = .ok (tok, pos1, lx1) ∧
      ((lx.in_error_recovery = true ∧ peek (input.drop pos) = ';') →
          tok.type = .TOKEN_SKIP ∧ pos1 = pos ∧ lx1.in_error_recovery = false) ∧
      (¬ (lx.in_error_recovery = true ∧ peek (input.drop pos) = ';') → pos < pos1) := by
  have hpos : pos ≤ input.length := by
    by_contra hlt
    have : input.drop pos = [] := List.drop_eq_nil_of_le (by omega)
    rw [this] at hc
    exact hc rfl
  obtain ⟨res, hres⟩ := get_next_token_at_returns (input.drop pos) lx
    (fun k hk => hq (getLast?_of_drop_eq_singleton input (pos + k) SQUOTE
      (by rw [← hk, List.drop_drop]))) 
    (fun k => by rw [List.drop_drop]; exact hnum _)
  obtain ⟨h1, h2⟩ := get_next_token_at_progress _ lx res hc hres
  obtain ⟨tok, n, lx1⟩ := res
  refine ⟨tok, pos + n, lx1, ?_, ?_, ?_⟩
  · unfold get_next_token
    rw [if_pos hpos, hres]
  · intro hcond
    obtain ⟨a, b, c⟩ := h1 hcond
    simp only at a b c
    exact ⟨a, by omega, c⟩
  · intro hcond
    have := h2 hcond
    simp only at this
    omega

/-- C9 as stated fails on the input `@;`: the first call returns the error
token of `@`, leaves the cursor at 1 (on the semicolon, not the end of the
input) and sets the recovery flag; the second call returns a SKIP token and
leaves the cursor at 1. -/
theorem skip_token_leaves_cursor :
    get_next_token "@;".toList 0 reset_lexer =
      .ok ({ type := .TOKEN_ERROR, lexeme := ['@'], line := 1, column := 1,
             error := .ERROR_INVALID_CHAR, recovery := .RECOVERY_TO_DELIMITER },
           1, after_invalid_char) ∧
    peek ("@;".toList.drop 1) ≠ NUL ∧
    get_next_token "@;".toList 1 after_invalid_char =
      .ok ({ type := .TOKEN_SKIP, lexeme := [], line := 1, column := 2,
             error := .ERROR_RECOVERY_MODE, recovery := .RECOVERY_NONE },
           1, { after_invalid_char with in_error_recovery := false }) ∧
    ¬ (∀ tok pos1 lx1, get_next_token "@;".toList 1 after_invalid_char = .ok (tok, pos1, lx1) →
         1 < pos1) := by
  refine ⟨by decide!, by decide!, by decide!, ?_⟩
  intro h
  have := h _ _ _ (by decide! : get_next_token "@;".toList 1 after_invalid_char =
      .ok ({ type := .TOKEN_SKIP, lexeme := [], line := 1, column := 2,
             error := .ERROR_RECOVERY_MODE, recovery := .RECOVERY_NONE },
           1, { after_invalid_char with in_error_recovery := false }))
  omega

/-- C9 amended, at the input `x = 1 ;` with the cursor at 0 and a reset
lexer. -/
theorem get_next_token_progress_witness :
    peek ("x = 1 ;".toList.drop 0) ≠ NUL ∧ "x = 1 ;".toList.getLast? ≠ some SQUOTE ∧
    ∃ tok pos1 lx1, get_next_token "x = 1 ;".toList 0 reset_lexer = .ok (tok, pos1, lx1) ∧
      ((reset_lexer.in_error_recovery = true ∧ peek ("x = 1 ;".toList.drop 0) = ';') →
          tok.type = .TOKEN_SKIP ∧ pos1 = 0 ∧ lx1.in_error_recovery = false) ∧
      (¬ (reset_lexer.in_error_recovery = true ∧ peek ("x = 1 ;".toList.drop 0) = ';') →
          0 < pos1) :=
  ⟨by decide, by decide,
   get_next_token_progress "x = 1 ;".toList 0 reset_lexer (by decide) (by decide)
     (numeric_run_of_length_le _ (by decide))⟩

theorem handle_string_loop_plain (s t : List Char) (token : Token) (i n : Nat) (lx : Lexer)
    (hs : ∀ c ∈ s, c ≠ DQUOTE ∧ c ≠ BACKSLASH ∧ c ≠ NEWLINE ∧ c ≠ NUL)
    (hlen : i + s.length ≤ 99) :
    handle_string_loop (s ++ NEWLINE :: t) token i n lx =
      ({ token with lexeme := token.lexeme ++ s, error := .ERROR_UNTERMINATED_STRING,
                    recovery := .RECOVERY_TO_NEWLINE },
       n + s.length, advance_columns s.length lx) := by
  induction s generalizing token i n lx with
  | nil =>
    have h1 : ¬ (NEWLINE ≠ NUL ∧ NEWLINE ≠ DQUOTE ∧ NEWLINE ≠ NEWLINE) := by simp
    have h2 : NEWLINE ≠ DQUOTE := by decide
    simp only [List.nil_append]
    rw [handle_string_loop, if_neg h1, if_pos h2]
    simp [advance_columns]
  | cons c rest ih =>
    obtain ⟨hq, hb, hn, hz⟩ := hs c (List.mem_cons_self _ _)
    have h1 : c ≠ NUL ∧ c ≠ DQUOTE ∧ c ≠ NEWLINE := ⟨hz, hq, hn⟩
    have h2 : ¬ i ≥ 99 := by simp only [List.length_cons] at hlen; omega
    simp only [List.cons_append]
    rw [handle_string_loop, if_pos h1, if_neg h2, if_neg hb]
    rw [ih _ _ _ _ (fun x hx => hs x (List.mem_cons_of_mem _ hx))
      (by simp only [List.length_cons] at hlen; omega)]
    simp only [List.length_cons, advance_columns, advance_position, List.append_assoc,
      List.singleton_append, Prod.mk.injEq, true_and]
    refine ⟨by omega, ?_⟩
    congr 1
    omega

theorem get_next_token_at_string (r : List Char) (lx : Lexer)
    (hrec : lx.in_error_recovery = false) :
    get_next_token_at (DQUOTE :: r) lx = .ok (handle_string (DQUOTE :: r) lx) := by
  have hw : skip_whitespace (DQUOTE :: r) lx = (0, lx) := by
    simp [skip_whitespace, DQUOTE, NEWLINE, TAB]
  unfold get_next_token_at
  simp only [hw, List.drop_zero, peek]
  rw [if_neg (by decide : ¬ DQUOTE = NUL), hrec]
  simp only [Bool.false_eq_true, if_false]
  have hcl : classify DQUOTE (DQUOTE :: r) lx = .ok (handle_string (DQUOTE :: r) lx) := by
    unfold classify
    simp only
    rw [if_neg (by simp [DQUOTE]), if_neg (by decide : ¬ DQUOTE = SQUOTE),
      if_neg (by decide : ¬ isdigit DQUOTE = true),
      if_neg (by decide : ¬ (isalpha DQUOTE = true ∨ DQUOTE = '_')), if_pos trivial]
  rw [hcl]
  simp

theorem get_next_token_at_newline (r : List Char) (lx : Lexer) :
    get_next_token_at (NEWLINE :: r) lx = shift_cursor 1 (get_next_token_at r (next_line lx)) := by
  have hw : skip_whitespace (NEWLINE :: r) lx =
      ((skip_whitespace r (next_line lx)).1 + 1, (skip_whitespace r (next_line lx)).2) := by
    rw [skip_whitespace]
    simp [NEWLINE, NUL, next_line]
  unfold get_next_token_at
  simp only [hw, List.drop_succ_cons]
  split_ifs
  · simp [shift_cursor, Nat.add_comm]
  · simp [shift_cursor, Nat.add_comm, Nat.add_assoc]
  · cases classify (peek (List.drop (skip_whitespace r (next_line lx)).1 r))
        (List.drop (skip_whitespace r (next_line lx)).1 r) (skip_whitespace r (next_line lx)).2 with
    | error f => rfl
    | ok res =>
      obtain ⟨tok, n, lx2⟩ := res
      simp only [shift_cursor, Except.ok.injEq, Prod.mk.injEq, true_and, and_true]
      omega

theorem get_next_token_zero (t : List Char) (lx : Lexer) :
    get_next_token t 0 lx = get_next_token_at t lx := by
  unfold get_next_token
  rw [if_pos (Nat.zero_le _), List.drop_zero]
  cases get_next_token_at t lx with
  | error f => rfl
  | ok res =>
    obtain ⟨tok, n, lx1⟩ := res
    simp

theorem get_next_token_after_newline (s t : List Char) (lx : Lexer) :
    get_next_token (DQUOTE :: (s ++ NEWLINE :: t)) (s.length + 1) lx =
      shift_cursor (s.length + 2) (get_next_token t 0 (next_line lx)) := by
  have hdrop : List.drop (s.length + 1) (DQUOTE :: (s ++ NEWLINE :: t)) = NEWLINE :: t := by
    simp
  have hlen : s.length + 1 ≤ (DQUOTE :: (s ++ NEWLINE :: t)).length := by
    simp
  rw [get_next_token_zero]
  unfold get_next_token
  rw [if_pos hlen, hdrop, get_next_token_at_newline]
  cases get_next_token_at t (next_line lx) with
  | error f => rfl
  | ok res =>
    obtain ⟨tok, n, lx1⟩ := res
    simp only [shift_cursor, Except.ok.injEq, Prod.mk.injEq, true_and, and_true]
    omega

/-- C8 (unterminated string recovery): for a string body `s` of at most 99
characters without double quote, backslash, newline (or NUL, which no C string
holds) and any following text `t`, lexing the double quote, `s`, a newline and
`t` outside error recovery returns, at the first call, one STRING token with
lexeme `s` carrying UNTERMINATED_STRING, leaves the cursor on the newline and
the recovery flag clear; the next call returns what a call on `t` returns at
the start of the next line (the cursor counted from the start of the whole
text), whether or not the caller has set the recovery flag in between, as
`process_test_file` does; and the token of that next call is not a SKIP
token. -/
theorem unterminated_string_recovery (s t : List Char) (lx : Lexer)
    (hs : ∀ c ∈ s, c ≠ DQUOTE ∧ c ≠ BACKSLASH ∧ c ≠ NEWLINE ∧ c ≠ NUL)
    (hlen : s.length ≤ 99) (hrec : lx.in_error_recovery = false) :
    get_next_token (DQUOTE :: (s ++ NEWLINE :: t)) 0 lx =
      .ok (unterminated_string_token s lx, s.length + 1, advance_columns (s.length + 1) lx) ∧
    peek ((DQUOTE :: (s ++ NEWLINE :: t)).drop (s.length + 1)) = NEWLINE ∧
    (advance_columns (s.length + 1) lx).in_error_recovery = false ∧
    (∀ flag : Bool,
      get_next_token (DQUOTE :: (s ++ NEWLINE :: t)) (s.length + 1)
          { advance_columns (s.length + 1) lx with in_error_recovery := flag } =
        shift_cursor (s.length + 2)
          (get_next_token t 0 (next_line (advance_columns (s.length + 1) lx)))) ∧
    (∀ (flag : Bool) (tok : Token) (pos1 : Nat) (lx1 : Lexer),
      get_next_token (DQUOTE :: (s ++ NEWLINE :: t)) (s.length + 1)
          { advance_columns (s.length + 1) lx with in_error_recovery := flag } =
        .ok (tok, pos1, lx1) → tok.type ≠ .TOKEN_SKIP) := by
  refine ⟨?_, by simp [peek], hrec, fun flag => get_next_token_after_newline s t _, ?_⟩
  · rw [get_next_token_zero, get_next_token_at_string _ _ hrec]
    unfold handle_string
    simp only [List.drop_succ_cons, List.drop_zero]
    rw [handle_string_loop_plain s t _ 0 1 _ hs (by omega)]
    simp only [unterminated_string_token, advance_columns, advance_position, List.nil_append,
      Except.ok.injEq, Prod.mk.injEq, true_and]
    refine ⟨by omega, ?_⟩
    congr 1
    omega
  · intro flag tok pos1 lx1 h
    obtain ⟨n, _, hat, _⟩ := get_next_token_ok _ _ _ _ _ _ h
    have hdrop : List.drop (s.length + 1) (DQUOTE :: (s ++ NEWLINE :: t)) = NEWLINE :: t := by
      simp
    rw [hdrop] at hat
    obtain ⟨_, _, _, hcases⟩ := get_next_token_at_ok _ _ _ hat
    intro hskip
    have hw : (skip_whitespace (NEWLINE :: t)
        { advance_columns (s.length + 1) lx with in_error_recovery := flag }).2 =
        (skip_whitespace t (next_line (advance_columns (s.length + 1) lx))).2 := by
      rw [skip_whitespace]
      simp [NEWLINE, NUL, next_line]
    rcases hcases with ⟨ht, _⟩ | ⟨_, hrec2, _⟩ | ⟨ht, _⟩
    · simp only at ht
      rw [hskip] at ht
      cases ht
    · rw [hw] at hrec2
      have := skip_whitespace_recovery _ _ hrec2
      simp [next_line] at this
    · exact ht hskip

theorem isalpha_not_isdigit (c : Char) (h : isalpha c = true) : isdigit c = false := by
  simp only [isalpha, isdigit, Char.isAlpha, Char.isUpper, Char.isLower, Char.isDigit,
    Bool.or_eq_true, Bool.and_eq_true, decide_eq_true_eq, Bool.and_eq_false_imp] at *
  simp only [UInt32.le_def, ge_iff_le, BitVec.le_def, decide_eq_false_iff_not] at *
  have e1 : (UInt32.toBitVec 65).toNat = 65 := rfl
  have e2 : (UInt32.toBitVec 90).toNat = 90 := rfl
  have e3 : (UInt32.toBitVec 97).toNat = 97 := rfl
  have e4 : (UInt32.toBitVec 122).toNat = 122 := rfl
  have e5 : (UInt32.toBitVec 48).toNat = 48 := rfl
  have e6 : (UInt32.toBitVec 57).toNat = 57 := rfl
  rw [e1, e2, e3, e4] at h
  rw [e5, e6]
  omega

theorem word_start_facts (c : Char) (h : isalpha c = true ∨ c = '_') :
    c ≠ ' ' ∧ c ≠ NEWLINE ∧ c ≠ TAB ∧ c ≠ NUL ∧ c ≠ '/' ∧ c ≠ SQUOTE ∧ isdigit c = false := by
  refine ⟨?_, ?_, ?_, ?_, ?_, ?_, ?_⟩
  · rintro rfl; revert h; decide
  · rintro rfl; revert h; decide
  · rintro rfl; revert h; decide
  · rintro rfl; revert h; decide
  · rintro rfl; revert h; decide
  · rintro rfl; revert h; decide
  · rcases h with h | rfl
    · exact isalpha_not_isdigit c h
    · decide

theorem digit_facts (c : Char) (h : isdigit c = true) :
    c ≠ ' ' ∧ c ≠ NEWLINE ∧ c ≠ TAB ∧ c ≠ NUL ∧ c ≠ '/' ∧ c ≠ SQUOTE ∧ c ≠ '.' := by
  refine ⟨?_, ?_, ?_, ?_, ?_, ?_, ?_⟩ <;> (rintro rfl; revert h; decide)

theorem scan_identifier_stop (l rest : List Char) (i : Nat)
    (hl : ∀ x ∈ l, isalnum x = true ∨ x = '_') (hi : i + l.length ≤ 99) :
    scan_identifier (l ++ ' ' :: rest) i = l := by
  induction l generalizing i with
  | nil =>
    simp only [List.nil_append]
    rw [scan_identifier, if_neg]
    rintro ⟨h, _⟩
    revert h
    decide
  | cons x l ih =>
    simp only [List.cons_append, List.length_cons] at hi ⊢
    rw [scan_identifier, if_pos ⟨hl x (List.mem_cons_self _ _), by omega⟩,
      ih (i + 1) (fun y hy => hl y (List.mem_cons_of_mem _ hy)) (by omega)]

theorem scan_digits_stop (d rest : List Char) (hd : ∀ x ∈ d, isdigit x = true) :
    scan_digits (d ++ ' ' :: rest) = d := by
  induction d with
  | nil =>
    simp only [List.nil_append]
    rw [scan_digits, if_neg (by decide)]
  | cons x d ih =>
    simp only [List.cons_append]
    rw [scan_digits, if_pos (hd x (List.mem_cons_self _ _)),
      ih (fun y hy => hd y (List.mem_cons_of_mem _ hy))]

theorem get_next_token_at_space (r : List Char) (lx : Lexer) :
    get_next_token_at (' ' :: r) lx =
      shift_cursor 1 (get_next_token_at r (advance_position lx)) := by
  have hw : skip_whitespace (' ' :: r) lx =
      ((skip_whitespace r (advance_position lx)).1 + 1,
       (skip_whitespace r (advance_position lx)).2) := by
    rw [skip_whitespace]
    simp [NEWLINE, NUL, advance_position]
  unfold get_next_token_at
  simp only [hw, List.drop_succ_cons]
  split_ifs
  · simp [shift_cursor, Nat.add_comm]
  · simp [shift_cursor, Nat.add_comm, Nat.add_assoc]
  · cases classify (peek (List.drop (skip_whitespace r (advance_position lx)).1 r))
        (List.drop (skip_whitespace r (advance_position lx)).1 r)
        (skip_whitespace r (advance_position lx)).2 with
    | error f => rfl
    | ok res =>
      obtain ⟨tok, n, lx2⟩ := res
      simp only [shift_cursor, Except.ok.injEq, Prod.mk.injEq, true_and, and_true]
      omega

/-- A call at the head of a character that is neither whitespace nor the
terminator, outside error recovery, is the classification of that
character. -/
theorem get_next_token_at_head (c : Char) (r : List Char) (lx : Lexer)
    (h1 : c ≠ ' ') (h2 : c ≠ NEWLINE) (h3 : c ≠ TAB) (h4 : c ≠ NUL)
    (hrec : lx.in_error_recovery = false) :
    get_next_token_at (c :: r) lx = shift_cursor 0 (classify c (c :: r) lx) := by
  have hw : skip_whitespace (c :: r) lx = (0, lx) := by
    rw [skip_whitespace, if_neg]
    rintro ⟨_, h | h | h⟩
    · exact h1 h
    · exact h2 h
    · exact h3 h
  unfold get_next_token_at
  simp only [hw, List.drop_zero, peek]
  rw [if_neg h4, hrec]
  simp only [Bool.false_eq_true, if_false]
  cases classify c (c :: r) lx with
  | error f => rfl
  | ok res => rfl

theorem get_next_token_at_word (c : Char) (l rest : List Char) (lx : Lexer)
    (hc : isalpha c = true ∨ c = '_') (hl : ∀ x ∈ l, isalnum x = true ∨ x = '_')
    (hlen : l.length + 1 ≤ 99) (hrec : lx.in_error_recovery = false) :
    get_next_token_at (c :: (l ++ ' ' :: rest)) lx =
      .ok ({ type := if is_keyword (c :: l) ≠ .TOKEN_EOF then is_keyword (c :: l)
                     else .TOKEN_IDENTIFIER,
             lexeme := c :: l, line := lx.current_line, column := lx.current_column,
             error := .ERROR_NONE, recovery := .RECOVERY_NONE },
           l.length + 1,
           { lx with last_token_type :=
               if is_keyword (c :: l) ≠ .TOKEN_EOF then 'k' else 'i' }) := by
  obtain ⟨f1, f2, f3, f4, f5, f6, f7⟩ := word_start_facts c hc
  rw [get_next_token_at_head c _ lx f1 f2 f3 f4 hrec]
  unfold classify
  simp only [List.drop_succ_cons, List.drop_zero]
  rw [if_neg (fun h => f5 h.1), if_neg f6, if_neg (by simp [f7]), if_pos hc,
    scan_identifier_stop l rest 1 hl (by omega)]
  split_ifs <;> simp [shift_cursor]

theorem get_next_token_at_digits (x : Char) (d rest : List Char) (lx : Lexer)
    (hx : isdigit x = true) (hd : ∀ y ∈ d, isdigit y = true)
    (hlen : d.length + 1 ≤ 99) (hrec : lx.in_error_recovery = false) :
    get_next_token_at (x :: (d ++ ' ' :: rest)) lx =
      .ok ({ type := .TOKEN_NUMBER, lexeme := x :: d, line := lx.current_line,
             column := lx.current_column, error := .ERROR_NONE, recovery := .RECOVERY_NONE },
           d.length + 1, advance_columns (d.length + 1) lx) := by
  obtain ⟨f1, f2, f3, f4, f5, f6, f7⟩ := digit_facts x hx
  rw [get_next_token_at_head x _ lx f1 f2 f3 f4 hrec]
  unfold classify
  simp only
  rw [if_neg (fun h => f5 h.1), if_neg f6, if_pos hx]
  have hs : scan_digits (x :: (d ++ ' ' :: rest)) = x :: d := by
    have := scan_digits_stop (x :: d) rest (by
      intro y hy
      rcases List.mem_cons.mp hy with rfl | hy
      · exact hx
      · exact hd y hy)
    simpa using this
  unfold handle_number
  simp only [hs, List.length_cons, List.drop_succ_cons]
  have hdrop : List.drop d.length (d ++ ' ' :: rest) = ' ' :: rest := by simp
  rw [hdrop]
  simp only [peek]
  rw [if_neg (by omega), if_neg (by decide), if_neg (by omega)]
  simp [shift_cursor]

theorem print_token_stream_step {suffix : List Char} {lx : Lexer} {tok : Token} {n : Nat}
    {lx1 : Lexer} (hat : get_next_token_at suffix lx = .ok (tok, n, lx1))
    (k : Nat) (input : List Char) (pos : Nat)
    (hdrop : input.drop pos = suffix) (hlen : pos + suffix.length = input.length) :
    print_token_stream (k + 1) input pos lx =
      tok :: (if tok.type = .TOKEN_EOF then [] else print_token_stream k input (pos + n) lx1) := by
  rw [print_token_stream]
  unfold get_next_token
  rw [if_pos (by omega), hdrop, hat]

theorem get_next_token_at_equals (rest : List Char) (lx : Lexer)
    (hrec : lx.in_error_recovery = false) :
    get_next_token_at ('=' :: ' ' :: rest) lx =
      .ok ({ type := .TOKEN_EQUALS, lexeme := ['='], line := lx.current_line,
             column := lx.current_column, error := .ERROR_NONE, recovery := .RECOVERY_NONE },
           1, { advance_position lx with last_token_type := 'o' }) := by
  rw [get_next_token_at_head '=' _ lx (by decide) (by decide) (by decide) (by decide) hrec]
  unfold classify
  simp only [List.drop_succ_cons, List.drop_zero, peek]
  rw [if_neg (by decide), if_neg (by decide), if_neg (by decide), if_neg (by decide),
    if_neg (by decide), if_neg (by simp), if_pos (by decide), if_pos trivial,
    if_neg (by decide)]
  simp [shift_cursor]

theorem get_next_token_at_semicolon (rest : List Char) (lx : Lexer)
    (hrec : lx.in_error_recovery = false) :
    get_next_token_at (';' :: rest) lx =
      .ok ({ type := .TOKEN_SEMICOLON, lexeme := [';'], line := lx.current_line,
             column := lx.current_column, error := .ERROR_NONE, recovery := .RECOVERY_NONE },
           1, { advance_position lx with last_token_type := 'd' }) := by
  rw [get_next_token_at_head ';' _ lx (by decide) (by decide) (by decide) (by decide) hrec]
  unfold classify
  simp only [List.drop_succ_cons, List.drop_zero, peek]
  rw [if_neg (by simp), if_neg (by decide), if_neg (by decide), if_neg (by decide),
    if_neg (by decide), if_neg (by simp), if_neg (by decide), if_pos (by decide)]
  simp [shift_cursor, delimiter_type]

theorem get_next_token_at_end (lx : Lexer) :
    get_next_token_at [] lx =
      .ok ({ type := .TOKEN_EOF, lexeme := "EOF".toList, line := lx.current_line,
             column := lx.current_column, error := .ERROR_NONE, recovery := .RECOVERY_NONE },
           0, lx) := by
  simp [get_next_token_at, skip_whitespace, peek]

/-- One iteration of the token print loop when the cursor is on a space: the
space is skipped and the token that follows it is printed. -/
theorem print_token_stream_step_space {suffix : List Char} {lx : Lexer} {tok : Token} {n : Nat}
    {lx1 : Lexer} (hat : get_next_token_at suffix (advance_position lx) = .ok (tok, n, lx1))
    (k : Nat) (input : List Char) (pos : Nat)
    (hdrop : input.drop pos = ' ' :: suffix) (hlen : pos + (suffix.length + 1) = input.length) :
    print_token_stream (k + 1) input pos lx =
      tok :: (if tok.type = .TOKEN_EOF then [] else
        print_token_stream k input (pos + (1 + n)) lx1) := by
  have h : get_next_token_at (' ' :: suffix) lx = .ok (tok, 1 + n, lx1) := by
    rw [get_next_token_at_space, hat]
    rfl
  exact print_token_stream_step h k input pos hdrop (by simpa using hlen)

/-- Dropping a prefix of a text by its length leaves the rest. -/
theorem drop_prefix_length (pre rest : List Char) (p : Nat) (h : p = pre.length) :
    List.drop p (pre ++ rest) = rest := by
  subst h
  simp

/-- C7 amended (sample token stream): for every identifier-shaped name `n` of
at most 99 characters that is not a keyword spelling and every non-empty digit
string `d` of at most 99 digits, the token print loop on `tni n = d ;` from a
reset lexer, run for six tokens or more, yields exactly INT with lexeme `tni`,
IDENTIFIER with lexeme `n`, EQUALS, NUMBER with lexeme `d`, SEMICOLON and EOF,
none of which carries a lexical error.  The bound on `n` is the one the
identifier loop tests (`i < sizeof(token.lexeme) - 1`); the bound on `d` is the
size of the lexeme array, which `handle_number` does not test. -/
theorem declaration_token_stream (n d : List Char) (k : Nat)
    (hn : identifier_shaped n = true) (hkw : is_keyword n = .TOKEN_EOF) (hnl : n.length ≤ 99)
    (hd : digit_string d = true) (hdl : d.length ≤ 99) :
    (print_token_stream (k + 6) (declaration_text n d) 0 reset_lexer).map token_summary =
      declaration_tokens n d := by
  cases n with
  | nil => simp [identifier_shaped] at hn
  | cons c l =>
  cases d with
  | nil => simp [digit_string] at hd
  | cons x e =>
  simp only [identifier_shaped, Bool.and_eq_true, Bool.or_eq_true, beq_iff_eq,
    List.all_eq_true] at hn
  simp only [digit_string, Bool.and_eq_true, List.all_eq_true] at hd
  simp only [List.length_cons] at hnl hdl
  obtain ⟨hc, hl⟩ := hn
  obtain ⟨hx, he⟩ := hd
  obtain ⟨inp, hinp⟩ : ∃ inp, inp =
      't' :: 'n' :: 'i' :: ' ' :: c :: (l ++ ' ' :: '=' :: ' ' :: x :: (e ++ [' ', ';'])) :=
    ⟨_, rfl⟩
  have hin : declaration_text (c :: l) (x :: e) = inp := by
    rw [hinp]
    simp [declaration_text]
  have hlen : inp.length = l.length + e.length + 11 := by
    rw [hinp]
    simp
    omega
  have hinp3 : inp = ('t' :: 'n' :: 'i' :: ' ' :: c :: l) ++
      (' ' :: '=' :: ' ' :: x :: (e ++ [' ', ';'])) := by
    rw [hinp]
    simp
  have hinp4 : inp = ('t' :: 'n' :: 'i' :: ' ' :: c :: (l ++ [' ', '='])) ++
      (' ' :: x :: (e ++ [' ', ';'])) := by
    rw [hinp]
    simp
  have hinp5 : inp = ('t' :: 'n' :: 'i' :: ' ' :: c :: (l ++ ' ' :: '=' :: ' ' :: x :: e)) ++
      [' ', ';'] := by
    rw [hinp]
    simp
  have hinp6 : inp =
      ('t' :: 'n' :: 'i' :: ' ' :: c :: (l ++ ' ' :: '=' :: ' ' :: x :: (e ++ [' ', ';']))) ++
      [] := by
    rw [hinp]
    simp
  rw [hin]
  have hkt : is_keyword ['t', 'n', 'i'] = .TOKEN_INT := by decide
  -- the keyword
  obtain ⟨tok1, L1, hat1, hs1, hr1⟩ : ∃ tok L,
      get_next_token_at
        ('t' :: 'n' :: 'i' :: ' ' :: c :: (l ++ ' ' :: '=' :: ' ' :: x :: (e ++ [' ', ';'])))
        reset_lexer = .ok (tok, 3, L) ∧
      token_summary tok = (.TOKEN_INT, ['t', 'n', 'i'], .ERROR_NONE) ∧
      L.in_error_recovery = false :=
    ⟨_, _,
      get_next_token_at_word 't' ['n', 'i'] _ reset_lexer (by decide) (by decide) (by decide) rfl,
      by simp [token_summary, hkt], rfl⟩
  have e1 := print_token_stream_step hat1 (k + 5) inp 0 (by rw [hinp]; rfl)
    (by rw [hlen]; simp; omega)
  -- the name
  obtain ⟨tok2, L2, hat2, hs2, hr2⟩ : ∃ tok L,
      get_next_token_at (c :: (l ++ ' ' :: '=' :: ' ' :: x :: (e ++ [' ', ';'])))
        (advance_position L1) = .ok (tok, l.length + 1, L) ∧
      token_summary tok = (.TOKEN_IDENTIFIER, c :: l, .ERROR_NONE) ∧
      L.in_error_recovery = false :=
    ⟨_, _, get_next_token_at_word c l _ (advance_position L1) hc hl (by omega) hr1,
      by simp [token_summary, hkw], hr1⟩
  have e2 := print_token_stream_step_space hat2 (k + 4) inp (0 + 3) (by rw [hinp]; rfl)
    (by rw [hlen]; simp; omega)
  -- the equals sign
  obtain ⟨tok3, L3, hat3, hs3, hr3⟩ : ∃ tok L,
      get_next_token_at ('=' :: ' ' :: x :: (e ++ [' ', ';']))
        (advance_position L2) = .ok (tok, 1, L) ∧
      token_summary tok = (.TOKEN_EQUALS, ['='], .ERROR_NONE) ∧
      L.in_error_recovery = false :=
    ⟨_, _, get_next_token_at_equals _ (advance_position L2) hr2, rfl, hr2⟩
  have e3 := print_token_stream_step_space hat3 (k + 3) inp (0 + 3 + (1 + (l.length + 1)))
    (by rw [hinp3]; exact drop_prefix_length _ _ _ (by simp; omega))
    (by rw [hlen]; simp; omega)
  -- the number
  obtain ⟨tok4, L4, hat4, hs4, hr4⟩ : ∃ tok L,
      get_next_token_at (x :: (e ++ [' ', ';']))
        (advance_position L3) = .ok (tok, e.length + 1, L) ∧
      token_summary tok = (.TOKEN_NUMBER, x :: e, .ERROR_NONE) ∧
      L.in_error_recovery = false :=
    ⟨_, _, get_next_token_at_digits x e _ (advance_position L3) hx he (by omega) hr3, rfl, hr3⟩
  have e4 := print_token_stream_step_space hat4 (k + 2) inp
    (0 + 3 + (1 + (l.length + 1)) + (1 + 1))
    (by rw [hinp4]; exact drop_prefix_length _ _ _ (by simp; omega))
    (by rw [hlen]; simp; omega)
  -- the semicolon
  obtain ⟨tok5, L5, hat5, hs5, hr5⟩ : ∃ tok L,
      get_next_token_at [';'] (advance_position L4) = .ok (tok, 1, L) ∧
      token_summary tok = (.TOKEN_SEMICOLON, [';'], .ERROR_NONE) ∧
      L.in_error_recovery = false :=
    ⟨_, _, get_next_token_at_semicolon _ (advance_position L4) hr4, rfl, hr4⟩
  have e5 := print_token_stream_step_space hat5 (k + 1) inp
    (0 + 3 + (1 + (l.length + 1)) + (1 + 1) + (1 + (e.length + 1)))
    (by rw [hinp5]; exact drop_prefix_length _ _ _ (by simp; omega))
    (by rw [hlen]; simp; omega)
  -- the end of the input
  have e6 := print_token_stream_step (get_next_token_at_end L5) k inp
    (0 + 3 + (1 + (l.length + 1)) + (1 + 1) + (1 + (e.length + 1)) + (1 + 1))
    (by rw [hinp6]; exact drop_prefix_length _ _ _ (by simp; omega))
    (by rw [hlen]; simp; omega)
  have t1 : tok1.type = .TOKEN_INT := congrArg Prod.fst hs1
  have t2 : tok2.type = .TOKEN_IDENTIFIER := congrArg Prod.fst hs2
  have t3 : tok3.type = .TOKEN_EQUALS := congrArg Prod.fst hs3
  have t4 : tok4.type = .TOKEN_NUMBER := congrArg Prod.fst hs4
  have t5 : tok5.type = .TOKEN_SEMICOLON := congrArg Prod.fst hs5
  rw [t1, if_neg (by decide)] at e1
  rw [t2, if_neg (by decide)] at e2
  rw [t3, if_neg (by decide)] at e3
  rw [t4, if_neg (by decide)] at e4
  rw [t5, if_neg (by decide)] at e5
  rw [if_pos rfl] at e6
  rw [e1, e2, e3, e4, e5, e6]
  simp only [List.map, hs1, hs2, hs3, hs4, hs5]
  rfl

/-- C7 as stated, at a name of 100 letters `a` and the digit string `5`: the
name is identifier-shaped and no keyword, yet the identifier loop stops after 99
characters, so the stream holds an IDENTIFIER of 99 letters followed by a second
IDENTIFIER `a`, seven tokens in all, and is not the stream of the claim. -/
theorem long_name_is_cut :
    identifier_shaped (List.replicate 100 'a') = true ∧
    is_keyword (List.replicate 100 'a') = .TOKEN_EOF ∧
    digit_string ['5'] = true ∧
    (print_token_stream 9 (declaration_text (List.replicate 100 'a') ['5']) 0
        reset_lexer).map token_summary =
      [(.TOKEN_INT, "tni".toList, .ERROR_NONE),
       (.TOKEN_IDENTIFIER, List.replicate 99 'a', .ERROR_NONE),
       (.TOKEN_IDENTIFIER, ['a'], .ERROR_NONE),
       (.TOKEN_EQUALS, ['='], .ERROR_NONE), (.TOKEN_NUMBER, ['5'], .ERROR_NONE),
       (.TOKEN_SEMICOLON, [';'], .ERROR_NONE), (.TOKEN_EOF, "EOF".toList, .ERROR_NONE)] ∧
    (print_token_stream 9 (declaration_text (List.replicate 100 'a') ['5']) 0
        reset_lexer).map token_summary ≠
      declaration_tokens (List.replicate 100 'a') ['5'] := by
  decide!

/-- C7 amended, at the witness of the claim, `n = x` and `d = 5`: the six tokens
of `tni x = 5 ;`. -/
theorem declaration_token_stream_witness :
    identifier_shaped ['x'] = true ∧ is_keyword ['x'] = .TOKEN_EOF ∧
    digit_string ['5'] = true ∧
    (print_token_stream 6 (declaration_text ['x'] ['5']) 0 reset_lexer).map token_summary =
      declaration_tokens ['x'] ['5'] :=
  ⟨by decide, by decide, by decide,
   declaration_token_stream ['x'] ['5'] 0 (by decide) (by decide) (by decide) (by decide)
     (by decide)⟩

/-- C8 at the body `abc` followed by the text ` x` on the next line, from a
reset lexer: the first call returns the STRING token with lexeme `abc` carrying
UNTERMINATED_STRING and stops on the newline, and the next call returns what a
call on ` x` returns at the start of line 2. -/
theorem unterminated_string_recovery_witness :
    (∀ c ∈ "abc".toList, c ≠ DQUOTE ∧ c ≠ BACKSLASH ∧ c ≠ NEWLINE ∧ c ≠ NUL) ∧
    "abc".toList.length ≤ 99 ∧ reset_lexer.in_error_recovery = false ∧
    get_next_token (DQUOTE :: ("abc".toList ++ NEWLINE :: " x".toList)) 0 reset_lexer =
      .ok (unterminated_string_token "abc".toList reset_lexer, "abc".toList.length + 1,
           advance_columns ("abc".toList.length + 1) reset_lexer) ∧
    (∀ flag : Bool,
      get_next_token (DQUOTE :: ("abc".toList ++ NEWLINE :: " x".toList))
          ("abc".toList.length + 1)
          { advance_columns ("abc".toList.length + 1) reset_lexer with
              in_error_recovery := flag } =
        shift_cursor ("abc".toList.length + 2)
          (get_next_token " x".toList 0
            (next_line (advance_columns ("abc".toList.length + 1) reset_lexer)))) :=
  ⟨by decide, by decide, rfl,
   (unterminated_string_recovery "abc".toList " x".toList reset_lexer (by decide) (by decide)
      rfl).1,
   (unterminated_string_recovery "abc".toList " x".toList reset_lexer (by decide) (by decide)
      rfl).2.2.2.1⟩

/-! ## The lookup rule -/

/-- The loop of `lookup_symbol`, run from a state in which the best symbol so
far (if any) has the name looked up, a visible scope level, and `max_scope` is
that level (−1 when there is none): the symbol returned has the name, is
visible, is at least as deep as every visible symbol of that name in the rest
of the list and as `max_scope`, and is either the best so far or an element of
the rest of the list; nothing is returned exactly when there was no best so
far and the rest of the list holds no visible symbol of that name. -/
theorem lookup_symbol_loop_spec (cs : Nat) (name : List Char) (l : List Symbol) :
    ∀ (index : Nat) (found : Option (Nat × Symbol)) (m : Int),
      ((found = none ∧ m = -1) ∨
        ∃ p, found = some p ∧ p.2.name = name ∧ p.2.scope_level ≤ cs ∧
          (p.2.scope_level : Int) = m) →
      (∀ i s, lookup_symbol_loop cs name l index found m = some (i, s) →
        s.name = name ∧ s.scope_level ≤ cs ∧ m ≤ (s.scope_level : Int) ∧
        (∀ t ∈ l, t.name = name → t.scope_level ≤ cs → t.scope_level ≤ s.scope_level) ∧
        (found = some (i, s) ∨ (index ≤ i ∧ l.get? (i - index) = some s))) ∧
      (lookup_symbol_loop cs name l index found m = none ↔
        found = none ∧ ∀ t ∈ l, ¬ (t.name = name ∧ t.scope_level ≤ cs)) := by
  induction l with
  | nil =>
    intro index found m hinv
    simp only [lookup_symbol_loop, List.not_mem_nil, false_implies, implies_true, and_true,
      true_and]
    intro i s hfound
    rcases hinv with ⟨hnone, _⟩ | ⟨p, hp, hname, hscope, hm⟩
    · rw [hnone] at hfound
      cases hfound
    · rw [hp] at hfound
      obtain rfl := Option.some.inj hfound
      exact ⟨hname, hscope, by simp only at hm; omega, Or.inl hp⟩
  | cons current next ih =>
    intro index found m hinv
    unfold lookup_symbol_loop
    by_cases h : current.name = name ∧ current.scope_level ≤ cs
    · by_cases h2 : (current.scope_level : Int) > m
      · rw [if_pos h, if_pos h2]
        obtain ⟨ih1, ih2⟩ := ih (index + 1) (some (index, current)) current.scope_level
          (Or.inr ⟨(index, current), rfl, h.1, h.2, rfl⟩)
        constructor
        · intro i s hres
          obtain ⟨a, b, c, d, e⟩ := ih1 i s hres
          refine ⟨a, b, by omega, ?_, ?_⟩
          · intro t ht htn hts
            rcases List.mem_cons.mp ht with rfl | ht
            · omega
            · exact d t ht htn hts
          · right
            rcases e with e | ⟨e1, e2⟩
            · obtain ⟨rfl, rfl⟩ := Prod.mk.inj (Option.some.inj e)
              exact ⟨Nat.le_refl _, by simp⟩
            · refine ⟨by omega, ?_⟩
              have : i - index = (i - (index + 1)) + 1 := by omega
              rw [this]
              simpa using e2
        · constructor
          · intro hnone
            have := (ih2.mp hnone).1
            cases this
          · rintro ⟨_, hall⟩
            exact absurd h (hall current (List.mem_cons_self _ _))
      · rw [if_pos h, if_neg h2]
        obtain ⟨ih1, ih2⟩ := ih (index + 1) found m hinv
        have hsome : ∃ p, found = some p ∧ p.2.name = name ∧ p.2.scope_level ≤ cs ∧
            (p.2.scope_level : Int) = m := by
          rcases hinv with ⟨_, hm⟩ | hp
          · omega
          · exact hp
        constructor
        · intro i s hres
          obtain ⟨a, b, c, d, e⟩ := ih1 i s hres
          refine ⟨a, b, c, ?_, ?_⟩
          · intro t ht htn hts
            rcases List.mem_cons.mp ht with rfl | ht
            · omega
            · exact d t ht htn hts
          · rcases e with e | ⟨e1, e2⟩
            · exact Or.inl e
            · right
              refine ⟨by omega, ?_⟩
              have : i - index = (i - (index + 1)) + 1 := by omega
              rw [this]
              simpa using e2
        · constructor
          · intro hnone
            obtain ⟨p, hp, _⟩ := hsome
            rw [(ih2.mp hnone).1] at hp
            cases hp
          · rintro ⟨_, hall⟩
            exact absurd h (hall current (List.mem_cons_self _ _))
    · rw [if_neg h]
      obtain ⟨ih1, ih2⟩ := ih (index + 1) found m hinv
      constructor
      · intro i s hres
        obtain ⟨a, b, c, d, e⟩ := ih1 i s hres
        refine ⟨a, b, c, ?_, ?_⟩
        · intro t ht htn hts
          rcases List.mem_cons.mp ht with rfl | ht
          · exact absurd ⟨htn, hts⟩ h
          · exact d t ht htn hts
        · rcases e with e | ⟨e1, e2⟩
          · exact Or.inl e
          · right
            refine ⟨by omega, ?_⟩
            have : i - index = (i - (index + 1)) + 1 := by omega
            rw [this]
            simpa using e2
      · rw [ih2]
        constructor
        · rintro ⟨hf, hall⟩
          refine ⟨hf, ?_⟩
          intro t ht
          rcases List.mem_cons.mp ht with rfl | ht
          · exact h
          · exact hall t ht
        · rintro ⟨hf, hall⟩
          exact ⟨hf, fun t ht => hall t (List.mem_cons_of_mem _ ht)⟩

/-- C12 (lookup rule): for every table and name `n`, a symbol returned by
`lookup_symbol` is a symbol of the table (the one at the returned list
position), has the name `n` and a scope level not above `current_scope`, and
no symbol of the table with the name `n` and a scope level not above
`current_scope` has a greater scope level; and `lookup_symbol` returns no
symbol exactly when the table holds no symbol named `n` with a scope level not
above `current_scope`. -/
theorem lookup_rule (table : SymbolTable) (n : List Char) :
    (∀ i s, lookup_symbol table n = some (i, s) →
      table.head.get? i = some s ∧ s.name = n ∧ s.scope_level ≤ table.current_scope ∧
      ∀ t ∈ table.head, t.name = n → t.scope_level ≤ table.current_scope →
        t.scope_level ≤ s.scope_level) ∧
    (lookup_symbol table n = none ↔
      ∀ t ∈ table.head, ¬ (t.name = n ∧ t.scope_level ≤ table.current_scope)) := by
  obtain ⟨h1, h2⟩ := lookup_symbol_loop_spec table.current_scope n table.head 0 none (-1)
    (Or.inl ⟨rfl, rfl⟩)
  constructor
  · intro i s hres
    obtain ⟨a, b, _, d, e⟩ := h1 i s hres
    refine ⟨?_, a, b, d⟩
    rcases e with e | ⟨_, e⟩
    · cases e
    · simpa using e
  · rw [lookup_symbol, h2]
    simp

/-! ## Division by a literal zero -/

theorem read_result_type_reported (w : Option Int) (s : Sem) :
    (read_result_type w s).2.reported = s.reported := by
  cases w <;> rfl

/-- An expression that checks successfully prints no message. -/
theorem check_expression_reported (e : ASTNode) :
    ∀ s : Sem, (check_expression e s).1 = true → (check_expression e s).2.2.reported = s.reported := by
  induction e with
  | null => intro s h; simp [check_expression] at h
  | node type token left right ihl ihr =>
    intro s h
    cases type <;> try (simp [check_expression] at h ⊢; done)
    case AST_IDENTIFIER =>
      simp only [check_expression] at h ⊢
      cases hl : lookup_symbol s.table token.lexeme with
      | none => simp [hl] at h
      | some p =>
        simp only [hl] at h ⊢
        split_ifs at h ⊢ with h1
        rfl
    case AST_BINOP =>
      simp only [check_expression] at h ⊢
      split_ifs at h ⊢ with h1 h2 h3
      simp only [not_or, not_not] at h1
      simp only [read_result_type_reported]
      rw [ihr _ h1.2, ihl _ h1.1]
    case AST_FACTORIAL =>
      simp only [check_expression] at h ⊢
      split_ifs at h ⊢ with h1 h2 h3
      simp only [read_result_type_reported]
      exact ihl _ h2
    case AST_FUNCTION_CALL =>
      simp only [check_expression] at h ⊢
      cases hl : lookup_symbol s.table token.lexeme with
      | none => simp [hl] at h
      | some p => simp only [hl]

/-- C14 (division by a literal zero): for every state of the analysis and
every binary-operation node whose operator lexeme begins with `/`, whose left
operand checks successfully and whose right operand is a number node whose
lexeme has the integer value 0, `check_expression` returns failure, writes the
error type to `*result_type`, and prints exactly one message, an
INVALID_OPERATION error on the operator's line: the messages afterwards are
those before the call followed by that one. -/
theorem division_by_literal_zero (s : Sem) (token ztoken : Token) (left zl zr : ASTNode)
    (hop : peek token.lexeme = '/') (hleft : (check_expression left s).1 = true)
    (hzero : atoi ztoken.lexeme = 0) :
    (check_expression (.node .AST_BINOP token left (.node .AST_NUMBER ztoken zl zr)) s).1 = false ∧
    (check_expression (.node .AST_BINOP token left (.node .AST_NUMBER ztoken zl zr)) s).2.1 =
      some TokenType.TOKEN_ERROR.code ∧
    (check_expression (.node .AST_BINOP token left (.node .AST_NUMBER ztoken zl zr)) s).2.2.reported =
      s.reported ++ [{ error := .SEM_ERROR_INVALID_OPERATION, name := "division by zero".toList,
                       line := token.line }] := by
  have hrep := check_expression_reported left s hleft
  have hnum : ∀ s1 : Sem, check_expression (.node .AST_NUMBER ztoken zl zr) s1 =
      (true, some TokenType.TOKEN_INT.code, s1) := fun s1 => by simp [check_expression]
  have h : check_expression (.node .AST_BINOP token left (.node .AST_NUMBER ztoken zl zr)) s =
      (false, some TokenType.TOKEN_ERROR.code,
        semantic_error .SEM_ERROR_INVALID_OPERATION "division by zero".toList token.line
          (check_expression left s).2.2) := by
    rw [check_expression]
    simp only [hnum, hleft, hop, hzero, ASTNode.type?, ASTNode.token]
    simp
  rw [h]
  simp [semantic_error, hrep]

/-- C14 at the tree of `6 / 0`, in the fresh state. -/
theorem division_by_literal_zero_witness :
    peek ['/'] = '/' ∧
    (check_expression (.node .AST_NUMBER (plain_token .TOKEN_NUMBER ['6'] 1 1) .null .null)
      (fresh_sem [])).1 = true ∧
    atoi ['0'] = 0 ∧
    (check_expression (.node .AST_BINOP (plain_token .TOKEN_OPERATOR ['/'] 1 3)
        (.node .AST_NUMBER (plain_token .TOKEN_NUMBER ['6'] 1 1) .null .null)
        (.node .AST_NUMBER (plain_token .TOKEN_NUMBER ['0'] 1 5) .null .null))
      (fresh_sem [])).2.2.reported =
      [{ error := .SEM_ERROR_INVALID_OPERATION, name := "division by zero".toList, line := 1 }] :=
  ⟨by decide, by decide!, by decide!,
   (division_by_literal_zero (fresh_sem []) (plain_token .TOKEN_OPERATOR ['/'] 1 3)
      (plain_token .TOKEN_NUMBER ['0'] 1 5)
      (.node .AST_NUMBER (plain_token .TOKEN_NUMBER ['6'] 1 1) .null .null) .null .null
      (by decide) (by decide!) (by decide!)).2.2⟩

/-- C13 (name uniqueness), on the source text `tni f ( tni a , tni a ) \x7b \x7d`:
the text parses without error into the declaration of `f` with two parameters
named `a`; `check_program`, started on that tree from a fresh table, returns
success without printing a message, and the table afterwards holds two
symbols named `a` of scope level 1, so the invariant does not hold of it.
The parameter loop of `check_function_declaration` calls `add_symbol` without
the lookup in the current scope that `check_declaration` makes. -/
theorem duplicate_parameters_both_added (indeterminate : List Int) :
    pipeline_report 30 "tni f ( tni a , tni a ) \x7b \x7d".toList indeterminate =
      .ok (tree_duplicate_parameters, [], 0, true, [],
           { head := [initialized_symbol ['a'] 1 1, initialized_symbol ['a'] 1 1,
                      initialized_symbol ['f'] 0 1],
             current_scope := 0 }) ∧
    check_program tree_duplicate_parameters (fresh_sem indeterminate) =
      (true, { table := { head := [initialized_symbol ['a'] 1 1, initialized_symbol ['a'] 1 1,
                                   initialized_symbol ['f'] 0 1],
                          current_scope := 0 },
               reported := [], indeterminate := indeterminate }) ∧
    ¬ names_unique (check_program tree_duplicate_parameters (fresh_sem indeterminate)).2.table :=
  ⟨pipeline_report_of_parse_report 30 "tni f ( tni a , tni a ) \x7b \x7d".toList _ _ _
     (by decide!) indeterminate,
   rfl,
   by simp [names_unique, check_program, tree_duplicate_parameters, check_statement, fresh_sem,
        init_symbol_table, lookup_symbol_current_scope, lookup_symbol_current_scope_loop,
        add_parameters, mark_initialized, add_symbol, set_initialized, Phase3.enter_scope,
        Sem.exit_scope, Phase3.exit_scope, ASTNode.is_node, check_block_loop, Sem.enter_scope,
        plain_token]⟩

/-! ## The lexer on sample texts -/

theorem skip_until_last_token_type (r delimiters : List Char) :
    ∀ lx : Lexer, (skip_until r delimiters lx).2.last_token_type = lx.last_token_type := by
  induction r with
  | nil => intro lx; rfl
  | cons c rest ih =>
    intro lx
    unfold skip_until
    split_ifs
    · rw [ih]
    · rw [ih]
    · rfl

/-- The previous-token class after `handle_number` is the one before it: no
path of `handle_number` assigns `last_token_type`. -/
theorem handle_number_last_token_type (r : List Char) (lx : Lexer)
    (res : Token × Nat × Lexer) (h : handle_number r lx = .ok res) :
    res.2.2.last_token_type = lx.last_token_type := by
  unfold handle_number at h
  simp only at h
  split_ifs at h <;> obtain rfl := Except.ok.inj h <;>
    simp [skip_until_last_token_type, advance_columns, advance_position]

/-- C15 (consecutive-operator detection), on the text `x = 1 + 2 ;` from a
reset lexer: the `+` is returned as an error token carrying
CONSECUTIVE_OPERATORS, although the token returned immediately before it is
the number `1`; a SKIP token follows and the `2` is never returned.  The
previous-token class is still that of `=` when `+` is read, `handle_number`
not having changed it. -/
theorem operator_after_number_is_flagged :
    (print_token_stream 8 "x = 1 + 2 ;".toList 0 reset_lexer).map token_summary =
      [(.TOKEN_IDENTIFIER, ['x'], .ERROR_NONE), (.TOKEN_EQUALS, ['='], .ERROR_NONE),
       (.TOKEN_NUMBER, ['1'], .ERROR_NONE),
       (.TOKEN_ERROR, ['+'], .ERROR_CONSECUTIVE_OPERATORS),
       (.TOKEN_SKIP, [], .ERROR_RECOVERY_MODE),
       (.TOKEN_SEMICOLON, [';'], .ERROR_NONE), (.TOKEN_EOF, "EOF".toList, .ERROR_NONE)] := by
  decide!

/-- C16 (escape decoding): the string literal holding the escape `\0` is
returned as a STRING token with an empty lexeme carrying
INVALID_ESCAPE_SEQUENCE (`handle_escape_sequence` returns the value 0 for the
letter `0`, and `handle_string` reads the value 0 as "no such escape"); the
closing quote is then lexed as the start of an unterminated string.  For each
of the other six escape letters the literal is returned as one STRING token
without error whose lexeme is the single character the letter denotes. -/
theorem escape_zero_is_rejected :
    (print_token_stream 4 (escaped_string_text '0') 0 reset_lexer).map token_summary =
      [(.TOKEN_STRING, [], .ERROR_INVALID_ESCAPE_SEQUENCE),
       (.TOKEN_STRING, [], .ERROR_UNTERMINATED_STRING),
       (.TOKEN_EOF, "EOF".toList, .ERROR_NONE)] ∧
    ∀ p ∈ [('n', NEWLINE), ('t', TAB), ('r', CR), (BACKSLASH, BACKSLASH), (SQUOTE, SQUOTE),
           (DQUOTE, DQUOTE)],
      (print_token_stream 4 (escaped_string_text p.1) 0 reset_lexer).map token_summary =
        [(.TOKEN_STRING, [p.2], .ERROR_NONE), (.TOKEN_EOF, "EOF".toList, .ERROR_NONE)] := by
  decide!

/-- C17 (character literal kind), on the text of the literal `a` between
single quotes: the token returned has lexeme `a` and no error, and its kind is
TOKEN_CHAR, the kind of the type keyword `rahc`, not TOKEN_CHAR_LITERAL. -/
theorem char_literal_has_keyword_kind :
    (print_token_stream 3 [SQUOTE, 'a', SQUOTE] 0 reset_lexer).map token_summary =
      [(.TOKEN_CHAR, ['a'], .ERROR_NONE), (.TOKEN_EOF, "EOF".toList, .ERROR_NONE)] ∧
    TokenType.TOKEN_CHAR ≠ TokenType.TOKEN_CHAR_LITERAL ∧
    is_keyword "rahc".toList = .TOKEN_CHAR := by
  decide!

/-- C18 (pointer disambiguation), on the text `tnirp 2 * 3 ;` from a reset
lexer: the `*` is returned as a POINTER token, although the token returned
immediately before it is the number `2`.  The previous-token class is still
that of the keyword `tnirp` when `*` is read, `handle_number` not having
changed it. -/
theorem star_after_number_is_pointer :
    (print_token_stream 8 "tnirp 2 * 3 ;".toList 0 reset_lexer).map token_summary =
      [(.TOKEN_PRINT, "tnirp".toList, .ERROR_NONE), (.TOKEN_NUMBER, ['2'], .ERROR_NONE),
       (.TOKEN_POINTER, ['*'], .ERROR_NONE), (.TOKEN_NUMBER, ['3'], .ERROR_NONE),
       (.TOKEN_SEMICOLON, [';'], .ERROR_NONE), (.TOKEN_EOF, "EOF".toList, .ERROR_NONE)] := by
  decide!

/-- C19 (position accuracy), on the text `tni x` from a reset lexer: the
identifier `x` is the fifth character of line 1, and its token is returned
with column 2.  The identifier branch moves the cursor over `tni` without
adding to `current_column`, so only the space is counted. -/
theorem identifier_column_is_short :
    "tni x".toList.get? 4 = some 'x' ∧
    (print_token_stream 3 "tni x".toList 0 reset_lexer).map token_place =
      [(.TOKEN_INT, "tni".toList, 1, 1), (.TOKEN_IDENTIFIER, ['x'], 1, 2),
       (.TOKEN_EOF, "EOF".toList, 1, 2)] := by
  decide!

/-! ## Keyword recognition -/

theorem scan_identifier_stop_at (l rest : List Char) (i : Nat)
    (hl : ∀ x ∈ l, isalnum x = true ∨ x = '_') (hi : i + l.length ≤ 99)
    (hrest : ¬ (isalnum (peek rest) = true ∨ peek rest = '_')) :
    scan_identifier (l ++ rest) i = l := by
  induction l generalizing i with
  | nil =>
    simp only [List.nil_append]
    cases rest with
    | nil => rfl
    | cons x rest =>
      rw [scan_identifier, if_neg]
      rintro ⟨h, _⟩
      exact hrest h
  | cons x l ih =>
    simp only [List.cons_append, List.length_cons] at hi ⊢
    rw [scan_identifier, if_pos ⟨hl x (List.mem_cons_self _ _), by omega⟩,
      ih (i + 1) (fun y hy => hl y (List.mem_cons_of_mem _ hy)) (by omega)]

/-- The identifier branch on a word followed by a character that cannot
continue it. -/
theorem get_next_token_at_word_end (c : Char) (l rest : List Char) (lx : Lexer)
    (hc : isalpha c = true ∨ c = '_') (hl : ∀ x ∈ l, isalnum x = true ∨ x = '_')
    (hlen : l.length + 1 ≤ 99) (hrest : ¬ (isalnum (peek rest) = true ∨ peek rest = '_'))
    (hrec : lx.in_error_recovery = false) :
    get_next_token_at (c :: (l ++ rest)) lx =
      .ok ({ type := if is_keyword (c :: l) ≠ .TOKEN_EOF then is_keyword (c :: l)
                     else .TOKEN_IDENTIFIER,
             lexeme := c :: l, line := lx.current_line, column := lx.current_column,
             error := .ERROR_NONE, recovery := .RECOVERY_NONE },
           l.length + 1,
           { lx with last_token_type :=
               if is_keyword (c :: l) ≠ .TOKEN_EOF then 'k' else 'i' }) := by
  obtain ⟨f1, f2, f3, f4, f5, f6, f7⟩ := word_start_facts c hc
  rw [get_next_token_at_head c _ lx f1 f2 f3 f4 hrec]
  unfold classify
  simp only [List.drop_succ_cons, List.drop_zero]
  rw [if_neg (fun h => f5 h.1), if_neg f6, if_neg (by simp [f7]), if_pos hc,
    scan_identifier_stop_at l rest 1 hl (by omega) hrest]
  split_ifs <;> simp [shift_cursor]

theorem is_keyword_in_absent (table : List (List Char × TokenType)) (w : List Char)
    (h : ∀ K, (w, K) ∉ table) : is_keyword_in table w = .TOKEN_EOF := by
  induction table with
  | nil => rfl
  | cons p rest ih =>
    obtain ⟨v, t⟩ := p
    rw [is_keyword_in, if_neg, ih (fun K hK => h K (List.mem_cons_of_mem _ hK))]
    rintro rfl
    exact h t (List.mem_cons_self _ _)

/-- C20 (keyword recognition): for every identifier-shaped word `w` of at most
99 characters, followed by the end of the input or by a character that is
neither a letter, a digit nor an underscore, a call of `get_next_token` with
the cursor on `w`, outside error recovery, returns a token without error that
has the lexeme `w` and moves the cursor to the end of `w`; its kind is `K` when
the keyword table has the entry `(w, K)`, and IDENTIFIER when the table has no
entry for `w`.  The table has the fourteen entries the spec lists, `eunitnoc`
and `hctiws` both with the kind CONTINUE, and `is_keyword` returns those
kinds. -/
theorem keyword_recognition (w rest : List Char) (lx : Lexer)
    (hw : identifier_shaped w = true) (hlen : w.length ≤ 99)
    (hrest : ¬ (isalnum (peek rest) = true ∨ peek rest = '_'))
    (hrec : lx.in_error_recovery = false) :
    (∃ tok lx1, get_next_token (w ++ rest) 0 lx = .ok (tok, w.length, lx1) ∧
      tok.lexeme = w ∧ tok.error = .ERROR_NONE ∧
      (∀ K, (w, K) ∈ keywords → tok.type = K) ∧
      ((∀ K, (w, K) ∉ keywords) → tok.type = .TOKEN_IDENTIFIER)) ∧
    (∀ p ∈ spec_keywords, p ∈ keywords ∧ is_keyword p.1 = p.2) := by
  refine ⟨?_, by decide⟩
  cases w with
  | nil => simp [identifier_shaped] at hw
  | cons c l =>
    simp only [identifier_shaped, Bool.and_eq_true, Bool.or_eq_true, beq_iff_eq,
      List.all_eq_true] at hw
    simp only [List.length_cons] at hlen
    obtain ⟨hc, hl⟩ := hw
    have hat := get_next_token_at_word_end c l rest lx hc hl hlen hrest hrec
    refine ⟨_, _, (get_next_token_zero _ _).trans hat, rfl, rfl, ?_, ?_⟩
    · intro K hK
      have h1 : ∀ p ∈ keywords, is_keyword p.1 = p.2 ∧ p.2 ≠ .TOKEN_EOF := by decide
      obtain ⟨e1, e2⟩ := h1 (c :: l, K) hK
      simp only at e1 e2
      simp only [e1, ne_eq, e2, not_false_eq_true, if_true]
    · intro hK
      have h2 : is_keyword (c :: l) = .TOKEN_EOF := is_keyword_in_absent keywords _ hK
      simp only [h2, ne_eq, not_true_eq_false, if_false]

/-- C20 at the keyword `elihw` and at the name `x1`, each alone in the input,
from a reset lexer. -/
theorem keyword_recognition_witness :
    (identifier_shaped "elihw".toList = true ∧
      ∃ tok lx1, get_next_token ("elihw".toList ++ []) 0 reset_lexer =
          .ok (tok, "elihw".toList.length, lx1) ∧ tok.lexeme = "elihw".toList ∧
        tok.type = .TOKEN_WHILE) ∧
    (identifier_shaped "x1".toList = true ∧
      ∃ tok lx1, get_next_token ("x1".toList ++ []) 0 reset_lexer =
          .ok (tok, "x1".toList.length, lx1) ∧ tok.lexeme = "x1".toList ∧
        tok.type = .TOKEN_IDENTIFIER) := by
  refine ⟨⟨by decide, ?_⟩, ⟨by decide, ?_⟩⟩
  · obtain ⟨⟨tok, lx1, h1, h2, _, h4, _⟩, _⟩ :=
      keyword_recognition "elihw".toList [] reset_lexer (by decide) (by decide) (by decide) rfl
    exact ⟨tok, lx1, h1, h2, h4 _ (by decide)⟩
  · obtain ⟨⟨tok, lx1, h1, h2, _, _, h5⟩, _⟩ :=
      keyword_recognition "x1".toList [] reset_lexer (by decide) (by decide) (by decide) rfl
    have h : ∀ p ∈ keywords, p.1 ≠ "x1".toList := by decide
    exact ⟨tok, lx1, h1, h2, h5 (fun K hK => h _ hK rfl)⟩

/-! ## The cursor stays inside the input -/

theorem skip_until_length (r delims : List Char) :
    ∀ lx : Lexer, (skip_until r delims lx).1 ≤ r.length := by
  induction r with
  | nil => intro lx; simp [skip_until]
  | cons c rest ih =>
    intro lx
    unfold skip_until
    split_ifs
    · have := ih { lx with current_line := lx.current_line + 1, current_column := 1 }
      simp only [List.length_cons]
      omega
    · have := ih { lx with current_column := lx.current_column + 1 }
      simp only [List.length_cons]
      omega
    · simp

theorem skip_whitespace_length (r : List Char) :
    ∀ lx : Lexer, (skip_whitespace r lx).1 ≤ r.length := by
  induction r with
  | nil => intro lx; simp [skip_whitespace]
  | cons c rest ih =>
    intro lx
    unfold skip_whitespace
    split_ifs
    · have := ih { lx with current_line := lx.current_line + 1, current_column := 1,
                           in_error_recovery := false }
      simp only [List.length_cons]
      omega
    · have := ih { lx with current_column := lx.current_column + 1 }
      simp only [List.length_cons]
      omega
    · simp

theorem handle_string_loop_length (r : List Char) (token : Token) (i n : Nat) (lx : Lexer) :
    (handle_string_loop r token i n lx).2.1 ≤ n + r.length := by
  induction r, token, i, n, lx using handle_string_loop.induct with
  | case1 token i n lx =>
    rw [handle_string_loop]
    simp
  | case2 c rest token i n lx h1 h2 =>
    rw [handle_string_loop, if_pos h1, if_pos h2]
    have := skip_until_length (c :: rest) [NEWLINE, DQUOTE] lx
    simp only at this ⊢
    omega
  | case3 token i n lx h1 h2 =>
    rw [handle_string_loop, if_pos h2, if_neg h1, if_pos rfl]
    simp
  | case4 token i n lx h1 c tail h2 h3 =>
    rw [handle_string_loop, if_pos h3, if_neg h1, if_pos rfl]
    simp only [if_pos h2]
    have := skip_until_length (c :: tail) [NEWLINE, DQUOTE] (advance_position lx)
    simp only [List.length_cons] at this ⊢
    omega
  | case5 token i n lx h1 lx1 c tail h2 h3 ih =>
    rw [handle_string_loop, if_pos h3, if_neg h1, if_pos rfl]
    simp only [if_neg h2]
    exact le_trans ih (by simp only [List.length_cons]; omega)
  | case6 c rest token i n lx h1 h2 h3 ih =>
    rw [handle_string_loop, if_pos h1, if_neg h2, if_neg h3]
    exact le_trans ih (by simp only [List.length_cons]; omega)
  | case7 c rest token i n lx h1 h2 =>
    rw [handle_string_loop, if_neg h1, if_pos h2]
    simp
  | case8 c rest token i n lx h1 h2 =>
    rw [handle_string_loop, if_neg h1, if_neg h2]
    simp only [List.length_cons]
    omega

theorem handle_comment_loop_length (r : List Char) (token : Token) (i n : Nat) (lx : Lexer) :
    (handle_comment_loop r token i n lx).2.1 ≤ n + r.length := by
  induction r, token, i, n, lx using handle_comment_loop.induct with
  | case1 token i n lx =>
    rw [handle_comment_loop]
    simp
  | case2 c rest token i n lx h1 h2 ih =>
    rw [handle_comment_loop, if_pos h1, if_pos h2]
    simp only [List.length_cons] at ih ⊢
    omega
  | case3 c rest token i n lx h1 h2 ih =>
    rw [handle_comment_loop, if_pos h1, if_neg h2]
    simp only [List.length_cons] at ih ⊢
    omega
  | case4 c rest token i n lx h1 =>
    rw [handle_comment_loop, if_neg h1]
    simp

theorem peek_ne_nul_length {r : List Char} {c : Char} (h : peek r = c) (hc : c ≠ NUL) :
    1 ≤ r.length := by
  cases r with
  | nil => exact absurd h.symm hc
  | cons x rest => simp

theorem handle_char_close_length (r : List Char) (token : Token) (n : Nat) (lx : Lexer) :
    (handle_char_close r token n lx).2.1 ≤ n + r.length := by
  unfold handle_char_close
  split_ifs with h1 h2
  · have := skip_until_length r [NEWLINE, SQUOTE] lx
    simp only
    omega
  · have := skip_until_length r [NEWLINE, SQUOTE] lx
    simp only
    omega
  · have := peek_ne_nul_length (not_not.mp h1) (by decide)
    simp only
    omega

theorem scan_digits_length (r : List Char) :
    (scan_digits r).length ≤ r.length := by
  induction r with
  | nil => simp [scan_digits]
  | cons c rest ih =>
    unfold scan_digits
    split_ifs
    · simp only [List.length_cons]
      omega
    · simp

theorem scan_identifier_length (r : List Char) :
    ∀ i, (scan_identifier r i).length ≤ r.length := by
  induction r with
  | nil => intro i; simp [scan_identifier]
  | cons c rest ih =>
    intro i
    unfold scan_identifier
    split_ifs
    · have := ih (i + 1)
      simp only [List.length_cons]
      omega
    · simp

theorem handle_char_length (r : List Char) (lx : Lexer) (res : Token × Nat × Lexer)
    (h : handle_char r lx = .ok res) : res.2.1 ≤ r.length := by
  unfold handle_char at h
  simp only at h
  cases r with
  | nil => simp at h
  | cons q r1 =>
    simp only [List.drop_succ_cons, List.drop_zero] at h
    cases r1 with
    | nil => simp at h
    | cons c rest =>
      simp only at h
      by_cases h1 : c = SQUOTE
      · rw [if_pos h1] at h
        obtain rfl := Except.ok.inj h
        simp
      rw [if_neg h1] at h
      by_cases h2 : c = BACKSLASH
      · rw [if_pos h2] at h
        by_cases h3 : handle_escape_sequence (peek rest) = NUL
        · rw [if_pos h3] at h
          obtain rfl := Except.ok.inj h
          have := skip_until_length rest [NEWLINE, SQUOTE]
            (advance_position (advance_position lx))
          simp only [List.length_cons]
          omega
        · rw [if_neg h3] at h
          obtain rfl := Except.ok.inj h
          have hr : 1 ≤ rest.length := by
            cases rest with
            | nil => exact absurd (by decide) h3
            | cons x y => simp
          refine le_trans (handle_char_close_length _ _ _ _) ?_
          simp only [List.length_cons, List.length_drop]
          omega
      · rw [if_neg h2] at h
        obtain rfl := Except.ok.inj h
        refine le_trans (handle_char_close_length _ _ _ _) ?_
        simp only [List.length_cons]
        omega

theorem handle_number_length (r : List Char) (lx : Lexer) (res : Token × Nat × Lexer)
    (h : handle_number r lx = .ok res) : res.2.1 ≤ r.length := by
  have h1 := scan_digits_length r
  have h2 := scan_digits_length ((r.drop (scan_digits r).length).drop 1)
  have h3 : peek (r.drop (scan_digits r).length) = '.' →
      (scan_digits r).length + 1 ≤ r.length := by
    intro hdot
    have := peek_ne_nul_length hdot (by decide)
    simp only [List.length_drop] at this
    omega
  unfold handle_number at h
  simp only at h
  simp only [List.length_drop] at h2
  split_ifs at h with c1 c2 c3 c4 c5 c6 c7 c8 <;> obtain rfl := Except.ok.inj h
  all_goals first
    | exact h1
    | (have h4 := h3 (by assumption)
       simp only []
       omega)
    | (have h4 := h3 (by assumption)
       refine le_trans (Nat.add_le_add_left (skip_until_length _ _ _) _) ?_
       simp only [List.length_drop]
       omega)

theorem classify_length (c : Char) (r : List Char) (lx : Lexer) (res : Token × Nat × Lexer)
    (hc : c = peek r) (hn : c ≠ NUL) (h : classify c r lx = .ok res) : res.2.1 ≤ r.length := by
  have hlen : 1 ≤ r.length := peek_ne_nul_length hc.symm hn
  have h2len : ∀ x : Char, x ≠ NUL → peek (r.drop 1) = x → 2 ≤ r.length := by
    intro x hx hp
    have := peek_ne_nul_length hp hx
    simp only [List.length_drop] at this
    omega
  unfold classify at h
  simp only at h
  by_cases h1 : c = '/' ∧ peek (List.drop 1 r) = '/'
  · rw [if_pos h1] at h
    obtain rfl := Except.ok.inj h
    have := h2len '/' (by decide) h1.2
    unfold handle_comment
    refine le_trans (handle_comment_loop_length _ _ _ _ _) ?_
    simp only [List.length_drop]
    omega
  rw [if_neg h1] at h
  by_cases h2 : c = SQUOTE
  · rw [if_pos h2] at h
    exact handle_char_length _ _ _ h
  rw [if_neg h2] at h
  by_cases h3 : isdigit c = true
  · rw [if_pos h3] at h
    exact handle_number_length _ _ _ h
  rw [if_neg h3] at h
  by_cases h4 : isalpha c = true ∨ c = '_'
  · rw [if_pos h4] at h
    have := scan_identifier_length (r.drop 1) 1
    simp only [List.length_drop] at this
    split_ifs at h <;> obtain rfl := Except.ok.inj h <;> simp only [List.length_cons] <;> omega
  rw [if_neg h4] at h
  by_cases h5 : c = DQUOTE
  · rw [if_pos h5] at h
    obtain rfl := Except.ok.inj h
    unfold handle_string
    refine le_trans (handle_string_loop_length _ _ _ _ _) ?_
    simp only [List.length_drop]
    omega
  rw [if_neg h5] at h
  by_cases h6 : c = '*' ∧ (lx.last_token_type = 'k' ∨ lx.last_token_type = 'i')
  · rw [if_pos h6] at h
    obtain rfl := Except.ok.inj h
    exact hlen
  rw [if_neg h6] at h
  by_cases h7 : c ∈ operator_chars
  · rw [if_pos h7] at h
    have e2 := h2len '=' (by decide)
    have a2 := h2len '&' (by decide)
    have o2 := h2len '|' (by decide)
    split_ifs at h with g1 g2 g3 g4 g5 g6 g7 g8 <;> obtain rfl := Except.ok.inj h <;>
      simp only [two_char_token] <;>
      first
        | exact hlen
        | exact e2 (by assumption)
        | exact e2 (And.right (by assumption))
        | exact a2 (And.right (by assumption))
        | exact o2 (And.right (by assumption))
  rw [if_neg h7] at h
  split_ifs at h <;> obtain rfl := Except.ok.inj h <;> exact hlen

/-- A call of `get_next_token` on a suffix does not move the cursor beyond the
end of the suffix. -/
theorem get_next_token_at_length (r : List Char) (lx : Lexer) (res : Token × Nat × Lexer)
    (h : get_next_token_at r lx = .ok res) : res.2.1 ≤ r.length := by
  have hw := skip_whitespace_length r lx
  unfold get_next_token_at at h
  simp only at h
  by_cases h1 : peek (List.drop (skip_whitespace r lx).1 r) = NUL
  · rw [if_pos h1] at h
    obtain rfl := Except.ok.inj h
    exact hw
  rw [if_neg h1] at h
  by_cases h2 : (skip_whitespace r lx).2.in_error_recovery = true
  · rw [if_pos h2] at h
    obtain rfl := Except.ok.inj h
    have := skip_until_length (List.drop (skip_whitespace r lx).1 r) [';', NEWLINE]
      (skip_whitespace r lx).2
    simp only [List.length_drop] at this ⊢
    omega
  rw [if_neg h2] at h
  split at h
  · rename_i token n lx2 hcl
    obtain rfl := Except.ok.inj h
    have := classify_length _ _ _ _ rfl h1 hcl
    simp only [List.length_drop] at this ⊢
    omega
  · cases h

set_option linter.unusedTactic false
set_option linter.unreachableTactic false

/-! ## The parser returns -/

theorem get_next_token_at_terminator (r : List Char) (lx : Lexer) (h : peek r = NUL) :
    get_next_token_at r lx =
      .ok ({ type := .TOKEN_EOF, lexeme := "EOF".toList, line := lx.current_line,
             column := lx.current_column, error := .ERROR_NONE, recovery := .RECOVERY_NONE },
           0, lx) := by
  have hw : skip_whitespace r lx = (0, lx) := by
    cases r with
    | nil => rfl
    | cons c rest =>
      simp only [peek] at h
      rw [skip_whitespace, if_neg (by simp [h])]
  unfold get_next_token_at
  simp only [hw, List.drop_zero, h, if_true]

/-- One fetch on a fault-free input, with the cursor inside the buffer: a
token is returned and the cursor stays inside the buffer; after an EOF token
it is on the terminator; after any other token it has moved to the right,
unless the token is the SKIP token that ends error recovery. -/
theorem get_next_token_step (input : List Char) (hf : fault_free input) (pos : Nat)
    (hpos : pos ≤ input.length) (lx : Lexer) :
    ∃ tok pos1 lx1, get_next_token input pos lx = .ok (tok, pos1, lx1) ∧
      pos ≤ pos1 ∧ pos1 ≤ input.length ∧
      (tok.type = .TOKEN_EOF → peek (input.drop pos1) = NUL) ∧
      (tok.type ≠ .TOKEN_EOF →
        pos < pos1 ∨ (tok.type = .TOKEN_SKIP ∧ pos1 = pos ∧ lx.in_error_recovery = true ∧
          lx1.in_error_recovery = false)) ∧
      (peek (input.drop pos) = NUL → tok.type = .TOKEN_EOF ∧ pos1 = pos) := by
  obtain ⟨res, hres⟩ := get_next_token_at_returns (input.drop pos) lx
    (fun k hk => hf.1 (getLast?_of_drop_eq_singleton input (pos + k) SQUOTE
      (by rw [← hk, List.drop_drop])))
    (fun k => by rw [List.drop_drop]; exact hf.2 _)
  have hlen := get_next_token_at_length _ _ _ hres
  obtain ⟨_, _, _, hcases⟩ := get_next_token_at_ok _ lx res hres
  obtain ⟨tok, n, lx1⟩ := res
  simp only [List.length_drop] at hlen
  refine ⟨tok, pos + n, lx1, ?_, by omega, by omega, ?_, ?_, ?_⟩
  · unfold get_next_token
    rw [if_pos hpos, hres]
  · intro heof
    rcases hcases with ⟨_, hn, hp⟩ | ⟨ht, _⟩ | ⟨_, ht, _⟩
    · simp only at hn
      rw [hn, ← List.drop_drop]
      exact hp
    · simp only at ht
      rw [ht] at heof
      cases heof
    · exact absurd heof ht
  · intro hne
    by_cases hc : peek (input.drop pos) = NUL
    · rw [get_next_token_at_terminator _ _ hc] at hres
      simp only [Except.ok.injEq, Prod.mk.injEq] at hres
      exact absurd (by rw [← hres.1]) hne
    · obtain ⟨h1, h2⟩ := get_next_token_at_progress _ lx _ hc hres
      by_cases hcond : lx.in_error_recovery = true ∧ peek (List.drop pos input) = ';'
      · obtain ⟨a, b, c⟩ := h1 hcond
        simp only at a b c
        exact Or.inr ⟨a, by omega, hcond.1, c⟩
      · have := h2 hcond
        simp only at this
        exact Or.inl (by omega)
  · intro hc
    rw [get_next_token_at_terminator _ _ hc] at hres
    simp only [Except.ok.injEq, Prod.mk.injEq] at hres
    obtain ⟨rfl, rfl, rfl⟩ := hres
    exact ⟨rfl, rfl⟩

/-- The loop of `advance` on a fault-free input, given fetches for its
budget: it returns; the cursor has not moved left and is inside the buffer;
when the token it leaves is the EOF token the cursor is on the terminator,
otherwise the cursor has moved right. -/
theorem advance_loop_spec (input : List Char) (hf : fault_free input) :
    ∀ (k : Nat) (p : Parser), p.source = input → p.position ≤ input.length →
      fetch_budget p + 1 ≤ k →
      ∃ p1, advance_loop k p = .ok p1 ∧ p1.source = input ∧ p1.position ≤ input.length ∧
        p.position ≤ p1.position ∧
        (p1.current_token.type = .TOKEN_EOF → peek (input.drop p1.position) = NUL) ∧
        (p1.current_token.type ≠ .TOKEN_EOF → p.position < p1.position) ∧
        (peek (input.drop p.position) = NUL → p1.current_token.type = .TOKEN_EOF) := by
  intro k
  induction k with
  | zero => intro p _ _ hk; omega
  | succ k ih =>
    intro p hsrc hpos hk
    obtain ⟨tok, pos1, lx1, hstep, hle, hin, heof, hne, hnul⟩ :=
      get_next_token_step input hf p.position hpos p.lexer
    unfold advance_loop
    rw [hsrc, hstep]
    simp only
    by_cases hd : tok.type = .TOKEN_ERROR ∨ tok.type = .TOKEN_SKIP ∨ tok.type = .TOKEN_COMMENT
    · rw [if_pos hd]
      have hnot : tok.type ≠ .TOKEN_EOF := by
        rcases hd with h | h | h <;> rw [h] <;> decide
      obtain ⟨p1, h1, h2, h3, h4, h5, h6, _⟩ :=
        ih { p with current_token := tok, position := pos1, lexer := lx1 } hsrc hin (by
          unfold fetch_budget at hk ⊢
          simp only [hsrc] at hk ⊢
          rcases hne hnot with hlt | ⟨_, hsame, hrec, hrec1⟩
          · split_ifs at hk ⊢ <;> omega
          · rw [hrec1]
            rw [hrec] at hk
            simp only [if_true, Bool.false_eq_true, if_false] at hk ⊢
            omega)
      simp only at h4 h6
      rw [hsrc] at h1
      refine ⟨p1, h1, h2, h3, by omega, h5, ?_, ?_⟩
      · intro hp1
        have := h6 hp1
        omega
      · intro hp
        exact absurd (hnul hp).1 hnot
    · rw [if_neg hd]
      refine ⟨_, rfl, rfl, hin, hle, heof, ?_, ?_⟩
      · intro hp1
        simp only at hp1 ⊢
        rcases hne hp1 with hlt | ⟨hskip, _⟩
        · exact hlt
        · exact absurd (Or.inr (Or.inl hskip)) hd
      · intro hp
        exact (hnul hp).1

theorem Parser.remaining_le (input : List Char) (p : Parser) :
    p.remaining input ≤ input.length - p.position + 1 := by
  unfold Parser.remaining
  split_ifs <;> omega

/-- The function `advance` from parser variables that fit a fault-free input:
it returns, the variables afterwards fit the input, and less is left to
parse (nothing, when nothing was left before). -/
theorem advance_spec (input : List Char) (hf : fault_free input) (p : Parser)
    (hw : p.well_formed input) :
    advances_within input (p.remaining input - 1) (advance p) := by
  obtain ⟨hsrc, hpos, heof⟩ := hw
  obtain ⟨p1, h1, h2, h3, h4, h5, h6, h7⟩ :=
    advance_loop_spec input hf (2 * p.source.length + 4) p hsrc hpos (by
      unfold fetch_budget
      split_ifs <;> omega)
  refine ⟨p1, h1, ⟨h2, h3, h5⟩, ?_⟩
  unfold Parser.remaining
  by_cases e1 : p1.current_token.type = .TOKEN_EOF
  · rw [if_pos e1]
    exact Nat.zero_le _
  · rw [if_neg e1]
    have hlt := h6 e1
    by_cases e0 : p.current_token.type = .TOKEN_EOF
    · exact absurd (h7 (heof e0)) e1
    · rw [if_neg e0]
      omega

theorem returns_within_mono {input : List Char} {m m' : Nat} {r : ParseResult}
    (h : returns_within input m r) (hm : m ≤ m') : returns_within input m' r := by
  obtain ⟨node, p, h1, h2, h3⟩ := h
  exact ⟨node, p, h1, h2, Nat.le_trans h3 hm⟩

theorem advances_within_mono {input : List Char} {m m' : Nat} {r : Except Fault Parser}
    (h : advances_within input m r) (hm : m ≤ m') : advances_within input m' r := by
  obtain ⟨p, h1, h2, h3⟩ := h
  exact ⟨p, h1, h2, Nat.le_trans h3 hm⟩

theorem returns_within_pure {input : List Char} {m : Nat} (node : ASTNode) (p : Parser)
    (hw : p.well_formed input) (hm : p.remaining input ≤ m) :
    returns_within input m (pure (node, p)) :=
  ⟨node, p, rfl, hw, hm⟩

theorem advances_within_ok {input : List Char} {m : Nat} (p : Parser)
    (hw : p.well_formed input) (hm : p.remaining input ≤ m) :
    advances_within input m (.ok p) :=
  ⟨p, rfl, hw, hm⟩

theorem returns_within_bind_step {input : List Char} {m m' : Nat} {x : Except Fault Parser}
    {f : Parser → ParseResult} (hx : advances_within input m x)
    (hf : ∀ p1 : Parser, p1.well_formed input → p1.remaining input ≤ m →
      returns_within input m' (f p1)) :
    returns_within input m' (x >>= f) := by
  obtain ⟨p, h1, h2, h3⟩ := hx
  rw [h1]
  exact hf p h2 h3

theorem returns_within_bind {input : List Char} {m m' : Nat} {x : ParseResult}
    {f : ASTNode × Parser → ParseResult} (hx : returns_within input m x)
    (hf : ∀ (node : ASTNode) (p1 : Parser), p1.well_formed input → p1.remaining input ≤ m →
      returns_within input m' (f (node, p1))) :
    returns_within input m' (x >>= f) := by
  obtain ⟨node, p, h1, h2, h3⟩ := hx
  rw [h1]
  exact hf node p h2 h3

theorem advances_within_bind {input : List Char} {m m' : Nat} {x : Except Fault Parser}
    {f : Parser → Except Fault Parser} (hx : advances_within input m x)
    (hf : ∀ p1 : Parser, p1.well_formed input → p1.remaining input ≤ m →
      advances_within input m' (f p1)) :
    advances_within input m' (x >>= f) := by
  obtain ⟨p, h1, h2, h3⟩ := hx
  rw [h1]
  exact hf p h2 h3

theorem parse_error_well_formed {input : List Char} (e : ParseError) (t : Token) (p : Parser)
    (hw : p.well_formed input) : (parse_error e t p).well_formed input := by
  unfold parse_error
  split_ifs <;> exact hw

theorem parse_error_remaining (input : List Char) (e : ParseError) (t : Token) (p : Parser) :
    (parse_error e t p).remaining input = p.remaining input := by
  unfold parse_error
  split_ifs <;> rfl

theorem parse_error_current_token (e : ParseError) (t : Token) (p : Parser) :
    (parse_error e t p).current_token = p.current_token := by
  unfold parse_error
  split_ifs <;> rfl

theorem match_token_parse_error (type : TokenType) (e : ParseError) (t : Token) (p : Parser) :
    match_token type (parse_error e t p) = match_token type p := by
  unfold match_token
  rw [parse_error_current_token]

theorem remaining_pos_of_match (input : List Char) {type : TokenType} {p : Parser} (ht : type ≠ .TOKEN_EOF)
    (h : match_token type p = true) : 1 ≤ p.remaining input := by
  unfold match_token at h
  unfold Parser.remaining
  rw [if_neg]
  · omega
  · intro he
    rw [he] at h
    simp only [decide_eq_true_eq] at h
    exact ht h.symm

theorem remaining_pos_of_not_eof (input : List Char) {p : Parser} (h : ¬ match_token .TOKEN_EOF p = true) :
    1 ≤ p.remaining input := by
  unfold match_token at h
  unfold Parser.remaining
  rw [if_neg]
  · omega
  · intro he
    exact h (by simp [he])

theorem backtrack_well_formed {input : List Char} (p q : Parser) (hp : p.well_formed input)
    (hq : q.well_formed input) :
    (backtrack p.position p.current_token q).well_formed input :=
  ⟨hq.1, hp.2.1, hp.2.2⟩

theorem backtrack_remaining (input : List Char) (p q : Parser) :
    (backtrack p.position p.current_token q).remaining input = p.remaining input := rfl

/-- The loop of `synchronize`, given iterations for what is left to parse. -/
theorem synchronize_loop_spec (input : List Char) (hf : fault_free input) :
    ∀ (k : Nat) (p : Parser), p.well_formed input → p.remaining input + 1 ≤ k →
      advances_within input (p.remaining input) (synchronize_loop k p) := by
  intro k
  induction k with
  | zero => intro p _ hk; omega
  | succ k ih =>
    intro p hw hk
    unfold synchronize_loop
    by_cases h0 : ¬ match_token .TOKEN_EOF p = true
    · rw [if_pos h0]
      have hpos := remaining_pos_of_not_eof input h0
      have hadv := advance_spec input hf p hw
      by_cases h1 : match_token .TOKEN_SEMICOLON p = true
      · rw [if_pos h1]
        exact advances_within_mono hadv (by omega)
      rw [if_neg h1]
      by_cases h2 : match_token .TOKEN_RBRACE p = true
      · rw [if_pos h2]
        exact advances_within_ok p hw (Nat.le_refl _)
      rw [if_neg h2]
      by_cases h3 : is_statement_start p = true
      · rw [if_pos h3]
        exact advances_within_ok p hw (Nat.le_refl _)
      rw [if_neg h3]
      obtain ⟨p1, e1, w1, m1⟩ := hadv
      rw [e1]
      exact advances_within_mono (ih p1 w1 (by omega)) (by omega)
    · rw [if_neg h0]
      exact advances_within_ok p hw (Nat.le_refl _)

/-- The function `synchronize` from parser variables that fit a fault-free
input. -/
theorem synchronize_spec (input : List Char) (hf : fault_free input) (p : Parser)
    (hw : p.well_formed input) :
    advances_within input (p.remaining input - 1) (synchronize p) := by
  obtain ⟨p1, e1, w1, m1⟩ := advance_spec input hf p hw
  unfold synchronize
  rw [e1]
  have hlen : p1.remaining input + 1 ≤ 2 * p1.source.length + 4 := by
    have := Parser.remaining_le input p1
    rw [w1.1]
    omega
  exact advances_within_mono (synchronize_loop_spec input hf _ p1 w1 hlen) m1

theorem remaining_pos_of_multiplicative (input : List Char) {p : Parser} (h : is_multiplicative p = true) :
    1 ≤ p.remaining input := by
  unfold is_multiplicative at h
  simp only [Bool.or_eq_true, Bool.and_eq_true] at h
  rcases h with ⟨h, _⟩ | h
  · exact remaining_pos_of_match input (by decide) h
  · exact remaining_pos_of_match input (by decide) h

theorem remaining_pos_of_additive (input : List Char) {p : Parser} (h : is_additive p = true) :
    1 ≤ p.remaining input := by
  unfold is_additive at h
  simp only [Bool.and_eq_true] at h
  exact remaining_pos_of_match input (by decide) h.1

theorem remaining_pos_of_comparison (input : List Char) {p : Parser} (h : is_comparison p = true) :
    1 ≤ p.remaining input := by
  unfold is_comparison at h
  simp only [Bool.or_eq_true] at h
  rcases h with (((h | h) | h) | h) | h <;> exact remaining_pos_of_match input (by decide) h

/-- The expression rules return.  On a fault-free input, from parser variables
that fit the input, each rule called with a recursion budget of twelve for
each unit left to parse, plus its depth in the chain of rules, returns a node
and parser variables that fit the input, with no more left to parse than
before (one unit less, for `parse_primary_expression`). -/
theorem expression_rules_return (input : List Char) (hf : fault_free input) (n : Nat) :
    (∀ p : Parser, p.well_formed input → 1 + 12 * p.remaining input ≤ n →
      returns_within input (p.remaining input - 1) (parse_primary_expression n p)) ∧
    (∀ (left : ASTNode) (p : Parser), p.well_formed input → 2 + 12 * p.remaining input ≤ n →
      returns_within input (p.remaining input) (parse_multiplicative_loop n left p)) ∧
    (∀ p : Parser, p.well_formed input → 3 + 12 * p.remaining input ≤ n →
      returns_within input (p.remaining input) (parse_multiplicative_expression n p)) ∧
    (∀ (left : ASTNode) (p : Parser), p.well_formed input → 4 + 12 * p.remaining input ≤ n →
      returns_within input (p.remaining input) (parse_additive_loop n left p)) ∧
    (∀ p : Parser, p.well_formed input → 5 + 12 * p.remaining input ≤ n →
      returns_within input (p.remaining input) (parse_additive_expression n p)) ∧
    (∀ (left : ASTNode) (p : Parser), p.well_formed input → 6 + 12 * p.remaining input ≤ n →
      returns_within input (p.remaining input) (parse_comparison_loop n left p)) ∧
    (∀ p : Parser, p.well_formed input → 7 + 12 * p.remaining input ≤ n →
      returns_within input (p.remaining input) (parse_comparison_expression n p)) ∧
    (∀ (left : ASTNode) (p : Parser), p.well_formed input → 8 + 12 * p.remaining input ≤ n →
      returns_within input (p.remaining input) (parse_logical_and_loop n left p)) ∧
    (∀ p : Parser, p.well_formed input → 9 + 12 * p.remaining input ≤ n →
      returns_within input (p.remaining input) (parse_logical_and_expression n p)) ∧
    (∀ (left : ASTNode) (p : Parser), p.well_formed input → 10 + 12 * p.remaining input ≤ n →
      returns_within input (p.remaining input) (parse_logical_or_loop n left p)) ∧
    (∀ p : Parser, p.well_formed input → 11 + 12 * p.remaining input ≤ n →
      returns_within input (p.remaining input) (parse_logical_or_expression n p)) ∧
    (∀ p : Parser, p.well_formed input → 12 + 12 * p.remaining input ≤ n →
      returns_within input (p.remaining input) (parse_expression n p)) := by
  induction n with
  | zero =>
    refine ⟨?_, ?_, ?_, ?_, ?_, ?_, ?_, ?_, ?_, ?_, ?_, ?_⟩ <;> intros <;> omega
  | succ n ih =>
    obtain ⟨ihP, ihML, ihM, ihAL, ihA, ihCL, ihC, ihNL, ihN, ihOL, ihO, ihE⟩ := ih
    refine ⟨?_, ?_, ?_, ?_, ?_, ?_, ?_, ?_, ?_, ?_, ?_, ?_⟩
    · intro p hw hn
      rw [parse_primary_expression]
      by_cases c1 : match_token .TOKEN_NUMBER p = true
      · rw [if_pos c1]
        repeat' first
            | exact returns_within_pure _ _
                (by repeat (first | assumption | apply parse_error_well_formed | apply backtrack_well_formed))
                (by (try simp only [parse_error_remaining, backtrack_remaining] at *); omega)
            | (refine returns_within_bind_step
                (advance_spec input hf _
                (by repeat (first | assumption | apply parse_error_well_formed | apply backtrack_well_formed))) ?_
               intro p1 w1 m1
               try dsimp only)
            | (refine returns_within_bind_step
                (synchronize_spec input hf _
                (by repeat (first | assumption | apply parse_error_well_formed | apply backtrack_well_formed))) ?_
               intro p1 w1 m1
               try dsimp only)
            | simp only [bind_assoc, pure_bind]
            | split_ifs
      rw [if_neg c1]
      by_cases c2 : match_token .TOKEN_IDENTIFIER p = true
      · rw [if_pos c2]
        have hpos := remaining_pos_of_match input (by decide) c2
        repeat' first
            | exact returns_within_pure _ _
                (by repeat (first | assumption | apply parse_error_well_formed | apply backtrack_well_formed))
                (by (try simp only [parse_error_remaining, backtrack_remaining] at *); omega)
            | exact returns_within_mono
                (ihE _
                (by repeat (first | assumption | apply parse_error_well_formed | apply backtrack_well_formed))
                (by (try simp only [parse_error_remaining, backtrack_remaining] at *); omega))
                (by (try simp only [parse_error_remaining, backtrack_remaining] at *); omega)
            | (refine returns_within_bind
                (ihE _
                (by repeat (first | assumption | apply parse_error_well_formed | apply backtrack_well_formed))
                (by (try simp only [parse_error_remaining, backtrack_remaining] at *); omega)) ?_
               intro node1 p1 w1 m1
               try dsimp only)
            | (refine returns_within_bind_step
                (advance_spec input hf _
                (by repeat (first | assumption | apply parse_error_well_formed | apply backtrack_well_formed))) ?_
               intro p1 w1 m1
               try dsimp only)
            | (refine returns_within_bind_step
                (synchronize_spec input hf _
                (by repeat (first | assumption | apply parse_error_well_formed | apply backtrack_well_formed))) ?_
               intro p1 w1 m1
               try dsimp only)
            | simp only [bind_assoc, pure_bind]
            | split_ifs
      rw [if_neg c2]
      by_cases c3 : match_token .TOKEN_FACTORIAL p = true
      · rw [if_pos c3]
        have hpos := remaining_pos_of_match input (by decide) c3
        repeat' first
            | exact returns_within_pure _ _
                (by repeat (first | assumption | apply parse_error_well_formed | apply backtrack_well_formed))
                (by (try simp only [parse_error_remaining, backtrack_remaining] at *); omega)
            | exact returns_within_mono
                (ihE _
                (by repeat (first | assumption | apply parse_error_well_formed | apply backtrack_well_formed))
                (by (try simp only [parse_error_remaining, backtrack_remaining] at *); omega))
                (by (try simp only [parse_error_remaining, backtrack_remaining] at *); omega)
            | (refine returns_within_bind
                (ihE _
                (by repeat (first | assumption | apply parse_error_well_formed | apply backtrack_well_formed))
                (by (try simp only [parse_error_remaining, backtrack_remaining] at *); omega)) ?_
               intro node1 p1 w1 m1
               try dsimp only)
            | (refine returns_within_bind_step
                (advance_spec input hf _
                (by repeat (first | assumption | apply parse_error_well_formed | apply backtrack_well_formed))) ?_
               intro p1 w1 m1
               try dsimp only)
            | (refine returns_within_bind_step
                (synchronize_spec input hf _
                (by repeat (first | assumption | apply parse_error_well_formed | apply backtrack_well_formed))) ?_
               intro p1 w1 m1
               try dsimp only)
            | simp only [bind_assoc, pure_bind]
            | split_ifs
      rw [if_neg c3]
      by_cases c4 : match_token .TOKEN_LPAREN p = true
      · rw [if_pos c4]
        have hpos := remaining_pos_of_match input (by decide) c4
        repeat' first
            | exact returns_within_pure _ _
                (by repeat (first | assumption | apply parse_error_well_formed | apply backtrack_well_formed))
                (by (try simp only [parse_error_remaining, backtrack_remaining] at *); omega)
            | exact returns_within_mono
                (ihE _
                (by repeat (first | assumption | apply parse_error_well_formed | apply backtrack_well_formed))
                (by (try simp only [parse_error_remaining, backtrack_remaining] at *); omega))
                (by (try simp only [parse_error_remaining, backtrack_remaining] at *); omega)
            | (refine returns_within_bind
                (ihE _
                (by repeat (first | assumption | apply parse_error_well_formed | apply backtrack_well_formed))
                (by (try simp only [parse_error_remaining, backtrack_remaining] at *); omega)) ?_
               intro node1 p1 w1 m1
               try dsimp only)
            | (refine returns_within_bind_step
                (advance_spec input hf _
                (by repeat (first | assumption | apply parse_error_well_formed | apply backtrack_well_formed))) ?_
               intro p1 w1 m1
               try dsimp only)
            | (refine returns_within_bind_step
                (synchronize_spec input hf _
                (by repeat (first | assumption | apply parse_error_well_formed | apply backtrack_well_formed))) ?_
               intro p1 w1 m1
               try dsimp only)
            | simp only [bind_assoc, pure_bind]
            | split_ifs
      rw [if_neg c4]
      repeat' first
          | exact returns_within_pure _ _
              (by repeat (first | assumption | apply parse_error_well_formed | apply backtrack_well_formed))
              (by (try simp only [parse_error_remaining, backtrack_remaining] at *); omega)
          | (refine returns_within_bind_step
              (advance_spec input hf _
              (by repeat (first | assumption | apply parse_error_well_formed | apply backtrack_well_formed))) ?_
             intro p1 w1 m1
             try dsimp only)
          | (refine returns_within_bind_step
              (synchronize_spec input hf _
              (by repeat (first | assumption | apply parse_error_well_formed | apply backtrack_well_formed))) ?_
             intro p1 w1 m1
             try dsimp only)
          | simp only [bind_assoc, pure_bind]
          | split_ifs
    · intro left p hw hn
      rw [parse_multiplicative_loop]
      by_cases c : is_multiplicative p = true
      · rw [if_pos c]
        have hpos := remaining_pos_of_multiplicative input c
        repeat' first
            | exact returns_within_pure _ _
                (by repeat (first | assumption | apply parse_error_well_formed | apply backtrack_well_formed))
                (by (try simp only [parse_error_remaining, backtrack_remaining] at *); omega)
            | exact returns_within_mono
                (ihP _
                (by repeat (first | assumption | apply parse_error_well_formed | apply backtrack_well_formed))
                (by (try simp only [parse_error_remaining, backtrack_remaining] at *); omega))
                (by (try simp only [parse_error_remaining, backtrack_remaining] at *); omega)
            | exact returns_within_mono
                (ihML _ _
                (by repeat (first | assumption | apply parse_error_well_formed | apply backtrack_well_formed))
                (by (try simp only [parse_error_remaining, backtrack_remaining] at *); omega))
                (by (try simp only [parse_error_remaining, backtrack_remaining] at *); omega)
            | (refine returns_within_bind
                (ihP _
                (by repeat (first | assumption | apply parse_error_well_formed | apply backtrack_well_formed))
                (by (try simp only [parse_error_remaining, backtrack_remaining] at *); omega)) ?_
               intro node1 p1 w1 m1
               try dsimp only)
            | (refine returns_within_bind
                (ihML _ _
                (by repeat (first | assumption | apply parse_error_well_formed | apply backtrack_well_formed))
                (by (try simp only [parse_error_remaining, backtrack_remaining] at *); omega)) ?_
               intro node1 p1 w1 m1
               try dsimp only)
            | (refine returns_within_bind_step
                (advance_spec input hf _
                (by repeat (first | assumption | apply parse_error_well_formed | apply backtrack_well_formed))) ?_
               intro p1 w1 m1
               try dsimp only)
            | (refine returns_within_bind_step
                (synchronize_spec input hf _
                (by repeat (first | assumption | apply parse_error_well_formed | apply backtrack_well_formed))) ?_
               intro p1 w1 m1
               try dsimp only)
            | simp only [bind_assoc, pure_bind]
            | split_ifs
      · rw [if_neg c]
        repeat' first
            | exact returns_within_pure _ _
                (by repeat (first | assumption | apply parse_error_well_formed | apply backtrack_well_formed))
                (by (try simp only [parse_error_remaining, backtrack_remaining] at *); omega)
            | (refine returns_within_bind_step
                (advance_spec input hf _
                (by repeat (first | assumption | apply parse_error_well_formed | apply backtrack_well_formed))) ?_
               intro p1 w1 m1
               try dsimp only)
            | (refine returns_within_bind_step
                (synchronize_spec input hf _
                (by repeat (first | assumption | apply parse_error_well_formed | apply backtrack_well_formed))) ?_
               intro p1 w1 m1
               try dsimp only)
            | simp only [bind_assoc, pure_bind]
            | split_ifs
    · intro p hw hn
      rw [parse_multiplicative_expression]
      repeat' first
          | exact returns_within_pure _ _
              (by repeat (first | assumption | apply parse_error_well_formed | apply backtrack_well_formed))
              (by (try simp only [parse_error_remaining, backtrack_remaining] at *); omega)
          | exact returns_within_mono
              (ihP _
              (by repeat (first | assumption | apply parse_error_well_formed | apply backtrack_well_formed))
              (by (try simp only [parse_error_remaining, backtrack_remaining] at *); omega))
              (by (try simp only [parse_error_remaining, backtrack_remaining] at *); omega)
          | exact returns_within_mono
              (ihML _ _
              (by repeat (first | assumption | apply parse_error_well_formed | apply backtrack_well_formed))
              (by (try simp only [parse_error_remaining, backtrack_remaining] at *); omega))
              (by (try simp only [parse_error_remaining, backtrack_remaining] at *); omega)
          | (refine returns_within_bind
              (ihP _
              (by repeat (first | assumption | apply parse_error_well_formed | apply backtrack_well_formed))
              (by (try simp only [parse_error_remaining, backtrack_remaining] at *); omega)) ?_
             intro node1 p1 w1 m1
             try dsimp only)
          | (refine returns_within_bind
              (ihML _ _
              (by repeat (first | assumption | apply parse_error_well_formed | apply backtrack_well_formed))
              (by (try simp only [parse_error_remaining, backtrack_remaining] at *); omega)) ?_
             intro node1 p1 w1 m1
             try dsimp only)
          | (refine returns_within_bind_step
              (advance_spec input hf _
              (by repeat (first | assumption | apply parse_error_well_formed | apply backtrack_well_formed))) ?_
             intro p1 w1 m1
             try dsimp only)
          | (refine returns_within_bind_step
              (synchronize_spec input hf _
              (by repeat (first | assumption | apply parse_error_well_formed | apply backtrack_well_formed))) ?_
             intro p1 w1 m1
             try dsimp only)
          | simp only [bind_assoc, pure_bind]
          | split_ifs
    · intro left p hw hn
      rw [parse_additive_loop]
      by_cases c : is_additive p = true
      · rw [if_pos c]
        have hpos := remaining_pos_of_additive input c
        repeat' first
            | exact returns_within_pure _ _
                (by repeat (first | assumption | apply parse_error_well_formed | apply backtrack_well_formed))
                (by (try simp only [parse_error_remaining, backtrack_remaining] at *); omega)
            | exact returns_within_mono
                (ihM _
                (by repeat (first | assumption | apply parse_error_well_formed | apply backtrack_well_formed))
                (by (try simp only [parse_error_remaining, backtrack_remaining] at *); omega))
                (by (try simp only [parse_error_remaining, backtrack_remaining] at *); omega)
            | exact returns_within_mono
                (ihAL _ _
                (by repeat (first | assumption | apply parse_error_well_formed | apply backtrack_well_formed))
                (by (try simp only [parse_error_remaining, backtrack_remaining] at *); omega))
                (by (try simp only [parse_error_remaining, backtrack_remaining] at *); omega)
            | (refine returns_within_bind
                (ihM _
                (by repeat (first | assumption | apply parse_error_well_formed | apply backtrack_well_formed))
                (by (try simp only [parse_error_remaining, backtrack_remaining] at *); omega)) ?_
               intro node1 p1 w1 m1
               try dsimp only)
            | (refine returns_within_bind
                (ihAL _ _
                (by repeat (first | assumption | apply parse_error_well_formed | apply backtrack_well_formed))
                (by (try simp only [parse_error_remaining, backtrack_remaining] at *); omega)) ?_
               intro node1 p1 w1 m1
               try dsimp only)
            | (refine returns_within_bind_step
                (advance_spec input hf _
                (by repeat (first | assumption | apply parse_error_well_formed | apply backtrack_well_formed))) ?_
               intro p1 w1 m1
               try dsimp only)
            | (refine returns_within_bind_step
                (synchronize_spec input hf _
                (by repeat (first | assumption | apply parse_error_well_formed | apply backtrack_well_formed))) ?_
               intro p1 w1 m1
               try dsimp only)
            | simp only [bind_assoc, pure_bind]
            | split_ifs
      · rw [if_neg c]
        repeat' first
            | exact returns_within_pure _ _
                (by repeat (first | assumption | apply parse_error_well_formed | apply backtrack_well_formed))
                (by (try simp only [parse_error_remaining, backtrack_remaining] at *); omega)
            | (refine returns_within_bind_step
                (advance_spec input hf _
                (by repeat (first | assumption | apply parse_error_well_formed | apply backtrack_well_formed))) ?_
               intro p1 w1 m1
               try dsimp only)
            | (refine returns_within_bind_step
                (synchronize_spec input hf _
                (by repeat (first | assumption | apply parse_error_well_formed | apply backtrack_well_formed))) ?_
               intro p1 w1 m1
               try dsimp only)
            | simp only [bind_assoc, pure_bind]
            | split_ifs
    · intro p hw hn
      rw [parse_additive_expression]
      repeat' first
          | exact returns_within_pure _ _
              (by repeat (first | assumption | apply parse_error_well_formed | apply backtrack_well_formed))
              (by (try simp only [parse_error_remaining, backtrack_remaining] at *); omega)
          | exact returns_within_mono
              (ihM _
              (by repeat (first | assumption | apply parse_error_well_formed | apply backtrack_well_formed))
              (by (try simp only [parse_error_remaining, backtrack_remaining] at *); omega))
              (by (try simp only [parse_error_remaining, backtrack_remaining] at *); omega)
          | exact returns_within_mono
              (ihAL _ _
              (by repeat (first | assumption | apply parse_error_well_formed | apply backtrack_well_formed))
              (by (try simp only [parse_error_remaining, backtrack_remaining] at *); omega))
              (by (try simp only [parse_error_remaining, backtrack_remaining] at *); omega)
          | (refine returns_within_bind
              (ihM _
              (by repeat (first | assumption | apply parse_error_well_formed | apply backtrack_well_formed))
              (by (try simp only [parse_error_remaining, backtrack_remaining] at *); omega)) ?_
             intro node1 p1 w1 m1
             try dsimp only)
          | (refine returns_within_bind
              (ihAL _ _
              (by repeat (first | assumption | apply parse_error_well_formed | apply backtrack_well_formed))
              (by (try simp only [parse_error_remaining, backtrack_remaining] at *); omega)) ?_
             intro node1 p1 w1 m1
             try dsimp only)
          | (refine returns_within_bind_step
              (advance_spec input hf _
              (by repeat (first | assumption | apply parse_error_well_formed | apply backtrack_well_formed))) ?_
             intro p1 w1 m1
             try dsimp only)
          | (refine returns_within_bind_step
              (synchronize_spec input hf _
              (by repeat (first | assumption | apply parse_error_well_formed | apply backtrack_well_formed))) ?_
             intro p1 w1 m1
             try dsimp only)
          | simp only [bind_assoc, pure_bind]
          | split_ifs
    · intro left p hw hn
      rw [parse_comparison_loop]
      by_cases c : is_comparison p = true
      · rw [if_pos c]
        have hpos := remaining_pos_of_comparison input c
        repeat' first
            | exact returns_within_pure _ _
                (by repeat (first | assumption | apply parse_error_well_formed | apply backtrack_well_formed))
                (by (try simp only [parse_error_remaining, backtrack_remaining] at *); omega)
            | exact returns_within_mono
                (ihA _
                (by repeat (first | assumption | apply parse_error_well_formed | apply backtrack_well_formed))
                (by (try simp only [parse_error_remaining, backtrack_remaining] at *); omega))
                (by (try simp only [parse_error_remaining, backtrack_remaining] at *); omega)
            | exact returns_within_mono
                (ihCL _ _
                (by repeat (first | assumption | apply parse_error_well_formed | apply backtrack_well_formed))
                (by (try simp only [parse_error_remaining, backtrack_remaining] at *); omega))
                (by (try simp only [parse_error_remaining, backtrack_remaining] at *); omega)
            | (refine returns_within_bind
                (ihA _
                (by repeat (first | assumption | apply parse_error_well_formed | apply backtrack_well_formed))
                (by (try simp only [parse_error_remaining, backtrack_remaining] at *); omega)) ?_
               intro node1 p1 w1 m1
               try dsimp only)
            | (refine returns_within_bind
                (ihCL _ _
                (by repeat (first | assumption | apply parse_error_well_formed | apply backtrack_well_formed))
                (by (try simp only [parse_error_remaining, backtrack_remaining] at *); omega)) ?_
               intro node1 p1 w1 m1
               try dsimp only)
            | (refine returns_within_bind_step
                (advance_spec input hf _
                (by repeat (first | assumption | apply parse_error_well_formed | apply backtrack_well_formed))) ?_
               intro p1 w1 m1
               try dsimp only)
            | (refine returns_within_bind_step
                (synchronize_spec input hf _
                (by repeat (first | assumption | apply parse_error_well_formed | apply backtrack_well_formed))) ?_
               intro p1 w1 m1
               try dsimp only)
            | simp only [bind_assoc, pure_bind]
            | split_ifs
      · rw [if_neg c]
        repeat' first
            | exact returns_within_pure _ _
                (by repeat (first | assumption | apply parse_error_well_formed | apply backtrack_well_formed))
                (by (try simp only [parse_error_remaining, backtrack_remaining] at *); omega)
            | (refine returns_within_bind_step
                (advance_spec input hf _
                (by repeat (first | assumption | apply parse_error_well_formed | apply backtrack_well_formed))) ?_
               intro p1 w1 m1
               try dsimp only)
            | (refine returns_within_bind_step
                (synchronize_spec input hf _
                (by repeat (first | assumption | apply parse_error_well_formed | apply backtrack_well_formed))) ?_
               intro p1 w1 m1
               try dsimp only)
            | simp only [bind_assoc, pure_bind]
            | split_ifs
    · intro p hw hn
      rw [parse_comparison_expression]
      repeat' first
          | exact returns_within_pure _ _
              (by repeat (first | assumption | apply parse_error_well_formed | apply backtrack_well_formed))
              (by (try simp only [parse_error_remaining, backtrack_remaining] at *); omega)
          | exact returns_within_mono
              (ihA _
              (by repeat (first | assumption | apply parse_error_well_formed | apply backtrack_well_formed))
              (by (try simp only [parse_error_remaining, backtrack_remaining] at *); omega))
              (by (try simp only [parse_error_remaining, backtrack_remaining] at *); omega)
          | exact returns_within_mono
              (ihCL _ _
              (by repeat (first | assumption | apply parse_error_well_formed | apply backtrack_well_formed))
              (by (try simp only [parse_error_remaining, backtrack_remaining] at *); omega))
              (by (try simp only [parse_error_remaining, backtrack_remaining] at *); omega)
          | (refine returns_within_bind
              (ihA _
              (by repeat (first | assumption | apply parse_error_well_formed | apply backtrack_well_formed))
              (by (try simp only [parse_error_remaining, backtrack_remaining] at *); omega)) ?_
             intro node1 p1 w1 m1
             try dsimp only)
          | (refine returns_within_bind
              (ihCL _ _
              (by repeat (first | assumption | apply parse_error_well_formed | apply backtrack_well_formed))
              (by (try simp only [parse_error_remaining, backtrack_remaining] at *); omega)) ?_
             intro node1 p1 w1 m1
             try dsimp only)
          | (refine returns_within_bind_step
              (advance_spec input hf _
              (by repeat (first | assumption | apply parse_error_well_formed | apply backtrack_well_formed))) ?_
             intro p1 w1 m1
             try dsimp only)
          | (refine returns_within_bind_step
              (synchronize_spec input hf _
              (by repeat (first | assumption | apply parse_error_well_formed | apply backtrack_well_formed))) ?_
             intro p1 w1 m1
             try dsimp only)
          | simp only [bind_assoc, pure_bind]
          | split_ifs
    · intro left p hw hn
      rw [parse_logical_and_loop]
      by_cases c : match_token .TOKEN_LOGICAL_AND p = true
      · rw [if_pos c]
        have hpos := remaining_pos_of_match input (by decide) c
        repeat' first
            | exact returns_within_pure _ _
                (by repeat (first | assumption | apply parse_error_well_formed | apply backtrack_well_formed))
                (by (try simp only [parse_error_remaining, backtrack_remaining] at *); omega)
            | exact returns_within_mono
                (ihC _
                (by repeat (first | assumption | apply parse_error_well_formed | apply backtrack_well_formed))
                (by (try simp only [parse_error_remaining, backtrack_remaining] at *); omega))
                (by (try simp only [parse_error_remaining, backtrack_remaining] at *); omega)
            | exact returns_within_mono
                (ihNL _ _
                (by repeat (first | assumption | apply parse_error_well_formed | apply backtrack_well_formed))
                (by (try simp only [parse_error_remaining, backtrack_remaining] at *); omega))
                (by (try simp only [parse_error_remaining, backtrack_remaining] at *); omega)
            | (refine returns_within_bind
                (ihC _
                (by repeat (first | assumption | apply parse_error_well_formed | apply backtrack_well_formed))
                (by (try simp only [parse_error_remaining, backtrack_remaining] at *); omega)) ?_
               intro node1 p1 w1 m1
               try dsimp only)
            | (refine returns_within_bind
                (ihNL _ _
                (by repeat (first | assumption | apply parse_error_well_formed | apply backtrack_well_formed))
                (by (try simp only [parse_error_remaining, backtrack_remaining] at *); omega)) ?_
               intro node1 p1 w1 m1
               try dsimp only)
            | (refine returns_within_bind_step
                (advance_spec input hf _
                (by repeat (first | assumption | apply parse_error_well_formed | apply backtrack_well_formed))) ?_
               intro p1 w1 m1
               try dsimp only)
            | (refine returns_within_bind_step
                (synchronize_spec input hf _
                (by repeat (first | assumption | apply parse_error_well_formed | apply backtrack_well_formed))) ?_
               intro p1 w1 m1
               try dsimp only)
            | simp only [bind_assoc, pure_bind]
            | split_ifs
      · rw [if_neg c]
        repeat' first
            | exact returns_within_pure _ _
                (by repeat (first | assumption | apply parse_error_well_formed | apply backtrack_well_formed))
                (by (try simp only [parse_error_remaining, backtrack_remaining] at *); omega)
            | (refine returns_within_bind_step
                (advance_spec input hf _
                (by repeat (first | assumption | apply parse_error_well_formed | apply backtrack_well_formed))) ?_
               intro p1 w1 m1
               try dsimp only)
            | (refine returns_within_bind_step
                (synchronize_spec input hf _
                (by repeat (first | assumption | apply parse_error_well_formed | apply backtrack_well_formed))) ?_
               intro p1 w1 m1
               try dsimp only)
            | simp only [bind_assoc, pure_bind]
            | split_ifs
    · intro p hw hn
      rw [parse_logical_and_expression]
      repeat' first
          | exact returns_within_pure _ _
              (by repeat (first | assumption | apply parse_error_well_formed | apply backtrack_well_formed))
              (by (try simp only [parse_error_remaining, backtrack_remaining] at *); omega)
          | exact returns_within_mono
              (ihC _
              (by repeat (first | assumption | apply parse_error_well_formed | apply backtrack_well_formed))
              (by (try simp only [parse_error_remaining, backtrack_remaining] at *); omega))
              (by (try simp only [parse_error_remaining, backtrack_remaining] at *); omega)
          | exact returns_within_mono
              (ihNL _ _
              (by repeat (first | assumption | apply parse_error_well_formed | apply backtrack_well_formed))
              (by (try simp only [parse_error_remaining, backtrack_remaining] at *); omega))
              (by (try simp only [parse_error_remaining, backtrack_remaining] at *); omega)
          | (refine returns_within_bind
              (ihC _
              (by repeat (first | assumption | apply parse_error_well_formed | apply backtrack_well_formed))
              (by (try simp only [parse_error_remaining, backtrack_remaining] at *); omega)) ?_
             intro node1 p1 w1 m1
             try dsimp only)
          | (refine returns_within_bind
              (ihNL _ _
              (by repeat (first | assumption | apply parse_error_well_formed | apply backtrack_well_formed))
              (by (try simp only [parse_error_remaining, backtrack_remaining] at *); omega)) ?_
             intro node1 p1 w1 m1
             try dsimp only)
          | (refine returns_within_bind_step
              (advance_spec input hf _
              (by repeat (first | assumption | apply parse_error_well_formed | apply backtrack_well_formed))) ?_
             intro p1 w1 m1
             try dsimp only)
          | (refine returns_within_bind_step
              (synchronize_spec input hf _
              (by repeat (first | assumption | apply parse_error_well_formed | apply backtrack_well_formed))) ?_
             intro p1 w1 m1
             try dsimp only)
          | simp only [bind_assoc, pure_bind]
          | split_ifs
    · intro left p hw hn
      rw [parse_logical_or_loop]
      by_cases c : match_token .TOKEN_LOGICAL_OR p = true
      · rw [if_pos c]
        have hpos := remaining_pos_of_match input (by decide) c
        repeat' first
            | exact returns_within_pure _ _
                (by repeat (first | assumption | apply parse_error_well_formed | apply backtrack_well_formed))
                (by (try simp only [parse_error_remaining, backtrack_remaining] at *); omega)
            | exact returns_within_mono
                (ihN _
                (by repeat (first | assumption | apply parse_error_well_formed | apply backtrack_well_formed))
                (by (try simp only [parse_error_remaining, backtrack_remaining] at *); omega))
                (by (try simp only [parse_error_remaining, backtrack_remaining] at *); omega)
            | exact returns_within_mono
                (ihOL _ _
                (by repeat (first | assumption | apply parse_error_well_formed | apply backtrack_well_formed))
                (by (try simp only [parse_error_remaining, backtrack_remaining] at *); omega))
                (by (try simp only [parse_error_remaining, backtrack_remaining] at *); omega)
            | (refine returns_within_bind
                (ihN _
                (by repeat (first | assumption | apply parse_error_well_formed | apply backtrack_well_formed))
                (by (try simp only [parse_error_remaining, backtrack_remaining] at *); omega)) ?_
               intro node1 p1 w1 m1
               try dsimp only)
            | (refine returns_within_bind
                (ihOL _ _
                (by repeat (first | assumption | apply parse_error_well_formed | apply backtrack_well_formed))
                (by (try simp only [parse_error_remaining, backtrack_remaining] at *); omega)) ?_
               intro node1 p1 w1 m1
               try dsimp only)
            | (refine returns_within_bind_step
                (advance_spec input hf _
                (by repeat (first | assumption | apply parse_error_well_formed | apply backtrack_well_formed))) ?_
               intro p1 w1 m1
               try dsimp only)
            | (refine returns_within_bind_step
                (synchronize_spec input hf _
                (by repeat (first | assumption | apply parse_error_well_formed | apply backtrack_well_formed))) ?_
               intro p1 w1 m1
               try dsimp only)
            | simp only [bind_assoc, pure_bind]
            | split_ifs
      · rw [if_neg c]
        repeat' first
            | exact returns_within_pure _ _
                (by repeat (first | assumption | apply parse_error_well_formed | apply backtrack_well_formed))
                (by (try simp only [parse_error_remaining, backtrack_remaining] at *); omega)
            | (refine returns_within_bind_step
                (advance_spec input hf _
                (by repeat (first | assumption | apply parse_error_well_formed | apply backtrack_well_formed))) ?_
               intro p1 w1 m1
               try dsimp only)
            | (refine returns_within_bind_step
                (synchronize_spec input hf _
                (by repeat (first | assumption | apply parse_error_well_formed | apply backtrack_well_formed))) ?_
               intro p1 w1 m1
               try dsimp only)
            | simp only [bind_assoc, pure_bind]
            | split_ifs
    · intro p hw hn
      rw [parse_logical_or_expression]
      repeat' first
          | exact returns_within_pure _ _
              (by repeat (first | assumption | apply parse_error_well_formed | apply backtrack_well_formed))
              (by (try simp only [parse_error_remaining, backtrack_remaining] at *); omega)
          | exact returns_within_mono
              (ihN _
              (by repeat (first | assumption | apply parse_error_well_formed | apply backtrack_well_formed))
              (by (try simp only [parse_error_remaining, backtrack_remaining] at *); omega))
              (by (try simp only [parse_error_remaining, backtrack_remaining] at *); omega)
          | exact returns_within_mono
              (ihOL _ _
              (by repeat (first | assumption | apply parse_error_well_formed | apply backtrack_well_formed))
              (by (try simp only [parse_error_remaining, backtrack_remaining] at *); omega))
              (by (try simp only [parse_error_remaining, backtrack_remaining] at *); omega)
          | (refine returns_within_bind
              (ihN _
              (by repeat (first | assumption | apply parse_error_well_formed | apply backtrack_well_formed))
              (by (try simp only [parse_error_remaining, backtrack_remaining] at *); omega)) ?_
             intro node1 p1 w1 m1
             try dsimp only)
          | (refine returns_within_bind
              (ihOL _ _
              (by repeat (first | assumption | apply parse_error_well_formed | apply backtrack_well_formed))
              (by (try simp only [parse_error_remaining, backtrack_remaining] at *); omega)) ?_
             intro node1 p1 w1 m1
             try dsimp only)
          | (refine returns_within_bind_step
              (advance_spec input hf _
              (by repeat (first | assumption | apply parse_error_well_formed | apply backtrack_well_formed))) ?_
             intro p1 w1 m1
             try dsimp only)
          | (refine returns_within_bind_step
              (synchronize_spec input hf _
              (by repeat (first | assumption | apply parse_error_well_formed | apply backtrack_well_formed))) ?_
             intro p1 w1 m1
             try dsimp only)
          | simp only [bind_assoc, pure_bind]
          | split_ifs
    · intro p hw hn
      rw [parse_expression]
      repeat' first
          | exact returns_within_pure _ _
              (by repeat (first | assumption | apply parse_error_well_formed | apply backtrack_well_formed))
              (by (try simp only [parse_error_remaining, backtrack_remaining] at *); omega)
          | exact returns_within_mono
              (ihO _
              (by repeat (first | assumption | apply parse_error_well_formed | apply backtrack_well_formed))
              (by (try simp only [parse_error_remaining, backtrack_remaining] at *); omega))
              (by (try simp only [parse_error_remaining, backtrack_remaining] at *); omega)
          | (refine returns_within_bind
              (ihO _
              (by repeat (first | assumption | apply parse_error_well_formed | apply backtrack_well_formed))
              (by (try simp only [parse_error_remaining, backtrack_remaining] at *); omega)) ?_
             intro node1 p1 w1 m1
             try dsimp only)
          | (refine returns_within_bind_step
              (advance_spec input hf _
              (by repeat (first | assumption | apply parse_error_well_formed | apply backtrack_well_formed))) ?_
             intro p1 w1 m1
             try dsimp only)
          | (refine returns_within_bind_step
              (synchronize_spec input hf _
              (by repeat (first | assumption | apply parse_error_well_formed | apply backtrack_well_formed))) ?_
             intro p1 w1 m1
             try dsimp only)
          | simp only [bind_assoc, pure_bind]
          | split_ifs

theorem parse_expression_returns (input : List Char) (hf : fault_free input) (n : Nat)
    (p : Parser) (hw : p.well_formed input) (hn : 12 + 12 * p.remaining input ≤ n) :
    returns_within input (p.remaining input) (parse_expression n p) :=
  (expression_rules_return input hf n).2.2.2.2.2.2.2.2.2.2.2 p hw hn

theorem parse_primary_expression_returns (input : List Char) (hf : fault_free input) (n : Nat)
    (p : Parser) (hw : p.well_formed input) (hn : 1 + 12 * p.remaining input ≤ n) :
    returns_within input (p.remaining input - 1) (parse_primary_expression n p) :=
  (expression_rules_return input hf n).1 p hw hn

theorem expect_semicolon_spec (input : List Char) (hf : fault_free input) (p : Parser)
    (hw : p.well_formed input) :
    advances_within input (p.remaining input) (expect_semicolon p) := by
  unfold expect_semicolon
  split_ifs
  · exact advances_within_mono (advance_spec input hf p hw) (by omega)
  · exact advances_within_ok _ (parse_error_well_formed _ _ _ hw)
      (by rw [parse_error_remaining])

theorem expect_lparen_spec (input : List Char) (hf : fault_free input) (token : Token)
    (p : Parser) (hw : p.well_formed input) :
    advances_within input (p.remaining input) (expect_lparen token p) := by
  unfold expect_lparen
  split_ifs
  · exact advances_within_mono (advance_spec input hf p hw) (by omega)
  · exact advances_within_ok _ (parse_error_well_formed _ _ _ hw)
      (by rw [parse_error_remaining])

theorem parse_condition_returns (input : List Char) (hf : fault_free input) (n : Nat)
    (token : Token) (p : Parser) (hw : p.well_formed input)
    (hn : 12 + 12 * p.remaining input ≤ n) :
    returns_within input (p.remaining input) (parse_condition n token p) := by
  unfold parse_condition
  repeat' first
      | exact returns_within_pure _ _
          (by repeat (first | assumption | apply parse_error_well_formed | apply backtrack_well_formed))
          (by (try simp only [parse_error_remaining, backtrack_remaining] at *); omega)
      | exact returns_within_mono
          (parse_expression_returns input hf _ _
          (by repeat (first | assumption | apply parse_error_well_formed | apply backtrack_well_formed))
          (by (try simp only [parse_error_remaining, backtrack_remaining] at *); omega))
          (by (try simp only [parse_error_remaining, backtrack_remaining] at *); omega)
      | (refine returns_within_bind
          (parse_expression_returns input hf _ _
          (by repeat (first | assumption | apply parse_error_well_formed | apply backtrack_well_formed))
          (by (try simp only [parse_error_remaining, backtrack_remaining] at *); omega)) ?_
         intro node1 p1 w1 m1
         try dsimp only)
      | (refine returns_within_bind_step
          (advance_spec input hf _
          (by repeat (first | assumption | apply parse_error_well_formed | apply backtrack_well_formed))) ?_
         intro p1 w1 m1
         try dsimp only)
      | (refine returns_within_bind_step
          (synchronize_spec input hf _
          (by repeat (first | assumption | apply parse_error_well_formed | apply backtrack_well_formed))) ?_
         intro p1 w1 m1
         try dsimp only)
      | simp only [bind_assoc, pure_bind]
      | split_ifs

theorem parse_declaration_returns (input : List Char) (hf : fault_free input) (n : Nat)
    (p : Parser) (hw : p.well_formed input) (hn : 12 + 12 * p.remaining input ≤ n) :
    returns_within input (p.remaining input - 1) (parse_declaration n p) := by
  unfold parse_declaration
  repeat' first
      | exact returns_within_pure _ _
          (by repeat (first | assumption | apply parse_error_well_formed | apply backtrack_well_formed))
          (by (try simp only [parse_error_remaining, backtrack_remaining] at *); omega)
      | exact returns_within_mono
          (parse_expression_returns input hf _ _
          (by repeat (first | assumption | apply parse_error_well_formed | apply backtrack_well_formed))
          (by (try simp only [parse_error_remaining, backtrack_remaining] at *); omega))
          (by (try simp only [parse_error_remaining, backtrack_remaining] at *); omega)
      | (refine returns_within_bind
          (parse_expression_returns input hf _ _
          (by repeat (first | assumption | apply parse_error_well_formed | apply backtrack_well_formed))
          (by (try simp only [parse_error_remaining, backtrack_remaining] at *); omega)) ?_
         intro node1 p1 w1 m1
         try dsimp only)
      | (refine returns_within_bind_step
          (expect_semicolon_spec input hf _
          (by repeat (first | assumption | apply parse_error_well_formed | apply backtrack_well_formed))) ?_
         intro p1 w1 m1
         try dsimp only)
      | (refine returns_within_bind_step
          (advance_spec input hf _
          (by repeat (first | assumption | apply parse_error_well_formed | apply backtrack_well_formed))) ?_
         intro p1 w1 m1
         try dsimp only)
      | (refine returns_within_bind_step
          (synchronize_spec input hf _
          (by repeat (first | assumption | apply parse_error_well_formed | apply backtrack_well_formed))) ?_
         intro p1 w1 m1
         try dsimp only)
      | simp only [bind_assoc, pure_bind]
      | split_ifs

theorem parse_parameters_returns (input : List Char) (hf : fault_free input) :
    ∀ (n : Nat) (p : Parser), p.well_formed input → 1 + 12 * p.remaining input ≤ n →
      returns_within input (p.remaining input) (parse_parameters n p) := by
  intro n
  induction n with
  | zero => intro p _ hn; omega
  | succ n ih =>
    intro p hw hn
    rw [parse_parameters]
    by_cases c : ¬ match_token .TOKEN_RPAREN p = true ∧ ¬ match_token .TOKEN_EOF p = true
    · rw [if_pos c]
      have hpos := remaining_pos_of_not_eof input c.2
      repeat' first
          | exact returns_within_pure _ _
              (by repeat (first | assumption | apply parse_error_well_formed | apply backtrack_well_formed))
              (by (try simp only [parse_error_remaining, backtrack_remaining] at *); omega)
          | exact returns_within_mono
              (ih _
              (by repeat (first | assumption | apply parse_error_well_formed | apply backtrack_well_formed))
              (by (try simp only [parse_error_remaining, backtrack_remaining] at *); omega))
              (by (try simp only [parse_error_remaining, backtrack_remaining] at *); omega)
          | (refine returns_within_bind
              (ih _
              (by repeat (first | assumption | apply parse_error_well_formed | apply backtrack_well_formed))
              (by (try simp only [parse_error_remaining, backtrack_remaining] at *); omega)) ?_
             intro node1 p1 w1 m1
             try dsimp only)
          | (refine returns_within_bind_step
              (advance_spec input hf _
              (by repeat (first | assumption | apply parse_error_well_formed | apply backtrack_well_formed))) ?_
             intro p1 w1 m1
             try dsimp only)
          | (refine returns_within_bind_step
              (synchronize_spec input hf _
              (by repeat (first | assumption | apply parse_error_well_formed | apply backtrack_well_formed))) ?_
             intro p1 w1 m1
             try dsimp only)
          | simp only [bind_assoc, pure_bind]
          | split_ifs
    · rw [if_neg c]
      repeat' first
          | exact returns_within_pure _ _
              (by repeat (first | assumption | apply parse_error_well_formed | apply backtrack_well_formed))
              (by (try simp only [parse_error_remaining, backtrack_remaining] at *); omega)
          | (refine returns_within_bind_step
              (advance_spec input hf _
              (by repeat (first | assumption | apply parse_error_well_formed | apply backtrack_well_formed))) ?_
             intro p1 w1 m1
             try dsimp only)
          | (refine returns_within_bind_step
              (synchronize_spec input hf _
              (by repeat (first | assumption | apply parse_error_well_formed | apply backtrack_well_formed))) ?_
             intro p1 w1 m1
             try dsimp only)
          | simp only [bind_assoc, pure_bind]
          | split_ifs

set_option maxHeartbeats 4000000 in
/-- The statement rules return.  On a fault-free input, from parser variables
that fit the input, each rule called with a recursion budget of twelve for
each unit left to parse, plus its depth in the chain of rules, returns a node
and parser variables that fit the input; every rule other than `parse_block`
and its loop leaves one unit less to parse, and so does `parse_block` when the
current token is an opening brace. -/
theorem statement_rules_return (input : List Char) (hf : fault_free input) (n : Nat) :
    (∀ p : Parser, p.well_formed input → 14 + 12 * p.remaining input ≤ n →
      returns_within input (p.remaining input - 1) (parse_function_declaration n p)) ∧
    (∀ p : Parser, p.well_formed input → 14 + 12 * p.remaining input ≤ n →
      returns_within input (p.remaining input - 1) (parse_assignment n p)) ∧
    (∀ (token : Token) (p : Parser), p.well_formed input → 16 + 12 * p.remaining input ≤ n →
      returns_within input (p.remaining input) (parse_block_loop n token p)) ∧
    (∀ p : Parser, p.well_formed input → 13 + 12 * p.remaining input ≤ n →
      returns_within input (p.remaining input) (parse_block n p)) ∧
    (∀ p : Parser, p.well_formed input → 13 + 12 * p.remaining input ≤ n →
      match_token .TOKEN_LBRACE p = true →
      returns_within input (p.remaining input - 1) (parse_block n p)) ∧
    (∀ p : Parser, p.well_formed input → 14 + 12 * p.remaining input ≤ n →
      returns_within input (p.remaining input - 1) (parse_if_statement n p)) ∧
    (∀ p : Parser, p.well_formed input → 14 + 12 * p.remaining input ≤ n →
      returns_within input (p.remaining input - 1) (parse_while_statement n p)) ∧
    (∀ p : Parser, p.well_formed input → 14 + 12 * p.remaining input ≤ n →
      returns_within input (p.remaining input - 1) (parse_repeat_until_statement n p)) ∧
    (∀ p : Parser, p.well_formed input → 14 + 12 * p.remaining input ≤ n →
      returns_within input (p.remaining input - 1) (parse_print_statement n p)) ∧
    (∀ p : Parser, p.well_formed input → 14 + 12 * p.remaining input ≤ n →
      returns_within input (p.remaining input - 1) (parse_return_statement n p)) ∧
    (∀ p : Parser, p.well_formed input → 15 + 12 * p.remaining input ≤ n →
      returns_within input (p.remaining input - 1) (parse_statement n p)) := by
  induction n with
  | zero =>
    refine ⟨?_, ?_, ?_, ?_, ?_, ?_, ?_, ?_, ?_, ?_, ?_⟩ <;> intros <;> omega
  | succ n ih =>
    obtain ⟨ihFD, ihAS, ihBL, ihB, ihB2, ihIF, ihWH, ihRP, ihPR, ihRT, ihST⟩ := ih
    refine ⟨?_, ?_, ?_, ?_, ?_, ?_, ?_, ?_, ?_, ?_, ?_⟩
    · intro p hw hn
      rw [parse_function_declaration]
      repeat' first
          | exact returns_within_pure _ _
              (by repeat (first | assumption | apply parse_error_well_formed | apply backtrack_well_formed))
              (by (try simp only [parse_error_remaining, backtrack_remaining] at *); omega)
          | exact returns_within_mono
              (ihB _
              (by repeat (first | assumption | apply parse_error_well_formed | apply backtrack_well_formed))
              (by (try simp only [parse_error_remaining, backtrack_remaining] at *); omega))
              (by (try simp only [parse_error_remaining, backtrack_remaining] at *); omega)
          | exact returns_within_mono
              (parse_parameters_returns input hf _ _
              (by repeat (first | assumption | apply parse_error_well_formed | apply backtrack_well_formed))
              (by (try simp only [parse_error_remaining, backtrack_remaining] at *); omega))
              (by (try simp only [parse_error_remaining, backtrack_remaining] at *); omega)
          | (refine returns_within_bind
              (ihB _
              (by repeat (first | assumption | apply parse_error_well_formed | apply backtrack_well_formed))
              (by (try simp only [parse_error_remaining, backtrack_remaining] at *); omega)) ?_
             intro node1 p1 w1 m1
             try dsimp only)
          | (refine returns_within_bind
              (parse_parameters_returns input hf _ _
              (by repeat (first | assumption | apply parse_error_well_formed | apply backtrack_well_formed))
              (by (try simp only [parse_error_remaining, backtrack_remaining] at *); omega)) ?_
             intro node1 p1 w1 m1
             try dsimp only)
          | (refine returns_within_bind_step
              (advance_spec input hf _
              (by repeat (first | assumption | apply parse_error_well_formed | apply backtrack_well_formed))) ?_
             intro p1 w1 m1
             try dsimp only)
          | (refine returns_within_bind_step
              (synchronize_spec input hf _
              (by repeat (first | assumption | apply parse_error_well_formed | apply backtrack_well_formed))) ?_
             intro p1 w1 m1
             try dsimp only)
          | simp only [bind_assoc, pure_bind]
          | split_ifs
    · intro p hw hn
      rw [parse_assignment]
      repeat' first
          | exact returns_within_pure _ _
              (by repeat (first | assumption | apply parse_error_well_formed | apply backtrack_well_formed))
              (by (try simp only [parse_error_remaining, backtrack_remaining] at *); omega)
          | exact returns_within_mono
              (parse_expression_returns input hf _ _
              (by repeat (first | assumption | apply parse_error_well_formed | apply backtrack_well_formed))
              (by (try simp only [parse_error_remaining, backtrack_remaining] at *); omega))
              (by (try simp only [parse_error_remaining, backtrack_remaining] at *); omega)
          | (refine returns_within_bind
              (parse_expression_returns input hf _ _
              (by repeat (first | assumption | apply parse_error_well_formed | apply backtrack_well_formed))
              (by (try simp only [parse_error_remaining, backtrack_remaining] at *); omega)) ?_
             intro node1 p1 w1 m1
             try dsimp only)
          | (refine returns_within_bind_step
              (expect_semicolon_spec input hf _
              (by repeat (first | assumption | apply parse_error_well_formed | apply backtrack_well_formed))) ?_
             intro p1 w1 m1
             try dsimp only)
          | (refine returns_within_bind_step
              (advance_spec input hf _
              (by repeat (first | assumption | apply parse_error_well_formed | apply backtrack_well_formed))) ?_
             intro p1 w1 m1
             try dsimp only)
          | (refine returns_within_bind_step
              (synchronize_spec input hf _
              (by repeat (first | assumption | apply parse_error_well_formed | apply backtrack_well_formed))) ?_
             intro p1 w1 m1
             try dsimp only)
          | simp only [bind_assoc, pure_bind]
          | split_ifs
    · intro token p hw hn
      rw [parse_block_loop]
      by_cases c : ¬ match_token .TOKEN_RBRACE p = true ∧ ¬ match_token .TOKEN_EOF p = true
      · rw [if_pos c]
        have hpos := remaining_pos_of_not_eof input c.2
        repeat' first
            | exact returns_within_pure _ _
                (by repeat (first | assumption | apply parse_error_well_formed | apply backtrack_well_formed))
                (by (try simp only [parse_error_remaining, backtrack_remaining] at *); omega)
            | exact returns_within_mono
                (ihST _
                (by repeat (first | assumption | apply parse_error_well_formed | apply backtrack_well_formed))
                (by (try simp only [parse_error_remaining, backtrack_remaining] at *); omega))
                (by (try simp only [parse_error_remaining, backtrack_remaining] at *); omega)
            | exact returns_within_mono
                (ihBL _ _
                (by repeat (first | assumption | apply parse_error_well_formed | apply backtrack_well_formed))
                (by (try simp only [parse_error_remaining, backtrack_remaining] at *); omega))
                (by (try simp only [parse_error_remaining, backtrack_remaining] at *); omega)
            | (refine returns_within_bind
                (ihST _
                (by repeat (first | assumption | apply parse_error_well_formed | apply backtrack_well_formed))
                (by (try simp only [parse_error_remaining, backtrack_remaining] at *); omega)) ?_
               intro node1 p1 w1 m1
               try dsimp only)
            | (refine returns_within_bind
                (ihBL _ _
                (by repeat (first | assumption | apply parse_error_well_formed | apply backtrack_well_formed))
                (by (try simp only [parse_error_remaining, backtrack_remaining] at *); omega)) ?_
               intro node1 p1 w1 m1
               try dsimp only)
            | (refine returns_within_bind_step
                (advance_spec input hf _
                (by repeat (first | assumption | apply parse_error_well_formed | apply backtrack_well_formed))) ?_
               intro p1 w1 m1
               try dsimp only)
            | (refine returns_within_bind_step
                (synchronize_spec input hf _
                (by repeat (first | assumption | apply parse_error_well_formed | apply backtrack_well_formed))) ?_
               intro p1 w1 m1
               try dsimp only)
            | simp only [bind_assoc, pure_bind]
            | split_ifs
      · rw [if_neg c]
        repeat' first
            | exact returns_within_pure _ _
                (by repeat (first | assumption | apply parse_error_well_formed | apply backtrack_well_formed))
                (by (try simp only [parse_error_remaining, backtrack_remaining] at *); omega)
            | (refine returns_within_bind_step
                (advance_spec input hf _
                (by repeat (first | assumption | apply parse_error_well_formed | apply backtrack_well_formed))) ?_
               intro p1 w1 m1
               try dsimp only)
            | (refine returns_within_bind_step
                (synchronize_spec input hf _
                (by repeat (first | assumption | apply parse_error_well_formed | apply backtrack_well_formed))) ?_
               intro p1 w1 m1
               try dsimp only)
            | simp only [bind_assoc, pure_bind]
            | split_ifs
    · intro p hw hn
      rw [parse_block]
      by_cases c : ¬ match_token .TOKEN_LBRACE p = true
      · rw [if_pos c]
        repeat' first
            | exact returns_within_pure _ _
                (by repeat (first | assumption | apply parse_error_well_formed | apply backtrack_well_formed))
                (by (try simp only [parse_error_remaining, backtrack_remaining] at *); omega)
            | (refine returns_within_bind_step
                (advance_spec input hf _
                (by repeat (first | assumption | apply parse_error_well_formed | apply backtrack_well_formed))) ?_
               intro p1 w1 m1
               try dsimp only)
            | (refine returns_within_bind_step
                (synchronize_spec input hf _
                (by repeat (first | assumption | apply parse_error_well_formed | apply backtrack_well_formed))) ?_
               intro p1 w1 m1
               try dsimp only)
            | simp only [bind_assoc, pure_bind]
            | split_ifs
      · rw [if_neg c]
        have hpos := remaining_pos_of_match input (by decide) (not_not.mp c)
        repeat' first
            | exact returns_within_pure _ _
                (by repeat (first | assumption | apply parse_error_well_formed | apply backtrack_well_formed))
                (by (try simp only [parse_error_remaining, backtrack_remaining] at *); omega)
            | exact returns_within_mono
                (ihBL _ _
                (by repeat (first | assumption | apply parse_error_well_formed | apply backtrack_well_formed))
                (by (try simp only [parse_error_remaining, backtrack_remaining] at *); omega))
                (by (try simp only [parse_error_remaining, backtrack_remaining] at *); omega)
            | (refine returns_within_bind
                (ihBL _ _
                (by repeat (first | assumption | apply parse_error_well_formed | apply backtrack_well_formed))
                (by (try simp only [parse_error_remaining, backtrack_remaining] at *); omega)) ?_
               intro node1 p1 w1 m1
               try dsimp only)
            | (refine returns_within_bind_step
                (advance_spec input hf _
                (by repeat (first | assumption | apply parse_error_well_formed | apply backtrack_well_formed))) ?_
               intro p1 w1 m1
               try dsimp only)
            | (refine returns_within_bind_step
                (synchronize_spec input hf _
                (by repeat (first | assumption | apply parse_error_well_formed | apply backtrack_well_formed))) ?_
               intro p1 w1 m1
               try dsimp only)
            | simp only [bind_assoc, pure_bind]
            | split_ifs
    · intro p hw hn c
      rw [parse_block, if_neg (not_not.mpr c)]
      have hpos := remaining_pos_of_match input (by decide) c
      repeat' first
          | exact returns_within_pure _ _
              (by repeat (first | assumption | apply parse_error_well_formed | apply backtrack_well_formed))
              (by (try simp only [parse_error_remaining, backtrack_remaining] at *); omega)
          | exact returns_within_mono
              (ihBL _ _
              (by repeat (first | assumption | apply parse_error_well_formed | apply backtrack_well_formed))
              (by (try simp only [parse_error_remaining, backtrack_remaining] at *); omega))
              (by (try simp only [parse_error_remaining, backtrack_remaining] at *); omega)
          | (refine returns_within_bind
              (ihBL _ _
              (by repeat (first | assumption | apply parse_error_well_formed | apply backtrack_well_formed))
              (by (try simp only [parse_error_remaining, backtrack_remaining] at *); omega)) ?_
             intro node1 p1 w1 m1
             try dsimp only)
          | (refine returns_within_bind_step
              (advance_spec input hf _
              (by repeat (first | assumption | apply parse_error_well_formed | apply backtrack_well_formed))) ?_
             intro p1 w1 m1
             try dsimp only)
          | (refine returns_within_bind_step
              (synchronize_spec input hf _
              (by repeat (first | assumption | apply parse_error_well_formed | apply backtrack_well_formed))) ?_
             intro p1 w1 m1
             try dsimp only)
          | simp only [bind_assoc, pure_bind]
          | split_ifs
    · intro p hw hn
      rw [parse_if_statement]
      repeat' first
          | exact returns_within_pure _ _
              (by repeat (first | assumption | apply parse_error_well_formed | apply backtrack_well_formed))
              (by (try simp only [parse_error_remaining, backtrack_remaining] at *); omega)
          | exact returns_within_mono
              (ihB _
              (by repeat (first | assumption | apply parse_error_well_formed | apply backtrack_well_formed))
              (by (try simp only [parse_error_remaining, backtrack_remaining] at *); omega))
              (by (try simp only [parse_error_remaining, backtrack_remaining] at *); omega)
          | exact returns_within_mono
              (parse_condition_returns input hf _ _ _
              (by repeat (first | assumption | apply parse_error_well_formed | apply backtrack_well_formed))
              (by (try simp only [parse_error_remaining, backtrack_remaining] at *); omega))
              (by (try simp only [parse_error_remaining, backtrack_remaining] at *); omega)
          | (refine returns_within_bind
              (ihB _
              (by repeat (first | assumption | apply parse_error_well_formed | apply backtrack_well_formed))
              (by (try simp only [parse_error_remaining, backtrack_remaining] at *); omega)) ?_
             intro node1 p1 w1 m1
             try dsimp only)
          | (refine returns_within_bind
              (parse_condition_returns input hf _ _ _
              (by repeat (first | assumption | apply parse_error_well_formed | apply backtrack_well_formed))
              (by (try simp only [parse_error_remaining, backtrack_remaining] at *); omega)) ?_
             intro node1 p1 w1 m1
             try dsimp only)
          | (refine returns_within_bind_step
              (expect_lparen_spec input hf _ _
              (by repeat (first | assumption | apply parse_error_well_formed | apply backtrack_well_formed))) ?_
             intro p1 w1 m1
             try dsimp only)
          | (refine returns_within_bind_step
              (advance_spec input hf _
              (by repeat (first | assumption | apply parse_error_well_formed | apply backtrack_well_formed))) ?_
             intro p1 w1 m1
             try dsimp only)
          | (refine returns_within_bind_step
              (synchronize_spec input hf _
              (by repeat (first | assumption | apply parse_error_well_formed | apply backtrack_well_formed))) ?_
             intro p1 w1 m1
             try dsimp only)
          | simp only [bind_assoc, pure_bind]
          | split_ifs
    · intro p hw hn
      rw [parse_while_statement]
      repeat' first
          | exact returns_within_pure _ _
              (by repeat (first | assumption | apply parse_error_well_formed | apply backtrack_well_formed))
              (by (try simp only [parse_error_remaining, backtrack_remaining] at *); omega)
          | exact returns_within_mono
              (ihB _
              (by repeat (first | assumption | apply parse_error_well_formed | apply backtrack_well_formed))
              (by (try simp only [parse_error_remaining, backtrack_remaining] at *); omega))
              (by (try simp only [parse_error_remaining, backtrack_remaining] at *); omega)
          | exact returns_within_mono
              (parse_condition_returns input hf _ _ _
              (by repeat (first | assumption | apply parse_error_well_formed | apply backtrack_well_formed))
              (by (try simp only [parse_error_remaining, backtrack_remaining] at *); omega))
              (by (try simp only [parse_error_remaining, backtrack_remaining] at *); omega)
          | (refine returns_within_bind
              (ihB _
              (by repeat (first | assumption | apply parse_error_well_formed | apply backtrack_well_formed))
              (by (try simp only [parse_error_remaining, backtrack_remaining] at *); omega)) ?_
             intro node1 p1 w1 m1
             try dsimp only)
          | (refine returns_within_bind
              (parse_condition_returns input hf _ _ _
              (by repeat (first | assumption | apply parse_error_well_formed | apply backtrack_well_formed))
              (by (try simp only [parse_error_remaining, backtrack_remaining] at *); omega)) ?_
             intro node1 p1 w1 m1
             try dsimp only)
          | (refine returns_within_bind_step
              (expect_lparen_spec input hf _ _
              (by repeat (first | assumption | apply parse_error_well_formed | apply backtrack_well_formed))) ?_
             intro p1 w1 m1
             try dsimp only)
          | (refine returns_within_bind_step
              (advance_spec input hf _
              (by repeat (first | assumption | apply parse_error_well_formed | apply backtrack_well_formed))) ?_
             intro p1 w1 m1
             try dsimp only)
          | (refine returns_within_bind_step
              (synchronize_spec input hf _
              (by repeat (first | assumption | apply parse_error_well_formed | apply backtrack_well_formed))) ?_
             intro p1 w1 m1
             try dsimp only)
          | simp only [bind_assoc, pure_bind]
          | split_ifs
    · intro p hw hn
      rw [parse_repeat_until_statement]
      repeat' first
          | exact returns_within_pure _ _
              (by repeat (first | assumption | apply parse_error_well_formed | apply backtrack_well_formed))
              (by (try simp only [parse_error_remaining, backtrack_remaining] at *); omega)
          | exact returns_within_mono
              (ihB _
              (by repeat (first | assumption | apply parse_error_well_formed | apply backtrack_well_formed))
              (by (try simp only [parse_error_remaining, backtrack_remaining] at *); omega))
              (by (try simp only [parse_error_remaining, backtrack_remaining] at *); omega)
          | exact returns_within_mono
              (parse_condition_returns input hf _ _ _
              (by repeat (first | assumption | apply parse_error_well_formed | apply backtrack_well_formed))
              (by (try simp only [parse_error_remaining, backtrack_remaining] at *); omega))
              (by (try simp only [parse_error_remaining, backtrack_remaining] at *); omega)
          | (refine returns_within_bind
              (ihB _
              (by repeat (first | assumption | apply parse_error_well_formed | apply backtrack_well_formed))
              (by (try simp only [parse_error_remaining, backtrack_remaining] at *); omega)) ?_
             intro node1 p1 w1 m1
             try dsimp only)
          | (refine returns_within_bind
              (parse_condition_returns input hf _ _ _
              (by repeat (first | assumption | apply parse_error_well_formed | apply backtrack_well_formed))
              (by (try simp only [parse_error_remaining, backtrack_remaining] at *); omega)) ?_
             intro node1 p1 w1 m1
             try dsimp only)
          | (refine returns_within_bind_step
              (expect_lparen_spec input hf _ _
              (by repeat (first | assumption | apply parse_error_well_formed | apply backtrack_well_formed))) ?_
             intro p1 w1 m1
             try dsimp only)
          | (refine returns_within_bind_step
              (expect_semicolon_spec input hf _
              (by repeat (first | assumption | apply parse_error_well_formed | apply backtrack_well_formed))) ?_
             intro p1 w1 m1
             try dsimp only)
          | (refine returns_within_bind_step
              (advance_spec input hf _
              (by repeat (first | assumption | apply parse_error_well_formed | apply backtrack_well_formed))) ?_
             intro p1 w1 m1
             try dsimp only)
          | (refine returns_within_bind_step
              (synchronize_spec input hf _
              (by repeat (first | assumption | apply parse_error_well_formed | apply backtrack_well_formed))) ?_
             intro p1 w1 m1
             try dsimp only)
          | simp only [bind_assoc, pure_bind]
          | split_ifs
    · intro p hw hn
      rw [parse_print_statement]
      repeat' first
          | exact returns_within_pure _ _
              (by repeat (first | assumption | apply parse_error_well_formed | apply backtrack_well_formed))
              (by (try simp only [parse_error_remaining, backtrack_remaining] at *); omega)
          | exact returns_within_mono
              (parse_expression_returns input hf _ _
              (by repeat (first | assumption | apply parse_error_well_formed | apply backtrack_well_formed))
              (by (try simp only [parse_error_remaining, backtrack_remaining] at *); omega))
              (by (try simp only [parse_error_remaining, backtrack_remaining] at *); omega)
          | (refine returns_within_bind
              (parse_expression_returns input hf _ _
              (by repeat (first | assumption | apply parse_error_well_formed | apply backtrack_well_formed))
              (by (try simp only [parse_error_remaining, backtrack_remaining] at *); omega)) ?_
             intro node1 p1 w1 m1
             try dsimp only)
          | (refine returns_within_bind_step
              (expect_semicolon_spec input hf _
              (by repeat (first | assumption | apply parse_error_well_formed | apply backtrack_well_formed))) ?_
             intro p1 w1 m1
             try dsimp only)
          | (refine returns_within_bind_step
              (advance_spec input hf _
              (by repeat (first | assumption | apply parse_error_well_formed | apply backtrack_well_formed))) ?_
             intro p1 w1 m1
             try dsimp only)
          | (refine returns_within_bind_step
              (synchronize_spec input hf _
              (by repeat (first | assumption | apply parse_error_well_formed | apply backtrack_well_formed))) ?_
             intro p1 w1 m1
             try dsimp only)
          | simp only [bind_assoc, pure_bind]
          | split_ifs
    · intro p hw hn
      rw [parse_return_statement]
      repeat' first
          | exact returns_within_pure _ _
              (by repeat (first | assumption | apply parse_error_well_formed | apply backtrack_well_formed))
              (by (try simp only [parse_error_remaining, backtrack_remaining] at *); omega)
          | exact returns_within_mono
              (parse_expression_returns input hf _ _
              (by repeat (first | assumption | apply parse_error_well_formed | apply backtrack_well_formed))
              (by (try simp only [parse_error_remaining, backtrack_remaining] at *); omega))
              (by (try simp only [parse_error_remaining, backtrack_remaining] at *); omega)
          | (refine returns_within_bind
              (parse_expression_returns input hf _ _
              (by repeat (first | assumption | apply parse_error_well_formed | apply backtrack_well_formed))
              (by (try simp only [parse_error_remaining, backtrack_remaining] at *); omega)) ?_
             intro node1 p1 w1 m1
             try dsimp only)
          | (refine returns_within_bind_step
              (expect_semicolon_spec input hf _
              (by repeat (first | assumption | apply parse_error_well_formed | apply backtrack_well_formed))) ?_
             intro p1 w1 m1
             try dsimp only)
          | (refine returns_within_bind_step
              (advance_spec input hf _
              (by repeat (first | assumption | apply parse_error_well_formed | apply backtrack_well_formed))) ?_
             intro p1 w1 m1
             try dsimp only)
          | (refine returns_within_bind_step
              (synchronize_spec input hf _
              (by repeat (first | assumption | apply parse_error_well_formed | apply backtrack_well_formed))) ?_
             intro p1 w1 m1
             try dsimp only)
          | simp only [bind_assoc, pure_bind]
          | split_ifs
    · intro p hw hn
      rw [parse_statement]
      by_cases c1 : is_type_keyword p = true
      · rw [if_pos c1]
        repeat' first
            | exact returns_within_pure _ _
                (by repeat (first | assumption | apply parse_error_well_formed | apply backtrack_well_formed))
                (by (try simp only [parse_error_remaining, backtrack_remaining] at *); omega)
            | exact returns_within_mono
                (ihFD _
                (by repeat (first | assumption | apply parse_error_well_formed | apply backtrack_well_formed))
                (by (try simp only [parse_error_remaining, backtrack_remaining] at *); omega))
                (by (try simp only [parse_error_remaining, backtrack_remaining] at *); omega)
            | exact returns_within_mono
                (parse_declaration_returns input hf _ _
                (by repeat (first | assumption | apply parse_error_well_formed | apply backtrack_well_formed))
                (by (try simp only [parse_error_remaining, backtrack_remaining] at *); omega))
                (by (try simp only [parse_error_remaining, backtrack_remaining] at *); omega)
            | (refine returns_within_bind
                (ihFD _
                (by repeat (first | assumption | apply parse_error_well_formed | apply backtrack_well_formed))
                (by (try simp only [parse_error_remaining, backtrack_remaining] at *); omega)) ?_
               intro node1 p1 w1 m1
               try dsimp only)
            | (refine returns_within_bind
                (parse_declaration_returns input hf _ _
                (by repeat (first | assumption | apply parse_error_well_formed | apply backtrack_well_formed))
                (by (try simp only [parse_error_remaining, backtrack_remaining] at *); omega)) ?_
               intro node1 p1 w1 m1
               try dsimp only)
            | (refine returns_within_bind_step
                (advance_spec input hf _
                (by repeat (first | assumption | apply parse_error_well_formed | apply backtrack_well_formed))) ?_
               intro p1 w1 m1
               try dsimp only)
            | (refine returns_within_bind_step
                (synchronize_spec input hf _
                (by repeat (first | assumption | apply parse_error_well_formed | apply backtrack_well_formed))) ?_
               intro p1 w1 m1
               try dsimp only)
            | simp only [bind_assoc, pure_bind]
            | split_ifs
      rw [if_neg c1]
      by_cases c2 : match_token .TOKEN_IDENTIFIER p = true
      · rw [if_pos c2]
        exact ihAS p hw (by omega)
      rw [if_neg c2]
      by_cases c3 : match_token .TOKEN_IF p = true
      · rw [if_pos c3]
        exact ihIF p hw (by omega)
      rw [if_neg c3]
      by_cases c4 : match_token .TOKEN_WHILE p = true
      · rw [if_pos c4]
        exact ihWH p hw (by omega)
      rw [if_neg c4]
      by_cases c5 : match_token .TOKEN_REPEAT p = true
      · rw [if_pos c5]
        exact ihRP p hw (by omega)
      rw [if_neg c5]
      by_cases c6 : match_token .TOKEN_PRINT p = true
      · rw [if_pos c6]
        exact ihPR p hw (by omega)
      rw [if_neg c6]
      by_cases c7 : match_token .TOKEN_RETURN p = true
      · rw [if_pos c7]
        exact ihRT p hw (by omega)
      rw [if_neg c7]
      by_cases c8 : match_token .TOKEN_LBRACE p = true
      · rw [if_pos c8]
        exact ihB2 p hw (by omega) c8
      rw [if_neg c8]
      by_cases c9 : match_token .TOKEN_ELSE p = true
      · rw [if_pos c9]
        repeat' first
            | exact returns_within_pure _ _
                (by repeat (first | assumption | apply parse_error_well_formed | apply backtrack_well_formed))
                (by (try simp only [parse_error_remaining, backtrack_remaining] at *); omega)
            | exact returns_within_mono
                (ihB _
                (by repeat (first | assumption | apply parse_error_well_formed | apply backtrack_well_formed))
                (by (try simp only [parse_error_remaining, backtrack_remaining] at *); omega))
                (by (try simp only [parse_error_remaining, backtrack_remaining] at *); omega)
            | (refine returns_within_bind
                (ihB _
                (by repeat (first | assumption | apply parse_error_well_formed | apply backtrack_well_formed))
                (by (try simp only [parse_error_remaining, backtrack_remaining] at *); omega)) ?_
               intro node1 p1 w1 m1
               try dsimp only)
            | (refine returns_within_bind_step
                (advance_spec input hf _
                (by repeat (first | assumption | apply parse_error_well_formed | apply backtrack_well_formed))) ?_
               intro p1 w1 m1
               try dsimp only)
            | (refine returns_within_bind_step
                (synchronize_spec input hf _
                (by repeat (first | assumption | apply parse_error_well_formed | apply backtrack_well_formed))) ?_
               intro p1 w1 m1
               try dsimp only)
            | simp only [bind_assoc, pure_bind]
            | split_ifs
      rw [if_neg c9]
      by_cases c10 : match_token .TOKEN_FACTORIAL p = true
      · rw [if_pos c10]
        repeat' first
            | exact returns_within_pure _ _
                (by repeat (first | assumption | apply parse_error_well_formed | apply backtrack_well_formed))
                (by (try simp only [parse_error_remaining, backtrack_remaining] at *); omega)
            | exact returns_within_mono
                (parse_primary_expression_returns input hf _ _
                (by repeat (first | assumption | apply parse_error_well_formed | apply backtrack_well_formed))
                (by (try simp only [parse_error_remaining, backtrack_remaining] at *); omega))
                (by (try simp only [parse_error_remaining, backtrack_remaining] at *); omega)
            | (refine returns_within_bind
                (parse_primary_expression_returns input hf _ _
                (by repeat (first | assumption | apply parse_error_well_formed | apply backtrack_well_formed))
                (by (try simp only [parse_error_remaining, backtrack_remaining] at *); omega)) ?_
               intro node1 p1 w1 m1
               try dsimp only)
            | (refine returns_within_bind_step
                (expect_semicolon_spec input hf _
                (by repeat (first | assumption | apply parse_error_well_formed | apply backtrack_well_formed))) ?_
               intro p1 w1 m1
               try dsimp only)
            | (refine returns_within_bind_step
                (advance_spec input hf _
                (by repeat (first | assumption | apply parse_error_well_formed | apply backtrack_well_formed))) ?_
               intro p1 w1 m1
               try dsimp only)
            | (refine returns_within_bind_step
                (synchronize_spec input hf _
                (by repeat (first | assumption | apply parse_error_well_formed | apply backtrack_well_formed))) ?_
               intro p1 w1 m1
               try dsimp only)
            | simp only [bind_assoc, pure_bind]
            | split_ifs
      rw [if_neg c10]
      repeat' first
          | exact returns_within_pure _ _
              (by repeat (first | assumption | apply parse_error_well_formed | apply backtrack_well_formed))
              (by (try simp only [parse_error_remaining, backtrack_remaining] at *); omega)
          | (refine returns_within_bind_step
              (advance_spec input hf _
              (by repeat (first | assumption | apply parse_error_well_formed | apply backtrack_well_formed))) ?_
             intro p1 w1 m1
             try dsimp only)
          | (refine returns_within_bind_step
              (synchronize_spec input hf _
              (by repeat (first | assumption | apply parse_error_well_formed | apply backtrack_well_formed))) ?_
             intro p1 w1 m1
             try dsimp only)
          | simp only [bind_assoc, pure_bind]
          | split_ifs

theorem ok_bind {α β : Type} (a : α) (f : α → Except Fault β) :
    (Except.ok a >>= f) = f a := rfl

theorem program_lookahead_spec (input : List Char) (hf : fault_free input) (p : Parser)
    (hw : p.well_formed input) :
    ∃ b q, program_lookahead p = .ok (b, q) ∧ q.well_formed input ∧
      q.remaining input = p.remaining input := by
  unfold program_lookahead
  by_cases c : is_program_type_keyword p = true
  · rw [if_pos c]
    obtain ⟨p1, e1, w1, _⟩ := advance_spec input hf p hw
    rw [e1, ok_bind]
    by_cases c1 : match_token .TOKEN_IDENTIFIER p1 = true
    · rw [if_pos c1]
      obtain ⟨p2, e2, w2, _⟩ := advance_spec input hf p1 w1
      rw [e2, ok_bind]
      split_ifs
      · exact ⟨_, _, rfl, backtrack_well_formed p p2 hw w2, rfl⟩
      · exact ⟨_, _, rfl, backtrack_well_formed p p2 hw w2, rfl⟩
    · rw [if_neg c1]
      exact ⟨_, _, rfl, backtrack_well_formed p p1 hw w1, rfl⟩
  · rw [if_neg c]
    exact ⟨_, _, rfl, hw, rfl⟩

/-- The function `parse_program` returns, and what it returns is a node of
kind AST_PROGRAM. -/
theorem parse_program_returns (input : List Char) (hf : fault_free input) :
    ∀ (n : Nat) (p : Parser), p.well_formed input → 16 + 12 * p.remaining input ≤ n →
      ∃ token left right q, parse_program n p = .ok (.node .AST_PROGRAM token left right, q) ∧
        q.well_formed input ∧ q.remaining input ≤ p.remaining input := by
  intro n
  induction n with
  | zero => intro p _ hn; omega
  | succ n ih =>
    intro p hw hn
    rw [parse_program]
    dsimp only
    by_cases c0 : match_token .TOKEN_EOF p = true
    · rw [if_pos c0]
      exact ⟨_, _, _, p, rfl, hw, Nat.le_refl _⟩
    rw [if_neg c0]
    have hpos := remaining_pos_of_not_eof input c0
    obtain ⟨b, q, e0, w0, m0⟩ := program_lookahead_spec input hf p hw
    rw [e0, ok_bind]
    dsimp only
    have tail : ∀ (left : ASTNode) (q1 : Parser), q1.well_formed input →
        q1.remaining input ≤ q.remaining input - 1 →
        ∃ token l r q2,
          (if ¬ match_token .TOKEN_EOF q1 = true then do
              let (right, p2) ← parse_program n q1
              (pure (ASTNode.node .AST_PROGRAM p.current_token left right, p2) : ParseResult)
            else pure (ASTNode.node .AST_PROGRAM p.current_token left .null, q1)) =
            .ok (.node .AST_PROGRAM token l r, q2) ∧
          q2.well_formed input ∧ q2.remaining input ≤ p.remaining input := by
      intro left q1 w1 m1
      by_cases c2 : ¬ match_token .TOKEN_EOF q1 = true
      · rw [if_pos c2]
        obtain ⟨token, l, r, q2, e2, w2, m2⟩ := ih q1 w1 (by omega)
        rw [e2, ok_bind]
        exact ⟨_, _, _, q2, rfl, w2, by omega⟩
      · rw [if_neg c2]
        exact ⟨_, _, _, q1, rfl, w1, by omega⟩
    split_ifs
    · obtain ⟨left, q1, e1, w1, m1⟩ := (statement_rules_return input hf n).1 q w0 (by omega)
      rw [e1, ok_bind]
      exact tail left q1 w1 m1
    · obtain ⟨left, q1, e1, w1, m1⟩ :=
        (statement_rules_return input hf n).2.2.2.2.2.2.2.2.2.2 q w0 (by omega)
      rw [e1, ok_bind]
      exact tail left q1 w1 m1

/-- Parser totality on fault-free inputs: for every input that does not end in
a single quote and has no run of 100 or more digits and dots, `parser_init`
followed by `parse`, given a recursion budget of 28 plus twelve for each
character of the input, returns a tree whose root is a node of kind
AST_PROGRAM. -/
theorem parse_text_returns (input : List Char) (hf : fault_free input) (n : Nat)
    (hn : 28 + 12 * input.length ≤ n) :
    ∃ token left right p,
      parse_text n input = .ok (.node .AST_PROGRAM token left right, p) := by
  obtain ⟨p1, h1, h2, h3, _, h5, _, _⟩ :=
    advance_loop_spec input hf (2 * input.length + 4)
      { source := input, position := 0, current_token := zero_token,
        error_reporting_enabled := true, last_reported_line := 0, last_reported_column := 0,
        error_count := 0, reported := [], lexer := reset_lexer } rfl (Nat.zero_le _) (by
        unfold fetch_budget
        simp only [reset_lexer, reset_all_globals, Bool.false_eq_true, if_false]
        omega)
  have hw : Parser.well_formed input { p1 with error_reporting_enabled := true } :=
    ⟨h2, h3, h5⟩
  have hr := Parser.remaining_le input { p1 with error_reporting_enabled := true }
  obtain ⟨token, left, right, q, e, _, _⟩ :=
    parse_program_returns input hf n _ hw (by simp only at hr ⊢; omega)
  refine ⟨token, left, right, q, ?_⟩
  unfold parse_text parser_init advance
  simp only
  rw [h1]
  exact e

/-- The totality theorem applies to the text `tni x = 5 ;`: the text is
fault-free, and `parser_init` followed by `parse` returns a tree whose root is
a node of kind AST_PROGRAM. -/
theorem parse_text_returns_sample :
    fault_free "tni x = 5 ;".toList ∧
    ∃ token left right p,
      parse_text 160 "tni x = 5 ;".toList = .ok (.node .AST_PROGRAM token left right, p) :=
  ⟨⟨by decide, numeric_run_of_length_le _ (by decide)⟩,
   parse_text_returns "tni x = 5 ;".toList
     ⟨by decide, numeric_run_of_length_le _ (by decide)⟩ 160 (by decide)⟩

/-- C11 (parser totality), at the input consisting of a lone single quote and
at the text `tni x = 5 ; '`: the parser returns no tree.  On the lone quote
`parser_init` calls `advance`, whose first call of `get_next_token` reads past
the terminator in `handle_char`, so `parser_init` followed by `parse` has no
result whatever the recursion budget; on the second text the declaration is
parsed and the same read happens when `parse_program` fetches the token after
the semicolon. -/
theorem parse_reads_past_terminator (n : Nat) :
    parser_init [SQUOTE] reset_lexer = .error .read_past_terminator ∧
    parse_text n [SQUOTE] = .error .read_past_terminator ∧
    parse_text 40 ("tni x = 5 ; ".toList ++ [SQUOTE]) = .error .read_past_terminator := by
  have h : parser_init [SQUOTE] reset_lexer = .error .read_past_terminator := by decide!
  refine ⟨h, ?_, by decide!⟩
  unfold parse_text
  rw [h]

/-! ## Identifier use, assignment and declaration -/

theorem read_result_type_table (w : Option Int) (s : Sem) :
    (read_result_type w s).2.table = s.table := by
  cases w <;> rfl

/-- Checking an expression leaves the symbol table as it was. -/
theorem check_expression_table (e : ASTNode) :
    ∀ s : Sem, (check_expression e s).2.2.table = s.table := by
  induction e with
  | null => intro s; rfl
  | node type token left right ihl ihr =>
    intro s
    cases type <;> try (simp [check_expression]; done)
    case AST_IDENTIFIER =>
      simp only [check_expression]
      cases hl : lookup_symbol s.table token.lexeme with
      | none => rfl
      | some p =>
        simp only
        split_ifs <;> rfl
    case AST_BINOP =>
      simp only [check_expression]
      split_ifs <;>
        simp only [semantic_error, read_result_type_table, ihr, ihl]
    case AST_FACTORIAL =>
      simp only [check_expression]
      split_ifs <;>
        simp only [semantic_error, read_result_type_table, ihl]
    case AST_FUNCTION_CALL =>
      simp only [check_expression]
      cases hl : lookup_symbol s.table token.lexeme with
      | none => rfl
      | some p => rfl

/-- C28 (identifier use): for every state of the analysis and every identifier
node naming `n`, `check_expression` (a) when `lookup_symbol` finds no `n`,
returns failure, writes the error type and prints exactly one message, an
UNDECLARED_VARIABLE error for `n`; (b) when `n` is found but not initialised,
returns failure, writes the type of the symbol found and prints exactly one
message, an UNINITIALIZED_VARIABLE error for `n`; (c) when `n` is found and
initialised, returns success, writes the type of the symbol found and prints
nothing.  In all three cases the symbol table is left as it was. -/
theorem identifier_use (s : Sem) (token : Token) (left right : ASTNode) :
    (lookup_symbol s.table token.lexeme = none →
      check_expression (.node .AST_IDENTIFIER token left right) s =
        (false, some TokenType.TOKEN_ERROR.code,
          { s with reported := s.reported ++
              [{ error := .SEM_ERROR_UNDECLARED_VARIABLE, name := token.lexeme,
                 line := token.line }] })) ∧
    (∀ (i : Nat) (symbol : Symbol), lookup_symbol s.table token.lexeme = some (i, symbol) →
      symbol.is_initialized = false →
      check_expression (.node .AST_IDENTIFIER token left right) s =
        (false, some symbol.type,
          { s with reported := s.reported ++
              [{ error := .SEM_ERROR_UNINITIALIZED_VARIABLE, name := token.lexeme,
                 line := token.line }] })) ∧
    (∀ (i : Nat) (symbol : Symbol), lookup_symbol s.table token.lexeme = some (i, symbol) →
      symbol.is_initialized = true →
      check_expression (.node .AST_IDENTIFIER token left right) s =
        (true, some symbol.type, s)) := by
  refine ⟨?_, ?_, ?_⟩
  · intro h
    simp only [check_expression, h]
    rfl
  · intro i symbol h hi
    simp only [check_expression, h, hi]
    rfl
  · intro i symbol h hi
    simp only [check_expression, h, hi]
    rfl

/-- C28 at three tables: without `x`, with `x` declared, and with `x`
initialised. -/
theorem identifier_use_witness :
    check_expression (.node .AST_IDENTIFIER (plain_token .TOKEN_IDENTIFIER ['x'] 2 1) .null .null)
        (fresh_sem []) =
      (false, some TokenType.TOKEN_ERROR.code,
        { fresh_sem [] with reported :=
            [{ error := .SEM_ERROR_UNDECLARED_VARIABLE, name := ['x'], line := 2 }] }) ∧
    check_expression (.node .AST_IDENTIFIER (plain_token .TOKEN_IDENTIFIER ['x'] 2 1) .null .null)
        { fresh_sem [] with table := { head := [declared_symbol ['x'] 0 1], current_scope := 0 } } =
      (false, some TokenType.TOKEN_INT.code,
        { table := { head := [declared_symbol ['x'] 0 1], current_scope := 0 },
          reported := [{ error := .SEM_ERROR_UNINITIALIZED_VARIABLE, name := ['x'], line := 2 }],
          indeterminate := [] }) ∧
    check_expression (.node .AST_IDENTIFIER (plain_token .TOKEN_IDENTIFIER ['x'] 2 1) .null .null)
        { fresh_sem [] with
            table := { head := [initialized_symbol ['x'] 0 1], current_scope := 0 } } =
      (true, some TokenType.TOKEN_INT.code,
        { fresh_sem [] with
            table := { head := [initialized_symbol ['x'] 0 1], current_scope := 0 } }) :=
  ⟨(identifier_use (fresh_sem []) (plain_token .TOKEN_IDENTIFIER ['x'] 2 1) .null .null).1
      (by decide),
   (identifier_use
      { fresh_sem [] with table := { head := [declared_symbol ['x'] 0 1], current_scope := 0 } }
      (plain_token .TOKEN_IDENTIFIER ['x'] 2 1) .null .null).2.1 0
      (declared_symbol ['x'] 0 1) (by decide) rfl,
   (identifier_use
      { fresh_sem [] with
          table := { head := [initialized_symbol ['x'] 0 1], current_scope := 0 } }
      (plain_token .TOKEN_IDENTIFIER ['x'] 2 1) .null .null).2.2 0
      (initialized_symbol ['x'] 0 1) (by decide) rfl⟩

/-- Two symbols with the same name and scope level: all that a lookup reads. -/
theorem lookup_symbol_loop_congr (cs : Nat) (name : List Char) (l l' : List Symbol)
    (h : List.Forall₂ (fun a b : Symbol => a.name = b.name ∧ a.scope_level = b.scope_level)
      l l') :
    ∀ (index : Nat) (found found' : Option (Nat × Symbol)) (m : Int),
      found.map Prod.fst = found'.map Prod.fst →
      (lookup_symbol_loop cs name l index found m).map Prod.fst =
        (lookup_symbol_loop cs name l' index found' m).map Prod.fst := by
  induction h with
  | nil => intro index found found' m hf; exact hf
  | cons hab _ ih =>
    intro index found found' m hf
    rename_i a b l1 l2 _
    unfold lookup_symbol_loop
    rw [← hab.1, ← hab.2]
    split_ifs
    · exact ih _ _ _ _ rfl
    · exact ih _ _ _ _ hf
    · exact ih _ _ _ _ hf

theorem forall₂_modify_initialized (l : List Symbol) :
    ∀ i : Nat, List.Forall₂
      (fun a b : Symbol => a.name = b.name ∧ a.scope_level = b.scope_level)
      l (l.modify (fun s => { s with is_initialized := true }) i) := by
  induction l with
  | nil => intro i; cases i <;> exact List.Forall₂.nil
  | cons a l ih =>
    intro i
    cases i with
    | zero =>
      exact List.Forall₂.cons ⟨rfl, rfl⟩
        (List.forall₂_same.mpr (fun _ _ => ⟨rfl, rfl⟩))
    | succ i => exact List.Forall₂.cons ⟨rfl, rfl⟩ (ih i)

/-- The symbol returned by `lookup_symbol` is the one at the returned list
position. -/
theorem lookup_symbol_get (table : SymbolTable) (n : List Char) (i : Nat) (s : Symbol)
    (h : lookup_symbol table n = some (i, s)) : table.head.get? i = some s := by
  obtain ⟨h1, _⟩ := lookup_symbol_loop_spec table.current_scope n table.head 0 none (-1)
    (Or.inl ⟨rfl, rfl⟩)
  obtain ⟨_, _, _, _, e⟩ := h1 i s h
  rcases e with e | ⟨_, e⟩
  · cases e
  · simpa using e

/-- Setting the initialised flag through a pointer returned by `lookup_symbol`
leaves the result of that lookup in place, with the flag set. -/
theorem lookup_symbol_set_initialized (table : SymbolTable) (n : List Char) (i : Nat)
    (sym : Symbol) (h : lookup_symbol table n = some (i, sym)) :
    lookup_symbol (set_initialized table i) n = some (i, { sym with is_initialized := true }) := by
  have hc := lookup_symbol_loop_congr table.current_scope n table.head
    (table.head.modify (fun s => { s with is_initialized := true }) i)
    (forall₂_modify_initialized table.head i) 0 none none (-1) rfl
  have hget := lookup_symbol_get table n i sym h
  unfold lookup_symbol at h
  rw [h] at hc
  have hc2 : (lookup_symbol (set_initialized table i) n).map Prod.fst = some i := hc.symm
  cases hnew : lookup_symbol (set_initialized table i) n with
  | none => rw [hnew] at hc2; cases hc2
  | some p =>
    obtain ⟨j, s'⟩ := p
    rw [hnew] at hc2
    simp only [Option.map_some', Option.some.injEq] at hc2
    subst hc2
    have hget2 := lookup_symbol_get _ n j s' hnew
    simp only [set_initialized, List.get?_eq_getElem?, List.getElem?_modify_eq] at hget2
    simp only [List.get?_eq_getElem?] at hget
    rw [hget] at hget2
    simp only [Option.map_eq_map, Option.map_some', Option.some.injEq] at hget2
    rw [← hget2]

/-- C29 (assignment initialises): for every state of the analysis in which
`lookup_symbol` resolves the target name `n` to a symbol (initialised or not)
and every right-hand expression that checks successfully with a type
compatible with the type of that symbol, `check_assignment` returns success,
prints no message, and leaves the table of the state with the initialised
flag set at the list position `lookup_symbol` returned and nowhere else: the
symbol there is the symbol found with the flag set, every other position and
the scope counter are as before; `lookup_symbol` of `n` in the new table
returns that position with the flag set, and the check of any later
identifier node naming `n` in the new state succeeds with the symbol's type
and prints nothing. -/
theorem assignment_initializes (s : Sem) (token ttok : Token) (tl tr right : ASTNode)
    (i : Nat) (sym : Symbol)
    (hlook : lookup_symbol s.table ttok.lexeme = some (i, sym))
    (hrhs : (check_expression right s).1 = true)
    (hcompat : are_types_compatible sym.type
      (read_result_type (check_expression right s).2.1 (check_expression right s).2.2).1 = true) :
    (check_assignment (.node .AST_ASSIGN token (.node .AST_IDENTIFIER ttok tl tr) right) s).1 =
      true ∧
    (check_assignment (.node .AST_ASSIGN token (.node .AST_IDENTIFIER ttok tl tr) right)
      s).2.reported = s.reported ∧
    (check_assignment (.node .AST_ASSIGN token (.node .AST_IDENTIFIER ttok tl tr) right)
      s).2.table = set_initialized s.table i ∧
    (set_initialized s.table i).head.get? i = some { sym with is_initialized := true } ∧
    (∀ j, j ≠ i → (set_initialized s.table i).head.get? j = s.table.head.get? j) ∧
    (set_initialized s.table i).head.length = s.table.head.length ∧
    (set_initialized s.table i).current_scope = s.table.current_scope ∧
    lookup_symbol (set_initialized s.table i) ttok.lexeme =
      some (i, { sym with is_initialized := true }) ∧
    ∀ (utok : Token) (ul ur : ASTNode), utok.lexeme = ttok.lexeme →
      check_expression (.node .AST_IDENTIFIER utok ul ur)
          (check_assignment (.node .AST_ASSIGN token (.node .AST_IDENTIFIER ttok tl tr) right)
            s).2 =
        (true, some sym.type,
          (check_assignment (.node .AST_ASSIGN token (.node .AST_IDENTIFIER ttok tl tr) right)
            s).2) := by
  have hnode : right.is_node = true := by
    cases right with
    | null => simp [check_expression] at hrhs
    | node _ _ _ _ => rfl
  have hleft : (ASTNode.node .AST_IDENTIFIER ttok tl tr).is_node = true := rfl
  have hres : check_assignment (.node .AST_ASSIGN token (.node .AST_IDENTIFIER ttok tl tr) right) s =
      (true, { (read_result_type (check_expression right s).2.1 (check_expression right s).2.2).2
                with table := set_initialized s.table i }) := by
    simp only [check_assignment, hleft, hnode, ASTNode.type?, ASTNode.token, hlook,
      hrhs, hcompat, ne_eq, not_true_eq_false, or_self, if_false, if_true,
      read_result_type_table, check_expression_table]
  have hnew := lookup_symbol_set_initialized s.table ttok.lexeme i sym hlook
  have hget := lookup_symbol_get s.table ttok.lexeme i sym hlook
  rw [hres]
  refine ⟨rfl, ?_, rfl, ?_, ?_, ?_, rfl, hnew, ?_⟩
  · simp only [read_result_type_reported]
    exact check_expression_reported right s hrhs
  · simp only [List.get?_eq_getElem?] at hget
    simp only [set_initialized, List.get?_eq_getElem?, List.getElem?_modify_eq, hget,
      Option.map_eq_map, Option.map_some']
  · intro j hj
    simp only [set_initialized, List.get?_eq_getElem?]
    exact List.getElem?_modify_ne _ _ (Ne.symm hj)
  · simp only [set_initialized, List.length_modify]
  · intro utok ul ur hu
    simp only [check_expression, hu, hnew]
    rfl

/-- C29 at the table holding `x` declared and not initialised, and the
assignment `x = 5`. -/
theorem assignment_initializes_witness :
    lookup_symbol (set_initialized { head := [declared_symbol ['x'] 0 1], current_scope := 0 } 0)
        ['x'] = some (0, initialized_symbol ['x'] 0 1) ∧
    check_expression
        (.node .AST_IDENTIFIER (plain_token .TOKEN_IDENTIFIER ['x'] 3 1) .null .null)
        (check_assignment
          (.node .AST_ASSIGN (plain_token .TOKEN_EQUALS ['='] 2 3)
            (.node .AST_IDENTIFIER (plain_token .TOKEN_IDENTIFIER ['x'] 2 1) .null .null)
            (.node .AST_NUMBER (plain_token .TOKEN_NUMBER ['5'] 2 5) .null .null))
          { fresh_sem [] with
              table := { head := [declared_symbol ['x'] 0 1], current_scope := 0 } }).2 =
      (true, some TokenType.TOKEN_INT.code,
        (check_assignment
          (.node .AST_ASSIGN (plain_token .TOKEN_EQUALS ['='] 2 3)
            (.node .AST_IDENTIFIER (plain_token .TOKEN_IDENTIFIER ['x'] 2 1) .null .null)
            (.node .AST_NUMBER (plain_token .TOKEN_NUMBER ['5'] 2 5) .null .null))
          { fresh_sem [] with
              table := { head := [declared_symbol ['x'] 0 1], current_scope := 0 } }).2) :=
  have h := assignment_initializes
    { fresh_sem [] with table := { head := [declared_symbol ['x'] 0 1], current_scope := 0 } }
    (plain_token .TOKEN_EQUALS ['='] 2 3) (plain_token .TOKEN_IDENTIFIER ['x'] 2 1) .null .null
    (.node .AST_NUMBER (plain_token .TOKEN_NUMBER ['5'] 2 5) .null .null)
    0 (declared_symbol ['x'] 0 1) (by decide) (by decide) (by decide)
  ⟨h.2.2.2.2.2.2.2.1, h.2.2.2.2.2.2.2.2 (plain_token .TOKEN_IDENTIFIER ['x'] 3 1) .null .null rfl⟩

/-- A name just added is found in the current scope at the head of the list. -/
theorem lookup_symbol_current_scope_add_symbol (table : SymbolTable) (n : List Char)
    (type : Int) (line : Nat) :
    lookup_symbol_current_scope (add_symbol table n type line) n =
      some (0, { name := n, type := type, scope_level := table.current_scope,
                 line_declared := line, is_initialized := false }) := by
  simp [lookup_symbol_current_scope, add_symbol, lookup_symbol_current_scope_loop]

/-- C30 (declaration with initialiser): for every state of the analysis and
every declaration node of a name `n` not bound in the current scope,
`check_declaration` adds `n` at the head of the table, not initialised, with
the type it gives every declared variable (int), at the current scope level,
and checks the initialiser in that table.  The table it leaves is the old one
with that symbol at the head, its initialised flag set exactly when an
initialiser is present, checks successfully and has a type compatible with the
type of the symbol.  Without an initialiser it returns success and prints
nothing; with an initialiser that checks successfully with a compatible type
it returns success and prints nothing; with an initialiser that checks
successfully with an incompatible type it returns failure and prints exactly
one message, a TYPE_MISMATCH error; with an initialiser that fails its check
it returns failure. -/
theorem declaration_with_initializer (s : Sem) (token : Token) (left right : ASTNode)
    (hfree : lookup_symbol_current_scope s.table token.lexeme = none) :
    let s1 : Sem :=
      { s with table := add_symbol s.table token.lexeme TokenType.TOKEN_INT.code token.line }
    let e := check_expression right s1
    let init_type := read_result_type e.2.1 e.2.2
    let compatible := are_types_compatible TokenType.TOKEN_INT.code init_type.1
    let res := check_declaration (.node .AST_VARDECL token left right) s
    s1.table.head = declared_symbol token.lexeme s.table.current_scope token.line ::
      s.table.head ∧
    res.2.table =
      { head := { declared_symbol token.lexeme s.table.current_scope token.line with
                  is_initialized := right.is_node && e.1 && compatible } :: s.table.head,
        current_scope := s.table.current_scope } ∧
    (right.is_node = false → res = (true, s1)) ∧
    (right.is_node = true → e.1 = true → compatible = true →
      res.1 = true ∧ res.2.reported = s.reported) ∧
    (right.is_node = true → e.1 = true → compatible = false →
      res.1 = false ∧
      res.2.reported = s.reported ++
        [{ error := .SEM_ERROR_TYPE_MISMATCH,
           name := "cannot initialize int with ".toList ++ type_to_string init_type.1,
           line := token.line }]) ∧
    (right.is_node = true → e.1 = false → res.1 = false) := by
  intro s1 e init_type compatible res
  have hetab : e.2.2.table = s1.table := check_expression_table right s1
  have htab : init_type.2.table = s1.table := by
    simp only [init_type, e, read_result_type_table, check_expression_table]
  have hrep : e.1 = true → init_type.2.reported = s.reported := by
    intro h2
    simp only [init_type, read_result_type_reported]
    exact check_expression_reported right s1 h2
  have hmark : mark_initialized s1.table token.lexeme =
      { head := { declared_symbol token.lexeme s.table.current_scope token.line with
                  is_initialized := true } :: s.table.head,
        current_scope := s.table.current_scope } := by
    show mark_initialized (add_symbol s.table token.lexeme _ token.line) token.lexeme = _
    unfold mark_initialized
    rw [lookup_symbol_current_scope_add_symbol]
    rfl
  have hs1 : s1.table =
      { head := declared_symbol token.lexeme s.table.current_scope token.line :: s.table.head,
        current_scope := s.table.current_scope } := rfl
  have hres : res =
      if right.is_node = true then
        if e.1 = true then
          if ¬ compatible = true then
            (false, semantic_error .SEM_ERROR_TYPE_MISMATCH
              ("cannot initialize ".toList ++ type_to_string TokenType.TOKEN_INT.code ++
                " with ".toList ++ type_to_string init_type.1) token.line init_type.2)
          else
            (true, { init_type.2 with
                      table := mark_initialized init_type.2.table token.lexeme })
        else (false, e.2.2)
      else (true, s1) := by
    simp only [res, check_declaration, hfree, ne_eq, not_true_eq_false, if_false]
  have hname : "cannot initialize ".toList ++ type_to_string TokenType.TOKEN_INT.code ++
      " with ".toList ++ type_to_string init_type.1 =
      "cannot initialize int with ".toList ++ type_to_string init_type.1 := by
    have : type_to_string TokenType.TOKEN_INT.code = "int".toList := by decide
    rw [this]
    rfl
  rw [htab] at hres
  rw [hmark, hname] at hres
  have hhead : s1.table.head =
      declared_symbol token.lexeme s.table.current_scope token.line :: s.table.head := rfl
  refine ⟨hhead, ?_⟩
  clear_value res compatible init_type e s1
  subst hres
  cases h1 : right.is_node <;> cases h2 : e.1 <;> cases h3 : compatible <;>
    simp [hetab, htab, hs1, semantic_error, declared_symbol] <;> exact hrep h2

/-- C30 at the declaration of `tni x = "s" ;` in the fresh state: the string
initialiser checks successfully with the type string, which is not compatible
with int, so that one TYPE_MISMATCH error is printed, the check fails, and `x`
is left declared and not initialised; the pipeline on that text shows the
same. -/
theorem declaration_with_initializer_witness :
    lookup_symbol_current_scope (fresh_sem []).table ['x'] = none ∧
    (check_declaration
        (.node .AST_VARDECL (plain_token .TOKEN_IDENTIFIER ['x'] 1 8) .null
          (.node .AST_STRING (plain_token .TOKEN_STRING ['s'] 1 11) .null .null))
        (fresh_sem [])).1 = false ∧
    (check_declaration
        (.node .AST_VARDECL (plain_token .TOKEN_IDENTIFIER ['x'] 1 8) .null
          (.node .AST_STRING (plain_token .TOKEN_STRING ['s'] 1 11) .null .null))
        (fresh_sem [])).2.reported =
      [{ error := .SEM_ERROR_TYPE_MISMATCH,
         name := "cannot initialize int with unknown".toList, line := 1 }] ∧
    (check_declaration
        (.node .AST_VARDECL (plain_token .TOKEN_IDENTIFIER ['x'] 1 8) .null
          (.node .AST_STRING (plain_token .TOKEN_STRING ['s'] 1 11) .null .null))
        (fresh_sem [])).2.table =
      { head := [declared_symbol ['x'] 0 1], current_scope := 0 } ∧
    pipeline_report 16 ("tni x = ".toList ++ [DQUOTE, 's', DQUOTE] ++ " ;".toList) [] =
      .ok (.node .AST_PROGRAM (plain_token .TOKEN_INT "tni".toList 1 1)
             (.node .AST_VARDECL (plain_token .TOKEN_IDENTIFIER ['x'] 1 8) .null
               (.node .AST_STRING (plain_token .TOKEN_STRING ['s'] 1 11) .null .null))
             .null,
           [], 0, false,
           [{ error := .SEM_ERROR_TYPE_MISMATCH,
              name := "cannot initialize int with unknown".toList, line := 1 }],
           { head := [declared_symbol ['x'] 0 1], current_scope := 0 }) :=
  have h := declaration_with_initializer (fresh_sem [])
    (plain_token .TOKEN_IDENTIFIER ['x'] 1 8) .null
    (.node .AST_STRING (plain_token .TOKEN_STRING ['s'] 1 11) .null .null) (by decide)
  ⟨by decide,
   (h.2.2.2.2.1 rfl rfl (by decide)).1,
   (h.2.2.2.2.1 rfl rfl (by decide)).2.trans (by decide),
   h.2.1.trans (by decide),
   pipeline_report_of_parse_report 16 _ _ _ _ (by decide!) []⟩

/-! ## Collect-all-errors -/

/-- The loop of `check_block` is the check of the statements of the chain in
order. -/
theorem check_block_loop_eq (node : ASTNode) :
    ∀ (valid : Bool) (s : Sem),
      check_block_loop node valid s =
        ((check_each (block_statements node) s).1.all id && valid,
         (check_each (block_statements node) s).2) := by
  induction node with
  | null => intro valid s; simp [check_block_loop, block_statements, check_each]
  | node type token left right _ ihr =>
    intro valid s
    rw [check_block_loop]
    by_cases ht : type = .AST_BLOCK
    · by_cases hl : left.is_node = true
      · simp only [ht, hl, if_true, block_statements, List.singleton_append, check_each, ihr,
          List.all_cons, id_eq, Bool.and_assoc]
        rw [Bool.and_left_comm]
      · simp only [ht, hl, if_true, if_false, block_statements, List.nil_append, ihr,
          Bool.false_eq_true]
    · simp [ht, block_statements, check_each]

/-- The function `check_program` is the check of the statements of the chain
in order. -/
theorem check_program_eq (ast : ASTNode) :
    ∀ s : Sem,
      check_program ast s =
        ((check_each (program_statements ast) s).1.all id,
         (check_each (program_statements ast) s).2) := by
  induction ast with
  | null => intro s; simp [check_program, program_statements, check_each]
  | node type token left right _ ihr =>
    intro s
    rw [check_program]
    by_cases ht : type = .AST_PROGRAM
    · by_cases hl : left.is_node = true <;> by_cases hr : right.is_node = true
      · simp only [ht, hl, hr, ne_eq, not_true_eq_false, if_true, if_false, program_statements,
          List.singleton_append, check_each, ihr, List.all_cons, id_eq, Bool.and_true]
        rw [Bool.and_comm]
      · have hn : right = .null := by
          cases right with
          | null => rfl
          | node _ _ _ _ => exact absurd rfl hr
        subst hn
        have hnull : ASTNode.null.is_node = false := rfl
        simp [ht, hl, hnull, program_statements, check_each]
      · simp only [ht, hl, hr, ne_eq, not_true_eq_false, if_true, if_false, program_statements,
          List.nil_append, ihr, Bool.and_true, Bool.false_eq_true]
      · have hn : right = .null := by
          cases right with
          | null => rfl
          | node _ _ _ _ => exact absurd rfl hr
        subst hn
        have hnull : ASTNode.null.is_node = false := rfl
        simp [ht, hl, hnull, program_statements, check_each]
    · simp [ht, program_statements, check_each]

/-- C27 (collect-all-errors): for every state of the analysis, `check_block`
on a block chain and `check_program` on a program chain check every statement
of the chain with `check_statement`, in order, each in the state (symbol table
and messages printed so far) left by its predecessors, whether or not an
earlier one failed: the state they leave is the state after the last statement
(for a block, between `enter_scope` and `exit_scope`), and the value they
return is success exactly when every statement returned success.  On the text
`x = 1 ; y = 2 ;` both failing assignments are reported. -/
theorem collect_all_errors :
    (∀ (s : Sem) (token : Token) (left right : ASTNode),
      check_block (.node .AST_BLOCK token left right) s =
        ((check_each (block_statements (.node .AST_BLOCK token left right))
            s.enter_scope).1.all id,
         (check_each (block_statements (.node .AST_BLOCK token left right))
            s.enter_scope).2.exit_scope)) ∧
    (∀ (s : Sem) (ast : ASTNode),
      check_program ast s =
        ((check_each (program_statements ast) s).1.all id,
         (check_each (program_statements ast) s).2)) ∧
    (∀ (statement : ASTNode) (rest : List ASTNode) (s : Sem),
      check_each (statement :: rest) s =
        ((check_statement statement s).1 :: (check_each rest (check_statement statement s).2).1,
         (check_each rest (check_statement statement s).2).2)) ∧
    (∀ indeterminate : List Int,
      pipeline_report 32 "x = 1 ; y = 2 ;".toList indeterminate =
        .ok (.node .AST_PROGRAM (plain_token .TOKEN_IDENTIFIER ['x'] 1 1)
               (.node .AST_ASSIGN (plain_token .TOKEN_IDENTIFIER ['x'] 1 1)
                 (.node .AST_IDENTIFIER (plain_token .TOKEN_IDENTIFIER ['x'] 1 1) .null .null)
                 (.node .AST_NUMBER (plain_token .TOKEN_NUMBER ['1'] 1 4) .null .null))
               (.node .AST_PROGRAM (plain_token .TOKEN_IDENTIFIER ['y'] 1 8)
                 (.node .AST_ASSIGN (plain_token .TOKEN_IDENTIFIER ['y'] 1 8)
                   (.node .AST_IDENTIFIER (plain_token .TOKEN_IDENTIFIER ['y'] 1 8) .null .null)
                   (.node .AST_NUMBER (plain_token .TOKEN_NUMBER ['2'] 1 11) .null .null))
                 .null),
             [], 0, false,
             [{ error := .SEM_ERROR_UNDECLARED_VARIABLE, name := ['x'], line := 1 },
              { error := .SEM_ERROR_UNDECLARED_VARIABLE, name := ['y'], line := 1 }],
             init_symbol_table)) := by
  refine ⟨?_, fun s ast => check_program_eq ast s, fun _ _ _ => rfl, fun indeterminate =>
    pipeline_report_of_parse_report 32 _ _ _ _ (by decide!) indeterminate⟩
  intro s token left right
  simp only [check_block, ne_eq, not_true_eq_false, if_false, check_block_loop_eq,
    Bool.and_true]

/-! ## Parse-error deduplication -/

/-- C25, as the code has it (parse-error deduplication): for every error `e`,
token `t` and parser state with error reporting enabled, `parse_error(e, t)`
(1) changes nothing when `t` is an EOF token, whatever its position; (2)
changes nothing when `t` is not an EOF token and its line and column equal the
last reported line and column; (3) otherwise, for a token that is not EOF,
increments the error counter by one, records the line and column of `t` as the
last reported ones, prints one message, and changes nothing else. -/
theorem parse_error_deduplication (e : ParseError) (t : Token) (p : Parser)
    (henabled : p.error_reporting_enabled = true) :
    (t.type = .TOKEN_EOF → parse_error e t p = p) ∧
    (t.type ≠ .TOKEN_EOF →
      (t.line = p.last_reported_line ∧ t.column = p.last_reported_column) →
      parse_error e t p = p) ∧
    (t.type ≠ .TOKEN_EOF →
      ¬ (t.line = p.last_reported_line ∧ t.column = p.last_reported_column) →
      parse_error e t p =
        { p with last_reported_line := t.line, last_reported_column := t.column,
                 error_count := p.error_count + 1, reported := p.reported ++ [(e, t)] } ∧
      (parse_error e t p).error_count = p.error_count + 1 ∧
      (parse_error e t p).last_reported_line = t.line ∧
      (parse_error e t p).last_reported_column = t.column) := by
  refine ⟨?_, ?_, ?_⟩
  · intro h
    simp only [parse_error, henabled, h, not_true_eq_false, if_false, if_true]
  · intro h hpos
    simp only [parse_error, henabled, h, hpos, not_true_eq_false, if_false, and_self, if_true]
  · intro h hpos
    have hres : parse_error e t p =
        { p with last_reported_line := t.line, last_reported_column := t.column,
                 error_count := p.error_count + 1, reported := p.reported ++ [(e, t)] } := by
      simp only [parse_error, henabled, h, hpos, not_true_eq_false, if_false]
    rw [hres]
    exact ⟨rfl, rfl, rfl, rfl⟩

/-- C25 as the code has it, at the state the parse of `x = 5` ends in, with
its EOF token, and at a state with error reporting enabled and no error
reported yet, with a number token at line 1, column 6. -/
theorem parse_error_deduplication_witness :
    (parse_error .PARSE_ERROR_MISSING_SEMICOLON (plain_token .TOKEN_EOF "EOF".toList 1 5)
        { source := "x = 5".toList, position := 5,
          current_token := plain_token .TOKEN_EOF "EOF".toList 1 5,
          error_reporting_enabled := true, last_reported_line := 0, last_reported_column := 0,
          error_count := 0, reported := [],
          lexer := { current_line := 1, current_column := 5, last_token_type := 'o',
                     in_error_recovery := false, stored_errors := [] } } =
      { source := "x = 5".toList, position := 5,
        current_token := plain_token .TOKEN_EOF "EOF".toList 1 5,
        error_reporting_enabled := true, last_reported_line := 0, last_reported_column := 0,
        error_count := 0, reported := [],
        lexer := { current_line := 1, current_column := 5, last_token_type := 'o',
                   in_error_recovery := false, stored_errors := [] } }) ∧
    (parse_error .PARSE_ERROR_MISSING_SEMICOLON (plain_token .TOKEN_NUMBER ['6'] 1 6)
        { source := "x = 5 6".toList, position := 7,
          current_token := plain_token .TOKEN_NUMBER ['6'] 1 6,
          error_reporting_enabled := true, last_reported_line := 0, last_reported_column := 0,
          error_count := 0, reported := [],
          lexer := reset_lexer }).error_count = 0 + 1 :=
  ⟨(parse_error_deduplication .PARSE_ERROR_MISSING_SEMICOLON
      (plain_token .TOKEN_EOF "EOF".toList 1 5)
      { source := "x = 5".toList, position := 5,
        current_token := plain_token .TOKEN_EOF "EOF".toList 1 5,
        error_reporting_enabled := true, last_reported_line := 0, last_reported_column := 0,
        error_count := 0, reported := [],
        lexer := { current_line := 1, current_column := 5, last_token_type := 'o',
                   in_error_recovery := false, stored_errors := [] } } rfl).1 rfl,
   ((parse_error_deduplication .PARSE_ERROR_MISSING_SEMICOLON
      (plain_token .TOKEN_NUMBER ['6'] 1 6)
      { source := "x = 5 6".toList, position := 7,
        current_token := plain_token .TOKEN_NUMBER ['6'] 1 6,
        error_reporting_enabled := true, last_reported_line := 0, last_reported_column := 0,
        error_count := 0, reported := [],
        lexer := reset_lexer } rfl).2.2 (by decide) (by decide)).2.1⟩

/-- C25 fails on the text `x = 5`: when the statement ends, the current token
is the EOF token at line 1, column 5, error reporting is enabled and no error
has been reported yet (the last reported position is line 0, column 0); the
missing-semicolon error that `parse_assignment` raises on that token through
`parse_error` leaves the counter at 0 and the last reported position
unchanged, and the text is parsed with an error count of 0. -/
theorem eof_error_is_not_counted :
    ∃ p : Parser,
      parse_text 16 "x = 5".toList =
        .ok (.node .AST_PROGRAM (plain_token .TOKEN_IDENTIFIER ['x'] 1 1)
               (.node .AST_ASSIGN (plain_token .TOKEN_IDENTIFIER ['x'] 1 1)
                 (.node .AST_IDENTIFIER (plain_token .TOKEN_IDENTIFIER ['x'] 1 1) .null .null)
                 (.node .AST_NUMBER (plain_token .TOKEN_NUMBER ['5'] 1 4) .null .null))
               .null, p) ∧
      p.error_reporting_enabled = true ∧
      p.current_token = plain_token .TOKEN_EOF "EOF".toList 1 5 ∧
      ¬ (p.current_token.line = p.last_reported_line ∧
         p.current_token.column = p.last_reported_column) ∧
      expect_semicolon p =
        .ok (parse_error .PARSE_ERROR_MISSING_SEMICOLON p.current_token p) ∧
      (parse_error .PARSE_ERROR_MISSING_SEMICOLON p.current_token p).error_count =
        p.error_count ∧
      (parse_error .PARSE_ERROR_MISSING_SEMICOLON p.current_token p).last_reported_line = 0 ∧
      (parse_error .PARSE_ERROR_MISSING_SEMICOLON p.current_token p).last_reported_column = 0 ∧
      p.error_count = 0 :=
  ⟨{ source := "x = 5".toList, position := 5,
     current_token := plain_token .TOKEN_EOF "EOF".toList 1 5,
     error_reporting_enabled := true, last_reported_line := 0, last_reported_column := 0,
     error_count := 0, reported := [],
     lexer := { current_line := 1, current_column := 5, last_token_type := 'o',
                in_error_recovery := false, stored_errors := [] } },
   by decide!, rfl, rfl, by decide, by decide!, by decide, by decide, by decide, rfl⟩

/-! ## Token filtering -/

/-- The loop of `advance` leaves a token whose kind is none of ERROR, SKIP and
COMMENT. -/
theorem advance_loop_kind :
    ∀ (k : Nat) (p p1 : Parser), advance_loop k p = .ok p1 →
      p1.current_token.type ≠ .TOKEN_ERROR ∧ p1.current_token.type ≠ .TOKEN_SKIP ∧
      p1.current_token.type ≠ .TOKEN_COMMENT := by
  intro k
  induction k with
  | zero => intro p p1 h; cases h
  | succ k ih =>
    intro p p1 h
    unfold advance_loop at h
    cases hg : get_next_token p.source p.position p.lexer with
    | error f => rw [hg] at h; cases h
    | ok r =>
      obtain ⟨token, pos, lx⟩ := r
      rw [hg] at h
      simp only at h
      by_cases hd : token.type = .TOKEN_ERROR ∨ token.type = .TOKEN_SKIP ∨
          token.type = .TOKEN_COMMENT
      · rw [if_pos hd] at h
        exact ih _ _ h
      · rw [if_neg hd] at h
        obtain rfl := Except.ok.inj h
        simp only [not_or] at hd
        exact hd

/-- C22 (token filtering): the kind of the token `advance` leaves is none of
ERROR, SKIP and COMMENT, but its lexical-error field need not be ERROR_NONE.
On the text `tnirp "abc` the token current after `parser_init` and one call of
`advance` is a STRING token carrying UNTERMINATED_STRING, and the text is
parsed into a print statement of the string `abc` with an error count of 0 and
no stored lexical error; on the text `tni x = 1. ;` the token current after
`parser_init` and three calls of `advance` is a NUMBER token with the lexeme
`1.` carrying INVALID_NUMBER, and the text is parsed into a declaration
initialised with it, again with an error count of 0. -/
theorem advance_keeps_literals_with_errors :
    (∀ p p1 : Parser, advance p = .ok p1 →
      p1.current_token.type ≠ .TOKEN_ERROR ∧ p1.current_token.type ≠ .TOKEN_SKIP ∧
      p1.current_token.type ≠ .TOKEN_COMMENT) ∧
    (parser_init ("tnirp ".toList ++ [DQUOTE] ++ "abc".toList) reset_lexer >>= advance).map
        (fun p => token_summary p.current_token) =
      .ok (.TOKEN_STRING, "abc".toList, .ERROR_UNTERMINATED_STRING) ∧
    parse_report 16 ("tnirp ".toList ++ [DQUOTE] ++ "abc".toList) =
      .ok (.node .AST_PROGRAM (plain_token .TOKEN_PRINT "tnirp".toList 1 1)
             (.node .AST_PRINT (plain_token .TOKEN_PRINT "tnirp".toList 1 1)
               (.node .AST_STRING
                 { type := .TOKEN_STRING, lexeme := "abc".toList, line := 1, column := 2,
                   error := .ERROR_UNTERMINATED_STRING, recovery := .RECOVERY_TO_NEWLINE }
                 .null .null)
               .null)
             .null, [], 0) ∧
    (parser_init "tni x = 1. ;".toList reset_lexer >>= advance >>= advance >>= advance).map
        (fun p => token_summary p.current_token) =
      .ok (.TOKEN_NUMBER, "1.".toList, .ERROR_INVALID_NUMBER) ∧
    parse_report 16 "tni x = 1. ;".toList =
      .ok (.node .AST_PROGRAM (plain_token .TOKEN_INT "tni".toList 1 1)
             (.node .AST_VARDECL (plain_token .TOKEN_IDENTIFIER ['x'] 1 8) .null
               (.node .AST_NUMBER
                 { type := .TOKEN_NUMBER, lexeme := "1.".toList, line := 1, column := 11,
                   error := .ERROR_INVALID_NUMBER, recovery := .RECOVERY_TO_DELIMITER }
                 .null .null))
             .null, [], 0) := by
  refine ⟨fun p p1 h => advance_loop_kind _ p p1 h, ?_, ?_, ?_, ?_⟩ <;> decide!

/-! ## Placeholder substitution -/

/-- C26 (placeholder substitution), on four texts, each parsed with one
reported error.  On `x = ;` the ASSIGN node has a target and no value child;
on `lairotcaf ;` the FACTORIAL node has no argument child; on `x 5 ;` the
statement position of the program holds a childless PROGRAM node, the dummy
node `parse_assignment` returns when the `=` is missing; on
`taeper \x7b \x7d ;` the repeat-until node has a body and no condition child.
No literal-0 node is substituted at any of these sites. -/
theorem error_sites_leave_slots_empty :
    parse_report 16 "x = ;".toList =
      .ok (.node .AST_PROGRAM (plain_token .TOKEN_IDENTIFIER ['x'] 1 1)
             (.node .AST_ASSIGN (plain_token .TOKEN_IDENTIFIER ['x'] 1 1)
               (.node .AST_IDENTIFIER (plain_token .TOKEN_IDENTIFIER ['x'] 1 1) .null .null)
               .null)
             .null, [], 1) ∧
    parse_report 16 "lairotcaf ;".toList =
      .ok (.node .AST_PROGRAM (plain_token .TOKEN_FACTORIAL "lairotcaf".toList 1 1)
             (.node .AST_FACTORIAL (plain_token .TOKEN_EOF "EOF".toList 1 3) .null .null)
             .null, [], 1) ∧
    parse_report 16 "x 5 ;".toList =
      .ok (.node .AST_PROGRAM (plain_token .TOKEN_IDENTIFIER ['x'] 1 1)
             (.node .AST_PROGRAM (plain_token .TOKEN_EOF "EOF".toList 1 5) .null .null)
             .null, [], 1) ∧
    parse_report 16 "taeper \x7b \x7d ;".toList =
      .ok (.node .AST_PROGRAM (plain_token .TOKEN_REPEAT "taeper".toList 1 1)
             (.node .AST_FOR (plain_token .TOKEN_REPEAT "taeper".toList 1 1)
               (.node .AST_BLOCK (plain_token .TOKEN_SEMICOLON [';'] 1 6) .null .null)
               .null)
             .null, [], 1) := by
  refine ⟨?_, ?_, ?_, ?_⟩ <;> decide!

theorem bind_ok_inv {α β : Type} {x : Except Fault α} {f : α → Except Fault β} {r : β}
    (h : (x >>= f) = .ok r) : ∃ a, x = .ok a ∧ f a = .ok r := by
  cases x with
  | error e => cases h
  | ok a => exact ⟨a, rfl, h⟩

/-- Every node `parse_declaration` returns is a VARDECL node. -/
theorem parse_declaration_kind (n : Nat) (p q : Parser) (node : ASTNode)
    (h : parse_declaration n p = .ok (node, q)) : node.type? = some .AST_VARDECL := by
  unfold parse_declaration at h
  obtain ⟨p1, _, h⟩ := bind_ok_inv h
  split_ifs at h
  · obtain ⟨p2, _, h⟩ := bind_ok_inv h
    split_ifs at h
    · obtain ⟨p3, _, h⟩ := bind_ok_inv h
      split_ifs at h
      · obtain ⟨p4, _, h⟩ := bind_ok_inv h
        cases h
        rfl
      · obtain ⟨r, _, h⟩ := bind_ok_inv h
        obtain ⟨p4, _, h⟩ := bind_ok_inv h
        cases h
        rfl
    · obtain ⟨p3, _, h⟩ := bind_ok_inv h
      cases h
      rfl
  · obtain ⟨p2, _, h⟩ := bind_ok_inv h
    cases h
    rfl

/-- Every node `parse_function_declaration` returns is a FUNCTION_DECL node. -/
theorem parse_function_declaration_kind (n : Nat) (p q : Parser) (node : ASTNode)
    (h : parse_function_declaration n p = .ok (node, q)) :
    node.type? = some .AST_FUNCTION_DECL := by
  cases n with
  | zero => rw [parse_function_declaration] at h; cases h
  | succ n =>
    rw [parse_function_declaration] at h
    simp only [] at h
    repeat' first
      | (cases h; rfl)
      | (obtain ⟨⟨_, _⟩, _, h⟩ := bind_ok_inv h; simp only [] at h)
      | (obtain ⟨_, _, h⟩ := bind_ok_inv h)
      | split_ifs at h

/-- The node `parse_statement` returns from a type keyword is a FUNCTION_DECL
node when the lookahead read an identifier and then `(`, and a VARDECL node
otherwise. -/
theorem parse_statement_declaration_kind (n : Nat) (p q : Parser) (node : ASTNode)
    (htype : is_type_keyword p = true) (h : parse_statement n p = .ok (node, q)) :
    ((∃ p1 p2, advance p = .ok p1 ∧ p1.current_token.type = .TOKEN_IDENTIFIER ∧
        advance p1 = .ok p2 ∧ p2.current_token.type = .TOKEN_LPAREN) →
      node.type? = some .AST_FUNCTION_DECL) ∧
    ((¬ ∃ p1 p2, advance p = .ok p1 ∧ p1.current_token.type = .TOKEN_IDENTIFIER ∧
        advance p1 = .ok p2 ∧ p2.current_token.type = .TOKEN_LPAREN) →
      node.type? = some .AST_VARDECL) := by
  cases n with
  | zero => rw [parse_statement] at h; cases h
  | succ n =>
    rw [parse_statement] at h
    rw [if_pos htype] at h
    obtain ⟨p1, e1, h⟩ := bind_ok_inv h
    by_cases c1 : match_token .TOKEN_IDENTIFIER p1 = true
    · rw [if_pos c1] at h
      obtain ⟨p2, e2, h⟩ := bind_ok_inv h
      by_cases c2 : match_token .TOKEN_LPAREN p2 = true
      · rw [if_pos c2] at h
        refine ⟨fun _ => parse_function_declaration_kind _ _ _ _ h, fun hn => ?_⟩
        exfalso
        apply hn
        simp only [match_token, decide_eq_true_eq] at c1 c2
        exact ⟨p1, p2, e1, c1, e2, c2⟩
      · rw [if_neg c2] at h
        refine ⟨fun hex => ?_, fun _ => parse_declaration_kind _ _ _ _ h⟩
        exfalso
        obtain ⟨q1, q2, f1, _, f2, g2⟩ := hex
        rw [e1] at f1
        obtain rfl := Except.ok.inj f1
        rw [e2] at f2
        obtain rfl := Except.ok.inj f2
        apply c2
        simp only [match_token, decide_eq_true_eq]
        exact g2
    · rw [if_neg c1] at h
      refine ⟨fun hex => ?_, fun _ => parse_declaration_kind _ _ _ _ h⟩
      exfalso
      obtain ⟨q1, q2, f1, g1, _, _⟩ := hex
      rw [e1] at f1
      obtain rfl := Except.ok.inj f1
      apply c1
      simp only [match_token, decide_eq_true_eq]
      exact g1

/-! ## Declaration disambiguation -/

/-- C24 (declaration disambiguation): whenever `parse_statement` returns from
a type keyword, the node is a FUNCTION_DECL node if the lookahead read an
identifier and then `(`, and a VARDECL node otherwise; but the node's token
need not be the declared identifier.  On the text `\x7b tni x @`, whose block
holds the type keyword `tni` followed by the identifier `x` and the invalid
character `@`: with `tni` current, the lookahead reads the identifier `x` and
then, past the invalid character, the EOF token, and leaves the lexer in error
recovery; after backtracking, the token read again behind `tni` is not `x`:
the lexer first skips to the end of the input, and the token read is the EOF
token.  `parse_statement` returns a VARDECL node whose token is the type
keyword `tni`, not the declared identifier `x`, and reports a missing
identifier.  On `\x7b tni x ;` the node's token is `x`. -/
theorem declaration_after_lookahead_loses_identifier :
    (∀ (n : Nat) (p q : Parser) (node : ASTNode), is_type_keyword p = true →
      parse_statement n p = .ok (node, q) →
      ((∃ p1 p2, advance p = .ok p1 ∧ p1.current_token.type = .TOKEN_IDENTIFIER ∧
          advance p1 = .ok p2 ∧ p2.current_token.type = .TOKEN_LPAREN) →
        node.type? = some .AST_FUNCTION_DECL) ∧
      ((¬ ∃ p1 p2, advance p = .ok p1 ∧ p1.current_token.type = .TOKEN_IDENTIFIER ∧
          advance p1 = .ok p2 ∧ p2.current_token.type = .TOKEN_LPAREN) →
        node.type? = some .AST_VARDECL)) ∧
    (parser_init "\x7b tni x @".toList reset_lexer >>= advance).map
        (fun p => token_summary p.current_token) =
      .ok (.TOKEN_INT, "tni".toList, .ERROR_NONE) ∧
    (parser_init "\x7b tni x @".toList reset_lexer >>= advance >>= advance).map
        (fun p => token_summary p.current_token) =
      .ok (.TOKEN_IDENTIFIER, ['x'], .ERROR_NONE) ∧
    (parser_init "\x7b tni x @".toList reset_lexer >>= advance >>= advance >>= advance).map
        (fun p => (token_summary p.current_token, p.lexer.in_error_recovery)) =
      .ok ((.TOKEN_EOF, "EOF".toList, .ERROR_NONE), true) ∧
    (parser_init "\x7b tni x @".toList reset_lexer >>= advance >>= fun p0 =>
      advance p0 >>= advance >>= fun p2 =>
        advance (backtrack p0.position p0.current_token p2)).map
        (fun p => token_summary p.current_token) =
      .ok (.TOKEN_EOF, "EOF".toList, .ERROR_NONE) ∧
    (parser_init "\x7b tni x @".toList reset_lexer >>= advance >>= parse_statement 16).map
        (fun r => (r.1, r.2.reported.map Prod.fst)) =
      .ok (.node .AST_VARDECL (plain_token .TOKEN_INT "tni".toList 1 3) .null .null,
           [.PARSE_ERROR_MISSING_IDENTIFIER]) ∧
    (parser_init "\x7b tni x ;".toList reset_lexer >>= advance >>= parse_statement 16).map
        (fun r => (r.1, r.2.reported.map Prod.fst)) =
      .ok (.node .AST_VARDECL (plain_token .TOKEN_IDENTIFIER ['x'] 1 7) .null .null, []) := by
  refine ⟨parse_statement_declaration_kind, ?_, ?_, ?_, ?_, ?_, ?_⟩ <;> decide!

/-- The digits copied by the first loop of `handle_number` are the longest
prefix of digits. -/
theorem scan_digits_eq_takeWhile (r : List Char) : scan_digits r = r.takeWhile isdigit := by
  induction r with
  | nil => rfl
  | cons c rest ih =>
    unfold scan_digits
    by_cases h : isdigit c = true
    · rw [if_pos h, List.takeWhile_cons_of_pos h, ih]
    · rw [if_neg h, List.takeWhile_cons_of_neg h]

/-- Where `skip_until` stops: on the terminator or on one of the delimiters. -/
theorem skip_until_stops (delimiters : List Char) (r : List Char) :
    ∀ lx : Lexer, peek (r.drop (skip_until r delimiters lx).1) = NUL ∨
      peek (r.drop (skip_until r delimiters lx).1) ∈ delimiters := by
  induction r with
  | nil => intro lx; left; rfl
  | cons c rest ih =>
    intro lx
    unfold skip_until
    by_cases h : c ≠ NUL ∧ c ∉ delimiters
    · rw [if_pos h]
      simp only [List.drop_succ_cons]
      exact ih _
    · rw [if_neg h]
      simp only [List.drop_zero, peek]
      by_cases h1 : c = NUL
      · exact Or.inl h1
      · right
        by_contra h2
        exact h ⟨h1, h2⟩

/-- The classification `handle_number` makes, for a lexeme that fits the
lexeme array.  With `ds` the digit run at the cursor: (a) when no `.` follows
the run, a NUMBER token with the lexeme `ds`, the cursor behind the run; (b)
when a `.`, a digit run `fs` of at least one digit and no second `.` follow, a
FLOAT token with the lexeme `ds.fs`, the cursor behind it; (c) when a `.`
follows that is not followed by a digit, a token carrying INVALID_NUMBER; (d)
when a `.`, digits and a second `.` follow, a token carrying INVALID_FLOAT; in
the cases (c) and (d) the kind of the token is still NUMBER and the cursor is
left on the terminator or on one of `;`, `,`, `)`, space, tab, newline. -/
theorem handle_number_classification (r : List Char) (lx : Lexer) :
    (peek (r.drop (scan_digits r).length) ≠ '.' → (scan_digits r).length < 100 →
      handle_number r lx =
        .ok ({ type := .TOKEN_NUMBER, lexeme := scan_digits r, line := lx.current_line,
               column := lx.current_column, error := .ERROR_NONE,
               recovery := .RECOVERY_NONE },
             (scan_digits r).length, advance_columns (scan_digits r).length lx)) ∧
    (peek (r.drop (scan_digits r).length) = '.' →
      isdigit (peek (r.drop ((scan_digits r).length + 1))) = true →
      peek (r.drop ((scan_digits r).length + 1 +
        (scan_digits (r.drop ((scan_digits r).length + 1))).length)) ≠ '.' →
      (scan_digits r).length + 1 + (scan_digits (r.drop ((scan_digits r).length + 1))).length
        < 100 →
      handle_number r lx =
        .ok ({ type := .TOKEN_FLOAT,
               lexeme := scan_digits r ++ ['.'] ++
                 scan_digits (r.drop ((scan_digits r).length + 1)),
               line := lx.current_line, column := lx.current_column, error := .ERROR_NONE,
               recovery := .RECOVERY_NONE },
             (scan_digits r).length + 1 +
               (scan_digits (r.drop ((scan_digits r).length + 1))).length,
             advance_columns (scan_digits (r.drop ((scan_digits r).length + 1))).length
               (advance_position (advance_columns (scan_digits r).length lx)))) ∧
    (peek (r.drop (scan_digits r).length) = '.' →
      isdigit (peek (r.drop ((scan_digits r).length + 1))) = false →
      (scan_digits r).length < 100 →
      ∃ n lx1, handle_number r lx =
        .ok ({ type := .TOKEN_NUMBER, lexeme := scan_digits r ++ ['.'],
               line := lx.current_line, column := lx.current_column,
               error := .ERROR_INVALID_NUMBER, recovery := .RECOVERY_TO_DELIMITER },
             n, lx1) ∧
        (peek (r.drop n) = NUL ∨ peek (r.drop n) ∈ [';', ',', ')', ' ', TAB, NEWLINE])) ∧
    (peek (r.drop (scan_digits r).length) = '.' →
      isdigit (peek (r.drop ((scan_digits r).length + 1))) = true →
      peek (r.drop ((scan_digits r).length + 1 +
        (scan_digits (r.drop ((scan_digits r).length + 1))).length)) = '.' →
      (scan_digits r).length + 1 + (scan_digits (r.drop ((scan_digits r).length + 1))).length
        ≤ 100 →
      ∃ n lx1, handle_number r lx =
        .ok ({ type := .TOKEN_NUMBER,
               lexeme := scan_digits r ++ ['.'] ++
                 scan_digits (r.drop ((scan_digits r).length + 1)),
               line := lx.current_line, column := lx.current_column,
               error := .ERROR_INVALID_FLOAT, recovery := .RECOVERY_TO_DELIMITER },
             n, lx1) ∧
        (peek (r.drop n) = NUL ∨ peek (r.drop n) ∈ [';', ',', ')', ' ', TAB, NEWLINE])) := by
  have hdd : ∀ a b : Nat, (r.drop a).drop b = r.drop (a + b) := by
    intro a b
    rw [List.drop_drop, Nat.add_comm]
  refine ⟨?_, ?_, ?_, ?_⟩
  · intro h1 h2
    unfold handle_number
    simp only [h1, if_false, show ¬ (scan_digits r).length > 100 by omega,
      show ¬ (scan_digits r).length ≥ 100 by omega]
  · intro h1 h2 h3 h4
    unfold handle_number
    simp only [hdd, h1, h2, h3, if_true, if_false, not_true_eq_false,
      show ¬ (scan_digits r).length > 100 by omega,
      show ¬ (scan_digits r).length ≥ 100 by omega,
      show ¬ (scan_digits r).length + 1 +
        (scan_digits (r.drop ((scan_digits r).length + 1))).length > 100 by omega,
      show ¬ (scan_digits r).length + 1 +
        (scan_digits (r.drop ((scan_digits r).length + 1))).length ≥ 100 by omega]
  · intro h1 h2 h3
    unfold handle_number
    simp only [hdd, h1, h2, if_true, if_false, Bool.false_eq_true, not_false_eq_true,
      show ¬ (scan_digits r).length > 100 by omega,
      show ¬ (scan_digits r).length ≥ 100 by omega]
    refine ⟨_, _, rfl, ?_⟩
    have hs := skip_until_stops [';', ',', ')', ' ', TAB, NEWLINE]
      (r.drop ((scan_digits r).length + 1))
      (advance_position (advance_columns (scan_digits r).length lx))
    rw [hdd] at hs
    exact hs
  · intro h1 h2 h3 h4
    unfold handle_number
    simp only [hdd, h1, h2, h3, if_true, if_false, not_true_eq_false,
      show ¬ (scan_digits r).length > 100 by omega,
      show ¬ (scan_digits r).length ≥ 100 by omega,
      show ¬ (scan_digits r).length + 1 +
        (scan_digits (r.drop ((scan_digits r).length + 1))).length > 100 by omega]
    refine ⟨_, _, rfl, ?_⟩
    have hs := skip_until_stops [';', ',', ')', ' ', TAB, NEWLINE]
      (r.drop ((scan_digits r).length + 1 +
        (scan_digits (r.drop ((scan_digits r).length + 1))).length))
      (advance_columns (scan_digits (r.drop ((scan_digits r).length + 1))).length
        (advance_position (advance_columns (scan_digits r).length lx)))
    rw [hdd] at hs
    exact hs

/-! ## Number classification -/

/-- C21 (number classification), on a run of 100 digits: `handle_number`
stores the digits at the indices 0 to 99 of the lexeme array, which has 100
elements, and then writes the terminator at index 100; no token is returned,
by `handle_number` or by `get_next_token`.  A run of 99 digits is returned as
a NUMBER token with the run as its lexeme. -/
theorem long_number_overflows :
    handle_number (List.replicate 100 '7') reset_lexer = .error .lexeme_overflow ∧
    get_next_token (List.replicate 100 '7') 0 reset_lexer = .error .lexeme_overflow ∧
    (get_next_token (List.replicate 99 '7') 0 reset_lexer).map
        (fun r => (token_summary r.1, r.2.1)) =
      .ok ((.TOKEN_NUMBER, List.replicate 99 '7', .ERROR_NONE), 99) := by
  refine ⟨?_, ?_, ?_⟩ <;> decide!

/-! ## Precedence and associativity -/

theorem expression_loop_stop (k : Nat) (left : ASTNode) (p : Parser)
    (hc : loop_condition k p = false) :
    ∀ n, 1 ≤ n → expression_loop k n left p = .ok (left, p) := by
  intro n hn
  obtain ⟨m, rfl⟩ : ∃ m, n = m + 1 := ⟨n - 1, by omega⟩
  rcases k with _ | _ | _ | _ | _ | _ | k
  · rfl
  · simp only [loop_condition] at hc
    simp only [expression_loop, parse_logical_or_loop, hc, Bool.false_eq_true, if_false]
    rfl
  · simp only [loop_condition] at hc
    simp only [expression_loop, parse_logical_and_loop, hc, Bool.false_eq_true, if_false]
    rfl
  · simp only [loop_condition] at hc
    simp only [expression_loop, parse_comparison_loop, hc, Bool.false_eq_true, if_false]
    rfl
  · simp only [loop_condition] at hc
    simp only [expression_loop, parse_additive_loop, hc, Bool.false_eq_true, if_false]
    rfl
  · simp only [loop_condition] at hc
    simp only [expression_loop, parse_multiplicative_loop, hc, Bool.false_eq_true, if_false]
    rfl
  · rfl

/-- The token of the node built by a loop below the multiplicative level is
the operator token itself. -/
theorem multiplicative_token_eq (t : Token) (h : t.type ≠ .TOKEN_POINTER) :
    multiplicative_token t = t := by
  unfold multiplicative_token
  rw [if_neg h]

theorem expression_loop_step (k : Nat) (left right : ASTNode) (p1 p2 p3 : Parser)
    (res : ASTNode × Parser) (N : Nat)
    (hc : loop_condition k p1 = true) (ha : advance p1 = .ok p2)
    (hr : ∀ n, N ≤ n → expression_rule (k + 1) n p2 = .ok (right, p3))
    (hl : ∀ n, N ≤ n →
      expression_loop k n (binop_node p1.current_token left right) p3 = .ok res) :
    ∀ n, N + 1 ≤ n → expression_loop k n left p1 = .ok res := by
  intro n hn
  obtain ⟨m, rfl⟩ : ∃ m, n = m + 1 := ⟨n - 1, by omega⟩
  have hr1 := hr m (by omega)
  have hl1 := hl m (by omega)
  rcases k with _ | _ | _ | _ | _ | _ | k
  · simp [loop_condition] at hc
  · simp only [loop_condition] at hc
    have ht : multiplicative_token p1.current_token = p1.current_token :=
      multiplicative_token_eq _ (by
        simp only [match_token, decide_eq_true_eq] at hc
        rw [hc]; decide)
    simp only [expression_rule] at hr1
    simp only [expression_loop, binop_node, ht] at hl1
    simp only [expression_loop, parse_logical_or_loop, hc, if_true, ha, ok_bind, hr1, hl1]
  · simp only [loop_condition] at hc
    have ht : multiplicative_token p1.current_token = p1.current_token :=
      multiplicative_token_eq _ (by
        simp only [match_token, decide_eq_true_eq] at hc
        rw [hc]; decide)
    simp only [expression_rule] at hr1
    simp only [expression_loop, binop_node, ht] at hl1
    simp only [expression_loop, parse_logical_and_loop, hc, if_true, ha, ok_bind, hr1, hl1]
  · simp only [loop_condition] at hc
    have ht : multiplicative_token p1.current_token = p1.current_token :=
      multiplicative_token_eq _ (by
        simp only [is_comparison, match_token, Bool.or_eq_true, decide_eq_true_eq] at hc
        rcases hc with (((h | h) | h) | h) | h <;> rw [h] <;> decide)
    simp only [expression_rule] at hr1
    simp only [expression_loop, binop_node, ht] at hl1
    simp only [expression_loop, parse_comparison_loop, hc, if_true, ha, ok_bind, hr1, hl1]
  · simp only [loop_condition] at hc
    have ht : multiplicative_token p1.current_token = p1.current_token :=
      multiplicative_token_eq _ (by
        simp only [is_additive, match_token, Bool.and_eq_true, decide_eq_true_eq] at hc
        rw [hc.1]; decide)
    simp only [expression_rule] at hr1
    simp only [expression_loop, binop_node, ht] at hl1
    simp only [expression_loop, parse_additive_loop, hc, if_true, ha, ok_bind, hr1, hl1]
  · simp only [loop_condition] at hc
    simp only [expression_rule] at hr1
    simp only [expression_loop, binop_node] at hl1
    simp only [expression_loop, parse_multiplicative_loop, hc, if_true, ha, ok_bind, hr1, hl1]
  · simp [loop_condition] at hc

theorem expression_rule_of_loop (k : Nat) (hk : 1 ≤ k ∧ k ≤ 5) (left : ASTNode)
    (p p1 : Parser) (res : ASTNode × Parser) (N : Nat)
    (hr : ∀ n, N ≤ n → expression_rule (k + 1) n p = .ok (left, p1))
    (hl : ∀ n, N ≤ n → expression_loop k n left p1 = .ok res) :
    ∀ n, N + 1 ≤ n → expression_rule k n p = .ok res := by
  intro n hn
  obtain ⟨m, rfl⟩ : ∃ m, n = m + 1 := ⟨n - 1, by omega⟩
  have hr1 := hr m (by omega)
  have hl1 := hl m (by omega)
  rcases k with _ | _ | _ | _ | _ | _ | k
  · omega
  · simp only [expression_rule] at hr1
    simp only [expression_loop] at hl1
    simp only [expression_rule, parse_logical_or_expression, ok_bind, hr1, hl1]
  · simp only [expression_rule] at hr1
    simp only [expression_loop] at hl1
    simp only [expression_rule, parse_logical_and_expression, ok_bind, hr1, hl1]
  · simp only [expression_rule] at hr1
    simp only [expression_loop] at hl1
    simp only [expression_rule, parse_comparison_expression, ok_bind, hr1, hl1]
  · simp only [expression_rule] at hr1
    simp only [expression_loop] at hl1
    simp only [expression_rule, parse_additive_expression, ok_bind, hr1, hl1]
  · simp only [expression_rule] at hr1
    simp only [expression_loop] at hl1
    simp only [expression_rule, parse_multiplicative_expression, ok_bind, hr1, hl1]
  · omega

theorem primary_identifier (p p1 : Parser) (hi : p.current_token.type = .TOKEN_IDENTIFIER)
    (ha : advance p = .ok p1) (hl : p1.current_token.type ≠ .TOKEN_LPAREN) :
    ∀ n, 1 ≤ n → expression_rule 6 n p = .ok (identifier_node p.current_token, p1) := by
  intro n hn
  obtain ⟨m, rfl⟩ : ∃ m, n = m + 1 := ⟨n - 1, by omega⟩
  have h1 : match_token .TOKEN_NUMBER p = false := by
    simp only [match_token, hi]; decide
  have h2 : match_token .TOKEN_IDENTIFIER p = true := by
    simp only [match_token, hi]; decide
  have h3 : match_token .TOKEN_LPAREN p1 = false := by
    simp only [match_token, decide_eq_false_iff_not]; exact hl
  simp only [expression_rule, parse_primary_expression, h1, h2, h3, Bool.false_eq_true,
    if_false, if_true, ha, ok_bind, create_node, identifier_node]
  rfl

theorem operator_level_le (t : Token) : operator_level t ≤ 5 := by
  unfold operator_level
  split_ifs <;> omega

/-- The loop of the level of an operator token takes it. -/
theorem loop_condition_at_level (p : Parser) (h : 1 ≤ operator_level p.current_token) :
    loop_condition (operator_level p.current_token) p = true := by
  unfold operator_level at h ⊢
  split_ifs at h ⊢ with h5 h4 h3 h2 h1
  · simp only [loop_condition, is_multiplicative, match_token, Bool.or_eq_true,
      Bool.and_eq_true, decide_eq_true_eq]
    rcases h5 with ⟨a, b⟩ | a
    · exact Or.inl ⟨a, b⟩
    · exact Or.inr a
  · simp only [loop_condition, is_additive, match_token, Bool.or_eq_true,
      Bool.and_eq_true, decide_eq_true_eq]
    exact h4
  · simp only [loop_condition, is_comparison, match_token, Bool.or_eq_true,
      decide_eq_true_eq]
    rcases h3 with ⟨a, _⟩ | a | a | a | a
    · exact Or.inl (Or.inl (Or.inl (Or.inl a)))
    · exact Or.inl (Or.inl (Or.inl (Or.inr a)))
    · exact Or.inl (Or.inl (Or.inr a))
    · exact Or.inl (Or.inr a)
    · exact Or.inr a
  · simp only [loop_condition, match_token, decide_eq_true_eq]
    exact h2
  · simp only [loop_condition, match_token, decide_eq_true_eq]
    exact h1
  · omega

/-- The loops of the levels above the level of an operator token leave it. -/
theorem loop_condition_above_level (p : Parser) (i : Nat)
    (h : 1 ≤ operator_level p.current_token) (hi : operator_level p.current_token < i) :
    loop_condition i p = false := by
  unfold operator_level at h hi
  rcases i with _ | _ | _ | _ | _ | _ | i
  · omega
  · split_ifs at h hi <;> omega
  · split_ifs at h hi with h5 h4 h3 h2 h1
    · omega
    · omega
    · omega
    · omega
    · simp only [loop_condition, match_token, decide_eq_false_iff_not]
      rw [h1]; decide
    · omega
  · split_ifs at h hi with h5 h4 h3 h2 h1
    · omega
    · omega
    · omega
    · simp only [loop_condition, is_comparison, match_token, h2]
      decide
    · simp only [loop_condition, is_comparison, match_token, h1]
      decide
    · omega
  · split_ifs at h hi with h5 h4 h3 h2 h1
    · omega
    · omega
    · simp only [loop_condition, is_additive, match_token, Bool.and_eq_false_iff,
        decide_eq_false_iff_not, Bool.or_eq_false_iff, Bool.and_eq_true, Bool.or_eq_true,
        decide_eq_true_eq]
      by_contra hn
      exact h4 (by
        simp only [not_or, not_not, not_and] at hn
        tauto)
    · simp only [loop_condition, is_additive, match_token, h2]
      rfl
    · simp only [loop_condition, is_additive, match_token, h1]
      rfl
    · omega
  · split_ifs at h hi with h5 h4 h3 h2 h1
    · omega
    · have h5' : ¬ ((p.current_token.type = .TOKEN_OPERATOR ∧
          (peek p.current_token.lexeme = '*' ∨ peek p.current_token.lexeme = '/')) ∨
          p.current_token.type = .TOKEN_POINTER) := h5
      cases hb : loop_condition 5 p with
      | false => rfl
      | true =>
        exfalso
        apply h5'
        simp only [loop_condition, is_multiplicative, match_token, Bool.or_eq_true,
          Bool.and_eq_true, decide_eq_true_eq] at hb
        exact hb
    · cases hb : loop_condition 5 p with
      | false => rfl
      | true =>
        exfalso
        apply h5
        simp only [loop_condition, is_multiplicative, match_token, Bool.or_eq_true,
          Bool.and_eq_true, decide_eq_true_eq] at hb
        exact hb
    · cases hb : loop_condition 5 p with
      | false => rfl
      | true =>
        exfalso
        apply h5
        simp only [loop_condition, is_multiplicative, match_token, Bool.or_eq_true,
          Bool.and_eq_true, decide_eq_true_eq] at hb
        exact hb
    · cases hb : loop_condition 5 p with
      | false => rfl
      | true =>
        exfalso
        apply h5
        simp only [loop_condition, is_multiplicative, match_token, Bool.or_eq_true,
          Bool.and_eq_true, decide_eq_true_eq] at hb
        exact hb
    · omega
  · rfl

/-- No loop takes a token that ends the expression. -/
theorem loop_condition_end (p : Parser) (i : Nat)
    (h : ends_expression p.current_token = true) : loop_condition i p = false := by
  simp only [ends_expression, decide_eq_true_eq, Bool.and_eq_true, Bool.decide_and,
    ne_eq, decide_not, Bool.not_eq_true', decide_eq_false_iff_not] at h
  obtain ⟨a, b, c, d, e, f, g, i1, _⟩ := h
  rcases i with _ | _ | _ | _ | _ | _ | i
  · rfl
  · simp only [loop_condition, match_token, decide_eq_false_iff_not]; exact i1
  · simp only [loop_condition, match_token, decide_eq_false_iff_not]; exact g
  · simp only [loop_condition, is_comparison, match_token, Bool.or_eq_false_iff,
      decide_eq_false_iff_not]
    exact ⟨⟨⟨⟨a, c⟩, d⟩, e⟩, f⟩
  · simp only [loop_condition, is_additive, match_token, Bool.and_eq_false_iff,
      decide_eq_false_iff_not]
    exact Or.inl a
  · simp only [loop_condition, is_multiplicative, match_token, Bool.or_eq_false_iff,
      Bool.and_eq_false_iff, decide_eq_false_iff_not]
    exact ⟨Or.inl a, b⟩
  · rfl

theorem not_lparen_of_level (t : Token) (h : 1 ≤ operator_level t) :
    t.type ≠ .TOKEN_LPAREN := by
  intro hl
  unfold operator_level at h
  rw [hl] at h
  simp at h

theorem not_lparen_of_end (t : Token) (h : ends_expression t = true) :
    t.type ≠ .TOKEN_LPAREN := by
  simp only [ends_expression, decide_eq_true_eq, Bool.and_eq_true, Bool.decide_and,
    ne_eq, decide_not, Bool.not_eq_true', decide_eq_false_iff_not] at h
  exact h.2.2.2.2.2.2.2.2

/-- A result of the rule of a level is the result of the rules of the levels
below whose loops leave the token that follows. -/
theorem expression_rule_lift (p : Parser) (res : ASTNode × Parser) (N : Nat) (hN : 1 ≤ N) :
    ∀ (d j : Nat), 1 ≤ j → j + d ≤ 6 →
      (∀ n, N ≤ n → expression_rule (j + d) n p = .ok res) →
      (∀ i, j ≤ i → i < j + d → loop_condition i res.2 = false) →
      ∀ n, N + d ≤ n → expression_rule j n p = .ok res := by
  intro d
  induction d with
  | zero => intro j _ _ h _ n hn; exact h n (by omega)
  | succ d ih =>
    intro j hj hjd h hc n hn
    have h1 : ∀ n, N + d ≤ n → expression_rule (j + 1) n p = .ok res :=
      ih (j + 1) (by omega) (by omega)
        (fun n hn => by
          have := h n hn
          rw [show j + (d + 1) = j + 1 + d by omega] at this
          exact this)
        (fun i hi1 hi2 => hc i (by omega) (by omega))
    exact expression_rule_of_loop j ⟨hj, by omega⟩ res.1 p res.2 res (N + d) h1
      (fun n hn => expression_loop_stop j res.1 res.2 (hc j (le_refl _) (by omega)) n
        (by omega)) n (by omega)

/-- An identifier followed by a token that the loops from level `k` on leave
is the whole operand of the rule of level `k`. -/
theorem expression_rule_operand (k : Nat) (hk : 1 ≤ k ∧ k ≤ 6) (p p1 : Parser)
    (hi : p.current_token.type = .TOKEN_IDENTIFIER) (ha : advance p = .ok p1)
    (hl : p1.current_token.type ≠ .TOKEN_LPAREN)
    (hc : ∀ i, k ≤ i → loop_condition i p1 = false) :
    ∀ n, 7 ≤ n → expression_rule k n p = .ok (identifier_node p.current_token, p1) := by
  intro n hn
  exact expression_rule_lift p (identifier_node p.current_token, p1) 1 (le_refl _) (6 - k) k
    hk.1 (by omega)
    (fun n hn => by
      rw [show k + (6 - k) = 6 by omega]
      exact primary_identifier p p1 hi ha hl n hn)
    (fun i hi1 _ => hc i hi1) n (by omega)

/-- C23 (precedence and associativity): for identifier operands `a`, `b`, `c`,
operator tokens `o1`, `o2` of the five binary levels (`*`, `/` above `+`, `-`
above the comparison operators above `&&` above `||`) and a token behind `c`
that is neither an operator nor `(`, `parse_expression`, with the token `a`
current and enough budget, returns at the token behind `c`, and the tree it
returns for `a o1 b o2 c` is BinOp(o1, a, BinOp(o2, b, c)) when `o2` is of a
higher level than `o1`, and BinOp(o2, BinOp(o1, a, b), c) when `o2` is of the
same level as `o1` or of a lower one: a higher level binds tighter, and
operators of one level associate to the left. -/
theorem precedence_and_associativity (n : Nat) (p0 p1 p2 p3 p4 p5 : Parser)
    (hfuel : 32 ≤ n)
    (ha : p0.current_token.type = .TOKEN_IDENTIFIER)
    (h1 : advance p0 = .ok p1) (ho1 : 1 ≤ operator_level p1.current_token)
    (h2 : advance p1 = .ok p2) (hb : p2.current_token.type = .TOKEN_IDENTIFIER)
    (h3 : advance p2 = .ok p3) (ho2 : 1 ≤ operator_level p3.current_token)
    (h4 : advance p3 = .ok p4) (hc : p4.current_token.type = .TOKEN_IDENTIFIER)
    (h5 : advance p4 = .ok p5) (hend : ends_expression p5.current_token = true) :
    parse_expression n p0 =
      .ok (if operator_level p1.current_token < operator_level p3.current_token then
             binop_node p1.current_token (identifier_node p0.current_token)
               (binop_node p3.current_token (identifier_node p2.current_token)
                 (identifier_node p4.current_token))
           else
             binop_node p3.current_token
               (binop_node p1.current_token (identifier_node p0.current_token)
                 (identifier_node p2.current_token))
               (identifier_node p4.current_token),
           p5) := by
  have hl1 := operator_level_le p1.current_token
  have hl2 := operator_level_le p3.current_token
  have hrule1 : ∀ m, 31 ≤ m → expression_rule 1 m p0 =
      .ok (if operator_level p1.current_token < operator_level p3.current_token then
             binop_node p1.current_token (identifier_node p0.current_token)
               (binop_node p3.current_token (identifier_node p2.current_token)
                 (identifier_node p4.current_token))
           else
             binop_node p3.current_token
               (binop_node p1.current_token (identifier_node p0.current_token)
                 (identifier_node p2.current_token))
               (identifier_node p4.current_token),
           p5) := by
    have hC : ∀ k, 1 ≤ k → k ≤ 6 → ∀ m, 7 ≤ m →
        expression_rule k m p4 = .ok (identifier_node p4.current_token, p5) :=
      fun k hk1 hk2 => expression_rule_operand k ⟨hk1, hk2⟩ p4 p5 hc h5
        (not_lparen_of_end _ hend) (fun i _ => loop_condition_end p5 i hend)
    have hA : ∀ m, 7 ≤ m → expression_rule (operator_level p1.current_token + 1) m p0 =
        .ok (identifier_node p0.current_token, p1) :=
      expression_rule_operand _ ⟨by omega, by omega⟩ p0 p1 ha h1
        (not_lparen_of_level _ ho1)
        (fun i hi => loop_condition_above_level p1 i ho1 (by omega))
    by_cases hlt : operator_level p1.current_token < operator_level p3.current_token
    · rw [if_pos hlt]
      have hB : ∀ m, 7 ≤ m → expression_rule (operator_level p3.current_token + 1) m p2 =
          .ok (identifier_node p2.current_token, p3) :=
        expression_rule_operand _ ⟨by omega, by omega⟩ p2 p3 hb h3
          (not_lparen_of_level _ ho2)
          (fun i hi => loop_condition_above_level p3 i ho2 (by omega))
      have hloop2 := expression_loop_step (operator_level p3.current_token)
        (identifier_node p2.current_token) (identifier_node p4.current_token) p3 p4 p5
        (binop_node p3.current_token (identifier_node p2.current_token)
          (identifier_node p4.current_token), p5) 7
        (loop_condition_at_level p3 ho2) h4 (hC _ (by omega) (by omega))
        (fun m hm => expression_loop_stop _ _ p5 (loop_condition_end p5 _ hend) m (by omega))
      have hrule2 := expression_rule_of_loop (operator_level p3.current_token)
        ⟨ho2, hl2⟩ _ p2 p3 _ 8 (fun m hm => hB m (by omega)) hloop2
      have hlift := expression_rule_lift p2
        (binop_node p3.current_token (identifier_node p2.current_token)
          (identifier_node p4.current_token), p5) 9 (by omega)
        (operator_level p3.current_token - (operator_level p1.current_token + 1))
        (operator_level p1.current_token + 1) (by omega) (by omega)
        (fun m hm => by
          rw [show operator_level p1.current_token + 1 +
            (operator_level p3.current_token - (operator_level p1.current_token + 1)) =
            operator_level p3.current_token by omega]
          exact hrule2 m hm)
        (fun i _ _ => loop_condition_end p5 i hend)
      have hloop1 := expression_loop_step (operator_level p1.current_token)
        (identifier_node p0.current_token) _ p1 p2 p5
        (binop_node p1.current_token (identifier_node p0.current_token)
          (binop_node p3.current_token (identifier_node p2.current_token)
            (identifier_node p4.current_token)), p5) 14
        (loop_condition_at_level p1 ho1) h2 (fun m hm => hlift m (by omega))
        (fun m hm => expression_loop_stop _ _ p5 (loop_condition_end p5 _ hend) m (by omega))
      have hrule := expression_rule_of_loop (operator_level p1.current_token)
        ⟨ho1, hl1⟩ _ p0 p1 _ 15 (fun m hm => hA m (by omega)) hloop1
      intro m hm
      exact expression_rule_lift p0 _ 16 (by omega) (operator_level p1.current_token - 1) 1
        (le_refl _) (by omega)
        (fun m hm => by
          rw [show 1 + (operator_level p1.current_token - 1) =
            operator_level p1.current_token by omega]
          exact hrule m hm)
        (fun i _ _ => loop_condition_end p5 i hend) m (by omega)
    · rw [if_neg hlt]
      have hB : ∀ m, 7 ≤ m → expression_rule (operator_level p1.current_token + 1) m p2 =
          .ok (identifier_node p2.current_token, p3) :=
        expression_rule_operand _ ⟨by omega, by omega⟩ p2 p3 hb h3
          (not_lparen_of_level _ ho2)
          (fun i hi => loop_condition_above_level p3 i ho2 (by omega))
      by_cases heq : operator_level p3.current_token = operator_level p1.current_token
      · have hc2 : loop_condition (operator_level p1.current_token) p3 = true := by
          rw [← heq]
          exact loop_condition_at_level p3 ho2
        have hloop2 := expression_loop_step (operator_level p1.current_token)
          (binop_node p1.current_token (identifier_node p0.current_token)
            (identifier_node p2.current_token))
          (identifier_node p4.current_token) p3 p4 p5
          (binop_node p3.current_token
            (binop_node p1.current_token (identifier_node p0.current_token)
              (identifier_node p2.current_token))
            (identifier_node p4.current_token), p5) 7
          hc2 h4 (hC _ (by omega) (by omega))
          (fun m hm => expression_loop_stop _ _ p5 (loop_condition_end p5 _ hend) m
            (by omega))
        have hloop1 := expression_loop_step (operator_level p1.current_token)
          (identifier_node p0.current_token) (identifier_node p2.current_token) p1 p2 p3
          _ 8 (loop_condition_at_level p1 ho1) h2 (fun m hm => hB m (by omega)) hloop2
        have hrule := expression_rule_of_loop (operator_level p1.current_token)
          ⟨ho1, hl1⟩ _ p0 p1 _ 9 (fun m hm => hA m (by omega)) hloop1
        intro m hm
        exact expression_rule_lift p0 _ 10 (by omega) (operator_level p1.current_token - 1) 1
          (le_refl _) (by omega)
          (fun m hm => by
            rw [show 1 + (operator_level p1.current_token - 1) =
              operator_level p1.current_token by omega]
            exact hrule m hm)
          (fun i _ _ => loop_condition_end p5 i hend) m (by omega)
      · have hlt2 : operator_level p3.current_token < operator_level p1.current_token := by
          omega
        have hloop1 := expression_loop_step (operator_level p1.current_token)
          (identifier_node p0.current_token) (identifier_node p2.current_token) p1 p2 p3
          (binop_node p1.current_token (identifier_node p0.current_token)
            (identifier_node p2.current_token), p3) 7
          (loop_condition_at_level p1 ho1) h2 hB
          (fun m hm => expression_loop_stop _ _ p3
            (loop_condition_above_level p3 _ ho2 hlt2) m (by omega))
        have hrule := expression_rule_of_loop (operator_level p1.current_token)
          ⟨ho1, hl1⟩ _ p0 p1 _ 8 (fun m hm => hA m (by omega)) hloop1
        have hlift := expression_rule_lift p0
          (binop_node p1.current_token (identifier_node p0.current_token)
            (identifier_node p2.current_token), p3) 9 (by omega)
          (operator_level p1.current_token - (operator_level p3.current_token + 1))
          (operator_level p3.current_token + 1) (by omega) (by omega)
          (fun m hm => by
            rw [show operator_level p3.current_token + 1 +
              (operator_level p1.current_token - (operator_level p3.current_token + 1)) =
              operator_level p1.current_token by omega]
            exact hrule m hm)
          (fun i hi _ => loop_condition_above_level p3 i ho2 (by omega))
        have hloop2 := expression_loop_step (operator_level p3.current_token)
          (binop_node p1.current_token (identifier_node p0.current_token)
            (identifier_node p2.current_token))
          (identifier_node p4.current_token) p3 p4 p5
          (binop_node p3.current_token
            (binop_node p1.current_token (identifier_node p0.current_token)
              (identifier_node p2.current_token))
            (identifier_node p4.current_token), p5) 7
          (loop_condition_at_level p3 ho2) h4 (hC _ (by omega) (by omega))
          (fun m hm => expression_loop_stop _ _ p5 (loop_condition_end p5 _ hend) m
            (by omega))
        have hrule2 := expression_rule_of_loop (operator_level p3.current_token)
          ⟨ho2, hl2⟩ _ p0 p3 _ 14 (fun m hm => hlift m (by omega))
          (fun m hm => hloop2 m (by omega))
        intro m hm
        exact expression_rule_lift p0 _ 15 (by omega) (operator_level p3.current_token - 1) 1
          (le_refl _) (by omega)
          (fun m hm => by
            rw [show 1 + (operator_level p3.current_token - 1) =
              operator_level p3.current_token by omega]
            exact hrule2 m hm)
          (fun i _ _ => loop_condition_end p5 i hend) m (by omega)
  obtain ⟨m, rfl⟩ : ∃ m, n = m + 1 := ⟨n - 1, by omega⟩
  have hs : match_token .TOKEN_SEMICOLON p0 = false := by
    simp only [match_token, ha]; rfl
  have hr : match_token .TOKEN_RPAREN p0 = false := by
    simp only [match_token, ha]; rfl
  rw [parse_expression]
  simp only [hs, hr, Bool.or_self, Bool.false_eq_true, if_false]
  exact hrule1 m (by omega)

/-- C23 on the three texts of the claim, read by `parser_init` from a reset
lexer: `a + b * c` and `a - b - c` by the theorem, and `a || b && c == d`,
with its four operands, by evaluation.  The `*` behind an identifier is read
as a pointer token and stored with the lexeme `*`. -/
theorem precedence_and_associativity_witness :
    (parse_expression 32 (parser_after "a + b * c".toList 0)).map Prod.fst =
      .ok (.node .AST_BINOP (plain_token .TOKEN_OPERATOR ['+'] 1 2)
            (.node .AST_IDENTIFIER (plain_token .TOKEN_IDENTIFIER ['a'] 1 1) .null .null)
            (.node .AST_BINOP (plain_token .TOKEN_POINTER ['*'] 1 5)
              (.node .AST_IDENTIFIER (plain_token .TOKEN_IDENTIFIER ['b'] 1 4) .null .null)
              (.node .AST_IDENTIFIER (plain_token .TOKEN_IDENTIFIER ['c'] 1 7) .null
                .null))) ∧
    (parse_expression 32 (parser_after "a - b - c".toList 0)).map Prod.fst =
      .ok (.node .AST_BINOP (plain_token .TOKEN_OPERATOR ['-'] 1 5)
            (.node .AST_BINOP (plain_token .TOKEN_OPERATOR ['-'] 1 2)
              (.node .AST_IDENTIFIER (plain_token .TOKEN_IDENTIFIER ['a'] 1 1) .null .null)
              (.node .AST_IDENTIFIER (plain_token .TOKEN_IDENTIFIER ['b'] 1 4) .null .null))
            (.node .AST_IDENTIFIER (plain_token .TOKEN_IDENTIFIER ['c'] 1 7) .null .null)) ∧
    (parse_expression 32 (parser_after "a || b && c == d".toList 0)).map Prod.fst =
      .ok (.node .AST_BINOP (plain_token .TOKEN_LOGICAL_OR ['|', '|'] 1 2)
            (.node .AST_IDENTIFIER (plain_token .TOKEN_IDENTIFIER ['a'] 1 1) .null .null)
            (.node .AST_BINOP (plain_token .TOKEN_LOGICAL_AND ['&', '&'] 1 6)
              (.node .AST_IDENTIFIER (plain_token .TOKEN_IDENTIFIER ['b'] 1 5) .null .null)
              (.node .AST_BINOP (plain_token .TOKEN_EQUALS_EQUALS ['=', '='] 1 10)
                (.node .AST_IDENTIFIER (plain_token .TOKEN_IDENTIFIER ['c'] 1 9) .null .null)
                (.node .AST_IDENTIFIER (plain_token .TOKEN_IDENTIFIER ['d'] 1 13) .null
                  .null)))) :=
  ⟨(congrArg (Except.map Prod.fst)
      (precedence_and_associativity 32
        (parser_after "a + b * c".toList 0) (parser_after "a + b * c".toList 1)
        (parser_after "a + b * c".toList 2) (parser_after "a + b * c".toList 3)
        (parser_after "a + b * c".toList 4) (parser_after "a + b * c".toList 5)
        (le_refl _) (by decide!) (by decide!) (by decide!) (by decide!) (by decide!)
        (by decide!) (by decide!) (by decide!) (by decide!) (by decide!) (by decide!))).trans
      (by decide!),
   (congrArg (Except.map Prod.fst)
      (precedence_and_associativity 32
        (parser_after "a - b - c".toList 0) (parser_after "a - b - c".toList 1)
        (parser_after "a - b - c".toList 2) (parser_after "a - b - c".toList 3)
        (parser_after "a - b - c".toList 4) (parser_after "a - b - c".toList 5)
        (le_refl _) (by decide!) (by decide!) (by decide!) (by decide!) (by decide!)
        (by decide!) (by decide!) (by decide!) (by decide!) (by decide!) (by decide!))).trans
      (by decide!),
   by decide!⟩

/-! ## Scope balance and success without errors -/

theorem add_parameters_current_scope (node : ASTNode) :
    ∀ table : SymbolTable, (add_parameters node table).current_scope = table.current_scope := by
  induction node with
  | null => intro table; rfl
  | node type token left right _ ihr =>
    intro table
    unfold add_parameters
    split_ifs
    · rw [ihr]
      unfold mark_initialized
      cases lookup_symbol_current_scope (add_symbol table token.lexeme
        TokenType.TOKEN_INT.code token.line) token.lexeme <;> rfl
    · exact ihr table

theorem mark_initialized_current_scope (table : SymbolTable) (name : List Char) :
    (mark_initialized table name).current_scope = table.current_scope := by
  unfold mark_initialized
  cases lookup_symbol_current_scope table name <;> rfl

/-- The checks of the statements without a body leave the scope counter as it
was, and print nothing when they succeed. -/
theorem check_declaration_facts (node : ASTNode) (s : Sem) :
    (check_declaration node s).2.table.current_scope = s.table.current_scope ∧
    ((check_declaration node s).1 = true → (check_declaration node s).2.reported = s.reported) := by
  cases node with
  | null => exact ⟨rfl, fun _ => rfl⟩
  | node type token left right =>
    unfold check_declaration
    simp only []
    by_cases ht : type ≠ .AST_VARDECL
    · rw [if_pos ht]
      exact ⟨rfl, fun h => by cases h⟩
    · rw [if_neg ht]
      cases hl : lookup_symbol_current_scope s.table token.lexeme with
      | some p => exact ⟨rfl, fun h => by cases h⟩
      | none =>
        simp only []
        have hs1 : ∀ s1 : Sem, s1.table.current_scope = s.table.current_scope →
            s1.reported = s.reported →
            (if right.is_node = true then
              if (check_expression right s1).1 = true then
                if ¬ are_types_compatible TokenType.TOKEN_INT.code
                    (read_result_type (check_expression right s1).2.1
                      (check_expression right s1).2.2).1 = true then
                  (false, semantic_error .SEM_ERROR_TYPE_MISMATCH
                    ("cannot initialize ".toList ++ type_to_string TokenType.TOKEN_INT.code ++
                      " with ".toList ++ type_to_string
                        (read_result_type (check_expression right s1).2.1
                          (check_expression right s1).2.2).1) token.line
                    (read_result_type (check_expression right s1).2.1
                      (check_expression right s1).2.2).2)
                else
                  (true, { (read_result_type (check_expression right s1).2.1
                      (check_expression right s1).2.2).2 with
                    table := mark_initialized (read_result_type (check_expression right s1).2.1
                      (check_expression right s1).2.2).2.table token.lexeme })
              else (false, (check_expression right s1).2.2)
            else (true, s1)).2.table.current_scope = s.table.current_scope ∧
            ((if right.is_node = true then
              if (check_expression right s1).1 = true then
                if ¬ are_types_compatible TokenType.TOKEN_INT.code
                    (read_result_type (check_expression right s1).2.1
                      (check_expression right s1).2.2).1 = true then
                  (false, semantic_error .SEM_ERROR_TYPE_MISMATCH
                    ("cannot initialize ".toList ++ type_to_string TokenType.TOKEN_INT.code ++
                      " with ".toList ++ type_to_string
                        (read_result_type (check_expression right s1).2.1
                          (check_expression right s1).2.2).1) token.line
                    (read_result_type (check_expression right s1).2.1
                      (check_expression right s1).2.2).2)
                else
                  (true, { (read_result_type (check_expression right s1).2.1
                      (check_expression right s1).2.2).2 with
                    table := mark_initialized (read_result_type (check_expression right s1).2.1
                      (check_expression right s1).2.2).2.table token.lexeme })
              else (false, (check_expression right s1).2.2)
            else (true, s1)).1 = true →
            (if right.is_node = true then
              if (check_expression right s1).1 = true then
                if ¬ are_types_compatible TokenType.TOKEN_INT.code
                    (read_result_type (check_expression right s1).2.1
                      (check_expression right s1).2.2).1 = true then
                  (false, semantic_error .SEM_ERROR_TYPE_MISMATCH
                    ("cannot initialize ".toList ++ type_to_string TokenType.TOKEN_INT.code ++
                      " with ".toList ++ type_to_string
                        (read_result_type (check_expression right s1).2.1
                          (check_expression right s1).2.2).1) token.line
                    (read_result_type (check_expression right s1).2.1
                      (check_expression right s1).2.2).2)
                else
                  (true, { (read_result_type (check_expression right s1).2.1
                      (check_expression right s1).2.2).2 with
                    table := mark_initialized (read_result_type (check_expression right s1).2.1
                      (check_expression right s1).2.2).2.table token.lexeme })
              else (false, (check_expression right s1).2.2)
            else (true, s1)).2.reported = s.reported) := by
          intro s1 hsc hrp
          by_cases h1 : right.is_node = true
          · rw [if_pos h1]
            by_cases h2 : (check_expression right s1).1 = true
            · rw [if_pos h2]
              split_ifs
              · refine ⟨?_, fun _ => ?_⟩
                · simp only [mark_initialized_current_scope, read_result_type_table,
                    check_expression_table, hsc]
                · simp only [read_result_type_reported]
                  rw [check_expression_reported right _ h2, hrp]
              · refine ⟨?_, fun h => by cases h⟩
                simp only [semantic_error, read_result_type_table, check_expression_table, hsc]
            · rw [if_neg h2]
              refine ⟨?_, fun h => by cases h⟩
              rw [check_expression_table, hsc]
          · rw [if_neg h1]
            exact ⟨hsc, fun _ => hrp⟩
        exact hs1 _ rfl rfl

theorem check_assignment_facts (node : ASTNode) (s : Sem) :
    (check_assignment node s).2.table.current_scope = s.table.current_scope ∧
    ((check_assignment node s).1 = true → (check_assignment node s).2.reported = s.reported) := by
  cases node with
  | null => exact ⟨rfl, fun _ => rfl⟩
  | node type token left right =>
    unfold check_assignment
    simp only []
    by_cases h1 : type ≠ .AST_ASSIGN ∨ ¬ left.is_node = true ∨ ¬ right.is_node = true
    · rw [if_pos h1]
      exact ⟨rfl, fun h => by cases h⟩
    · rw [if_neg h1]
      by_cases h2 : left.type? ≠ some .AST_IDENTIFIER
      · rw [if_pos h2]
        exact ⟨rfl, fun h => by cases h⟩
      · rw [if_neg h2]
        cases hl : lookup_symbol s.table left.token.lexeme with
        | none => exact ⟨rfl, fun h => by cases h⟩
        | some p =>
          obtain ⟨index, symbol⟩ := p
          simp only []
          by_cases h3 : (check_expression right s).1 = true
          · rw [if_pos h3]
            split_ifs
            · refine ⟨?_, fun _ => ?_⟩
              · simp only [set_initialized, read_result_type_table, check_expression_table]
              · simp only [read_result_type_reported]
                exact check_expression_reported right _ h3
            · refine ⟨?_, fun h => by cases h⟩
              simp only [semantic_error, read_result_type_table, check_expression_table]
          · rw [if_neg h3]
            refine ⟨?_, fun h => by cases h⟩
            rw [check_expression_table]

theorem check_expression_facts (node : ASTNode) (s : Sem) :
    (check_expression node s).2.2.table.current_scope = s.table.current_scope ∧
    ((check_expression node s).1 = true → (check_expression node s).2.2.reported = s.reported) :=
  ⟨by rw [check_expression_table], check_expression_reported node s⟩

theorem check_condition_facts (node : ASTNode) (s : Sem) :
    (check_condition node s).2.table.current_scope = s.table.current_scope ∧
    ((check_condition node s).1 = true → (check_condition node s).2.reported = s.reported) := by
  cases node with
  | null => exact ⟨rfl, fun h => by cases h⟩
  | node type token left right => exact check_expression_facts _ s

theorem check_print_statement_facts (node : ASTNode) (s : Sem) :
    (check_print_statement node s).2.table.current_scope = s.table.current_scope ∧
    ((check_print_statement node s).1 = true →
      (check_print_statement node s).2.reported = s.reported) := by
  cases node with
  | null => exact ⟨rfl, fun h => by cases h⟩
  | node type token left right =>
    have he : check_print_statement (.node type token left right) s =
        if type ≠ .AST_PRINT then (false, s)
        else if left.is_node = true then
          ((check_expression left s).1, (check_expression left s).2.2)
        else (true, s) := rfl
    rw [he]
    split_ifs
    · exact ⟨rfl, fun h => by cases h⟩
    · exact check_expression_facts _ s
    · exact ⟨rfl, fun _ => rfl⟩

theorem check_return_statement_facts (node : ASTNode) (s : Sem) :
    (check_return_statement node s).2.table.current_scope = s.table.current_scope ∧
    ((check_return_statement node s).1 = true →
      (check_return_statement node s).2.reported = s.reported) := by
  cases node with
  | null => exact ⟨rfl, fun h => by cases h⟩
  | node type token left right =>
    have he : check_return_statement (.node type token left right) s =
        if type ≠ .AST_RETURN then (false, s)
        else if left.is_node = true then
          ((check_expression left s).1, (check_expression left s).2.2)
        else (true, s) := rfl
    rw [he]
    split_ifs
    · exact ⟨rfl, fun h => by cases h⟩
    · exact check_expression_facts _ s
    · exact ⟨rfl, fun _ => rfl⟩

theorem exit_scope_after_enter (x s : Sem)
    (h : x.table.current_scope = s.table.current_scope + 1) :
    x.exit_scope.table.current_scope = s.table.current_scope ∧
    x.exit_scope.reported = x.reported := by
  unfold Sem.exit_scope exit_scope
  split_ifs with h1
  · exact ⟨by simp only []; omega, rfl⟩
  · omega

theorem check_kept_trans {a b : Bool × Sem} {s t : Sem} (h1 : check_kept (a.1, t) s)
    (h2 : check_kept b t) (_ha : a.2 = t) : check_kept (a.1 && b.1, b.2) s := by
  obtain ⟨h1a, h1b⟩ := h1
  obtain ⟨h2a, h2b⟩ := h2
  refine ⟨h2a.trans h1a, fun h => ?_⟩
  simp only [Bool.and_eq_true] at h
  exact (h2b h.2).trans (h1b h.1)

/-- The facts about `check_statement` and the loop of `check_block`, for a
node and for its children. -/
theorem check_statement_kept_aux (node : ASTNode) :
    ((∀ s, check_kept (check_statement node s) s) ∧
      (∀ valid s, (check_block_loop node valid s).2.table.current_scope =
          s.table.current_scope ∧
        ((check_block_loop node valid s).1 = true →
          valid = true ∧ (check_block_loop node valid s).2.reported = s.reported))) ∧
    (∀ type token left right, node = .node type token left right →
      ((∀ s, check_kept (check_statement left s) s) ∧
        (∀ valid s, (check_block_loop left valid s).2.table.current_scope =
            s.table.current_scope ∧
          ((check_block_loop left valid s).1 = true →
            valid = true ∧ (check_block_loop left valid s).2.reported = s.reported))) ∧
      ((∀ s, check_kept (check_statement right s) s) ∧
        (∀ valid s, (check_block_loop right valid s).2.table.current_scope =
            s.table.current_scope ∧
          ((check_block_loop right valid s).1 = true →
            valid = true ∧ (check_block_loop right valid s).2.reported = s.reported)))) := by
  induction node with
  | null =>
    refine ⟨⟨fun s => ?_, fun valid s => ?_⟩, fun _ _ _ _ h => by cases h⟩
    · simp [check_statement, check_kept]
    · simp [check_block_loop]
  | node type token left right ihl ihr =>
    obtain ⟨⟨hls, hll⟩, _⟩ := ihl
    obtain ⟨⟨hrs, hrl⟩, hrc⟩ := ihr
    refine ⟨⟨fun s => ?_, fun valid s => ?_⟩, fun _ _ _ _ h => ?_⟩
    · cases type
      case AST_VARDECL =>
        rw [check_statement]
        exact check_declaration_facts _ s
      case AST_ASSIGN =>
        rw [check_statement]
        exact check_assignment_facts _ s
      case AST_PRINT =>
        rw [check_statement]
        exact check_print_statement_facts _ s
      case AST_RETURN =>
        rw [check_statement]
        exact check_return_statement_facts _ s
      case AST_FACTORIAL =>
        rw [check_statement]
        exact check_expression_facts _ s
      case AST_FUNCTION_CALL =>
        rw [check_statement]
        exact check_expression_facts _ s
      case AST_WHILE =>
        rw [check_statement]
        exact check_kept_trans (check_condition_facts left s) (hrs _) rfl
      case AST_FOR =>
        rw [check_statement]
        exact check_kept_trans (hls s) (check_condition_facts right _) rfl
      case AST_IF =>
        cases right with
        | null =>
          rw [check_statement]
          · exact check_kept_trans (check_condition_facts left s) (hrs _) rfl
          · intro _ _ _ h; cases h
        | node rtype rtoken rleft rright =>
          by_cases hr : rtype = .AST_ELSE
          · subst hr
            rw [check_statement]
            obtain ⟨⟨hthen, _⟩, ⟨helse, _⟩⟩ := hrc _ _ _ _ rfl
            have h1 := check_kept_trans (check_condition_facts left s) (hthen _) rfl
            exact check_kept_trans (a := (_, _)) h1 (helse _) rfl
          · rw [check_statement]
            · exact check_kept_trans (check_condition_facts left s) (hrs _) rfl
            · intro _ _ _ h
              cases h
              exact hr rfl
      case AST_BLOCK =>
        rw [check_statement]
        try simp only []
        by_cases hl : left.is_node = true
        · simp only [hl, if_true, Bool.and_true]
          obtain ⟨hf1, hf2⟩ := hls s.enter_scope
          obtain ⟨hr1, hr2⟩ := hrl (check_statement left s.enter_scope).1
            (check_statement left s.enter_scope).2
          obtain ⟨he1, he2⟩ := exit_scope_after_enter
            (check_block_loop right (check_statement left s.enter_scope).1
              (check_statement left s.enter_scope).2).2 s (by rw [hr1, hf1]; rfl)
          refine ⟨he1, fun h => ?_⟩
          obtain ⟨hv, hrep⟩ := hr2 h
          show Sem.reported (Sem.exit_scope _) = _
          rw [he2, hrep, hf2 hv]
          rfl
        · simp only [hl, if_false, Bool.false_eq_true]
          obtain ⟨hr1, hr2⟩ := hrl true s.enter_scope
          obtain ⟨he1, he2⟩ := exit_scope_after_enter
            (check_block_loop right true s.enter_scope).2 s (by rw [hr1]; rfl)
          refine ⟨he1, fun h => ?_⟩
          obtain ⟨_, hrep⟩ := hr2 h
          show Sem.reported (Sem.exit_scope _) = _
          rw [he2, hrep]
          rfl
      case AST_FUNCTION_DECL =>
        rw [check_statement]
        try simp only []
        cases hlk : lookup_symbol_current_scope s.table token.lexeme with
        | some p => exact ⟨rfl, fun h => by cases h⟩
        | none =>
          try simp only []
          have hsc : (add_parameters left (Phase3.enter_scope (mark_initialized (add_symbol
              s.table token.lexeme TokenType.TOKEN_INT.code token.line)
              token.lexeme))).current_scope = s.table.current_scope + 1 := by
            rw [add_parameters_current_scope]
            show (mark_initialized _ _).current_scope + 1 = _
            rw [mark_initialized_current_scope]
            rfl
          obtain ⟨T, hT⟩ : ∃ T : SymbolTable, T = add_parameters left (Phase3.enter_scope
              (mark_initialized (add_symbol s.table token.lexeme TokenType.TOKEN_INT.code
                token.line) token.lexeme)) := ⟨_, rfl⟩
          rw [← hT] at hsc ⊢
          by_cases hrn : right.is_node = true
          · simp only [hrn, if_true]
            obtain ⟨hb1, hb2⟩ := hrs { s with table := T }
            obtain ⟨he1, he2⟩ := exit_scope_after_enter
              (check_statement right { s with table := T }).2 s (by rw [hb1]; exact hsc)
            refine ⟨he1, fun h => ?_⟩
            show Sem.reported (Sem.exit_scope _) = _
            rw [he2, hb2 h]
          · simp only [hrn, if_false, Bool.false_eq_true]
            obtain ⟨he1, he2⟩ := exit_scope_after_enter { s with table := T } s hsc
            exact ⟨he1, fun _ => he2⟩
      all_goals
        simp only [check_statement]
        exact ⟨rfl, fun h => by cases h⟩
    · rw [check_block_loop]
      by_cases ht : type = .AST_BLOCK
      · rw [if_pos ht]
        try simp only []
        by_cases hl : left.is_node = true
        · simp only [hl, if_true]
          obtain ⟨hf1, hf2⟩ := hls s
          obtain ⟨hr1, hr2⟩ := hrl ((check_statement left s).1 && valid)
            (check_statement left s).2
          refine ⟨hr1.trans hf1, fun h => ?_⟩
          obtain ⟨hv, hrep⟩ := hr2 h
          simp only [Bool.and_eq_true] at hv
          exact ⟨hv.2, hrep.trans (hf2 hv.1)⟩
        · simp only [hl, if_false, Bool.false_eq_true]
          exact hrl valid s
      · rw [if_neg ht]
        exact ⟨rfl, fun h => ⟨h, rfl⟩⟩
    · cases h
      exact ⟨⟨hls, hll⟩, ⟨hrs, hrl⟩⟩

theorem check_statement_kept (node : ASTNode) (s : Sem) :
    check_kept (check_statement node s) s :=
  (check_statement_kept_aux node).1.1 s

theorem check_program_kept (ast : ASTNode) : ∀ s, check_kept (check_program ast s) s := by
  induction ast with
  | null => intro s; simp [check_program, check_kept]
  | node type token left right _ ihr =>
    intro s
    rw [check_program]
    by_cases ht : type ≠ .AST_PROGRAM
    · rw [if_pos ht]
      exact check_statement_kept _ s
    · rw [if_neg ht]
      try simp only []
      by_cases hl : left.is_node = true <;> by_cases hr : right.is_node = true
      · simp only [hl, hr, if_true, Bool.and_true]
        obtain ⟨a1, a2⟩ := check_statement_kept left s
        obtain ⟨b1, b2⟩ := ihr (check_statement left s).2
        refine ⟨b1.trans a1, fun h => ?_⟩
        simp only [Bool.and_eq_true] at h
        exact (b2 h.1).trans (a2 h.2)
      · simp only [hl, hr, if_true, if_false, Bool.and_true, Bool.false_eq_true]
        exact check_statement_kept left s
      · simp only [hl, hr, if_true, if_false, Bool.and_true, Bool.false_eq_true]
        exact ihr s
      · simp only [hl, hr, if_false, Bool.false_eq_true]
        exact ⟨rfl, fun _ => rfl⟩

/-- C37 (success implies no errors): for every tree and every state of the
analysis, when `check_expression`, `check_statement`, `check_block` or
`check_program` returns success, the messages printed are those printed before
the call: no semantic error was recorded during it.  So whenever the
structural result of `analyze_semantics` (the value of `check_program`) is
true, its error count is 0 and it returns success.  The two can disagree in
the other direction: the tree of `x = ;`, an assignment without a value, fails
structurally with an error count of 0. -/
theorem success_implies_no_errors :
    (∀ (node : ASTNode) (s : Sem), (check_expression node s).1 = true →
      (check_expression node s).2.2.reported = s.reported) ∧
    (∀ (node : ASTNode) (s : Sem), (check_statement node s).1 = true →
      (check_statement node s).2.reported = s.reported) ∧
    (∀ (node : ASTNode) (s : Sem), (check_block node s).1 = true →
      (check_block node s).2.reported = s.reported) ∧
    (∀ (ast : ASTNode) (s : Sem), (check_program ast s).1 = true →
      (check_program ast s).2.reported = s.reported) ∧
    (∀ (ast : ASTNode) (indeterminate : List Int),
      (check_program ast (fresh_sem indeterminate)).1 = true →
      (analyze_semantics ast indeterminate).2.semantic_error_count = 0 ∧
      (analyze_semantics ast indeterminate).1 = true) ∧
    (∀ indeterminate : List Int,
      (check_program
        (.node .AST_PROGRAM (plain_token .TOKEN_IDENTIFIER ['x'] 1 1)
          (.node .AST_ASSIGN (plain_token .TOKEN_IDENTIFIER ['x'] 1 1)
            (.node .AST_IDENTIFIER (plain_token .TOKEN_IDENTIFIER ['x'] 1 1) .null .null)
            .null)
          .null) (fresh_sem indeterminate)).1 = false ∧
      (analyze_semantics
        (.node .AST_PROGRAM (plain_token .TOKEN_IDENTIFIER ['x'] 1 1)
          (.node .AST_ASSIGN (plain_token .TOKEN_IDENTIFIER ['x'] 1 1)
            (.node .AST_IDENTIFIER (plain_token .TOKEN_IDENTIFIER ['x'] 1 1) .null .null)
            .null)
          .null) indeterminate).2.semantic_error_count = 0) := by
  refine ⟨check_expression_reported, fun node s => (check_statement_kept node s).2,
    fun node s => ?_, fun ast s => (check_program_kept ast s).2, fun ast indeterminate h => ?_,
    fun indeterminate => ⟨rfl, rfl⟩⟩
  · rw [check_block_eq]
    exact (check_statement_kept node s).2
  · have hrep := (check_program_kept ast (fresh_sem indeterminate)).2 h
    have hc : (analyze_semantics ast indeterminate).2.semantic_error_count = 0 := by
      simp only [analyze_semantics, Sem.semantic_error_count, hrep]
      rfl
    refine ⟨hc, ?_⟩
    simp only [analyze_semantics, Sem.semantic_error_count, hrep, h]
    rfl

/-- C40 (scope balance): for every tree and every state of the analysis,
`check_statement`, `check_block` and `check_program` return with the scope
counter of the table equal to its value at entry, whether they return success
or failure; the analysis of a whole program, which starts from a fresh table,
ends at scope depth 0. -/
theorem scope_balance :
    (∀ (node : ASTNode) (s : Sem),
      (check_statement node s).2.table.current_scope = s.table.current_scope) ∧
    (∀ (node : ASTNode) (s : Sem),
      (check_block node s).2.table.current_scope = s.table.current_scope) ∧
    (∀ (ast : ASTNode) (s : Sem),
      (check_program ast s).2.table.current_scope = s.table.current_scope) ∧
    (∀ (ast : ASTNode) (indeterminate : List Int),
      (analyze_semantics ast indeterminate).2.table.current_scope = 0) := by
  refine ⟨fun node s => (check_statement_kept node s).1, fun node s => ?_,
    fun ast s => (check_program_kept ast s).1, fun ast indeterminate => ?_⟩
  · rw [check_block_eq]
    exact (check_statement_kept node s).1
  · exact (check_program_kept ast (fresh_sem indeterminate)).1

/-! ## The result type of a binary operation -/

/-- C31 (declared type is recorded): for each of the type keywords `tni`,
`taolf`, `rahc` and `diov`, the pipeline on the declaration `T n ;` registers
the symbol `n` with the type int; the keyword is not looked at.  After
`taolf f = 1 ;` the table holds `f` with the type int, not float, and the
check of a use of `f` in that table writes the type int. -/
theorem declared_type_is_always_int :
    (∀ keyword ∈ ["tni".toList, "taolf".toList, "rahc".toList, "diov".toList],
      (pipeline_report 16 (keyword ++ " n ;".toList) []).map (fun r => r.2.2.2.2.2) =
        .ok { head := [{ name := ['n'], type := TokenType.TOKEN_INT.code, scope_level := 0,
                         line_declared := 1, is_initialized := false }],
              current_scope := 0 }) ∧
    (pipeline_report 16 "taolf f = 1 ;".toList []).map (fun r => r.2.2.2.2.2) =
      .ok { head := [{ name := ['f'], type := TokenType.TOKEN_INT.code, scope_level := 0,
                       line_declared := 1, is_initialized := true }],
            current_scope := 0 } ∧
    (check_expression
        (.node .AST_IDENTIFIER (plain_token .TOKEN_IDENTIFIER ['f'] 2 1) .null .null)
        { fresh_sem [] with
            table := { head := [{ name := ['f'], type := TokenType.TOKEN_INT.code,
                                  scope_level := 0, line_declared := 1,
                                  is_initialized := true }],
                       current_scope := 0 } }).2.1 = some TokenType.TOKEN_INT.code ∧
    TokenType.TOKEN_INT.code ≠ TokenType.TOKEN_FLOAT_KEY.code := by
  refine ⟨?_, ?_, ?_, ?_⟩ <;> decide!

/-! ## The lookahead and the lexer variables -/

/-- C35 (lookahead and backtracking), on the text `tni x ;`, with the type
keyword `tni` current.  Before the lookahead the lexer is at column 1 with the
previous-token class of a keyword; the lookahead reads the identifier `x` at
line 1, column 2 and then the semicolon; after backtracking the parser
position and current token are those saved, but the lexer is at column 4 with
the previous-token class of a delimiter; the identifier read again behind
`tni` has the same kind and lexeme and the column 5. -/
theorem backtracking_keeps_lexer_state :
    (parser_after "tni x ;".toList 0).lexer =
      { current_line := 1, current_column := 1, last_token_type := 'k',
        in_error_recovery := false, stored_errors := [] } ∧
    (advance (parser_after "tni x ;".toList 0)).map (fun p => token_place p.current_token) =
      .ok (.TOKEN_IDENTIFIER, ['x'], 1, 2) ∧
    (advance (parser_after "tni x ;".toList 0) >>= advance).map
        (fun p =>
          ((backtrack (parser_after "tni x ;".toList 0).position
              (parser_after "tni x ;".toList 0).current_token p).position,
           (backtrack (parser_after "tni x ;".toList 0).position
              (parser_after "tni x ;".toList 0).current_token p).current_token,
           (backtrack (parser_after "tni x ;".toList 0).position
              (parser_after "tni x ;".toList 0).current_token p).lexer)) =
      .ok ((parser_after "tni x ;".toList 0).position,
           (parser_after "tni x ;".toList 0).current_token,
           { current_line := 1, current_column := 4, last_token_type := 'd',
             in_error_recovery := false, stored_errors := [] }) ∧
    (advance (parser_after "tni x ;".toList 0) >>= advance >>= fun p =>
      advance (backtrack (parser_after "tni x ;".toList 0).position
        (parser_after "tni x ;".toList 0).current_token p)).map
        (fun p => token_place p.current_token) =
      .ok (.TOKEN_IDENTIFIER, ['x'], 1, 5) := by
  refine ⟨?_, ?_, ?_, ?_⟩ <;> decide!

/-! ## The result type of an expression -/

/-- C38 (result type is always assigned), on the binary operation `a ! b` that
the parser builds for `x = a ! b ;`: with `a` and `b` declared and
initialised, `check_expression` returns success and writes nothing to
`*result_type`.  `check_assignment` then reads the variable `expr_type`
without its having been written: on the text
`tni x = 1 ; tni a = 1 ; tni b = 1 ; x = a ! b ;` the analysis succeeds when
the value found there is the code of int, and fails with a TYPE_MISMATCH error
when it is 0. -/
theorem lone_operator_leaves_result_type_unwritten :
    (∀ s : Sem,
      lookup_symbol s.table ['a'] = some (1, initialized_symbol ['a'] 0 1) →
      lookup_symbol s.table ['b'] = some (0, initialized_symbol ['b'] 0 1) →
      check_expression
          (.node .AST_BINOP (plain_token .TOKEN_OPERATOR ['!'] 1 47)
            (.node .AST_IDENTIFIER (plain_token .TOKEN_IDENTIFIER ['a'] 1 46) .null .null)
            (.node .AST_IDENTIFIER (plain_token .TOKEN_IDENTIFIER ['b'] 1 49) .null .null))
          s = (true, none, s)) ∧
    (pipeline_report 60 "tni x = 1 ; tni a = 1 ; tni b = 1 ; x = a ! b ;".toList
        [TokenType.TOKEN_INT.code]).map (fun r => (r.2.2.1, r.2.2.2.1, r.2.2.2.2.1)) =
      .ok (0, true, []) ∧
    (pipeline_report 60 "tni x = 1 ; tni a = 1 ; tni b = 1 ; x = a ! b ;".toList
        [0]).map (fun r => (r.2.2.1, r.2.2.2.1, r.2.2.2.2.1)) =
      .ok (0, false,
           [{ error := .SEM_ERROR_TYPE_MISMATCH,
              name := "cannot assign unknown to int".toList, line := 1 }]) ∧
    (parse_report 60 "x = a ! b ;".toList).map (fun r => r.1) =
      .ok (.node .AST_PROGRAM (plain_token .TOKEN_IDENTIFIER ['x'] 1 1)
            (.node .AST_ASSIGN (plain_token .TOKEN_IDENTIFIER ['x'] 1 1)
              (.node .AST_IDENTIFIER (plain_token .TOKEN_IDENTIFIER ['x'] 1 1) .null .null)
              (.node .AST_BINOP (plain_token .TOKEN_OPERATOR ['!'] 1 5)
                (.node .AST_IDENTIFIER (plain_token .TOKEN_IDENTIFIER ['a'] 1 4) .null .null)
                (.node .AST_IDENTIFIER (plain_token .TOKEN_IDENTIFIER ['b'] 1 7) .null .null)))
            .null) := by
  refine ⟨fun s ha hb => ?_, by decide!, by decide!, by decide!⟩
  have ea : check_expression
      (.node .AST_IDENTIFIER (plain_token .TOKEN_IDENTIFIER ['a'] 1 46) .null .null) s =
      (true, some TokenType.TOKEN_INT.code, s) := by
    simp [check_expression, plain_token, ha, initialized_symbol]
  have eb : check_expression
      (.node .AST_IDENTIFIER (plain_token .TOKEN_IDENTIFIER ['b'] 1 49) .null .null) s =
      (true, some TokenType.TOKEN_INT.code, s) := by
    simp [check_expression, plain_token, hb, initialized_symbol]
  rw [check_expression]
  simp only [ea, eb]
  have hc : are_types_compatible TokenType.TOKEN_INT.code TokenType.TOKEN_INT.code = true := by
    decide
  have hp : peek (plain_token .TOKEN_OPERATOR ['!'] 1 47).lexeme = '!' := rfl
  have hb : binop_result_type (plain_token .TOKEN_OPERATOR ['!'] 1 47).lexeme
      TokenType.TOKEN_INT.code TokenType.TOKEN_INT.code = none := by decide
  simp [read_result_type, hc, hp, hb]

/-! ## The cursor -/

/-- C39 (cursor stays in bounds): on an input that does not end in a single
quote and holds no run of 100 or more digits and dots, every call of
`get_next_token` with the cursor inside the buffer returns with the cursor
inside the buffer.  On the input consisting of a lone single quote the first
call does not: `handle_char` moves the cursor past the terminator and reads
the character behind it; on the text `x '` the second call does the same.  An
input that ends right after a backslash inside a string or character literal
is read within bounds: the token carries INVALID_ESCAPE_SEQUENCE and the
cursor is left on the terminator. -/
theorem cursor_leaves_buffer_after_quote :
    (∀ (input : List Char) (pos : Nat) (lx : Lexer), fault_free input → pos ≤ input.length →
      ∃ tok pos1 lx1, get_next_token input pos lx = .ok (tok, pos1, lx1) ∧
        pos1 ≤ input.length) ∧
    handle_char [SQUOTE] reset_lexer = .error .read_past_terminator ∧
    get_next_token [SQUOTE] 0 reset_lexer = .error .read_past_terminator ∧
    (get_next_token ("x ".toList ++ [SQUOTE]) 0 reset_lexer >>= fun r =>
      get_next_token ("x ".toList ++ [SQUOTE]) r.2.1 r.2.2) =
      .error .read_past_terminator ∧
    (get_next_token [DQUOTE, BACKSLASH] 0 reset_lexer).map
        (fun r => (token_summary r.1, r.2.1)) =
      .ok ((.TOKEN_STRING, [], .ERROR_INVALID_ESCAPE_SEQUENCE), 2) ∧
    (get_next_token [SQUOTE, BACKSLASH] 0 reset_lexer).map
        (fun r => (token_summary r.1, r.2.1)) =
      .ok ((.TOKEN_CHAR, [], .ERROR_INVALID_ESCAPE_SEQUENCE), 2) := by
  refine ⟨fun input pos lx hf hpos => ?_, by decide!, by decide!, by decide!, by decide!,
    by decide!⟩
  obtain ⟨tok, pos1, lx1, h, _, hle, _⟩ := get_next_token_step input hf pos hpos lx
  exact ⟨tok, pos1, lx1, h, hle⟩

/-! ## Synchronization -/

/-- The loop of `synchronize`, when it returns: the parser states it went
through, each reached from the one before by `advance`; all but the last hold
a token at which the loop does not stop; at the last either the loop returned
without consuming the token (EOF, `\x7d` or the start of a statement), or the
token is `;` and one more `advance` consumed it. -/
theorem synchronize_loop_postcondition :
    ∀ (k : Nat) (p q : Parser), synchronize_loop k p = .ok q →
      ∃ (passed : List Parser) (last : Parser),
        (passed ++ [last]).head? = some p ∧
        List.Chain' (fun a b => advance a = .ok b) (passed ++ [last]) ∧
        (∀ s ∈ passed, stops_synchronize s = false) ∧
        ((last = q ∧ (match_token .TOKEN_EOF q = true ∨ match_token .TOKEN_RBRACE q = true ∨
            is_statement_start q = true)) ∨
          (match_token .TOKEN_SEMICOLON last = true ∧ advance last = .ok q)) := by
  intro k
  induction k with
  | zero => intro p q h; cases h
  | succ k ih =>
    intro p q h
    unfold synchronize_loop at h
    by_cases h0 : ¬ match_token .TOKEN_EOF p = true
    · rw [if_pos h0] at h
      by_cases h1 : match_token .TOKEN_SEMICOLON p = true
      · rw [if_pos h1] at h
        refine ⟨[], p, rfl, ?_, ?_, Or.inr ⟨h1, h⟩⟩
        · exact List.chain'_singleton _
        · intro s hs; cases hs
      · rw [if_neg h1] at h
        by_cases h2 : match_token .TOKEN_RBRACE p = true
        · rw [if_pos h2] at h
          obtain rfl := Except.ok.inj h
          refine ⟨[], p, rfl, ?_, ?_, Or.inl ⟨rfl, Or.inr (Or.inl h2)⟩⟩
          · exact List.chain'_singleton _
          · intro s hs; cases hs
        · rw [if_neg h2] at h
          by_cases h3 : is_statement_start p = true
          · rw [if_pos h3] at h
            obtain rfl := Except.ok.inj h
            refine ⟨[], p, rfl, ?_, ?_, Or.inl ⟨rfl, Or.inr (Or.inr h3)⟩⟩
            · exact List.chain'_singleton _
            · intro s hs; cases hs
          · rw [if_neg h3] at h
            cases ha : advance p with
            | error f => rw [ha] at h; cases h
            | ok p1 =>
              rw [ha] at h
              obtain ⟨passed, last, hhead, hchain, hpassed, hlast⟩ := ih p1 q h
              refine ⟨p :: passed, last, rfl, ?_, ?_, hlast⟩
              · rw [List.cons_append, List.chain'_cons']
                refine ⟨fun y hy => ?_, hchain⟩
                rw [hhead] at hy
                obtain rfl := Option.some.inj hy
                exact ha
              · intro s hs
                rcases List.mem_cons.mp hs with rfl | hs
                · simp only [stops_synchronize, Bool.or_eq_false_iff]
                  exact ⟨⟨⟨by simpa using h0, by simpa using h1⟩, by simpa using h2⟩,
                    by simpa using h3⟩
                · exact hpassed s hs
    · rw [if_neg h0] at h
      obtain rfl := Except.ok.inj h
      refine ⟨[], p, rfl, ?_, ?_, Or.inl ⟨rfl, Or.inl (by simpa using h0)⟩⟩
      · exact List.chain'_singleton _
      · intro s hs; cases hs

/-- C36 (synchronization postcondition): on an input that does not end in a
single quote and holds no run of 100 or more digits and dots, `synchronize`
returns from every parser state that fits the input; and whenever it returns,
from any state, it has consumed the token that was current, then gone through
parser states each reached from the one before by `advance`, all but the last
holding a token that is none of EOF, `;`, `\x7d` and the tokens that start a
statement, and at the last either it returned with that token current (EOF,
`\x7d`, or the start of a statement) or that token was `;` and was the last
one consumed.  It does not return for every input: on the text `5 '`, with the
token `5` current, the first `advance` of `synchronize` reads past the
terminator in `handle_char`. -/
theorem synchronize_postcondition :
    (∀ (input : List Char) (p : Parser), fault_free input → p.well_formed input →
      ∃ q, synchronize p = .ok q) ∧
    (∀ (p q : Parser), synchronize p = .ok q →
      ∃ (passed : List Parser) (last : Parser),
        (∃ first, advance p = .ok first ∧ (passed ++ [last]).head? = some first) ∧
        List.Chain' (fun a b => advance a = .ok b) (passed ++ [last]) ∧
        (∀ s ∈ passed, stops_synchronize s = false) ∧
        ((last = q ∧ (match_token .TOKEN_EOF q = true ∨ match_token .TOKEN_RBRACE q = true ∨
            is_statement_start q = true)) ∨
          (match_token .TOKEN_SEMICOLON last = true ∧ advance last = .ok q))) ∧
    (parser_after ("5 ".toList ++ [SQUOTE]) 0).current_token.type = .TOKEN_NUMBER ∧
    synchronize (parser_after ("5 ".toList ++ [SQUOTE]) 0) = .error .read_past_terminator := by
  refine ⟨fun input p hf hw => ?_, fun p q h => ?_, by decide!, by decide!⟩
  · obtain ⟨q, hq, _⟩ := synchronize_spec input hf p hw
    exact ⟨q, hq⟩
  · unfold synchronize at h
    cases ha : advance p with
    | error f => rw [ha] at h; cases h
    | ok first =>
      rw [ha] at h
      obtain ⟨passed, last, hhead, hchain, hpassed, hlast⟩ :=
        synchronize_loop_postcondition _ first q h
      exact ⟨passed, last, ⟨first, rfl, hhead⟩, hchain, hpassed, hlast⟩

/-! ## The recursion budget

A parsing function that returns with one budget returns the same with every
larger one. -/

theorem result_kept_refl {α : Type} (x : Except Fault α) : result_kept x x := fun _ h => h

theorem result_kept_error {α : Type} (f : Fault) (y : Except Fault α) :
    result_kept (.error f) y := fun _ h => by cases h

theorem result_kept_trans {α : Type} {x y z : Except Fault α} (h1 : result_kept x y)
    (h2 : result_kept y z) : result_kept x z := fun r h => h2 r (h1 r h)

theorem result_kept_bind {α β : Type} {x y : Except Fault α} {f g : α → Except Fault β}
    (h1 : result_kept x y) (h2 : ∀ a, result_kept (f a) (g a)) :
    result_kept (x >>= f) (y >>= g) := by
  intro r h
  obtain ⟨a, ha, hf⟩ := bind_ok_inv h
  rw [h1 a ha]
  exact h2 a r hf

theorem result_kept_bind_pair {α β γ : Type} {x y : Except Fault (α × β)}
    {f g : α × β → Except Fault γ}
    (h1 : result_kept x y) (h2 : ∀ a b, result_kept (f (a, b)) (g (a, b))) :
    result_kept (x >>= f) (y >>= g) :=
  result_kept_bind h1 (fun ab => h2 ab.1 ab.2)

theorem result_kept_ite {α : Type} {c : Prop} [Decidable c] {x y x1 y1 : Except Fault α}
    (h1 : result_kept x y) (h2 : result_kept x1 y1) :
    result_kept (if c then x else x1) (if c then y else y1) := by
  split_ifs
  · exact h1
  · exact h2

theorem expression_rules_budget (n : Nat) :
    (∀ p, result_kept (parse_primary_expression n p) (parse_primary_expression (n + 1) p)) ∧
    (∀ l p, result_kept (parse_multiplicative_loop n l p) (parse_multiplicative_loop (n + 1) l p)) ∧
    (∀ p, result_kept (parse_multiplicative_expression n p) (parse_multiplicative_expression (n + 1) p)) ∧
    (∀ l p, result_kept (parse_additive_loop n l p) (parse_additive_loop (n + 1) l p)) ∧
    (∀ p, result_kept (parse_additive_expression n p) (parse_additive_expression (n + 1) p)) ∧
    (∀ l p, result_kept (parse_comparison_loop n l p) (parse_comparison_loop (n + 1) l p)) ∧
    (∀ p, result_kept (parse_comparison_expression n p) (parse_comparison_expression (n + 1) p)) ∧
    (∀ l p, result_kept (parse_logical_and_loop n l p) (parse_logical_and_loop (n + 1) l p)) ∧
    (∀ p, result_kept (parse_logical_and_expression n p) (parse_logical_and_expression (n + 1) p)) ∧
    (∀ l p, result_kept (parse_logical_or_loop n l p) (parse_logical_or_loop (n + 1) l p)) ∧
    (∀ p, result_kept (parse_logical_or_expression n p) (parse_logical_or_expression (n + 1) p)) ∧
    (∀ p, result_kept (parse_expression n p) (parse_expression (n + 1) p)) := by
  induction n with
  | zero =>
    refine ⟨?_, ?_, ?_, ?_, ?_, ?_, ?_, ?_, ?_, ?_, ?_, ?_⟩ <;> intros <;>
      exact result_kept_error _ _
  | succ n ih =>
    obtain ⟨i1, i2, i3, i4, i5, i6, i7, i8, i9, i10, i11, i12⟩ := ih
    refine ⟨?_, ?_, ?_, ?_, ?_, ?_, ?_, ?_, ?_, ?_, ?_, ?_⟩
    · intro p
      rw [parse_primary_expression, parse_primary_expression]
      repeat' first
        | with_reducible exact result_kept_refl _
        | with_reducible exact i1 _
        | with_reducible exact i2 _ _
        | with_reducible exact i3 _
        | with_reducible exact i4 _ _
        | with_reducible exact i5 _
        | with_reducible exact i6 _ _
        | with_reducible exact i7 _
        | with_reducible exact i8 _ _
        | with_reducible exact i9 _
        | with_reducible exact i10 _ _
        | with_reducible exact i11 _
        | with_reducible exact i12 _
        | apply result_kept_ite
        | refine result_kept_bind_pair ?_ (fun a b => ?_)
        | refine result_kept_bind ?_ (fun a => ?_)
        | dsimp only
    · intro l p
      rw [parse_multiplicative_loop, parse_multiplicative_loop]
      repeat' first
        | with_reducible exact result_kept_refl _
        | with_reducible exact i1 _
        | with_reducible exact i2 _ _
        | with_reducible exact i3 _
        | with_reducible exact i4 _ _
        | with_reducible exact i5 _
        | with_reducible exact i6 _ _
        | with_reducible exact i7 _
        | with_reducible exact i8 _ _
        | with_reducible exact i9 _
        | with_reducible exact i10 _ _
        | with_reducible exact i11 _
        | with_reducible exact i12 _
        | apply result_kept_ite
        | refine result_kept_bind_pair ?_ (fun a b => ?_)
        | refine result_kept_bind ?_ (fun a => ?_)
        | dsimp only
    · intro p
      rw [parse_multiplicative_expression, parse_multiplicative_expression]
      repeat' first
        | with_reducible exact result_kept_refl _
        | with_reducible exact i1 _
        | with_reducible exact i2 _ _
        | with_reducible exact i3 _
        | with_reducible exact i4 _ _
        | with_reducible exact i5 _
        | with_reducible exact i6 _ _
        | with_reducible exact i7 _
        | with_reducible exact i8 _ _
        | with_reducible exact i9 _
        | with_reducible exact i10 _ _
        | with_reducible exact i11 _
        | with_reducible exact i12 _
        | apply result_kept_ite
        | refine result_kept_bind_pair ?_ (fun a b => ?_)
        | refine result_kept_bind ?_ (fun a => ?_)
        | dsimp only
    · intro l p
      rw [parse_additive_loop, parse_additive_loop]
      repeat' first
        | with_reducible exact result_kept_refl _
        | with_reducible exact i1 _
        | with_reducible exact i2 _ _
        | with_reducible exact i3 _
        | with_reducible exact i4 _ _
        | with_reducible exact i5 _
        | with_reducible exact i6 _ _
        | with_reducible exact i7 _
        | with_reducible exact i8 _ _
        | with_reducible exact i9 _
        | with_reducible exact i10 _ _
        | with_reducible exact i11 _
        | with_reducible exact i12 _
        | apply result_kept_ite
        | refine result_kept_bind_pair ?_ (fun a b => ?_)
        | refine result_kept_bind ?_ (fun a => ?_)
        | dsimp only
    · intro p
      rw [parse_additive_expression, parse_additive_expression]
      repeat' first
        | with_reducible exact result_kept_refl _
        | with_reducible exact i1 _
        | with_reducible exact i2 _ _
        | with_reducible exact i3 _
        | with_reducible exact i4 _ _
        | with_reducible exact i5 _
        | with_reducible exact i6 _ _
        | with_reducible exact i7 _
        | with_reducible exact i8 _ _
        | with_reducible exact i9 _
        | with_reducible exact i10 _ _
        | with_reducible exact i11 _
        | with_reducible exact i12 _
        | apply result_kept_ite
        | refine result_kept_bind_pair ?_ (fun a b => ?_)
        | refine result_kept_bind ?_ (fun a => ?_)
        | dsimp only
    · intro l p
      rw [parse_comparison_loop, parse_comparison_loop]
      repeat' first
        | with_reducible exact result_kept_refl _
        | with_reducible exact i1 _
        | with_reducible exact i2 _ _
        | with_reducible exact i3 _
        | with_reducible exact i4 _ _
        | with_reducible exact i5 _
        | with_reducible exact i6 _ _
        | with_reducible exact i7 _
        | with_reducible exact i8 _ _
        | with_reducible exact i9 _
        | with_reducible exact i10 _ _
        | with_reducible exact i11 _
        | with_reducible exact i12 _
        | apply result_kept_ite
        | refine result_kept_bind_pair ?_ (fun a b => ?_)
        | refine result_kept_bind ?_ (fun a => ?_)
        | dsimp only
    · intro p
      rw [parse_comparison_expression, parse_comparison_expression]
      repeat' first
        | with_reducible exact result_kept_refl _
        | with_reducible exact i1 _
        | with_reducible exact i2 _ _
        | with_reducible exact i3 _
        | with_reducible exact i4 _ _
        | with_reducible exact i5 _
        | with_reducible exact i6 _ _
        | with_reducible exact i7 _
        | with_reducible exact i8 _ _
        | with_reducible exact i9 _
        | with_reducible exact i10 _ _
        | with_reducible exact i11 _
        | with_reducible exact i12 _
        | apply result_kept_ite
        | refine result_kept_bind_pair ?_ (fun a b => ?_)
        | refine result_kept_bind ?_ (fun a => ?_)
        | dsimp only
    · intro l p
      rw [parse_logical_and_loop, parse_logical_and_loop]
      repeat' first
        | with_reducible exact result_kept_refl _
        | with_reducible exact i1 _
        | with_reducible exact i2 _ _
        | with_reducible exact i3 _
        | with_reducible exact i4 _ _
        | with_reducible exact i5 _
        | with_reducible exact i6 _ _
        | with_reducible exact i7 _
        | with_reducible exact i8 _ _
        | with_reducible exact i9 _
        | with_reducible exact i10 _ _
        | with_reducible exact i11 _
        | with_reducible exact i12 _
        | apply result_kept_ite
        | refine result_kept_bind_pair ?_ (fun a b => ?_)
        | refine result_kept_bind ?_ (fun a => ?_)
        | dsimp only
    · intro p
      rw [parse_logical_and_expression, parse_logical_and_expression]
      repeat' first
        | with_reducible exact result_kept_refl _
        | with_reducible exact i1 _
        | with_reducible exact i2 _ _
        | with_reducible exact i3 _
        | with_reducible exact i4 _ _
        | with_reducible exact i5 _
        | with_reducible exact i6 _ _
        | with_reducible exact i7 _
        | with_reducible exact i8 _ _
        | with_reducible exact i9 _
        | with_reducible exact i10 _ _
        | with_reducible exact i11 _
        | with_reducible exact i12 _
        | apply result_kept_ite
        | refine result_kept_bind_pair ?_ (fun a b => ?_)
        | refine result_kept_bind ?_ (fun a => ?_)
        | dsimp only
    · intro l p
      rw [parse_logical_or_loop, parse_logical_or_loop]
      repeat' first
        | with_reducible exact result_kept_refl _
        | with_reducible exact i1 _
        | with_reducible exact i2 _ _
        | with_reducible exact i3 _
        | with_reducible exact i4 _ _
        | with_reducible exact i5 _
        | with_reducible exact i6 _ _
        | with_reducible exact i7 _
        | with_reducible exact i8 _ _
        | with_reducible exact i9 _
        | with_reducible exact i10 _ _
        | with_reducible exact i11 _
        | with_reducible exact i12 _
        | apply result_kept_ite
        | refine result_kept_bind_pair ?_ (fun a b => ?_)
        | refine result_kept_bind ?_ (fun a => ?_)
        | dsimp only
    · intro p
      rw [parse_logical_or_expression, parse_logical_or_expression]
      repeat' first
        | with_reducible exact result_kept_refl _
        | with_reducible exact i1 _
        | with_reducible exact i2 _ _
        | with_reducible exact i3 _
        | with_reducible exact i4 _ _
        | with_reducible exact i5 _
        | with_reducible exact i6 _ _
        | with_reducible exact i7 _
        | with_reducible exact i8 _ _
        | with_reducible exact i9 _
        | with_reducible exact i10 _ _
        | with_reducible exact i11 _
        | with_reducible exact i12 _
        | apply result_kept_ite
        | refine result_kept_bind_pair ?_ (fun a b => ?_)
        | refine result_kept_bind ?_ (fun a => ?_)
        | dsimp only
    · intro p
      rw [parse_expression, parse_expression]
      repeat' first
        | with_reducible exact result_kept_refl _
        | with_reducible exact i1 _
        | with_reducible exact i2 _ _
        | with_reducible exact i3 _
        | with_reducible exact i4 _ _
        | with_reducible exact i5 _
        | with_reducible exact i6 _ _
        | with_reducible exact i7 _
        | with_reducible exact i8 _ _
        | with_reducible exact i9 _
        | with_reducible exact i10 _ _
        | with_reducible exact i11 _
        | with_reducible exact i12 _
        | apply result_kept_ite
        | refine result_kept_bind_pair ?_ (fun a b => ?_)
        | refine result_kept_bind ?_ (fun a => ?_)
        | dsimp only

theorem parse_expression_budget (n : Nat) (p : Parser) :
    result_kept (parse_expression n p) (parse_expression (n + 1) p) :=
  (expression_rules_budget n).2.2.2.2.2.2.2.2.2.2.2 p

theorem parse_primary_expression_budget (n : Nat) (p : Parser) :
    result_kept (parse_primary_expression n p) (parse_primary_expression (n + 1) p) :=
  (expression_rules_budget n).1 p

theorem parse_condition_budget (n : Nat) (token : Token) (p : Parser) :
    result_kept (parse_condition n token p) (parse_condition (n + 1) token p) := by
  unfold parse_condition
  repeat' first
    | with_reducible exact result_kept_refl _
    | with_reducible exact parse_expression_budget _ _
    | apply result_kept_ite
    | refine result_kept_bind_pair ?_ (fun a b => ?_)
    | refine result_kept_bind ?_ (fun a => ?_)
    | dsimp only

theorem parse_declaration_budget (n : Nat) (p : Parser) :
    result_kept (parse_declaration n p) (parse_declaration (n + 1) p) := by
  unfold parse_declaration
  repeat' first
    | with_reducible exact result_kept_refl _
    | with_reducible exact parse_expression_budget _ _
    | apply result_kept_ite
    | refine result_kept_bind_pair ?_ (fun a b => ?_)
    | refine result_kept_bind ?_ (fun a => ?_)
    | dsimp only

theorem parse_parameters_budget (n : Nat) :
    ∀ p, result_kept (parse_parameters n p) (parse_parameters (n + 1) p) := by
  induction n with
  | zero => intro p; exact result_kept_error _ _
  | succ n ih =>
    intro p
    rw [parse_parameters, parse_parameters]
    repeat' first
      | with_reducible exact result_kept_refl _
      | with_reducible exact ih _
      | apply result_kept_ite
      | refine result_kept_bind_pair ?_ (fun a b => ?_)
      | refine result_kept_bind ?_ (fun a => ?_)
      | dsimp only

theorem statement_rules_budget (n : Nat) :
    (∀ p, result_kept (parse_function_declaration n p) (parse_function_declaration (n + 1) p)) ∧
    (∀ p, result_kept (parse_assignment n p) (parse_assignment (n + 1) p)) ∧
    (∀ t p, result_kept (parse_block_loop n t p) (parse_block_loop (n + 1) t p)) ∧
    (∀ p, result_kept (parse_block n p) (parse_block (n + 1) p)) ∧
    (∀ p, result_kept (parse_if_statement n p) (parse_if_statement (n + 1) p)) ∧
    (∀ p, result_kept (parse_while_statement n p) (parse_while_statement (n + 1) p)) ∧
    (∀ p, result_kept (parse_repeat_until_statement n p) (parse_repeat_until_statement (n + 1) p)) ∧
    (∀ p, result_kept (parse_print_statement n p) (parse_print_statement (n + 1) p)) ∧
    (∀ p, result_kept (parse_return_statement n p) (parse_return_statement (n + 1) p)) ∧
    (∀ p, result_kept (parse_statement n p) (parse_statement (n + 1) p)) := by
  induction n with
  | zero =>
    refine ⟨?_, ?_, ?_, ?_, ?_, ?_, ?_, ?_, ?_, ?_⟩ <;> intros <;>
      exact result_kept_error _ _
  | succ n ih =>
    obtain ⟨i1, i2, i3, i4, i5, i6, i7, i8, i9, i10⟩ := ih
    refine ⟨?_, ?_, ?_, ?_, ?_, ?_, ?_, ?_, ?_, ?_⟩
    · intro p
      rw [parse_function_declaration, parse_function_declaration]
      repeat' first
        | with_reducible exact result_kept_refl _
        | with_reducible exact i1 _
        | with_reducible exact i2 _
        | with_reducible exact i3 _ _
        | with_reducible exact i4 _
        | with_reducible exact i5 _
        | with_reducible exact i6 _
        | with_reducible exact i7 _
        | with_reducible exact i8 _
        | with_reducible exact i9 _
        | with_reducible exact i10 _
        | with_reducible exact parse_expression_budget _ _
        | with_reducible exact parse_primary_expression_budget _ _
        | with_reducible exact parse_condition_budget _ _ _
        | with_reducible exact parse_declaration_budget _ _
        | with_reducible exact parse_parameters_budget _ _
        | apply result_kept_ite
        | refine result_kept_bind_pair ?_ (fun a b => ?_)
        | refine result_kept_bind ?_ (fun a => ?_)
        | dsimp only
    · intro p
      rw [parse_assignment, parse_assignment]
      repeat' first
        | with_reducible exact result_kept_refl _
        | with_reducible exact i1 _
        | with_reducible exact i2 _
        | with_reducible exact i3 _ _
        | with_reducible exact i4 _
        | with_reducible exact i5 _
        | with_reducible exact i6 _
        | with_reducible exact i7 _
        | with_reducible exact i8 _
        | with_reducible exact i9 _
        | with_reducible exact i10 _
        | with_reducible exact parse_expression_budget _ _
        | with_reducible exact parse_primary_expression_budget _ _
        | with_reducible exact parse_condition_budget _ _ _
        | with_reducible exact parse_declaration_budget _ _
        | with_reducible exact parse_parameters_budget _ _
        | apply result_kept_ite
        | refine result_kept_bind_pair ?_ (fun a b => ?_)
        | refine result_kept_bind ?_ (fun a => ?_)
        | dsimp only
    · intro t p
      rw [parse_block_loop, parse_block_loop]
      repeat' first
        | with_reducible exact result_kept_refl _
        | with_reducible exact i1 _
        | with_reducible exact i2 _
        | with_reducible exact i3 _ _
        | with_reducible exact i4 _
        | with_reducible exact i5 _
        | with_reducible exact i6 _
        | with_reducible exact i7 _
        | with_reducible exact i8 _
        | with_reducible exact i9 _
        | with_reducible exact i10 _
        | with_reducible exact parse_expression_budget _ _
        | with_reducible exact parse_primary_expression_budget _ _
        | with_reducible exact parse_condition_budget _ _ _
        | with_reducible exact parse_declaration_budget _ _
        | with_reducible exact parse_parameters_budget _ _
        | apply result_kept_ite
        | refine result_kept_bind_pair ?_ (fun a b => ?_)
        | refine result_kept_bind ?_ (fun a => ?_)
        | dsimp only
    · intro p
      rw [parse_block, parse_block]
      repeat' first
        | with_reducible exact result_kept_refl _
        | with_reducible exact i1 _
        | with_reducible exact i2 _
        | with_reducible exact i3 _ _
        | with_reducible exact i4 _
        | with_reducible exact i5 _
        | with_reducible exact i6 _
        | with_reducible exact i7 _
        | with_reducible exact i8 _
        | with_reducible exact i9 _
        | with_reducible exact i10 _
        | with_reducible exact parse_expression_budget _ _
        | with_reducible exact parse_primary_expression_budget _ _
        | with_reducible exact parse_condition_budget _ _ _
        | with_reducible exact parse_declaration_budget _ _
        | with_reducible exact parse_parameters_budget _ _
        | apply result_kept_ite
        | refine result_kept_bind_pair ?_ (fun a b => ?_)
        | refine result_kept_bind ?_ (fun a => ?_)
        | dsimp only
    · intro p
      rw [parse_if_statement, parse_if_statement]
      repeat' first
        | with_reducible exact result_kept_refl _
        | with_reducible exact i1 _
        | with_reducible exact i2 _
        | with_reducible exact i3 _ _
        | with_reducible exact i4 _
        | with_reducible exact i5 _
        | with_reducible exact i6 _
        | with_reducible exact i7 _
        | with_reducible exact i8 _
        | with_reducible exact i9 _
        | with_reducible exact i10 _
        | with_reducible exact parse_expression_budget _ _
        | with_reducible exact parse_primary_expression_budget _ _
        | with_reducible exact parse_condition_budget _ _ _
        | with_reducible exact parse_declaration_budget _ _
        | with_reducible exact parse_parameters_budget _ _
        | apply result_kept_ite
        | refine result_kept_bind_pair ?_ (fun a b => ?_)
        | refine result_kept_bind ?_ (fun a => ?_)
        | dsimp only
    · intro p
      rw [parse_while_statement, parse_while_statement]
      repeat' first
        | with_reducible exact result_kept_refl _
        | with_reducible exact i1 _
        | with_reducible exact i2 _
        | with_reducible exact i3 _ _
        | with_reducible exact i4 _
        | with_reducible exact i5 _
        | with_reducible exact i6 _
        | with_reducible exact i7 _
        | with_reducible exact i8 _
        | with_reducible exact i9 _
        | with_reducible exact i10 _
        | with_reducible exact parse_expression_budget _ _
        | with_reducible exact parse_primary_expression_budget _ _
        | with_reducible exact parse_condition_budget _ _ _
        | with_reducible exact parse_declaration_budget _ _
        | with_reducible exact parse_parameters_budget _ _
        | apply result_kept_ite
        | refine result_kept_bind_pair ?_ (fun a b => ?_)
        | refine result_kept_bind ?_ (fun a => ?_)
        | dsimp only
    · intro p
      rw [parse_repeat_until_statement, parse_repeat_until_statement]
      repeat' first
        | with_reducible exact result_kept_refl _
        | with_reducible exact i1 _
        | with_reducible exact i2 _
        | with_reducible exact i3 _ _
        | with_reducible exact i4 _
        | with_reducible exact i5 _
        | with_reducible exact i6 _
        | with_reducible exact i7 _
        | with_reducible exact i8 _
        | with_reducible exact i9 _
        | with_reducible exact i10 _
        | with_reducible exact parse_expression_budget _ _
        | with_reducible exact parse_primary_expression_budget _ _
        | with_reducible exact parse_condition_budget _ _ _
        | with_reducible exact parse_declaration_budget _ _
        | with_reducible exact parse_parameters_budget _ _
        | apply result_kept_ite
        | refine result_kept_bind_pair ?_ (fun a b => ?_)
        | refine result_kept_bind ?_ (fun a => ?_)
        | dsimp only
    · intro p
      rw [parse_print_statement, parse_print_statement]
      repeat' first
        | with_reducible exact result_kept_refl _
        | with_reducible exact i1 _
        | with_reducible exact i2 _
        | with_reducible exact i3 _ _
        | with_reducible exact i4 _
        | with_reducible exact i5 _
        | with_reducible exact i6 _
        | with_reducible exact i7 _
        | with_reducible exact i8 _
        | with_reducible exact i9 _
        | with_reducible exact i10 _
        | with_reducible exact parse_expression_budget _ _
        | with_reducible exact parse_primary_expression_budget _ _
        | with_reducible exact parse_condition_budget _ _ _
        | with_reducible exact parse_declaration_budget _ _
        | with_reducible exact parse_parameters_budget _ _
        | apply result_kept_ite
        | refine result_kept_bind_pair ?_ (fun a b => ?_)
        | refine result_kept_bind ?_ (fun a => ?_)
        | dsimp only
    · intro p
      rw [parse_return_statement, parse_return_statement]
      repeat' first
        | with_reducible exact result_kept_refl _
        | with_reducible exact i1 _
        | with_reducible exact i2 _
        | with_reducible exact i3 _ _
        | with_reducible exact i4 _
        | with_reducible exact i5 _
        | with_reducible exact i6 _
        | with_reducible exact i7 _
        | with_reducible exact i8 _
        | with_reducible exact i9 _
        | with_reducible exact i10 _
        | with_reducible exact parse_expression_budget _ _
        | with_reducible exact parse_primary_expression_budget _ _
        | with_reducible exact parse_condition_budget _ _ _
        | with_reducible exact parse_declaration_budget _ _
        | with_reducible exact parse_parameters_budget _ _
        | apply result_kept_ite
        | refine result_kept_bind_pair ?_ (fun a b => ?_)
        | refine result_kept_bind ?_ (fun a => ?_)
        | dsimp only
    · intro p
      rw [parse_statement, parse_statement]
      repeat' first
        | with_reducible exact result_kept_refl _
        | with_reducible exact i1 _
        | with_reducible exact i2 _
        | with_reducible exact i3 _ _
        | with_reducible exact i4 _
        | with_reducible exact i5 _
        | with_reducible exact i6 _
        | with_reducible exact i7 _
        | with_reducible exact i8 _
        | with_reducible exact i9 _
        | with_reducible exact i10 _
        | with_reducible exact parse_expression_budget _ _
        | with_reducible exact parse_primary_expression_budget _ _
        | with_reducible exact parse_condition_budget _ _ _
        | with_reducible exact parse_declaration_budget _ _
        | with_reducible exact parse_parameters_budget _ _
        | apply result_kept_ite
        | refine result_kept_bind_pair ?_ (fun a b => ?_)
        | refine result_kept_bind ?_ (fun a => ?_)
        | dsimp only

/-- A statement parsed with one budget is parsed the same with every larger
one. -/
theorem parse_statement_budget (n m : Nat) (p : Parser) (r : ASTNode × Parser)
    (hnm : n ≤ m) (h : parse_statement n p = .ok r) : parse_statement m p = .ok r := by
  induction m with
  | zero =>
    obtain rfl : n = 0 := by omega
    exact h
  | succ m ih =>
    by_cases hm : n ≤ m
    · exact (statement_rules_budget m).2.2.2.2.2.2.2.2.2 p r (ih hm)
    · obtain rfl : n = m + 1 := by omega
      exact h

theorem parse_block_budget (n m : Nat) (p : Parser) (r : ASTNode × Parser)
    (hnm : n ≤ m) (h : parse_block n p = .ok r) : parse_block m p = .ok r := by
  induction m with
  | zero =>
    obtain rfl : n = 0 := by omega
    exact h
  | succ m ih =>
    by_cases hm : n ≤ m
    · exact (statement_rules_budget m).2.2.2.1 p r (ih hm)
    · obtain rfl : n = m + 1 := by omega
      exact h

theorem parse_parameters_budget_le (n m : Nat) (p : Parser) (r : ASTNode × Parser)
    (hnm : n ≤ m) (h : parse_parameters n p = .ok r) : parse_parameters m p = .ok r := by
  induction m with
  | zero =>
    obtain rfl : n = 0 := by omega
    exact h
  | succ m ih =>
    by_cases hm : n ≤ m
    · exact parse_parameters_budget m p r (ih hm)
    · obtain rfl : n = m + 1 := by omega
      exact h

theorem advance_loop_error_fields :
    ∀ (k : Nat) (p p1 : Parser), advance_loop k p = .ok p1 →
      p1.error_reporting_enabled = p.error_reporting_enabled ∧
      p1.last_reported_line = p.last_reported_line ∧
      p1.last_reported_column = p.last_reported_column ∧
      p1.error_count = p.error_count ∧ p1.reported = p.reported := by
  intro k
  induction k with
  | zero => intro p p1 h; cases h
  | succ k ih =>
    intro p p1 h
    unfold advance_loop at h
    cases hg : get_next_token p.source p.position p.lexer with
    | error f => rw [hg] at h; cases h
    | ok r =>
      obtain ⟨token, pos, lx⟩ := r
      rw [hg] at h
      simp only at h
      by_cases hd : token.type = .TOKEN_ERROR ∨ token.type = .TOKEN_SKIP ∨
          token.type = .TOKEN_COMMENT
      · rw [if_pos hd] at h
        have hk := ih _ p1 h
        exact hk
      · rw [if_neg hd] at h
        obtain rfl := Except.ok.inj h
        exact ⟨rfl, rfl, rfl, rfl, rfl⟩

theorem advance_error_fields (p p1 : Parser) (h : advance p = .ok p1) :
    p1.error_reporting_enabled = p.error_reporting_enabled ∧
    p1.last_reported_line = p.last_reported_line ∧
    p1.last_reported_column = p.last_reported_column ∧
    p1.error_count = p.error_count ∧ p1.reported = p.reported :=
  advance_loop_error_fields _ p p1 h

theorem parameter_type_not_end (p : Parser) (h : is_parameter_type p = true) :
    match_token .TOKEN_RPAREN p = false ∧ match_token .TOKEN_EOF p = false := by
  simp only [is_parameter_type, match_token, Bool.or_eq_true, decide_eq_true_eq] at h
  simp only [match_token, decide_eq_false_iff_not]
  rcases h with (((((((h | h) | h) | h) | h) | h) | h) | h) | h <;> rw [h] <;> decide

theorem parse_parameters_reads :
    ∀ (tokens : List Token) (p q : Parser), reads_parameters p tokens q →
      parse_parameters tokens.length p = .ok (parameter_nodes tokens, q) := by
  intro tokens
  induction tokens with
  | nil => intro p q h; exact h.elim
  | cons t rest ih =>
    intro p q h
    cases rest with
    | nil =>
      obtain ⟨hty, p1, h1, hid, ht, h2, hrp⟩ := h
      obtain ⟨hr, he⟩ := parameter_type_not_end p hty
      have hc : match_token .TOKEN_COMMA q = false := by
        simp only [match_token, decide_eq_true_eq] at hrp
        simp [match_token, hrp]
      simp [parse_parameters, hty, hr, he, h1, hid, h2, hc, ht, parameter_nodes, ok_bind]
      rfl
    | cons t1 rest =>
      obtain ⟨hty, p1, p2, p3, h1, hid, ht, h2, hc, h3, hrest⟩ := h
      obtain ⟨hr, he⟩ := parameter_type_not_end p hty
      have hrec := ih p3 q hrest
      rw [List.length_cons] at hrec ⊢
      rw [parse_parameters]
      simp [hty, hr, he, h1, hid, h2, hc, h3, ht, parameter_nodes, ok_bind, hrec]

theorem chain_nodes_parameter_nodes (tokens : List Token) :
    chain_nodes (parameter_nodes tokens) =
      tokens.map (fun t => (ASTNodeType.AST_VARDECL, t, ASTNode.null)) := by
  induction tokens with
  | nil => rfl
  | cons t rest ih => simp [parameter_nodes, chain_nodes, ih]

theorem reads_parameters_end :
    ∀ (tokens : List Token) (p q : Parser), reads_parameters p tokens q →
      match_token .TOKEN_RPAREN q = true := by
  intro tokens
  induction tokens with
  | nil => intro p q h; exact h.elim
  | cons t rest ih =>
    intro p q h
    cases rest with
    | nil =>
      obtain ⟨_, _, _, _, _, _, hq⟩ := h
      exact hq
    | cons t1 rest =>
      obtain ⟨_, _, _, p3, _, _, _, _, _, _, hrest⟩ := h
      exact ih p3 q hrest

theorem reads_parameters_error_fields :
    ∀ (tokens : List Token) (p q : Parser), reads_parameters p tokens q →
      q.error_reporting_enabled = p.error_reporting_enabled ∧
      q.last_reported_line = p.last_reported_line ∧
      q.last_reported_column = p.last_reported_column ∧
      q.error_count = p.error_count ∧ q.reported = p.reported := by
  intro tokens
  induction tokens with
  | nil => intro p q h; exact h.elim
  | cons t rest ih =>
    intro p q h
    cases rest with
    | nil =>
      obtain ⟨_, pa, ha, _, _, hb, _⟩ := h
      obtain ⟨a1, a2, a3, a4, a5⟩ := advance_error_fields _ _ ha
      obtain ⟨b1, b2, b3, b4, b5⟩ := advance_error_fields _ _ hb
      exact ⟨b1.trans a1, b2.trans a2, b3.trans a3, b4.trans a4, b5.trans a5⟩
    | cons t1 rest =>
      obtain ⟨_, pa, pb1, pc, ha, _, _, hb, _, hc, hrest⟩ := h
      obtain ⟨a1, a2, a3, a4, a5⟩ := advance_error_fields _ _ ha
      obtain ⟨b1, b2, b3, b4, b5⟩ := advance_error_fields _ _ hb
      obtain ⟨c1, c2, c3, c4, c5⟩ := advance_error_fields _ _ hc
      obtain ⟨d1, d2, d3, d4, d5⟩ := ih pc q hrest
      exact ⟨((d1.trans c1).trans b1).trans a1, ((d2.trans c2).trans b2).trans a2,
        ((d3.trans c3).trans b3).trans a3, ((d4.trans c4).trans b4).trans a4,
        ((d5.trans c5).trans b5).trans a5⟩

/-- C33 (function-declaration shape).  The parser is at a type keyword (`p0`),
the next token is an identifier `f` (`p1`), then a left parenthesis (`p2`),
then either the parameters `T1 p1 , ... , Tk pk` with `k >= 1`, the first type
not being `diov`, or the parameter list `diov` (`tokens` is empty), closed by
a right parenthesis (`q`), and `pb` holds the parser variables after the right
parenthesis.  When the token after the right parenthesis is not a semicolon
and `parse_block` returns the tree `body` there with some budget, then
`parse_function_declaration` returns, with every larger budget, the
FUNCTION_DECL node whose token is `f`, whose left child is the chain of
exactly `k` VARDECL nodes with the tokens `p1 .. pk` in source order linked
through the right children (absent for `diov`), and whose right child is
`body`.  When that token is a semicolon, the node returned has the same token
and left child and no right child, the semicolon is consumed, and one
BLOCK_BRACES error on `f` is reported (the error count grows by one) provided
reporting is enabled and the last reported error was not at the position of
`f`. -/
theorem function_declaration_shape (p0 p1 p2 p3 q pb : Parser) (tokens : List Token)
    (h1 : advance p0 = .ok p1) (hname : match_token .TOKEN_IDENTIFIER p1 = true)
    (h2 : advance p1 = .ok p2) (hlparen : match_token .TOKEN_LPAREN p2 = true)
    (h3 : advance p2 = .ok p3)
    (hparams :
      (tokens ≠ [] ∧ match_token .TOKEN_VOID p3 = false ∧ reads_parameters p3 tokens q) ∨
      (tokens = [] ∧ match_token .TOKEN_VOID p3 = true ∧ advance p3 = .ok q ∧
        match_token .TOKEN_RPAREN q = true))
    (h4 : advance q = .ok pb) :
    chain_nodes (parameter_nodes tokens) =
      tokens.map (fun t => (ASTNodeType.AST_VARDECL, t, ASTNode.null)) ∧
    (match_token .TOKEN_SEMICOLON pb = false →
      ∀ (n : Nat) (body : ASTNode) (r : Parser), parse_block n pb = .ok (body, r) →
        ∀ m, n + tokens.length < m →
          parse_function_declaration m p0 =
            .ok (.node .AST_FUNCTION_DECL p1.current_token (parameter_nodes tokens) body, r)) ∧
    (match_token .TOKEN_SEMICOLON pb = true →
      ∀ r, advance (parse_error .PARSE_ERROR_BLOCK_BRACES p1.current_token pb) = .ok r →
        (∀ m, tokens.length < m →
          parse_function_declaration m p0 =
            .ok (.node .AST_FUNCTION_DECL p1.current_token (parameter_nodes tokens) .null, r)) ∧
        (p0.error_reporting_enabled = true →
          ¬ (p1.current_token.line = p0.last_reported_line ∧
             p1.current_token.column = p0.last_reported_column) →
          r.error_count = p0.error_count + 1 ∧
          r.reported = p0.reported ++ [(.PARSE_ERROR_BLOCK_BRACES, p1.current_token)])) := by
  have hrp : match_token .TOKEN_RPAREN q = true := by
    rcases hparams with ⟨_, _, hr⟩ | ⟨_, _, _, hr⟩
    · exact reads_parameters_end tokens p3 q hr
    · exact hr
  have hcase : (match_token .TOKEN_VOID p3 = false ∧
        ∀ k, tokens.length ≤ k → parse_parameters k p3 = .ok (parameter_nodes tokens, q)) ∨
      (match_token .TOKEN_VOID p3 = true ∧ advance p3 = .ok q ∧
        parameter_nodes tokens = .null) := by
    rcases hparams with ⟨_, hv, hr⟩ | ⟨he, hv, ha, _⟩
    · exact .inl ⟨hv, fun k hk =>
        parse_parameters_budget_le _ _ _ _ hk (parse_parameters_reads tokens p3 q hr)⟩
    · subst he
      exact .inr ⟨hv, ha, rfl⟩
  refine ⟨chain_nodes_parameter_nodes tokens, ?_, ?_⟩
  · intro hsemi n body r hbody m hm
    obtain ⟨k, rfl⟩ : ∃ k, m = k + 1 := ⟨m - 1, by omega⟩
    have hb := parse_block_budget n k pb (body, r) (by omega) hbody
    rw [parse_function_declaration]
    rcases hcase with ⟨hv, hp⟩ | ⟨hv, ha, hnull⟩
    · simp only [h1, ok_bind, hname, not_true_eq_false, if_false, h2, hlparen, h3, hv,
        hp k (by omega), hrp, h4, hsemi, Bool.false_eq_true, hb]
      rfl
    · simp only [h1, ok_bind, hname, not_true_eq_false, if_false, h2, hlparen, h3, hv,
        if_true, ha, pure_bind, hrp, h4, hsemi, Bool.false_eq_true, hb, hnull]
      rfl
  · intro hsemi r hr
    refine ⟨?_, ?_⟩
    · intro m hm
      obtain ⟨k, rfl⟩ : ∃ k, m = k + 1 := ⟨m - 1, by omega⟩
      rw [parse_function_declaration]
      rcases hcase with ⟨hv, hp⟩ | ⟨hv, ha, hnull⟩
      · simp only [h1, ok_bind, hname, not_true_eq_false, if_false, h2, hlparen, h3, hv,
          hp k (by omega), hrp, h4, hsemi, if_true, hr, Bool.false_eq_true]
        rfl
      · simp only [h1, ok_bind, hname, not_true_eq_false, if_false, h2, hlparen, h3, hv,
          if_true, ha, pure_bind, hrp, h4, hsemi, hr, hnull]
        rfl
    · intro hen hpos
      obtain ⟨e1, l1, c1, n1, r1⟩ := advance_error_fields _ _ h1
      obtain ⟨e2, l2, c2, n2, r2⟩ := advance_error_fields _ _ h2
      obtain ⟨e3, l3, c3, n3, r3⟩ := advance_error_fields _ _ h3
      obtain ⟨e4, l4, c4, n4, r4⟩ := advance_error_fields _ _ h4
      obtain ⟨e5, l5, c5, n5, r5⟩ := advance_error_fields _ _ hr
      obtain ⟨e6, l6, c6, n6, r6⟩ : q.error_reporting_enabled = p3.error_reporting_enabled ∧
          q.last_reported_line = p3.last_reported_line ∧
          q.last_reported_column = p3.last_reported_column ∧
          q.error_count = p3.error_count ∧ q.reported = p3.reported := by
        rcases hparams with ⟨_, _, hr⟩ | ⟨_, _, ha, _⟩
        · exact reads_parameters_error_fields tokens p3 q hr
        · exact advance_error_fields _ _ ha
      have hben : pb.error_reporting_enabled = true := by
        rw [e4, e6, e3, e2, e1, hen]
      have hbl : pb.last_reported_line = p0.last_reported_line := by rw [l4, l6, l3, l2, l1]
      have hbc : pb.last_reported_column = p0.last_reported_column := by
        rw [c4, c6, c3, c2, c1]
      have hbn : pb.error_count = p0.error_count := by rw [n4, n6, n3, n2, n1]
      have hbr : pb.reported = p0.reported := by rw [r4, r6, r3, r2, r1]
      have hty : p1.current_token.type ≠ .TOKEN_EOF := by
        simp only [match_token, decide_eq_true_eq] at hname
        rw [hname]
        decide
      rw [n5, r5]
      simp [parse_error, hben, hty, hbl, hbc, hpos, hbn, hbr]

/-- Witness for C33: the theorem applied to the parser variables reached on
three texts.  On `tni f ( tni a , tni b ) \x7b \x7d` the node returned is the
FUNCTION_DECL node of `f` whose left child is the chain of the two VARDECL
nodes of `a` and `b` and whose right child is the body block; on
`tni f ( diov ) \x7b \x7d` the left child is absent; on `tni f ( tni a ) ;` the
right child is absent and one BLOCK_BRACES error on `f` is reported. -/
theorem function_declaration_shape_witness :
    (parse_function_declaration 4
        (parser_after "tni f ( tni a , tni b ) \x7b \x7d".toList 0)).map Prod.fst =
      .ok (.node .AST_FUNCTION_DECL (plain_token .TOKEN_IDENTIFIER ['f'] 1 2)
            (.node .AST_VARDECL (plain_token .TOKEN_IDENTIFIER ['a'] 1 6) .null
              (.node .AST_VARDECL (plain_token .TOKEN_IDENTIFIER ['b'] 1 10) .null .null))
            (.node .AST_BLOCK (plain_token .TOKEN_EOF ['E', 'O', 'F'] 1 16) .null .null)) ∧
    (parse_function_declaration 4
        (parser_after "tni f ( diov ) \x7b \x7d".toList 0)).map Prod.fst =
      .ok (.node .AST_FUNCTION_DECL (plain_token .TOKEN_IDENTIFIER ['f'] 1 2) .null
            (.node .AST_BLOCK (plain_token .TOKEN_EOF ['E', 'O', 'F'] 1 11) .null .null)) ∧
    (parse_function_declaration 4 (parser_after "tni f ( tni a ) ;".toList 0)).map
        (fun r => (r.1, r.2.error_count, r.2.reported)) =
      .ok (.node .AST_FUNCTION_DECL (plain_token .TOKEN_IDENTIFIER ['f'] 1 2)
            (.node .AST_VARDECL (plain_token .TOKEN_IDENTIFIER ['a'] 1 6) .null .null) .null,
           1, [(.PARSE_ERROR_BLOCK_BRACES, plain_token .TOKEN_IDENTIFIER ['f'] 1 2)]) :=
  ⟨(congrArg (Except.map Prod.fst)
      ((function_declaration_shape
        (parser_after "tni f ( tni a , tni b ) \x7b \x7d".toList 0)
        (parser_after "tni f ( tni a , tni b ) \x7b \x7d".toList 1)
        (parser_after "tni f ( tni a , tni b ) \x7b \x7d".toList 2)
        (parser_after "tni f ( tni a , tni b ) \x7b \x7d".toList 3)
        (parser_after "tni f ( tni a , tni b ) \x7b \x7d".toList 8)
        (parser_after "tni f ( tni a , tni b ) \x7b \x7d".toList 9)
        [(parser_after "tni f ( tni a , tni b ) \x7b \x7d".toList 4).current_token,
         (parser_after "tni f ( tni a , tni b ) \x7b \x7d".toList 7).current_token]
        (by decide!) (by decide!) (by decide!) (by decide!) (by decide!)
        (.inl ⟨by simp, by decide!, by
          simp only [reads_parameters]
          exact ⟨by decide!,
            parser_after "tni f ( tni a , tni b ) \x7b \x7d".toList 4,
            parser_after "tni f ( tni a , tni b ) \x7b \x7d".toList 5,
            parser_after "tni f ( tni a , tni b ) \x7b \x7d".toList 6,
            by decide!, by decide!, rfl, by decide!, by decide!, by decide!, by decide!,
            parser_after "tni f ( tni a , tni b ) \x7b \x7d".toList 7,
            by decide!, by decide!, rfl, by decide!, by decide!⟩⟩)
        (by decide!)).2.1 (by decide!) 1
          (.node .AST_BLOCK (plain_token .TOKEN_EOF ['E', 'O', 'F'] 1 16) .null .null)
          (parser_after "tni f ( tni a , tni b ) \x7b \x7d".toList 11)
          (by decide!) 4 (by decide))).trans (by decide!),
   (congrArg (Except.map Prod.fst)
      ((function_declaration_shape
        (parser_after "tni f ( diov ) \x7b \x7d".toList 0)
        (parser_after "tni f ( diov ) \x7b \x7d".toList 1)
        (parser_after "tni f ( diov ) \x7b \x7d".toList 2)
        (parser_after "tni f ( diov ) \x7b \x7d".toList 3)
        (parser_after "tni f ( diov ) \x7b \x7d".toList 4)
        (parser_after "tni f ( diov ) \x7b \x7d".toList 5)
        []
        (by decide!) (by decide!) (by decide!) (by decide!) (by decide!)
        (.inr ⟨rfl, by decide!, by decide!, by decide!⟩)
        (by decide!)).2.1 (by decide!) 1
          (.node .AST_BLOCK (plain_token .TOKEN_EOF ['E', 'O', 'F'] 1 11) .null .null)
          (parser_after "tni f ( diov ) \x7b \x7d".toList 7)
          (by decide!) 4 (by decide))).trans (by decide!),
   (congrArg (Except.map (fun r : ASTNode × Parser => (r.1, r.2.error_count, r.2.reported)))
      (((function_declaration_shape
        (parser_after "tni f ( tni a ) ;".toList 0)
        (parser_after "tni f ( tni a ) ;".toList 1)
        (parser_after "tni f ( tni a ) ;".toList 2)
        (parser_after "tni f ( tni a ) ;".toList 3)
        (parser_after "tni f ( tni a ) ;".toList 5)
        (parser_after "tni f ( tni a ) ;".toList 6)
        [(parser_after "tni f ( tni a ) ;".toList 4).current_token]
        (by decide!) (by decide!) (by decide!) (by decide!) (by decide!)
        (.inl ⟨by simp, by decide!, by
          simp only [reads_parameters]
          exact ⟨by decide!, parser_after "tni f ( tni a ) ;".toList 4,
            by decide!, by decide!, rfl, by decide!, by decide!⟩⟩)
        (by decide!)).2.2 (by decide!)
          (parse_error .PARSE_ERROR_BLOCK_BRACES
            (parser_after "tni f ( tni a ) ;".toList 1).current_token
            (parser_after "tni f ( tni a ) ;".toList 7))
          (by decide!)).1 4 (by decide))).trans (by decide!)⟩

theorem reads_statements_end (n : Nat) :
    ∀ (items : List (ASTNode × Parser)) (p q : Parser), reads_statements n p items q →
      match_token .TOKEN_RBRACE q = true := by
  intro items
  induction items with
  | nil => intro p q h; exact h.2
  | cons x rest ih =>
    intro p q h
    obtain ⟨s, p1⟩ := x
    exact ih p1 q h.2.2.2

theorem parse_block_loop_reads (n : Nat) :
    ∀ (items : List (ASTNode × Parser)) (p q : Parser), items ≠ [] →
      reads_statements n p items q →
      ∀ m, n + items.length ≤ m → ∀ token,
        parse_block_loop m token p = .ok (block_nodes token items, q) := by
  intro items
  induction items with
  | nil => intro p q hne; exact absurd rfl hne
  | cons x rest ih =>
    intro p q _ h m hm token
    obtain ⟨s, p1⟩ := x
    obtain ⟨hrb, heof, hs, hrest⟩ := h
    rw [List.length_cons] at hm
    obtain ⟨k, rfl⟩ : ∃ k, m = k + 1 := ⟨m - 1, by omega⟩
    have hsk := parse_statement_budget n k p (s, p1) (by omega) hs
    rw [parse_block_loop]
    cases rest with
    | nil =>
      obtain ⟨rfl, hq⟩ := hrest
      simp [hrb, heof, hsk, ok_bind, hq, block_nodes]
      rfl
    | cons y rest =>
      simp only [List.length_cons] at hm
      have hrec := ih p1 q (by simp) hrest k (by simp only [List.length_cons]; omega)
        p1.current_token
      obtain ⟨s2, p2⟩ := y
      obtain ⟨hrb1, heof1, _, _⟩ := hrest
      simp [hrb, heof, hsk, ok_bind, hrb1, heof1, hrec, block_nodes]

theorem chain_nodes_block_nodes :
    ∀ (items : List (ASTNode × Parser)) (token : Token),
      (chain_nodes (block_nodes token items)).map (fun x => (x.1, x.2.2)) =
        items.map (fun i => (ASTNodeType.AST_BLOCK, i.1)) := by
  intro items
  induction items with
  | nil => intro token; rfl
  | cons x rest ih =>
    intro token
    obtain ⟨s, p1⟩ := x
    simp [block_nodes, chain_nodes, ih]

/-- C34 (block shape).  The parser is at a left brace (`p0`) and `p` holds the
parser variables after it.  When the tokens from there on are a run of
`n >= 1` statements closed by a right brace, each parsed by `parse_statement`
with some budget into the tree and the parser variables listed in `items`,
then `parse_block` returns, with every larger budget, a chain of exactly `n`
BLOCK nodes linked through their right children, the left child of the i-th
node being the tree of the i-th statement and the last node having no right
child; the right brace is consumed (the parser variables returned are those
after `advance` at the right brace).  When the token after the left brace is
the right brace, `parse_block` consumes both and returns one BLOCK node
without children. -/
theorem block_shape (p0 p : Parser) (hbrace : match_token .TOKEN_LBRACE p0 = true)
    (hadvance : advance p0 = .ok p) :
    (∀ (n : Nat) (items : List (ASTNode × Parser)) (q r : Parser), items ≠ [] →
      reads_statements n p items q → advance q = .ok r →
      ∀ m, n + items.length < m →
        parse_block m p0 = .ok (block_nodes p.current_token items, r) ∧
        (chain_nodes (block_nodes p.current_token items)).map (fun x => (x.1, x.2.2)) =
          items.map (fun i => (ASTNodeType.AST_BLOCK, i.1)) ∧
        (chain_nodes (block_nodes p.current_token items)).length = items.length) ∧
    (match_token .TOKEN_RBRACE p = true → ∀ r, advance p = .ok r →
      ∀ m, 0 < m →
        parse_block m p0 = .ok (.node .AST_BLOCK r.current_token .null .null, r)) := by
  refine ⟨?_, ?_⟩
  · intro n items q r hne hread hclose m hm
    obtain ⟨k, rfl⟩ : ∃ k, m = k + 1 := ⟨m - 1, by omega⟩
    have hq := reads_statements_end n items p q hread
    have hloop := parse_block_loop_reads n items p q hne hread k (by omega) p.current_token
    have hp : match_token .TOKEN_RBRACE p = false := by
      cases items with
      | nil => exact absurd rfl hne
      | cons x rest => exact hread.1
    have hchain := chain_nodes_block_nodes items p.current_token
    refine ⟨?_, hchain, ?_⟩
    · rw [parse_block]
      simp [hbrace, hadvance, ok_bind, hp, hloop, hq, hclose]
    · have hlen := congrArg List.length hchain
      simpa using hlen
  · intro hp r hr m hm
    obtain ⟨k, rfl⟩ : ∃ k, m = k + 1 := ⟨m - 1, by omega⟩
    rw [parse_block]
    simp [hbrace, hadvance, ok_bind, hp, hr, create_node]

/-- Witness for C34: the theorem applied to the parser variables reached on
`\x7b x = 1 ; y = 2 ; \x7d` and on `\x7b \x7d`.  The first block is returned as
a chain of two BLOCK nodes holding the two assignments, the second node
without right child, and the token current afterwards is the end of the text;
the second block is returned as one BLOCK node without children. -/
theorem block_shape_witness :
    (parse_block 40 (parser_after "\x7b x = 1 ; y = 2 ; \x7d".toList 0)).map
        (fun r => (r.1, r.2.current_token.type)) =
      .ok (.node .AST_BLOCK (plain_token .TOKEN_IDENTIFIER ['x'] 1 3)
            (.node .AST_ASSIGN (plain_token .TOKEN_IDENTIFIER ['x'] 1 3)
              (.node .AST_IDENTIFIER (plain_token .TOKEN_IDENTIFIER ['x'] 1 3) .null .null)
              (.node .AST_NUMBER (plain_token .TOKEN_NUMBER ['1'] 1 6) .null .null))
            (.node .AST_BLOCK (plain_token .TOKEN_IDENTIFIER ['y'] 1 10)
              (.node .AST_ASSIGN (plain_token .TOKEN_IDENTIFIER ['y'] 1 10)
                (.node .AST_IDENTIFIER (plain_token .TOKEN_IDENTIFIER ['y'] 1 10) .null .null)
                (.node .AST_NUMBER (plain_token .TOKEN_NUMBER ['2'] 1 13) .null .null))
              .null),
           .TOKEN_EOF) ∧
    (parse_block 1 (parser_after "\x7b \x7d".toList 0)).map
        (fun r => (r.1, r.2.current_token.type)) =
      .ok (.node .AST_BLOCK (plain_token .TOKEN_EOF ['E', 'O', 'F'] 1 4) .null .null,
           .TOKEN_EOF) :=
  ⟨(congrArg (Except.map (fun r : ASTNode × Parser => (r.1, r.2.current_token.type)))
      (((block_shape (parser_after "\x7b x = 1 ; y = 2 ; \x7d".toList 0)
        (parser_after "\x7b x = 1 ; y = 2 ; \x7d".toList 1) (by decide!) (by decide!)).1 32
        [(.node .AST_ASSIGN (plain_token .TOKEN_IDENTIFIER ['x'] 1 3)
            (.node .AST_IDENTIFIER (plain_token .TOKEN_IDENTIFIER ['x'] 1 3) .null .null)
            (.node .AST_NUMBER (plain_token .TOKEN_NUMBER ['1'] 1 6) .null .null),
          parser_after "\x7b x = 1 ; y = 2 ; \x7d".toList 5),
         (.node .AST_ASSIGN (plain_token .TOKEN_IDENTIFIER ['y'] 1 10)
            (.node .AST_IDENTIFIER (plain_token .TOKEN_IDENTIFIER ['y'] 1 10) .null .null)
            (.node .AST_NUMBER (plain_token .TOKEN_NUMBER ['2'] 1 13) .null .null),
          parser_after "\x7b x = 1 ; y = 2 ; \x7d".toList 9)]
        (parser_after "\x7b x = 1 ; y = 2 ; \x7d".toList 9)
        (parser_after "\x7b x = 1 ; y = 2 ; \x7d".toList 10)
        (by simp)
        (by
          simp only [reads_statements]
          exact ⟨by decide!, by decide!, by decide!, by decide!, by decide!, by decide!,
            trivial, by decide!⟩)
        (by decide!) 40 (by decide)).1)).trans (by decide!),
   (congrArg (Except.map (fun r : ASTNode × Parser => (r.1, r.2.current_token.type)))
      ((block_shape (parser_after "\x7b \x7d".toList 0) (parser_after "\x7b \x7d".toList 1)
        (by decide!) (by decide!)).2 (by decide!) (parser_after "\x7b \x7d".toList 2)
        (by decide!) 1 (by decide))).trans (by decide!)⟩

end Phase3
